import Mathlib

/-!
# gr2-full: the x86 emulation core

A shallow embedding of `src/granny2-js/win32runtime.js`: the byte memory, the
register file, the opcode table of the `v86` object, the handlers that
`Win32Runtime.prototype.insert_hooks` installs over it, the calling bridge
`Win32Runtime.prototype.stdcall`, and the guest allocator (namespace
`Win32Runtime`); of the `v86` wrapper of `src/granny2-js/granny2_runtime.js`
(namespace `Granny2Runtime`); and of the classes `Memory` and `CPU` of
`src/gr2-web/v86_legacy_compat.js` (namespace `V86Legacy`).

Conventions of the embedding.

* A JavaScript number that the code computes is an exact integer here (all of
  them stay far below 2^53); a value that can also be `undefined` or `NaN` is a
  `JsNum = Option Int`, with `none` standing for both, since the code never
  tells them apart: either one indexes no element of a typed array, compares
  false with everything and becomes 0 under `| 0` and under a typed-array store.
* A typed-array element read outside the array is `undefined` and a store
  outside it does nothing; the typed-array views share one little-endian buffer.
* An exception keeps the state it was thrown in (`Res.throw`).
-/

namespace Win32Runtime

/-! ## Constants -/

def BASE_STACK_ADDR : Int := 0x10158000
def MAX_MEM_ADDR : Int := 0x13C00000
def MAGIC_RETURN_ADDR : Int := MAX_MEM_ADDR - 1

def reg_eax : Nat := 0
def reg_ecx : Nat := 1
def reg_edx : Nat := 2
def reg_ebx : Nat := 3
def reg_esp : Nat := 4
def reg_ebp : Nat := 5
def reg_esi : Nat := 6
def reg_edi : Nat := 7

def reg_cs : Nat := 1

def flag_carry : Int := 1
def flag_parity : Int := 4
def flag_adjust : Int := 16
def flag_zero : Int := 64
def flag_sign : Int := 128
def flag_overflow : Int := 2048

def OPSIZE_32 : Int := 31

/-! ## JavaScript numbers -/

/-- A JavaScript value that is an integer, or (`none`) `undefined` / `NaN`. -/
abbrev JsNum := Option Int

/-- ToInt32 of an integer: what `x | 0` and a store into an `Int32Array` keep. -/
def toInt32 (x : Int) : Int := (x + 2147483648) % 4294967296 - 2147483648

/-- ToUint32 of an integer: what `x >>> 0` and a read through `Uint32Array` give. -/
def toUint32 (x : Int) : Int := x % 4294967296

/-- ToInt32 of a JavaScript value; `undefined` and `NaN` become 0. -/
def JsNum.toInt32 : JsNum → Int
  | some x => Win32Runtime.toInt32 x
  | none => 0

/-- JavaScript `a + b` on numbers; `NaN` and `undefined` are absorbing. -/
def jsAdd : JsNum → JsNum → JsNum
  | some x, some y => some (x + y)
  | _, _ => none

/-- JavaScript `a - b` on numbers. -/
def jsSub : JsNum → JsNum → JsNum
  | some x, some y => some (x - y)
  | _, _ => none

/-- JavaScript `a * b` on numbers. -/
def jsMul : JsNum → JsNum → JsNum
  | some x, some y => some (x * y)
  | _, _ => none

/-- JavaScript `a & b`: both operands through ToInt32, result an int32. -/
def bitAnd (a b : Int) : Int :=
  toInt32 (Int.ofNat (Nat.land (toUint32 a).toNat (toUint32 b).toNat))

/-- JavaScript `a | b`. -/
def bitOr (a b : Int) : Int :=
  toInt32 (Int.ofNat (Nat.lor (toUint32 a).toNat (toUint32 b).toNat))

/-- JavaScript `a ^ b`. -/
def bitXor (a b : Int) : Int :=
  toInt32 (Int.ofNat (Nat.xor (toUint32 a).toNat (toUint32 b).toNat))

/-! ## Memory: `Memory.prototype.*` over the `Uint8Array` view `mem8` -/

/-- The elements of `mem8`; only offsets `0 ≤ i < MAX_MEM_ADDR` exist, and an
element is read modulo 256. -/
abbrev Mem8 := Int → Int

/-- Whether `i` indexes an element of `mem8` (`new Memory(MAX_MEM_ADDR)`). -/
def inMem (i : Int) : Prop := 0 ≤ i ∧ i < MAX_MEM_ADDR

instance (i : Int) : Decidable (inMem i) := by unfold inMem; infer_instance

/-- The expression `mem8[i]`: `undefined` outside the array. -/
def mem8_get (m : Mem8) : JsNum → JsNum
  | some i => if inMem i then some (m i % 256) else none
  | none => none

/-- The statement `mem8[i] = v`: nothing happens outside the array; the element
keeps `v` modulo 256. -/
def mem8_set (m : Mem8) (i : JsNum) (v : Int) : Mem8 :=
  match i with
  | some i => if inMem i then fun j => if j = i then v % 256 else m j else m
  | none => m

/-- A byte as an operand of `|` or `<<`: `undefined` counts as 0. -/
def byteOr0 : JsNum → Int
  | some b => b
  | none => 0

def Memory.read8 (m : Mem8) (addr : JsNum) : JsNum := mem8_get m addr

/-- Source: `mem8[addr] | (mem8[addr + 1] << 8)`; the bytes are below 256, so
the OR of the shifted bytes is their sum. -/
def Memory.read16 (m : Mem8) (addr : JsNum) : Int :=
  byteOr0 (mem8_get m addr) + byteOr0 (mem8_get m (jsAdd addr (some 1))) * 256

/-- Source: the four bytes ORed together, the last one shifted by 24, which
makes the result a signed 32-bit integer. -/
def Memory.read32s (m : Mem8) (addr : JsNum) : Int :=
  toInt32 (byteOr0 (mem8_get m addr)
    + byteOr0 (mem8_get m (jsAdd addr (some 1))) * 256
    + byteOr0 (mem8_get m (jsAdd addr (some 2))) * 65536
    + byteOr0 (mem8_get m (jsAdd addr (some 3))) * 16777216)

def Memory.write8 (m : Mem8) (addr : JsNum) (value : JsNum) : Mem8 :=
  mem8_set m addr (JsNum.toInt32 value)

def Memory.write16 (m : Mem8) (addr : JsNum) (value : JsNum) : Mem8 :=
  let v := toUint32 (JsNum.toInt32 value)
  let m := mem8_set m addr (v % 256)
  mem8_set m (jsAdd addr (some 1)) (v / 256 % 256)

def Memory.write32 (m : Mem8) (addr : JsNum) (value : JsNum) : Mem8 :=
  let v := toUint32 (JsNum.toInt32 value)
  let m := mem8_set m addr (v % 256)
  let m := mem8_set m (jsAdd addr (some 1)) (v / 256 % 256)
  let m := mem8_set m (jsAdd addr (some 2)) (v / 65536 % 256)
  mem8_set m (jsAdd addr (some 3)) (v / 16777216 % 256)

/-- The expression `mem32s[off / 4]` of the `Int32Array` view, given the
numerator `off`: the index must be an integer inside the view, otherwise the
value is `undefined`. -/
def mem32s_get (m : Mem8) (off : JsNum) : JsNum :=
  match off with
  | some o =>
    if o % 4 = 0 ∧ inMem o then
      some (toInt32 (m o % 256 + m (o + 1) % 256 * 256 + m (o + 2) % 256 * 65536
        + m (o + 3) % 256 * 16777216))
    else none
  | none => none

/-- The statement `mem32s[off / 4] = v`, given the numerator `off`: a store at
a fractional or outside index does nothing. -/
def mem32s_set (m : Mem8) (off : JsNum) (value : JsNum) : Mem8 :=
  match off with
  | some o =>
    if o % 4 = 0 ∧ inMem o then
      let v := toUint32 (JsNum.toInt32 value)
      fun j =>
        if j = o then v % 256
        else if j = o + 1 then v / 256 % 256
        else if j = o + 2 then v / 65536 % 256
        else if j = o + 3 then v / 16777216 % 256
        else m j
    else m
  | none => m

/-- Source: `Memory.prototype.write_aligned32`, `this.mem32s[addr] = value`:
`addr` indexes the `Int32Array`, whose element `addr` is the dword at byte
offset `4 * addr`. -/
def Memory.write_aligned32 (m : Mem8) (addr : JsNum) (value : JsNum) : Mem8 :=
  match addr with
  | some i => mem32s_set m (some (4 * i)) value
  | none => m

/-! ## The 8-bit and 16-bit views of the register buffer

`reg8`, `reg8s`, `reg16` and `reg16s` are typed arrays over the buffer of
`reg32s`: 32 bytes, little-endian, so element `i` of `reg8` is byte `i % 4` of
register `i / 4` and element `i` of `reg16` is half `i % 2` of register `i / 2`. -/

/-- The expression `reg8[i]`. -/
def reg8_get (r : Nat → Int) (i : Nat) : JsNum :=
  if i < 32 then some (toUint32 (r (i / 4)) / 256 ^ (i % 4) % 256) else none

/-- The statement `reg8[i] = v`: the byte keeps `v` modulo 256 (0 for
`undefined`), the other bytes of the register stay. -/
def reg8_set (r : Nat → Int) (i : Nat) (v : JsNum) : Nat → Int :=
  if i < 32 then
    fun k =>
      if k = i / 4 then
        toInt32 (toUint32 (r k) - toUint32 (r k) / 256 ^ (i % 4) % 256 * 256 ^ (i % 4)
          + JsNum.toInt32 v % 256 * 256 ^ (i % 4))
      else r k
  else r

/-- The expression `reg8s[i]`, the signed view of the same byte. -/
def reg8s_get (r : Nat → Int) (i : Nat) : JsNum :=
  match reg8_get r i with
  | some b => some (if b < 128 then b else b - 256)
  | none => none

/-- The expression `reg16[i]`. -/
def reg16_get (r : Nat → Int) (i : Nat) : JsNum :=
  if i < 16 then some (toUint32 (r (i / 2)) / 65536 ^ (i % 2) % 65536) else none

/-- The expression `reg16s[i]`. -/
def reg16s_get (r : Nat → Int) (i : Nat) : JsNum :=
  match reg16_get r i with
  | some h => some (if h < 32768 then h else h - 65536)
  | none => none

/-- The statement `reg16[i] = v`: the half keeps `v` modulo 65536 (0 for
`undefined`), the other half of the register stays. -/
def reg16_set (r : Nat → Int) (i : Nat) (v : JsNum) : Nat → Int :=
  if i < 16 then
    fun k =>
      if k = i / 2 then
        toInt32 (toUint32 (r k) - toUint32 (r k) / 65536 ^ (i % 2) % 65536 * 65536 ^ (i % 2)
          + JsNum.toInt32 v % 65536 * 65536 ^ (i % 2))
      else r k
  else r

/-! ## The CPU object `v86` and the runtime object `Win32Runtime` -/

/-- The fields of the `v86` object that the opcode handlers of this file touch.
`reg32s` holds the eight registers as signed 32-bit integers (`reg32` is the
unsigned view of the same storage). `base_addr` is the constant captured by the
`translate_address_*` closures that `init_cpu` installs. -/
structure Cpu where
  mem8 : Mem8
  reg32s : Nat → Int
  base_addr : Int
  instruction_pointer : JsNum
  previous_ip : JsNum
  flags : Int
  flags_changed : Int
  last_op1 : JsNum
  last_op2 : JsNum
  last_op_size : Int
  last_result : JsNum
  last_add_result : JsNum
  address_size_32 : Bool
  timestamp_counter : Int
  last_instr_jump : Bool

/-- The fields of the `Win32Runtime` object: the CPU, the import table
(`imports`, keyed by address, holding a `WIN32API` method name), the run flags
and the allocator's range list `_map`. -/
structure Runtime where
  cpu : Cpu
  imports : Int → Option String
  stack_addr : Int
  halt_instructions : Bool
  function_call_done : Bool
  map : List (Int × Int)

/-- What the code throws. -/
inductive Fault where
  /-- TypeError of `this.table32[opcode](this)` when the entry is `undefined`. -/
  | notAFunction
  /-- `new Error("Unimplemented instruction: 0x..")` of the default table entry. -/
  | unimplementedInstruction
  /-- `new Error("Unimplemented 0x81 op: " + op)` and its 0x83 and 0xFF siblings. -/
  | unimplementedOp (group : Int) (op : Int)
  /-- A thrown string. -/
  | message (s : String)
  /-- TypeError of `last[1]` in `alloc` when the range list is empty. -/
  | undefinedProperty
  /-- TypeError of `Object.prototype.__defineGetter__` and `__defineSetter__` on
  a second argument that is not callable. -/
  | typeError
  /-- Not thrown by the code: a case that this model does not cover. -/
  | notModelled
  deriving DecidableEq, Repr

/-- Result of running code on a runtime: a value and the new state, or a
thrown fault and the state at the throw. -/
inductive Res (α : Type) where
  | ok (a : α) (rt : Runtime)
  | throw (e : Fault) (rt : Runtime)

/-- Code that reads and writes the runtime and may throw. -/
def M (α : Type) : Type := Runtime → Res α

def M.pure {α : Type} (a : α) : M α := fun rt => Res.ok a rt

def M.bind {α β : Type} (m : M α) (f : α → M β) : M β := fun rt =>
  match m rt with
  | Res.ok a rt1 => f a rt1
  | Res.throw e rt1 => Res.throw e rt1

instance : Monad M where
  pure := M.pure
  bind := M.bind

def modifyCpu (f : Cpu → Cpu) : M Unit := fun rt => Res.ok () { rt with cpu := f rt.cpu }

def Res.state {α : Type} : Res α → Runtime
  | Res.ok _ rt => rt
  | Res.throw _ rt => rt

def Res.value {α : Type} : Res α → Option α
  | Res.ok a _ => some a
  | Res.throw _ _ => none

def Res.fault {α : Type} : Res α → Option Fault
  | Res.ok _ _ => none
  | Res.throw e _ => some e

/-! ## `v86.prototype.*` helpers -/

/-- The expression `cpu.reg32[r]`. -/
def Cpu.reg32 (c : Cpu) (r : Nat) : Int := toUint32 (c.reg32s r)

/-- The statements `cpu.reg32s[r] = v` and `cpu.reg32[r] = v`: the element keeps
the low 32 bits of `v`. -/
def Cpu.setReg (c : Cpu) (r : Nat) (v : JsNum) : Cpu :=
  { c with reg32s := fun k => if k = r then JsNum.toInt32 v else c.reg32s k }

/-- Source: `function(addr) { return addr - base_addr; }`, installed by
`init_cpu` as every `translate_address_*`. -/
def Cpu.translate_address_read (c : Cpu) (addr : JsNum) : JsNum :=
  jsSub addr (some c.base_addr)

def Cpu.translate_address_write (c : Cpu) (addr : JsNum) : JsNum :=
  jsSub addr (some c.base_addr)

/-- Source: `segment_offsets[reg]`; `switch_seg` is the only writer and it
stores 0. -/
def Cpu.get_seg (_c : Cpu) (_reg : Nat) : Int := 0

def Cpu.get_real_eip (c : Cpu) : JsNum := c.instruction_pointer

def Cpu.safe_read8 (c : Cpu) (addr : JsNum) : JsNum :=
  Memory.read8 c.mem8 (c.translate_address_read addr)

def Cpu.safe_read16 (c : Cpu) (addr : JsNum) : Int :=
  Memory.read16 c.mem8 (c.translate_address_read addr)

def Cpu.safe_read32s (c : Cpu) (addr : JsNum) : Int :=
  Memory.read32s c.mem8 (c.translate_address_read addr)

def Cpu.safe_write32 (c : Cpu) (addr : JsNum) (value : JsNum) : Cpu :=
  { c with mem8 := Memory.write32 c.mem8 (c.translate_address_write addr) value }

/-- Source: `reg32s[reg_esp] -= 4; safe_write32(reg32s[reg_esp], value)`. -/
def Cpu.push32 (c : Cpu) (value : JsNum) : Cpu :=
  let c := c.setReg reg_esp (some (c.reg32s reg_esp - 4))
  c.safe_write32 (some (c.reg32s reg_esp)) value

/-- Source: `value = safe_read32s(reg32s[reg_esp]); reg32s[reg_esp] += 4`. -/
def Cpu.pop32 (c : Cpu) : Int × Cpu :=
  let value := c.safe_read32s (some (c.reg32s reg_esp))
  (value, c.setReg reg_esp (some (c.reg32s reg_esp + 4)))

def Cpu.read_imm8 (c : Cpu) : JsNum × Cpu :=
  let value := Memory.read8 c.mem8 (c.translate_address_read c.instruction_pointer)
  (value, { c with instruction_pointer := jsAdd c.instruction_pointer (some 1) })

/-- Source: `value < 128 ? value : value - 256`; on `undefined` the comparison
is false and the difference is `NaN`. -/
def Cpu.read_imm8s (c : Cpu) : JsNum × Cpu :=
  let (value, c) := c.read_imm8
  match value with
  | some v => (some (if v < 128 then v else v - 256), c)
  | none => (none, c)

def Cpu.read_imm16 (c : Cpu) : Int × Cpu :=
  let value := Memory.read16 c.mem8 (c.translate_address_read c.instruction_pointer)
  (value, { c with instruction_pointer := jsAdd c.instruction_pointer (some 2) })

def Cpu.read_imm32s (c : Cpu) : Int × Cpu :=
  let value := Memory.read32s c.mem8 (c.translate_address_read c.instruction_pointer)
  (value, { c with instruction_pointer := jsAdd c.instruction_pointer (some 4) })

/-- The set of flag bits that `inc` and `dec` mark as changed. -/
def flags_inc : Int := 2048 + 128 + 64 + 16 + 4

/-- The set of flag bits that `add` and `sub` mark as changed. -/
def flags_all : Int := 2048 + 128 + 64 + 16 + 1 + 4

/-- The set of flag bits that `and`, `or` and `xor` mark as changed. -/
def flags_logic : Int := 128 + 64 + 4

def Cpu.inc (c : Cpu) (value : Int) (size : Int) : JsNum × Cpu :=
  let r : JsNum := some (value + 1)
  (r, { c with flags_changed := flags_inc, last_op1 := some value, last_op_size := size,
               last_result := r })

def Cpu.dec (c : Cpu) (value : Int) (size : Int) : JsNum × Cpu :=
  let r : JsNum := some (value - 1)
  (r, { c with flags_changed := flags_inc, last_op1 := some value, last_op_size := size,
               last_result := r })

def Cpu.add (c : Cpu) (dest : Int) (src : JsNum) (size : Int) : JsNum × Cpu :=
  let r : JsNum := jsAdd (some dest) src
  (r, { c with flags_changed := flags_all, last_op1 := some dest, last_op2 := src,
               last_op_size := size, last_result := r, last_add_result := r })

def Cpu.sub (c : Cpu) (dest : Int) (src : JsNum) (size : Int) : JsNum × Cpu :=
  let r : JsNum := jsSub (some dest) src
  (r, { c with flags_changed := flags_all, last_op1 := some dest, last_op2 := src,
               last_op_size := size, last_result := r, last_add_result := r })

/-- Source: `this.flags &= ~(flag_overflow | flag_carry)`. -/
def clearOC (flags : Int) : Int := bitAnd flags (-2050)

def Cpu.and (c : Cpu) (dest : Int) (src : JsNum) (size : Int) : JsNum × Cpu :=
  let r : JsNum := some (bitAnd dest (JsNum.toInt32 src))
  (r, { c with flags_changed := flags_logic, flags := clearOC c.flags, last_op_size := size,
               last_result := r })

def Cpu.or (c : Cpu) (dest : Int) (src : JsNum) (size : Int) : JsNum × Cpu :=
  let r : JsNum := some (bitOr dest (JsNum.toInt32 src))
  (r, { c with flags_changed := flags_logic, flags := clearOC c.flags, last_op_size := size,
               last_result := r })

def Cpu.xor (c : Cpu) (dest : Int) (src : JsNum) (size : Int) : JsNum × Cpu :=
  let r : JsNum := some (bitXor dest (JsNum.toInt32 src))
  (r, { c with flags_changed := flags_logic, flags := clearOC c.flags, last_op_size := size,
               last_result := r })

/-! ## ModR/M resolution -/

/-- Source: `v86.prototype._sib_resolve`. An `undefined` SIB byte acts as 0 in
`sib >> 6`, `(sib >> 3) & 7` and `sib & 7`. -/
def Cpu._sib_resolve (c : Cpu) (mod : Int) : Int × Cpu :=
  let (sibv, c) := c.read_imm8
  let sib := byteOr0 sibv
  let scale : Int := 2 ^ (sib / 64).toNat
  let index := sib / 8 % 8
  let base := sib % 8
  let (result, c) :=
    if base = 5 ∧ mod = 0 then c.read_imm32s else (c.reg32s base.toNat, c)
  let result := if index ≠ 4 then result + c.reg32s index.toNat * scale else result
  (result, c)

/-- The table `base_regs` of the 16-bit branch of `modrm_resolve`; the second
component `none` is the source's `-1`. -/
def base_regs (rm : Int) : Nat × Option Nat :=
  if rm = 0 then (reg_ebx, some reg_esi)
  else if rm = 1 then (reg_ebx, some reg_edi)
  else if rm = 2 then (reg_ebp, some reg_esi)
  else if rm = 3 then (reg_ebp, some reg_edi)
  else if rm = 4 then (reg_esi, none)
  else if rm = 5 then (reg_edi, none)
  else if rm = 6 then (reg_ebp, none)
  else (reg_ebx, none)

/-- Source: `v86.prototype.modrm_resolve`. The result is a plain JavaScript
sum, not reduced to 32 bits. -/
def Cpu.modrm_resolve (c : Cpu) (modrm_byte : Int) : JsNum × Cpu :=
  let mod := modrm_byte / 64
  let rm := modrm_byte % 8
  if mod = 3 then (some (c.reg32s rm.toNat), c)
  else if c.address_size_32 then
    let (result, c) :=
      if rm = 4 then c._sib_resolve mod
      else if rm = 5 ∧ mod = 0 then c.read_imm32s
      else (c.reg32s rm.toNat, c)
    if mod = 1 then
      let (d, c) := c.read_imm8s
      (jsAdd (some result) d, c)
    else if mod = 2 then
      let (d, c) := c.read_imm32s
      (some (result + d), c)
    else (some result, c)
  else
    let (result, c) :=
      if rm = 6 ∧ mod = 0 then c.read_imm16
      else
        let pair := base_regs rm
        let r := c.reg32s pair.1
        match pair.2 with
        | some r2 => (r + c.reg32s r2, c)
        | none => (r, c)
    if mod = 1 then
      let (d, c) := c.read_imm8s
      (jsAdd (some result) d, c)
    else if mod = 2 then
      let (d, c) := c.read_imm16
      (some (result + d), c)
    else (some result, c)

/-- The operand read shared by the ModR/M handlers: `modrm >= 0xC0` selects the
register `modrm & 7`, otherwise `modrm_resolve` gives the address that
`safe_read32s` reads. Returns the value, the address (for the write-back) and
the CPU. -/
def Cpu.read_rm32 (c : Cpu) (modrm : Int) : Int × JsNum × Cpu :=
  if modrm ≥ 0xC0 then (c.reg32s (modrm % 8).toNat, none, c)
  else
    let (addr, c) := c.modrm_resolve modrm
    (c.safe_read32s addr, addr, c)

/-- The write-back shared by the ModR/M handlers. -/
def Cpu.write_rm32 (c : Cpu) (modrm : Int) (addr : JsNum) (result : JsNum) : Cpu :=
  if modrm ≥ 0xC0 then c.setReg (modrm % 8).toNat result
  else c.safe_write32 addr result

/-! ## The opcode table built by `v86.prototype._init_tables` -/

/-- The array `jcc_rel8` of condition predicates on `cpu.flags`. -/
def jcc_rel8 (cond : Int) (flags : Int) : Bool :=
  let fo := bitAnd flags flag_overflow
  let fc := bitAnd flags flag_carry
  let fz := bitAnd flags flag_zero
  let fs := bitAnd flags flag_sign
  let fp := bitAnd flags flag_parity
  if cond = 0 then fo ≠ 0
  else if cond = 1 then fo = 0
  else if cond = 2 then fc ≠ 0
  else if cond = 3 then fc = 0
  else if cond = 4 then fz ≠ 0
  else if cond = 5 then fz = 0
  else if cond = 6 then bitOr fc fz ≠ 0
  else if cond = 7 then bitOr fc fz = 0
  else if cond = 8 then fs ≠ 0
  else if cond = 9 then fs = 0
  else if cond = 10 then fp ≠ 0
  else if cond = 11 then fp = 0
  else if cond = 12 then decide (fs ≠ 0) != decide (fo ≠ 0)
  else if cond = 13 then decide (fs ≠ 0) == decide (fo ≠ 0)
  else if cond = 14 then decide (fz ≠ 0) || (decide (fs ≠ 0) != decide (fo ≠ 0))
  else decide (fz = 0) && (decide (fs ≠ 0) == decide (fo ≠ 0))

/-- Source: `cpu.instruction_pointer = cpu.instruction_pointer + rel | 0;
cpu.last_instr_jump = true`. -/
def Cpu.jump_rel (c : Cpu) (rel : JsNum) : Cpu :=
  { c with instruction_pointer := some (JsNum.toInt32 (jsAdd c.instruction_pointer rel)),
           last_instr_jump := true }

/-- Source: `cpu.instruction_pointer = cpu.get_seg(reg_cs) + data | 0;
cpu.last_instr_jump = true`. -/
def Cpu.jump_abs (c : Cpu) (data : Int) : Cpu :=
  { c with instruction_pointer := some (toInt32 (c.get_seg reg_cs + data)),
           last_instr_jump := true }

/-- RET near, `t[0xC3]`. -/
def Cpu.op_ret (c : Cpu) : Cpu :=
  let (v, c) := c.pop32
  { c with instruction_pointer := some v, last_instr_jump := true }

/-- RET near imm16, `t[0xC2]`. -/
def Cpu.op_ret_imm16 (c : Cpu) : Cpu :=
  let (imm16, c) := c.read_imm16
  let (v, c) := c.pop32
  let c := { c with instruction_pointer := some v }
  let c := c.setReg reg_esp (some (c.reg32s reg_esp + imm16))
  { c with last_instr_jump := true }

/-- CALL rel32, `t[0xE8]`. -/
def Cpu.op_call_rel32 (c : Cpu) : Cpu :=
  let (imm32s, c) := c.read_imm32s
  let c := c.push32 c.get_real_eip
  c.jump_rel (some imm32s)

/-- A handler of the CPU's own table: the new CPU, or a thrown fault with the
CPU at the throw. -/
abbrev CpuHandler := Cpu → Except (Fault × Cpu) Cpu

/-- The arithmetic of the immediate groups 0x81 and 0x83, after the operands
are read: CMP (op 7) returns before the write-back, and the last case is the
`default:` of the `switch`. -/
def Cpu.group1 (c : Cpu) (group : Int) (modrm : Int) (op : Int) (dest : Int) (addr : JsNum)
    (imm : JsNum) : Except (Fault × Cpu) Cpu :=
  if op = 0 then
    let (r, c) := c.add dest imm OPSIZE_32
    .ok (c.write_rm32 modrm addr r)
  else if op = 1 then
    let (r, c) := c.or dest imm OPSIZE_32
    .ok (c.write_rm32 modrm addr r)
  else if op = 4 then
    let (r, c) := c.and dest imm OPSIZE_32
    .ok (c.write_rm32 modrm addr r)
  else if op = 5 then
    let (r, c) := c.sub dest imm OPSIZE_32
    .ok (c.write_rm32 modrm addr r)
  else if op = 6 then
    let (r, c) := c.xor dest imm OPSIZE_32
    .ok (c.write_rm32 modrm addr r)
  else if op = 7 then
    .ok (c.sub dest imm OPSIZE_32).2
  else .error (Fault.unimplementedOp group op, c)

/-- The handler `t[0x81]`: ModR/M byte, then the 32-bit immediate, then the
operand (in this order in the source). -/
def op_81 : CpuHandler := fun c =>
  let (modrmv, c) := c.read_imm8
  let modrm := byteOr0 modrmv
  let op := modrm / 8 % 8
  let (imm, c) := c.read_imm32s
  let (dest, addr, c) := c.read_rm32 modrm
  c.group1 0x81 modrm op dest addr (some imm)

/-- The handler `t[0x83]`: ModR/M byte, then the signed 8-bit immediate, then
the operand (in this order in the source). -/
def op_83 : CpuHandler := fun c =>
  let (modrmv, c) := c.read_imm8
  let modrm := byteOr0 modrmv
  let op := modrm / 8 % 8
  let (imm, c) := c.read_imm8s
  let (dest, addr, c) := c.read_rm32 modrm
  c.group1 0x83 modrm op dest addr imm

/-- MOV r/m32, r32, `t[0x89]`. -/
def op_89 : CpuHandler := fun c =>
  let (modrmv, c) := c.read_imm8
  let modrm := byteOr0 modrmv
  let reg := (modrm / 8 % 8).toNat
  if modrm ≥ 0xC0 then .ok (c.setReg (modrm % 8).toNat (some (c.reg32s reg)))
  else
    let (addr, c) := c.modrm_resolve modrm
    .ok (c.safe_write32 addr (some (c.reg32s reg)))

/-- MOV r32, r/m32, `t[0x8B]`. -/
def op_8B : CpuHandler := fun c =>
  let (modrmv, c) := c.read_imm8
  let modrm := byteOr0 modrmv
  let reg := (modrm / 8 % 8).toNat
  let (v, _, c) := c.read_rm32 modrm
  .ok (c.setReg reg (some v))

/-- XOR r32, r/m32, `t[0x33]`. -/
def op_33 : CpuHandler := fun c =>
  let (modrmv, c) := c.read_imm8
  let modrm := byteOr0 modrmv
  let reg := (modrm / 8 % 8).toNat
  let (src, _, c) := c.read_rm32 modrm
  let (r, c) := c.xor (c.reg32s reg) (some src) OPSIZE_32
  .ok (c.setReg reg r)

/-- TEST r/m32, r32, `t[0x85]`. -/
def op_85 : CpuHandler := fun c =>
  let (modrmv, c) := c.read_imm8
  let modrm := byteOr0 modrmv
  let reg := (modrm / 8 % 8).toNat
  let (src, _, c) := c.read_rm32 modrm
  .ok (c.and src (some (c.reg32s reg)) OPSIZE_32).2

/-- CMP r/m32, r32, `t[0x39]`. -/
def op_39 : CpuHandler := fun c =>
  let (modrmv, c) := c.read_imm8
  let modrm := byteOr0 modrmv
  let reg := (modrm / 8 % 8).toNat
  let (dest, _, c) := c.read_rm32 modrm
  .ok (c.sub dest (some (c.reg32s reg)) OPSIZE_32).2

/-- CMP r32, r/m32, `t[0x3B]`. -/
def op_3B : CpuHandler := fun c =>
  let (modrmv, c) := c.read_imm8
  let modrm := byteOr0 modrmv
  let reg := (modrm / 8 % 8).toNat
  let (src, _, c) := c.read_rm32 modrm
  .ok (c.sub (c.reg32s reg) (some src) OPSIZE_32).2

/-- LEA r32, m, `t[0x8D]`. -/
def op_8D : CpuHandler := fun c =>
  let (modrmv, c) := c.read_imm8
  let modrm := byteOr0 modrmv
  let reg := (modrm / 8 % 8).toNat
  let (addr, c) := c.modrm_resolve modrm
  .ok (c.setReg reg addr)

/-- The group `t[0xFF]` of `_init_tables`: INC, DEC, CALL near, JMP near, PUSH. -/
def op_FF : CpuHandler := fun c =>
  let (modrmv, c) := c.read_imm8
  let modrm := byteOr0 modrmv
  let op := modrm / 8 % 8
  let (data, addr, c) := c.read_rm32 modrm
  if op = 0 then
    let (r, c) := c.inc data OPSIZE_32
    .ok (c.write_rm32 modrm addr r)
  else if op = 1 then
    let (r, c) := c.dec data OPSIZE_32
    .ok (c.write_rm32 modrm addr r)
  else if op = 2 then
    let c := c.push32 c.get_real_eip
    .ok (c.jump_abs data)
  else if op = 4 then .ok (c.jump_abs data)
  else if op = 6 then .ok (c.push32 (some data))
  else .error (Fault.unimplementedOp 0xFF op, c)

/-- Jcc rel8, `t[0x70 + cond]`. -/
def op_jcc (cond : Int) : CpuHandler := fun c =>
  let (imm8s, c) := c.read_imm8s
  if jcc_rel8 cond c.flags then .ok (c.jump_rel imm8s) else .ok c

/-- LEAVE, `t[0xC9]`. -/
def op_leave : CpuHandler := fun c =>
  let c := c.setReg reg_esp (some (c.reg32s reg_ebp))
  let (v, c) := c.pop32
  .ok (c.setReg reg_ebp (some v))

/-- The array `table32` as `_init_tables` leaves it: every entry not assigned
there is the thrower installed by the first loop. -/
def v86_table32 (opcode : Int) : CpuHandler := fun c =>
  if opcode = 0x90 then .ok c
  else if 0xB8 ≤ opcode ∧ opcode ≤ 0xBF then
    let (v, c) := c.read_imm32s
    .ok (c.setReg (opcode - 0xB8).toNat (some v))
  else if 0x50 ≤ opcode ∧ opcode ≤ 0x57 then
    .ok (c.push32 (some (c.reg32s (opcode - 0x50).toNat)))
  else if 0x58 ≤ opcode ∧ opcode ≤ 0x5F then
    let (v, c) := c.pop32
    .ok (c.setReg (opcode - 0x58).toNat (some v))
  else if opcode = 0xC3 then .ok c.op_ret
  else if opcode = 0xC2 then .ok c.op_ret_imm16
  else if opcode = 0xE8 then .ok c.op_call_rel32
  else if opcode = 0xE9 then
    let (imm32s, c) := c.read_imm32s
    .ok (c.jump_rel (some imm32s))
  else if opcode = 0xEB then
    let (imm8s, c) := c.read_imm8s
    .ok (c.jump_rel imm8s)
  else if 0x70 ≤ opcode ∧ opcode ≤ 0x7F then op_jcc (opcode - 0x70) c
  else if opcode = 0x89 then op_89 c
  else if opcode = 0x8B then op_8B c
  else if opcode = 0x81 then op_81 c
  else if opcode = 0x83 then op_83 c
  else if opcode = 0x33 then op_33 c
  else if opcode = 0x85 then op_85 c
  else if opcode = 0x39 then op_39 c
  else if opcode = 0x3B then op_3B c
  else if opcode = 0x8D then op_8D c
  else if 0x40 ≤ opcode ∧ opcode ≤ 0x47 then
    let reg := (opcode - 0x40).toNat
    let (r, c) := c.inc (c.reg32s reg) OPSIZE_32
    .ok (c.setReg reg r)
  else if 0x48 ≤ opcode ∧ opcode ≤ 0x4F then
    let reg := (opcode - 0x48).toNat
    let (r, c) := c.dec (c.reg32s reg) OPSIZE_32
    .ok (c.setReg reg r)
  else if opcode = 0xFF then op_FF c
  else if opcode = 0xC9 then op_leave c
  else .error (Fault.unimplementedInstruction, c)

/-- Runs a handler of the CPU's table on the runtime's CPU. -/
def liftCpu (f : CpuHandler) : M Unit := fun rt =>
  match f rt.cpu with
  | .ok c => Res.ok () { rt with cpu := c }
  | .error (e, c) => Res.throw e { rt with cpu := c }

/-! ## `Win32Runtime.prototype.*` -/

/-- The own properties of the object `WIN32API`, seen from the patched CALL
handlers: a method name gives the host handler, which gets `(runtime, cpu)` and
may throw. The properties that the object inherits from `Object.prototype` are
in `win32api_has` and `win32api_call`. -/
abbrev Api := String → Option (M Unit)

/-- Source: `mem32s[(esp_addr / 4) + n]` with
`esp_addr = translate_address_read(reg32[reg_esp])`. -/
def get_arg (rt : Runtime) (n : Int) : JsNum :=
  mem32s_get rt.cpu.mem8
    (jsAdd (rt.cpu.translate_address_read (some (rt.cpu.reg32 reg_esp))) (some (4 * n)))

/-- Source: `cpu.instruction_pointer = get_arg(0); cpu.reg32[reg_esp] += 4 + arg_size`. -/
def instruction_ret (arg_size : Int) : M Unit := fun rt =>
  let c := { rt.cpu with instruction_pointer := get_arg rt 0 }
  let c := c.setReg reg_esp (some (c.reg32 reg_esp + (4 + arg_size)))
  Res.ok () { rt with cpu := c }

/-- The names of the properties of `Object.prototype` (ECMAScript with its
Annex B). `WIN32API` is an object literal, so it inherits all of them. -/
def object_prototype_names : List String :=
  ["constructor", "hasOwnProperty", "isPrototypeOf", "propertyIsEnumerable", "toLocaleString",
   "toString", "valueOf", "__proto__", "__defineGetter__", "__defineSetter__",
   "__lookupGetter__", "__lookupSetter__"]

/-- The expression `method_name in WIN32API`: true for the methods of `WIN32API`
itself (`api`) and for the names it inherits from `Object.prototype`. -/
def win32api_has (api : Api) (method_name : String) : Bool :=
  (api method_name).isSome || object_prototype_names.contains method_name

/-- The call `WIN32API[method_name](self, cpu)`. A method of `WIN32API` itself
runs as the handler it is. Otherwise the property is looked up on
`Object.prototype` and called with `WIN32API` as `this` and the arguments
`(self, cpu)`, two objects that are not callable and have no `toString` of their
own:
- `__proto__` is the object `Object.prototype`, and a name that is no property
  at all gives `undefined`: the call throws the TypeError `is not a function`;
- `__defineGetter__` and `__defineSetter__` throw a TypeError, `cpu` not being
  callable;
- `constructor` returns `self`; `hasOwnProperty`, `isPrototypeOf` and
  `propertyIsEnumerable` return `false`; `toString` returns a string; `valueOf`
  returns `WIN32API`; `__lookupGetter__` and `__lookupSetter__` return
  `undefined`: the runtime is as before;
- `toLocaleString` calls `WIN32API.toString()` without arguments: the inherited
  `toString` returns a string. A `toString` defined on `WIN32API` itself, which
  neither the object literal nor `add_hook` creates, would run without its
  arguments, which a handler of this model cannot: that case is `notModelled`. -/
def win32api_call (api : Api) (method_name : String) : M Unit := fun rt =>
  match api method_name with
  | some handler => handler rt
  | none =>
    if method_name = "__proto__" then Res.throw Fault.notAFunction rt
    else if method_name = "__defineGetter__" ∨ method_name = "__defineSetter__" then
      Res.throw Fault.typeError rt
    else if method_name = "toLocaleString" ∧ (api "toString").isSome then
      Res.throw Fault.notModelled rt
    else if object_prototype_names.contains method_name then Res.ok () rt
    else Res.throw Fault.notAFunction rt

/-- The import check that the patched CALL handlers run after the transfer:
for a target that is a key of `imports`, `if (method_name in WIN32API)
WIN32API[method_name](self, cpu)`, else `halt_instructions` is set and the
string is thrown. -/
def import_check (api : Api) : M Unit := fun rt =>
  match rt.cpu.instruction_pointer with
  | some ip =>
    match rt.imports ip with
    | some method_name =>
      if win32api_has api method_name then win32api_call api method_name rt
      else
        Res.throw (Fault.message ("Called unimplemented imported function: " ++ method_name))
          { rt with halt_instructions := true }
    | none => Res.ok () rt
  | none => Res.ok () rt

/-- The end-of-call check that the patched RET handlers run. -/
def ret_check : M Unit := fun rt =>
  if rt.cpu.instruction_pointer = some MAGIC_RETURN_ADDR then
    Res.ok () { rt with halt_instructions := true, function_call_done := true }
  else Res.ok () rt

/-- The handler that `insert_hooks` stores in `table32[0xFF]`. -/
def hooked_FF (api : Api) : M Unit := fun rt =>
  let (modrmv, c) := rt.cpu.read_imm8
  let modrm := byteOr0 modrmv
  let op := modrm / 8 % 8
  if op = 2 then
    let (data, _, c) := c.read_rm32 modrm
    let c := c.push32 c.get_real_eip
    import_check api { rt with cpu := c.jump_abs data }
  else
    liftCpu op_FF
      { rt with cpu := { c with instruction_pointer := jsSub c.instruction_pointer (some 1) } }

/-- The array `table32` after `insert_hooks`: the entries 0xE8, 0xFF, 0xC3 and
0xC2 are replaced, the others are those of `_init_tables`. -/
def table32 (api : Api) (opcode : Int) : M Unit :=
  if opcode = 0xE8 then do
    modifyCpu Cpu.op_call_rel32
    import_check api
  else if opcode = 0xFF then hooked_FF api
  else if opcode = 0xC3 then do
    liftCpu (v86_table32 0xC3)
    ret_check
  else if opcode = 0xC2 then do
    liftCpu (v86_table32 0xC2)
    ret_check
  else liftCpu (v86_table32 opcode)

/-- Source: `v86.prototype.cycle`, on the patched table. An `undefined` opcode
(fetched outside the memory) finds no table entry, and the call throws. -/
def cycle (api : Api) : M Unit := fun rt =>
  let c := rt.cpu
  let c := { c with previous_ip := c.instruction_pointer, last_instr_jump := false,
                    timestamp_counter := c.timestamp_counter + 1 }
  let (opcode, c) := c.read_imm8
  let rt := { rt with cpu := c }
  match opcode with
  | some op => table32 api op rt
  | none => Res.throw Fault.notAFunction rt

/-- The expression `va.toString(16)` on an integer. -/
def toString16 (va : Int) : String :=
  if va < 0 then "-" ++ String.mk (Nat.toDigits 16 va.natAbs)
  else String.mk (Nat.toDigits 16 va.toNat)

/-- Source: `Win32Runtime.prototype.add_hook`: the handler becomes the method
`"_hook_" + va.toString(16)` of `WIN32API`, and `imports[va]` names it. -/
def add_hook (api : Api) (rt : Runtime) (va : Int) (hookFn : M Unit) : Api × Runtime :=
  let hook_name := "_hook_" ++ toString16 va
  (fun name => if name = hook_name then some hookFn else api name,
   { rt with imports := fun k => if k = va then some hook_name else rt.imports k })

/-- The argument loop of `stdcall`, `for (i = num_args; i >= 1; i--)`, run on
the arguments in the order it visits them (last argument first): each is stored
at `mem32s[sp_phys / 4]` and `sp_phys` moves up by 4. -/
def stdcall_write_args (m : Mem8) (sp_phys : JsNum) : List Int → Mem8 × JsNum
  | [] => (m, sp_phys)
  | a :: rest => stdcall_write_args (mem32s_set m sp_phys (some a)) (jsAdd sp_phys (some 4)) rest

/-- The first part of `Win32Runtime.prototype.stdcall`, up to and including
`cpu.instruction_pointer = address`: the state in which the callee starts. -/
def stdcall_enter (address : Int) (args : List Int) : M Unit := fun rt =>
  let rt := { rt with stack_addr := BASE_STACK_ADDR, function_call_done := false,
                      halt_instructions := false }
  if address = 0 then Res.throw (Fault.message "stdcall: Invalid function address") rt
  else
    let num_args : Int := args.length
    let c := rt.cpu
    let c := c.setReg reg_esp (some (c.reg32 reg_esp - 4))
    let c := c.setReg reg_esp (some (c.reg32 reg_esp - num_args * 4))
    let sp_phys := c.translate_address_read (some (c.reg32 reg_esp))
    let (m, sp_phys) := stdcall_write_args c.mem8 sp_phys args.reverse
    let m := mem32s_set m sp_phys (some MAGIC_RETURN_ADDR)
    Res.ok () { rt with cpu := { c with mem8 := m, instruction_pointer := some address } }

/-- The cycle limit `max_cycles` of `stdcall`. -/
def max_cycles : Nat := 100000000

/-- The loop `while (!function_call_done && !halt_instructions && cycles <
max_cycles) { cpu.cycle(); cycles++; }`. The first argument is
`max_cycles - cycles`, so that `cycles < max_cycles` is the test for a
successor; the result is the final `cycles`. -/
def run_cycles (api : Api) : Nat → Nat → M Nat
  | 0, cycles => fun rt => Res.ok cycles rt
  | left + 1, cycles => fun rt =>
    if rt.function_call_done || rt.halt_instructions then Res.ok cycles rt
    else
      match cycle api rt with
      | Res.ok _ rt1 => run_cycles api left (cycles + 1) rt1
      | Res.throw e rt1 => Res.throw e rt1

/-- Source: `Win32Runtime.prototype.stdcall(address, ...args)`. -/
def stdcall (api : Api) (address : Int) (args : List Int) : M Int := fun rt =>
  match stdcall_enter address args rt with
  | Res.throw e rt => Res.throw e rt
  | Res.ok _ rt =>
    match run_cycles api max_cycles 0 rt with
    | Res.throw e rt => Res.throw e rt
    | Res.ok cycles rt =>
      if rt.function_call_done then Res.ok (rt.cpu.reg32 reg_eax) rt
      else if cycles ≥ max_cycles then
        Res.throw (Fault.message "Execution timeout - possible infinite loop") rt
      else Res.throw (Fault.message "Execution failed") rt

/-- Source: `Win32Runtime.prototype.get_dword_ptr`: the four bytes at the
translated address ORed together as in `Memory.prototype.read32s`, then
`>>> 0`. -/
def get_dword_ptr (rt : Runtime) (va : JsNum) : Int :=
  toUint32 (Memory.read32s rt.cpu.mem8 (rt.cpu.translate_address_read va))

/-- Source: `Win32Runtime.prototype.set_dword_ptr`,
`mem32s[translate_address_read(va) / 4] = value`. -/
def set_dword_ptr (rt : Runtime) (va : JsNum) (value : JsNum) : Runtime :=
  { rt with cpu := { rt.cpu with
      mem8 := mem32s_set rt.cpu.mem8 (rt.cpu.translate_address_read va) value } }

/-! ## The guest allocator (`this.allocator` in the constructor) -/

/-- A range `alloc_entry(begin, end)`. -/
abbrev Range := Int × Int

/-- Result of an allocator call: the returned value and the range list, or the
thrown fault and the range list at the throw. -/
inductive ARes (α : Type) where
  | ok (a : α) (map : List Range)
  | throw (e : Fault) (map : List Range)

def ARes.map {α : Type} : ARes α → List Range
  | ARes.ok _ m => m
  | ARes.throw _ m => m

def ARes.value {α : Type} : ARes α → Option α
  | ARes.ok a _ => some a
  | ARes.throw _ _ => none

def ARes.fault {α : Type} : ARes α → Option Fault
  | ARes.ok _ _ => none
  | ARes.throw e _ => some e

/-- The range list the constructor builds: the image, then the stack. -/
def initial_map (base_addr : Int) (byteLength : Int) : List Range :=
  [(base_addr, base_addr + byteLength), (base_addr + byteLength, BASE_STACK_ADDR + 4 * 10)]

/-- Source: `Math.ceil(size / 4) * 4` on an integer. -/
def align4 (size : Int) : Int := -((-size) / 4) * 4

/-- The gap scan of `alloc`, `for (i = 1; i < map.length; i++)`, on the list from
`map[i - 1]` on: at the first adjacent pair with `curr[0] - last[1] >= size`
the new range is spliced in between and its begin returned; `none` when the
loop ends without a return. -/
def alloc_scan (size : Int) : List Range → Option (Int × List Range)
  | [] => none
  | [_] => none
  | last :: curr :: rest =>
    if curr.1 - last.2 ≥ size then
      some (last.2, last :: (last.2, last.2 + size) :: curr :: rest)
    else
      match alloc_scan size (curr :: rest) with
      | some (a, l) => some (a, last :: l)
      | none => none

/-- Source: `allocator.alloc`. On an empty list `map[map.length - 1]` is
`undefined` and `last[1]` throws a TypeError. -/
def alloc (map : List Range) (size : Int) : ARes Int :=
  let size := align4 size
  match alloc_scan size map with
  | some (a, l) => ARes.ok a l
  | none =>
    match map.getLast? with
    | none => ARes.throw Fault.undefinedProperty map
    | some last =>
      if last.2 + size > MAX_MEM_ADDR then ARes.throw (Fault.message "Out of memory") map
      else ARes.ok last.2 (map ++ [(last.2, last.2 + size)])

/-- The list after `map.splice(i, 1)` at the first `i` with `map[i][0] === addr`,
or `none` when the loop of `free` finds no such range. -/
def free_scan (addr : Int) : List Range → Option (List Range)
  | [] => none
  | r :: rest =>
    if r.1 = addr then some rest
    else
      match free_scan addr rest with
      | some l => some (r :: l)
      | none => none

/-- Source: `allocator.free`. -/
def free (map : List Range) (addr : Int) : ARes Bool :=
  match free_scan addr map with
  | some l => ARes.ok true l
  | none => ARes.ok false map

/-- The search loop of `realloc`: the first index `i` with `map[i][0] === ptr`. -/
def find_idx (ptr : Int) : List Range → Option Nat
  | [] => none
  | r :: rest =>
    if r.1 = ptr then some 0
    else
      match find_idx ptr rest with
      | some i => some (i + 1)
      | none => none

/-- The statement `map[i][1] = v`. -/
def set_end (map : List Range) (i : Nat) (v : Int) : List Range :=
  match map[i]? with
  | some r => map.set i (r.1, v)
  | none => map

/-- Source: `allocator.realloc`. -/
def realloc (map : List Range) (ptr : Int) (size : Int) : ARes Int :=
  if ptr = 0 then alloc map size
  else
    match find_idx ptr map with
    | none => ARes.throw (Fault.message "Tried to reallocate invalid pointer!") map
    | some map_idx =>
      if map_idx + 1 = map.length then
        if ptr + size > MAX_MEM_ADDR then ARes.throw (Fault.message "Out of memory!") map
        else ARes.ok ptr (set_end map map_idx (ptr + size))
      else
        match map[map_idx + 1]? with
        | some next =>
          if ptr + size < next.1 then ARes.ok ptr (set_end map map_idx (ptr + size))
          else alloc (free map ptr).map size
        | none => alloc (free map ptr).map size

/-- The invariant of the range list: every range has `begin ≤ end`, and its end
is at most the begin of the next range. -/
def ranges_ok : List Range → Prop
  | [] => True
  | [r] => r.1 ≤ r.2
  | r :: s :: rest => r.1 ≤ r.2 ∧ r.2 ≤ s.1 ∧ ranges_ok (s :: rest)

/-- The first range of the list, if any, begins at or above `x`. -/
def lower_bound (x : Int) : List Range → Prop
  | [] => True
  | r :: _ => x ≤ r.1

/-- A call of one of the allocator's methods. -/
inductive AllocCall where
  | alloc (size : Int)
  | free (addr : Int)
  | realloc (ptr : Int) (size : Int)

/-- The size argument of the call, if it has one, is not negative. -/
def AllocCall.size_nonneg : AllocCall → Prop
  | AllocCall.alloc size => 0 ≤ size
  | AllocCall.free _ => True
  | AllocCall.realloc _ size => 0 ≤ size

/-- The range list after the call, whether it returned or threw. -/
def AllocCall.run (map : List Range) : AllocCall → List Range
  | AllocCall.alloc size => (Win32Runtime.alloc map size).map
  | AllocCall.free addr => (Win32Runtime.free map addr).map
  | AllocCall.realloc ptr size => (Win32Runtime.realloc map ptr size).map

/-- The range list after a sequence of calls. -/
def run_calls (map : List Range) (calls : List AllocCall) : List Range :=
  calls.foldl AllocCall.run map

/-- The call stays clear of the two ranges the constructor made: it names
neither `base_addr` nor the image end `base_addr + byteLength`, and its size,
if it has one, is positive. -/
def AllocCall.clear_of (base_addr byteLength : Int) : AllocCall → Prop
  | AllocCall.alloc size => 0 < size
  | AllocCall.free addr => addr ≠ base_addr ∧ addr ≠ base_addr + byteLength
  | AllocCall.realloc ptr size =>
    ptr ≠ base_addr ∧ ptr ≠ base_addr + byteLength ∧ 0 < size

/-- The gap between range `i` and range `i + 1` of the list. -/
def gap (map : List Range) (i : Nat) : Int :=
  (map.getD (i + 1) (0, 0)).1 - (map.getD i (0, 0)).2

/-- The calls `alloc(s1)`, ..., `alloc(sn)` in turn: the returned addresses and
the final range list, or `none` as soon as one of them throws. -/
def alloc_all (map : List Range) : List Int → Option (List Int × List Range)
  | [] => some ([], map)
  | s :: rest =>
    match alloc map s with
    | ARes.ok a m =>
      match alloc_all m rest with
      | some (addrs, m2) => some (a :: addrs, m2)
      | none => none
    | ARes.throw _ _ => none

/-- The calls `free(a1)`, ..., `free(an)` in turn: the returned values and the
final range list. -/
def free_all (map : List Range) : List Int → List Bool × List Range
  | [] => ([], map)
  | a :: rest =>
    match free map a with
    | ARes.ok b m => (b :: (free_all m rest).1, (free_all m rest).2)
    | ARes.throw _ m => (false :: (free_all m rest).1, (free_all m rest).2)

/-- Every range begins where the one before it ends. -/
def contiguous : List Range → Prop
  | [] => True
  | [_] => True
  | r :: s :: rest => s.1 = r.2 ∧ contiguous (s :: rest)

/-- The ranges of the sizes `sizes` (each rounded up to a multiple of 4) laid
end to end from `L` on. -/
def blocks (L : Int) : List Int → List Range
  | [] => []
  | s :: rest => (L, L + align4 s) :: blocks (L + align4 s) rest

/-! ## The constructor -/

/-- The import loop of `insert_hooks`, over the entries of `import_offsets` in
enumeration order: `imports[mem32s[real_addr / 4]] = import_offsets[addr]`, with
the alignment throw. A slot outside the memory reads `undefined`, a key that no
instruction pointer equals. -/
def insert_imports (c : Cpu) (imports : Int → Option String) :
    List (Int × String) → Except Fault (Int → Option String)
  | [] => .ok imports
  | (addr, name) :: rest =>
    let real_addr := addr - c.base_addr
    if real_addr % 4 ≠ 0 then .error (Fault.message ("Alignment error at 0x" ++ toString addr))
    else
      match mem32s_get c.mem8 (some real_addr) with
      | some virtual_addr =>
        insert_imports c (fun k => if k = virtual_addr then some name else imports k) rest
      | none => insert_imports c imports rest

/-- The CPU after `init_cpu` and the image copy `mem8.set(new Uint8Array(bin), 0)`:
zeroed memory and registers, the image at offset 0, ESP at `stack_addr`. -/
def init_cpu (bin : List Int) (base_addr : Int) : Cpu where
  mem8 := fun i => if 0 ≤ i then bin.getD i.toNat 0 else 0
  reg32s := fun r => if r = reg_esp then toInt32 BASE_STACK_ADDR else 0
  base_addr := base_addr
  instruction_pointer := some 0
  previous_ip := some 0
  flags := 0
  flags_changed := 0
  last_op1 := some 0
  last_op2 := some 0
  last_op_size := 0
  last_result := some 0
  last_add_result := some 0
  address_size_32 := true
  timestamp_counter := 0
  last_instr_jump := false

/-- Source: the constructor `Win32Runtime(bin, base_addr, import_offsets, exports)`,
for an image that fits the memory; `none` when `insert_hooks` throws. -/
def new_runtime (bin : List Int) (base_addr : Int) (import_offsets : List (Int × String)) :
    Option Runtime :=
  let c := init_cpu bin base_addr
  match insert_imports c (fun _ => none) import_offsets with
  | .ok imports =>
    some { cpu := c, imports := imports, stack_addr := BASE_STACK_ADDR,
           halt_instructions := false, function_call_done := false,
           map := initial_map base_addr bin.length }
  | .error _ => none

/-- The runtime built from an image with no imports. -/
def fresh (bin : List Int) (base_addr : Int) : Runtime :=
  { cpu := init_cpu bin base_addr, imports := fun _ => none, stack_addr := BASE_STACK_ADDR,
    halt_instructions := false, function_call_done := false,
    map := initial_map base_addr bin.length }

/-- The object `WIN32API` with no method. -/
def no_api : Api := fun _ => none

/-! ## Reading a scenario off a state -/

/-- A host handler of the shape `function(rt, cpu) { rt.cpu.reg32[reg_eax] = S;
rt.instruction_ret(arg_size); }`. -/
def hook_const (S : Int) (arg_size : Int) : M Unit := fun rt =>
  instruction_ret arg_size { rt with cpu := rt.cpu.setReg reg_eax (some S) }

/-- The addresses at which the cycles of the loop of `stdcall` start, in order:
the value of `instruction_pointer` that each `cycle()` copies into
`previous_ip` before it fetches its opcode there. Same loop as `run_cycles`. -/
def cycle_starts (api : Api) : Nat → Runtime → List JsNum
  | 0, _ => []
  | left + 1, rt =>
    if rt.function_call_done || rt.halt_instructions then []
    else
      rt.cpu.instruction_pointer ::
        match cycle api rt with
        | Res.ok _ rt1 => cycle_starts api left rt1
        | Res.throw _ _ => []

/-- The runtime after `n` passes of the loop of `stdcall`, each of them entered
(neither flag set) and its cycle returning; `none` if the loop stops or a cycle
throws before that. -/
def cycles_n (api : Api) : Nat → Runtime → Option Runtime
  | 0, rt => some rt
  | n + 1, rt =>
    if rt.function_call_done || rt.halt_instructions then none
    else
      match cycle api rt with
      | Res.ok _ rt1 => cycles_n api n rt1
      | Res.throw _ _ => none

/-- The bytes `bytes` stand in the memory at the guest addresses `t`, `t + 1`, ...
(each inside the memory). -/
def code_at (m : Mem8) (base_addr : Int) (t : Int) : List Int → Prop
  | [] => True
  | b :: rest => mem8_get m (some (t - base_addr)) = some b ∧ code_at m base_addr (t + 1) rest

instance code_at_decidable (m : Mem8) (base_addr : Int) :
    (t : Int) → (bytes : List Int) → Decidable (code_at m base_addr t bytes)
  | _, [] => isTrue trivial
  | t, _ :: rest =>
    @instDecidableAnd _ _ _ (code_at_decidable m base_addr (t + 1) rest)

/-- The unsigned 32-bit value of four little-endian bytes. -/
def le32 (b0 b1 b2 b3 : Int) : Int := b0 + b1 * 256 + b2 * 65536 + b3 * 16777216

/-- Modelled on the claim: the register id of the base of a 32-bit ModR/M
encoding with mod in {0,1,2}; `tail k` is byte `k` after the ModR/M byte, so
with rm = 4 the SIB byte is `tail 0` and its low three bits name the base. -/
def x86_base_id (modrm : Int) (tail : Nat → Int) : Int :=
  if modrm % 8 = 4 then tail 0 % 8 else modrm % 8

/-- Modelled on the claim: the size in bytes of the displacement: with mod = 0
a disp32 exactly when the base id is 5 (it then stands for the base), with
mod = 1 a disp8, with mod = 2 a disp32. -/
def x86_disp_size (modrm : Int) (tail : Nat → Int) : Nat :=
  if modrm / 64 = 0 then (if x86_base_id modrm tail = 5 then 4 else 0)
  else if modrm / 64 = 1 then 1
  else 4

/-- Modelled on the claim: the number of SIB and displacement bytes of the
encoding. -/
def x86_modrm_length (modrm : Int) (tail : Nat → Int) : Nat :=
  (if modrm % 8 = 4 then 1 else 0) + x86_disp_size modrm tail

/-- Modelled on the claim: the sign-extended displacement of `size` bytes that
starts at byte `k` after the ModR/M byte. -/
def x86_disp (size : Nat) (tail : Nat → Int) (k : Nat) : Int :=
  if size = 1 then (tail k + 128) % 256 - 128
  else if size = 4 then
    toInt32 (le32 (tail k) (tail (k + 1)) (tail (k + 2)) (tail (k + 3)))
  else 0

/-- Modelled on the claim: the x86 effective address of a 32-bit ModR/M
encoding with mod in {0,1,2}, before its reduction modulo 2^32: base register
(none when mod = 0 and the base id is 5), plus index register times 2^scale
(only with a SIB byte whose index is not 4), plus the displacement. `reg` gives
the contents of the eight registers. -/
def x86_effective_address (reg : Nat → Int) (modrm : Int) (tail : Nat → Int) : Int :=
  let sib := tail 0
  let base_part : Int :=
    if modrm / 64 = 0 ∧ x86_base_id modrm tail = 5 then 0
    else reg (x86_base_id modrm tail).toNat
  let index_part : Int :=
    if modrm % 8 = 4 ∧ sib / 8 % 8 ≠ 4 then reg (sib / 8 % 8).toNat * 2 ^ (sib / 64).toNat
    else 0
  base_part + index_part
    + x86_disp (x86_disp_size modrm tail) tail (if modrm % 8 = 4 then 1 else 0)

/-! ## Test images -/

/-- A runtime with base 0x70000000 whose memory window crosses 2^31: ESP holds
0x80000000 (-2^31 in the signed view), the dword at [ESP] is 0x10, and the
instruction pointer stands on `RET 0` (C2 00 00) at the base. -/
def esp_high_state : Runtime :=
  let rt := fresh [0xC2, 0x00, 0x00] 0x70000000
  { rt with cpu := { rt.cpu with
      instruction_pointer := some 0x70000000
      reg32s := fun r => if r = reg_esp then -2147483648 else 0
      mem8 := fun i => if i = 0x10000000 then 0x10 else rt.cpu.mem8 i } }

/-- A runtime with base 0x10000000 and ESP at `BASE_STACK_ADDR - 12`, the dword
at [ESP] being 0x10000003, and the instruction pointer on `RET 8` (C2 08 00). -/
def ret8_state : Runtime :=
  let rt := fresh [0xC2, 0x08, 0x00] 0x10000000
  { rt with cpu := { rt.cpu with
      instruction_pointer := some 0x10000000
      reg32s := fun r => if r = reg_esp then 0x10157FF4 else 0
      mem8 := fun i =>
        if i = 0x157FF4 then 0x03 else if i = 0x157FF7 then 0x10 else rt.cpu.mem8 i } }

/-- The routine `PUSH EBP; MOV EBP,ESP; MOV EAX,[EBP+8]; ADD EAX,1; LEAVE; RET`. -/
def routine_add1 : List Int :=
  [0x55, 0x89, 0xE5, 0x8B, 0x45, 0x08, 0x83, 0xC0, 0x01, 0xC9, 0xC3]

/-- The range list of a 0x1000-byte image at 0x10000000 after three `alloc(8)`
(at 0x10158028, 0x10158030 and 0x10158038) and `free(0x10158028)`: the block at
0x10158030 has an 8-byte hole below it and the block at 0x10158038 right above. -/
def holed_map : List Range :=
  (free (alloc (alloc (alloc (initial_map 0x10000000 0x1000) 8).map 8).map 8).map
    0x10158028).map

/-- A runtime at base 0x10000000 whose image is the code `bin`, with EAX holding
0x10001000 and `imports[0x10001000]` naming `GetTickCount`. -/
def import_call_state (bin : List Int) : Runtime :=
  let rt := fresh bin 0x10000000
  { rt with
    cpu := rt.cpu.setReg reg_eax (some 0x10001000)
    imports := fun k => if k = 0x10001000 then some "GetTickCount" else none }

/-- The runtime `import_call_state bin` with `imports[0x10001000]` naming
`name`. -/
def named_import_state (name : String) (bin : List Int) : Runtime :=
  { import_call_state bin with
    imports := fun k => if k = 0x10001000 then some name else none }

/-- The CPU after `init_cpu` on the image `bytes` at base 0x10000000, with the
instruction pointer on the first byte and the given EAX and ECX. -/
def modrm_state (bytes : List Int) (eax ecx : Int) : Cpu :=
  { init_cpu bytes 0x10000000 with
    instruction_pointer := some 0x10000000
    reg32s := fun r => if r = reg_eax then eax else if r = reg_ecx then ecx else 0 }

/-- The bytes of a list as the bytes that follow a ModR/M byte. -/
def tail_of (bytes : List Int) (i : Nat) : Int := bytes.getD i 0

/-- A runtime at base 0x10000000 over the image `bytes`, with the instruction
pointer on the first byte, EBP = `ebp` and the other registers 0. -/
def group1_state (bytes : List Int) (ebp : Int) : Runtime :=
  let rt := fresh bytes 0x10000000
  { rt with cpu := { rt.cpu with
      instruction_pointer := some 0x10000000
      reg32s := fun r => if r = reg_ebp then ebp else 0 } }

end Win32Runtime

/-!
# `granny2_runtime.js`: the `v86` wrapper

The same conventions as above. The object's `translate_address_read` and
`translate_address_write` are called by this file but defined outside it (the
runtime that owns the CPU installs them), so they are fields of the state.
-/

namespace Granny2Runtime

open Win32Runtime

/-! ## Constants and state -/

def OPSIZE_8 : Int := 7
def OPSIZE_16 : Int := 15
def OPSIZE_32 : Int := 31

def flag_direction : Int := 1024

def REPEAT_STRING_PREFIX_NONE : Int := 0
def REPEAT_STRING_PREFIX_NZ : Int := 1
def REPEAT_STRING_PREFIX_Z : Int := 2

/-- The expression `(x << 24) >> 24` on an int32. -/
def sext8 (x : Int) : Int := (x + 128) % 256 - 128

/-- The expression `(x << 16) >> 16` on an int32. -/
def sext16 (x : Int) : Int := (x + 32768) % 65536 - 32768

/-- The number of low bits to drop from `a` so that at most 53 bits remain;
`fuel` bounds the search, and `a` itself is enough fuel. -/
def excess_bits : Nat → Nat → Nat
  | 0, _ => 0
  | fuel + 1, a => if a < 2 ^ 53 then 0 else excess_bits fuel (a / 2) + 1

/-- The expression `Number(x)` on a BigInt: `x` itself up to 2^53, beyond that
the nearest number with a 53-bit significand, ties to even. -/
def bigint_to_number (x : Int) : Int :=
  let a := x.natAbs
  if a < 2 ^ 53 then x
  else
    let e := excess_bits a a
    let q := a / 2 ^ e
    let r := a % 2 ^ e
    let q := if 2 * r > 2 ^ e ∨ (2 * r = 2 ^ e ∧ q % 2 = 1) then q + 1 else q
    if x < 0 then -((q * 2 ^ e : Nat) : Int) else ((q * 2 ^ e : Nat) : Int)

/-- The fields of the `v86` object that the handlers of this model touch, and
the two address translations installed on it from outside. -/
structure Cpu where
  mem8 : Mem8
  reg32s : Nat → Int
  instruction_pointer : JsNum
  previous_ip : JsNum
  flags : Int
  flags_changed : Int
  last_op1 : JsNum
  last_op2 : JsNum
  last_op_size : Int
  last_result : JsNum
  last_add_result : JsNum
  address_size_32 : Bool
  timestamp_counter : Int
  last_instr_jump : Bool
  repeat_string_prefix : Int
  translate_address_read : JsNum → JsNum
  translate_address_write : JsNum → JsNum

/-- What the code throws. -/
inductive Fault where
  /-- `new Error("Unimplemented opcode: 0x.. at 0x..")` of `cycle`. -/
  | unimplementedOpcode (opcode : Int) (previous_ip : JsNum)
  /-- `new Error("Unimplemented 0x0F opcode: 0x..")`. -/
  | unimplemented0F (opcode2 : Int)
  /-- TypeError of `opcode.toString(16)` on an `undefined` opcode. -/
  | typeError
  /-- `new Error("Division by zero")`. -/
  | divisionByZero
  /-- Not thrown by the code: the table entry of `opcode` is a handler that this
  model does not cover. -/
  | notModelled (opcode : Int)
  deriving DecidableEq, Repr

/-- A handler of the table: the new CPU, or a thrown fault with the CPU at the
throw. -/
abbrev CpuHandler := Cpu → Except (Fault × Cpu) Cpu

/-! ## The closures of `this.memory`

The buffer is `new ArrayBuffer(MAX_MEM_ADDR)` with the same `MAX_MEM_ADDR` as in
`win32runtime.js`, so the typed-array accesses `mem8_get`, `mem8_set` and
`mem32s_set` above are those of this file too. -/

def Memory.read8 (m : Mem8) (addr : JsNum) : JsNum := mem8_get m addr

def Memory.read16 (m : Mem8) (addr : JsNum) : Int :=
  byteOr0 (mem8_get m addr) + byteOr0 (mem8_get m (jsAdd addr (some 1))) * 256

def Memory.read32s (m : Mem8) (addr : JsNum) : Int :=
  toInt32 (byteOr0 (mem8_get m addr)
    + byteOr0 (mem8_get m (jsAdd addr (some 1))) * 256
    + byteOr0 (mem8_get m (jsAdd addr (some 2))) * 65536
    + byteOr0 (mem8_get m (jsAdd addr (some 3))) * 16777216)

def Memory.write8 (m : Mem8) (addr : JsNum) (value : JsNum) : Mem8 :=
  mem8_set m addr (JsNum.toInt32 value)

def Memory.write16 (m : Mem8) (addr : JsNum) (value : JsNum) : Mem8 :=
  let v := toUint32 (JsNum.toInt32 value)
  let m := mem8_set m addr (v % 256)
  mem8_set m (jsAdd addr (some 1)) (v / 256 % 256)

def Memory.write32 (m : Mem8) (addr : JsNum) (value : JsNum) : Mem8 :=
  let v := toUint32 (JsNum.toInt32 value)
  let m := mem8_set m addr (v % 256)
  let m := mem8_set m (jsAdd addr (some 1)) (v / 256 % 256)
  let m := mem8_set m (jsAdd addr (some 2)) (v / 65536 % 256)
  mem8_set m (jsAdd addr (some 3)) (v / 16777216 % 256)

/-- Source: `self.memory.mem32s[addr] = value`; element `addr` of the
`Int32Array` is the dword at byte offset `4 * addr`. -/
def Memory.write_aligned32 (m : Mem8) (addr : JsNum) (value : JsNum) : Mem8 :=
  match addr with
  | some i => mem32s_set m (some (4 * i)) value
  | none => m

/-! ## `v86.prototype.*` helpers -/

/-- The statement `cpu.reg32s[r] = v`. -/
def Cpu.setReg (c : Cpu) (r : Nat) (v : JsNum) : Cpu :=
  { c with reg32s := fun k => if k = r then JsNum.toInt32 v else c.reg32s k }

def Cpu.safe_read8 (c : Cpu) (addr : JsNum) : JsNum :=
  Memory.read8 c.mem8 (c.translate_address_read addr)

def Cpu.safe_read16 (c : Cpu) (addr : JsNum) : Int :=
  Memory.read16 c.mem8 (c.translate_address_read addr)

def Cpu.safe_read32s (c : Cpu) (addr : JsNum) : Int :=
  Memory.read32s c.mem8 (c.translate_address_read addr)

def Cpu.read_imm8 (c : Cpu) : JsNum × Cpu :=
  let value := Memory.read8 c.mem8 (c.translate_address_read c.instruction_pointer)
  (value, { c with instruction_pointer := jsAdd c.instruction_pointer (some 1) })

/-- Source: `value < 128 ? value : value - 256`; on `undefined` the comparison
is false and the difference is `NaN`. -/
def Cpu.read_imm8s (c : Cpu) : JsNum × Cpu :=
  let (value, c) := c.read_imm8
  match value with
  | some v => (some (if v < 128 then v else v - 256), c)
  | none => (none, c)

def Cpu.read_imm16 (c : Cpu) : Int × Cpu :=
  let value := Memory.read16 c.mem8 (c.translate_address_read c.instruction_pointer)
  (value, { c with instruction_pointer := jsAdd c.instruction_pointer (some 2) })

def Cpu.read_imm32s (c : Cpu) : Int × Cpu :=
  let value := Memory.read32s c.mem8 (c.translate_address_read c.instruction_pointer)
  (value, { c with instruction_pointer := jsAdd c.instruction_pointer (some 4) })

/-- Source: `v86.prototype.sub`. It records the operands and the difference for
a later flag computation; the field `flags` is not written. -/
def Cpu.sub (c : Cpu) (dest : JsNum) (src : JsNum) (size : Int) : JsNum × Cpu :=
  let r : JsNum := jsSub dest src
  (r, { c with flags_changed := flags_all, last_op1 := dest, last_op2 := src,
               last_op_size := size, last_result := r, last_add_result := r })

def Cpu.safe_write8 (c : Cpu) (addr : JsNum) (value : JsNum) : Cpu :=
  { c with mem8 := Memory.write8 c.mem8 (c.translate_address_write addr) value }

def Cpu.safe_write32 (c : Cpu) (addr : JsNum) (value : JsNum) : Cpu :=
  { c with mem8 := Memory.write32 c.mem8 (c.translate_address_write addr) value }

/-- Source: `reg32s[reg_esp] -= 4; safe_write32(reg32s[reg_esp], value)`. -/
def Cpu.push32 (c : Cpu) (value : JsNum) : Cpu :=
  let c := c.setReg reg_esp (some (c.reg32s reg_esp - 4))
  c.safe_write32 (some (c.reg32s reg_esp)) value

/-- Source: `value = safe_read32s(reg32s[reg_esp]); reg32s[reg_esp] += 4`. -/
def Cpu.pop32 (c : Cpu) : Int × Cpu :=
  let value := c.safe_read32s (some (c.reg32s reg_esp))
  (value, c.setReg reg_esp (some (c.reg32s reg_esp + 4)))

/-- Source: `v86.prototype.and`. -/
def Cpu.and (c : Cpu) (dest : JsNum) (src : JsNum) (size : Int) : JsNum × Cpu :=
  let r : JsNum := some (bitAnd (JsNum.toInt32 dest) (JsNum.toInt32 src))
  (r, { c with flags_changed := flags_logic, flags := clearOC c.flags, last_op_size := size,
               last_result := r })

/-- The expression `(cpu.flags & flag_direction) ? -k : k` of the string
handlers. -/
def Cpu.string_step (c : Cpu) (k : Int) : Int :=
  if bitAnd c.flags flag_direction ≠ 0 then -k else k

/-- Source: `v86.prototype._sib_resolve`. -/
def Cpu._sib_resolve (c : Cpu) (mod : Int) : Int × Cpu :=
  let (sibv, c) := c.read_imm8
  let sib := byteOr0 sibv
  let scale : Int := 2 ^ (sib / 64).toNat
  let index := sib / 8 % 8
  let base := sib % 8
  let (result, c) :=
    if base = 5 ∧ mod = 0 then c.read_imm32s else (c.reg32s base.toNat, c)
  let result := if index ≠ 4 then result + c.reg32s index.toNat * scale else result
  (result, c)

/-- Source: `v86.prototype.modrm_resolve`; its local table `base_regs` is the
one of `win32runtime.js`. The result is a plain JavaScript sum. -/
def Cpu.modrm_resolve (c : Cpu) (modrm_byte : Int) : JsNum × Cpu :=
  let mod := modrm_byte / 64
  let rm := modrm_byte % 8
  if mod = 3 then (some (c.reg32s rm.toNat), c)
  else if c.address_size_32 then
    let (result, c) :=
      if rm = 4 then c._sib_resolve mod
      else if rm = 5 ∧ mod = 0 then c.read_imm32s
      else (c.reg32s rm.toNat, c)
    if mod = 1 then
      let (d, c) := c.read_imm8s
      (jsAdd (some result) d, c)
    else if mod = 2 then
      let (d, c) := c.read_imm32s
      (some (result + d), c)
    else (some result, c)
  else
    let (result, c) :=
      if rm = 6 ∧ mod = 0 then c.read_imm16
      else
        let pair := base_regs rm
        let r := c.reg32s pair.1
        match pair.2 with
        | some r2 => (r + c.reg32s r2, c)
        | none => (r, c)
    if mod = 1 then
      let (d, c) := c.read_imm8s
      (jsAdd (some result) d, c)
    else if mod = 2 then
      let (d, c) := c.read_imm16
      (some (result + d), c)
    else (some result, c)

/-! ## The opcode table built by `v86.prototype._init_instruction_table` -/

/-- The array `jcc_conditions` of predicates on `cpu.flags`. -/
def jcc_conditions (cond : Int) (flags : Int) : Bool :=
  let fo := bitAnd flags flag_overflow
  let fc := bitAnd flags flag_carry
  let fz := bitAnd flags flag_zero
  let fs := bitAnd flags flag_sign
  let fp := bitAnd flags flag_parity
  if cond = 0 then fo ≠ 0
  else if cond = 1 then fo = 0
  else if cond = 2 then fc ≠ 0
  else if cond = 3 then fc = 0
  else if cond = 4 then fz ≠ 0
  else if cond = 5 then fz = 0
  else if cond = 6 then bitOr fc fz ≠ 0
  else if cond = 7 then bitOr fc fz = 0
  else if cond = 8 then fs ≠ 0
  else if cond = 9 then fs = 0
  else if cond = 10 then fp ≠ 0
  else if cond = 11 then fp = 0
  else if cond = 12 then decide (fs ≠ 0) != decide (fo ≠ 0)
  else if cond = 13 then decide (fs ≠ 0) == decide (fo ≠ 0)
  else if cond = 14 then decide (fz ≠ 0) || (decide (fs ≠ 0) != decide (fo ≠ 0))
  else decide (fz = 0) && (decide (fs ≠ 0) == decide (fo ≠ 0))

/-- The branch shared by Jcc rel8 and Jcc rel32:
`if (jcc_conditions[cond](cpu)) { cpu.instruction_pointer += offset;
cpu.last_instr_jump = true; }`. -/
def Cpu.jcc (c : Cpu) (cond : Int) (offset : JsNum) : Cpu :=
  if jcc_conditions cond c.flags then
    { c with instruction_pointer := jsAdd c.instruction_pointer offset, last_instr_jump := true }
  else c

/-- The operand `modrm >= 0xC0 ? cpu.reg32s[modrm & 7] :
cpu.safe_read32s(cpu.modrm_resolve(modrm))`. -/
def Cpu.read_rm32 (c : Cpu) (modrm : Int) : Int × Cpu :=
  if modrm ≥ 0xC0 then (c.reg32s (modrm % 8).toNat, c)
  else
    let (addr, c) := c.modrm_resolve modrm
    (c.safe_read32s addr, c)

/-- The operand `modrm >= 0xC0 ? view[modrm & 7] :
cpu.safe_read8(cpu.modrm_resolve(modrm))`, for `view` one of `reg8`, `reg8s`. -/
def Cpu.read_rm8 (c : Cpu) (view : (Nat → Int) → Nat → JsNum) (modrm : Int) : JsNum × Cpu :=
  if modrm ≥ 0xC0 then (view c.reg32s (modrm % 8).toNat, c)
  else
    let (addr, c) := c.modrm_resolve modrm
    (c.safe_read8 addr, c)

/-- The operand `modrm >= 0xC0 ? view[modrm & 7] :
cpu.safe_read16(cpu.modrm_resolve(modrm))`, for `view` one of `reg16`, `reg16s`. -/
def Cpu.read_rm16 (c : Cpu) (view : (Nat → Int) → Nat → JsNum) (modrm : Int) : JsNum × Cpu :=
  if modrm ≥ 0xC0 then (view c.reg32s (modrm % 8).toNat, c)
  else
    let (addr, c) := c.modrm_resolve modrm
    (some (c.safe_read16 addr), c)

/-- CMP r32, r/m32, `t[0x3B]`. -/
def op_3B : CpuHandler := fun c =>
  let (modrmv, c) := c.read_imm8
  let modrm := byteOr0 modrmv
  let reg := (modrm / 8 % 8).toNat
  let (src, c) := c.read_rm32 modrm
  .ok (c.sub (some (c.reg32s reg)) (some src) OPSIZE_32).2

/-- Jcc rel8, `t[0x70 + cond]`. -/
def op_jcc_rel8 (cond : Int) : CpuHandler := fun c =>
  let (offset, c) := c.read_imm8s
  .ok (c.jcc cond offset)

/-- The two-byte opcodes, `t[0x0F]`: Jcc rel32, IMUL, MOVZX and MOVSX; any
other second byte throws, and an `undefined` one fails every comparison and
then `opcode2.toString(16)`. -/
def op_0F : CpuHandler := fun c =>
  let (opcode2v, c) := c.read_imm8
  match opcode2v with
  | none => .error (Fault.typeError, c)
  | some opcode2 =>
    if opcode2 ≥ 0x80 ∧ opcode2 ≤ 0x8F then
      let cond := opcode2 - 0x80
      let (offset, c) := c.read_imm32s
      .ok (c.jcc cond (some offset))
    else if opcode2 = 0xAF then
      let (modrmv, c) := c.read_imm8
      let modrm := byteOr0 modrmv
      let reg := (modrm / 8 % 8).toNat
      let (src, c) := c.read_rm32 modrm
      .ok (c.setReg reg (some (toInt32 (c.reg32s reg) * toInt32 src)))
    else if opcode2 = 0xB6 then
      let (modrmv, c) := c.read_imm8
      let modrm := byteOr0 modrmv
      let reg := (modrm / 8 % 8).toNat
      let (src, c) := c.read_rm8 reg8_get modrm
      .ok (c.setReg reg (some (bitAnd (JsNum.toInt32 src) 0xFF)))
    else if opcode2 = 0xB7 then
      let (modrmv, c) := c.read_imm8
      let modrm := byteOr0 modrmv
      let reg := (modrm / 8 % 8).toNat
      let (src, c) := c.read_rm16 reg16_get modrm
      .ok (c.setReg reg (some (bitAnd (JsNum.toInt32 src) 0xFFFF)))
    else if opcode2 = 0xBE then
      let (modrmv, c) := c.read_imm8
      let modrm := byteOr0 modrmv
      let reg := (modrm / 8 % 8).toNat
      let (src, c) := c.read_rm8 reg8s_get modrm
      .ok (c.setReg reg (some ((JsNum.toInt32 src + 128) % 256 - 128)))
    else if opcode2 = 0xBF then
      let (modrmv, c) := c.read_imm8
      let modrm := byteOr0 modrmv
      let reg := (modrm / 8 % 8).toNat
      let (src, c) := c.read_rm16 reg16s_get modrm
      .ok (c.setReg reg (some ((JsNum.toInt32 src + 32768) % 65536 - 32768)))
    else .error (Fault.unimplemented0F opcode2, c)

/-- MOV r8, imm8, `t[0xB0 + reg]`: `cpu.reg8[reg] = cpu.read_imm8()`. -/
def op_mov_r8_imm8 (reg : Nat) : CpuHandler := fun c =>
  let (value, c) := c.read_imm8
  .ok { c with reg32s := reg8_set c.reg32s reg value }

/-- SAHF, `t[0x9E]`: `ah = cpu.reg8[reg_eax + 4];
cpu.flags = (cpu.flags & ~0xFF) | (ah & 0xD5) | 0x02`. -/
def op_9E : CpuHandler := fun c =>
  let ah := reg8_get c.reg32s (reg_eax + 4)
  .ok { c with flags := bitOr (bitOr (bitAnd c.flags (-256)) (bitAnd (JsNum.toInt32 ah) 0xD5)) 2 }

/-- LAHF, `t[0x9F]`: `cpu.reg8[reg_eax + 4] = cpu.flags & 0xFF`. -/
def op_9F : CpuHandler := fun c =>
  .ok { c with reg32s := reg8_set c.reg32s (reg_eax + 4) (some (bitAnd c.flags 0xFF)) }

/-- MOV r32, imm32, `t[0xB8 + reg]`. -/
def op_mov_r32_imm32 (reg : Nat) : CpuHandler := fun c =>
  let (value, c) := c.read_imm32s
  .ok (c.setReg reg (some value))

/-- PUSHFD, `t[0x9C]`. -/
def op_9C : CpuHandler := fun c => .ok (c.push32 (some c.flags))

/-- POPFD, `t[0x9D]`. -/
def op_9D : CpuHandler := fun c =>
  let (value, c) := c.pop32
  .ok { c with flags := value }

/-- MOVSB, `t[0xA4]`. -/
def op_A4 : CpuHandler := fun c =>
  let src := c.reg32s reg_esi
  let dst := c.reg32s reg_edi
  let size := c.string_step 1
  let c := c.safe_write8 (some dst) (c.safe_read8 (some src))
  let c := c.setReg reg_esi (some (c.reg32s reg_esi + size))
  .ok (c.setReg reg_edi (some (c.reg32s reg_edi + size)))

/-- MOVSD, `t[0xA5]`. -/
def op_A5 : CpuHandler := fun c =>
  let src := c.reg32s reg_esi
  let dst := c.reg32s reg_edi
  let size := c.string_step 4
  let c := c.safe_write32 (some dst) (some (c.safe_read32s (some src)))
  let c := c.setReg reg_esi (some (c.reg32s reg_esi + size))
  .ok (c.setReg reg_edi (some (c.reg32s reg_edi + size)))

/-- CMPSB, `t[0xA6]`. -/
def op_A6 : CpuHandler := fun c =>
  let src := c.reg32s reg_esi
  let dst := c.reg32s reg_edi
  let size := c.string_step 1
  let c := (c.sub (c.safe_read8 (some src)) (c.safe_read8 (some dst)) OPSIZE_8).2
  let c := c.setReg reg_esi (some (c.reg32s reg_esi + size))
  .ok (c.setReg reg_edi (some (c.reg32s reg_edi + size)))

/-- STOSB, `t[0xAA]`. -/
def op_AA : CpuHandler := fun c =>
  let dst := c.reg32s reg_edi
  let size := c.string_step 1
  let c := c.safe_write8 (some dst) (reg8_get c.reg32s reg_eax)
  .ok (c.setReg reg_edi (some (c.reg32s reg_edi + size)))

/-- STOSD, `t[0xAB]`. -/
def op_AB : CpuHandler := fun c =>
  let dst := c.reg32s reg_edi
  let size := c.string_step 4
  let c := c.safe_write32 (some dst) (some (c.reg32s reg_eax))
  .ok (c.setReg reg_edi (some (c.reg32s reg_edi + size)))

/-- LODSB, `t[0xAC]`. -/
def op_AC : CpuHandler := fun c =>
  let src := c.reg32s reg_esi
  let size := c.string_step 1
  let c := { c with reg32s := reg8_set c.reg32s reg_eax (c.safe_read8 (some src)) }
  .ok (c.setReg reg_esi (some (c.reg32s reg_esi + size)))

/-- LODSD, `t[0xAD]`. -/
def op_AD : CpuHandler := fun c =>
  let src := c.reg32s reg_esi
  let size := c.string_step 4
  let c := c.setReg reg_eax (some (c.safe_read32s (some src)))
  .ok (c.setReg reg_esi (some (c.reg32s reg_esi + size)))

/-- SCASB, `t[0xAE]`. -/
def op_AE : CpuHandler := fun c =>
  let dst := c.reg32s reg_edi
  let size := c.string_step 1
  let c := (c.sub (reg8_get c.reg32s reg_eax) (c.safe_read8 (some dst)) OPSIZE_8).2
  .ok (c.setReg reg_edi (some (c.reg32s reg_edi + size)))

/-- SCASD, `t[0xAF]`. -/
def op_AF : CpuHandler := fun c =>
  let dst := c.reg32s reg_edi
  let size := c.string_step 4
  let c := (c.sub (some (c.reg32s reg_eax)) (some (c.safe_read32s (some dst))) OPSIZE_32).2
  .ok (c.setReg reg_edi (some (c.reg32s reg_edi + size)))

/-- The loop `while (count > 0) { t[next](cpu); count--; cpu.reg32[reg_ecx] =
count; }` of REP, on the local `count`. -/
def rep_loop (handler : CpuHandler) : Nat → Cpu → Except (Fault × Cpu) Cpu
  | 0, c => .ok c
  | count + 1, c =>
    match handler c with
    | .ok c => rep_loop handler count (c.setReg reg_ecx (some count))
    | .error e => .error e

/-- The loop of REPE: as `rep_loop`, with `if (!(cpu.flags & flag_zero)) break`
at the end of the body. -/
def repe_loop (handler : CpuHandler) : Nat → Cpu → Except (Fault × Cpu) Cpu
  | 0, c => .ok c
  | count + 1, c =>
    match handler c with
    | .ok c =>
      let c := c.setReg reg_ecx (some count)
      if bitAnd c.flags flag_zero = 0 then .ok c else repe_loop handler count c
    | .error e => .error e

/-- The loop of REPNE: `while (count > 0 && !(cpu.flags & flag_zero)) {
cpu.instruction_pointer--; t[next](cpu); count--; cpu.reg32[reg_ecx] = count;
if (cpu.last_instr_jump) break; }`. -/
def repne_loop (handler : CpuHandler) : Nat → Cpu → Except (Fault × Cpu) Cpu
  | 0, c => .ok c
  | count + 1, c =>
    if bitAnd c.flags flag_zero ≠ 0 then .ok c
    else
      let c := { c with instruction_pointer := jsSub c.instruction_pointer (some 1) }
      match handler c with
      | .ok c =>
        let c := c.setReg reg_ecx (some count)
        if c.last_instr_jump then .ok c else repne_loop handler count c
      | .error e => .error e

/-- REPNE, `t[0xF2]`, with `t` the table it calls back into. -/
def op_F2 (t : Int → Option CpuHandler) : CpuHandler := fun c =>
  let c := { c with repeat_string_prefix := REPEAT_STRING_PREFIX_NZ }
  let (next, c) := c.read_imm8
  let r : Except (Fault × Cpu) Cpu :=
    match next with
    | none => .ok c
    | some next =>
      match t next with
      | none => .ok c
      | some handler => repne_loop handler (toUint32 (c.reg32s reg_ecx)).toNat c
  match r with
  | .ok c => .ok { c with repeat_string_prefix := REPEAT_STRING_PREFIX_NONE }
  | .error e => .error e

/-- REP/REPE, `t[0xF3]`, with `t` the table it calls back into. -/
def op_F3 (t : Int → Option CpuHandler) : CpuHandler := fun c =>
  let c := { c with repeat_string_prefix := REPEAT_STRING_PREFIX_Z }
  let (next, c) := c.read_imm8
  let r : Except (Fault × Cpu) Cpu :=
    match next with
    | none => .ok c
    | some next =>
      match t next with
      | none => .ok c
      | some handler =>
        let count := (toUint32 (c.reg32s reg_ecx)).toNat
        if next = 0xA4 ∨ next = 0xA5 ∨ next = 0xAA ∨ next = 0xAB ∨ next = 0xAC ∨ next = 0xAD then
          rep_loop handler count c
        else if next = 0xA6 ∨ next = 0xAE ∨ next = 0xAF then repe_loop handler count c
        else handler c
  match r with
  | .ok c => .ok { c with repeat_string_prefix := REPEAT_STRING_PREFIX_NONE }
  | .error e => .error e

/-- The write-back `if (modrm >= 0xC0) cpu.reg8[modrm & 7] = result; else
cpu.safe_write8(addr, result)`. -/
def Cpu.write_rm8 (c : Cpu) (modrm : Int) (addr : JsNum) (result : JsNum) : Cpu :=
  if modrm ≥ 0xC0 then { c with reg32s := reg8_set c.reg32s (modrm % 8).toNat result }
  else c.safe_write8 addr result

/-- The write-back `if (modrm >= 0xC0) cpu.reg32s[modrm & 7] = result; else
cpu.safe_write32(addr, result)`. -/
def Cpu.write_rm32 (c : Cpu) (modrm : Int) (addr : JsNum) (result : JsNum) : Cpu :=
  if modrm ≥ 0xC0 then c.setReg (modrm % 8).toNat result
  else c.safe_write32 addr result

/-- The group `t[0xF6]`: TEST, NOT, NEG, MUL, IMUL, DIV and IDIV on r/m8. -/
def op_F6 : CpuHandler := fun c =>
  let (modrmv, c) := c.read_imm8
  let modrm := byteOr0 modrmv
  let op := modrm / 8 % 8
  let (dest, addr, c) : JsNum × JsNum × Cpu :=
    if modrm ≥ 0xC0 then (reg8_get c.reg32s (modrm % 8).toNat, none, c)
    else
      let (addr, c) := c.modrm_resolve modrm
      (c.safe_read8 addr, addr, c)
  if op = 0 ∨ op = 1 then
    let (imm, c) := c.read_imm8
    .ok (c.and dest imm OPSIZE_8).2
  else if op = 2 then
    .ok (c.write_rm8 modrm addr (some (bitAnd (-(JsNum.toInt32 dest) - 1) 0xFF)))
  else if op = 3 then
    let (r, c) := c.sub (some 0) dest OPSIZE_8
    .ok (c.write_rm8 modrm addr (some (bitAnd (JsNum.toInt32 r) 0xFF)))
  else if op = 4 then
    let result := jsMul (reg8_get c.reg32s reg_eax) dest
    let r := reg16_set c.reg32s reg_eax (some (bitAnd (JsNum.toInt32 result) 0xFFFF))
    .ok { c with reg32s := r }
  else if op = 5 then
    let result := sext8 (JsNum.toInt32 (reg8_get c.reg32s reg_eax)) * sext8 (JsNum.toInt32 dest)
    .ok { c with reg32s := reg16_set c.reg32s reg_eax (some (bitAnd (toInt32 result) 0xFFFF)) }
  else if op = 6 then
    if dest = some 0 then .error (Fault.divisionByZero, c)
    else
      let dividend := JsNum.toInt32 (reg16_get c.reg32s reg_eax)
      match dest with
      | some d =>
        let r := reg8_set c.reg32s reg_eax (some (toUint32 (dividend / d)))
        .ok { c with reg32s := reg8_set r (reg_eax + 4) (some (dividend % d)) }
      | none =>
        let r := reg8_set c.reg32s reg_eax (some 0)
        .ok { c with reg32s := reg8_set r (reg_eax + 4) none }
  else
    if dest = some 0 then .error (Fault.divisionByZero, c)
    else
      let dividend := sext16 (JsNum.toInt32 (reg16_get c.reg32s reg_eax))
      let divisor := sext8 (JsNum.toInt32 dest)
      if divisor = 0 then
        let r := reg8_set c.reg32s reg_eax (some 0)
        .ok { c with reg32s := reg8_set r (reg_eax + 4) none }
      else
        let r := reg8_set c.reg32s reg_eax (some (Int.tdiv dividend divisor))
        .ok { c with reg32s := reg8_set r (reg_eax + 4) (some (Int.tmod dividend divisor)) }

/-- The group `t[0xF7]`: TEST, NOT, NEG, MUL, IMUL, DIV and IDIV on r/m32. The
products, quotients and remainders are computed on BigInt values. -/
def op_F7 : CpuHandler := fun c =>
  let (modrmv, c) := c.read_imm8
  let modrm := byteOr0 modrmv
  let op := modrm / 8 % 8
  let (dest, addr, c) : Int × JsNum × Cpu :=
    if modrm ≥ 0xC0 then (c.reg32s (modrm % 8).toNat, none, c)
    else
      let (addr, c) := c.modrm_resolve modrm
      (c.safe_read32s addr, addr, c)
  if op = 0 ∨ op = 1 then
    let (imm, c) := c.read_imm32s
    .ok (c.and (some dest) (some imm) OPSIZE_32).2
  else if op = 2 then
    .ok (c.write_rm32 modrm addr (some (-(toInt32 dest) - 1)))
  else if op = 3 then
    let (r, c) := c.sub (some 0) (some dest) OPSIZE_32
    .ok (c.write_rm32 modrm addr r)
  else if op = 4 then
    let result := toUint32 (c.reg32s reg_eax) * toUint32 dest
    let c := c.setReg reg_eax (some (result % 4294967296))
    .ok (c.setReg reg_edx (some (result / 4294967296)))
  else if op = 5 then
    let result := c.reg32s reg_eax * dest
    let c := c.setReg reg_eax (some (result % 4294967296))
    .ok (c.setReg reg_edx (some (result / 4294967296)))
  else if op = 6 then
    if dest = 0 then .error (Fault.divisionByZero, c)
    else
      let dividend := toUint32 (c.reg32s reg_edx) * 4294967296 + toUint32 (c.reg32s reg_eax)
      let divisor := toUint32 dest
      let c := c.setReg reg_eax (some (bigint_to_number (dividend / divisor)))
      .ok (c.setReg reg_edx (some (bigint_to_number (dividend % divisor))))
  else
    if dest = 0 then .error (Fault.divisionByZero, c)
    else
      let dividend := c.reg32s reg_edx * 4294967296 + toUint32 (c.reg32s reg_eax)
      let divisor := dest
      let c := c.setReg reg_eax (some (bigint_to_number (Int.tdiv dividend divisor)))
      .ok (c.setReg reg_edx (some (bigint_to_number (Int.tmod dividend divisor))))

/-- The opcodes to which `_init_instruction_table` assigns a handler; every
other entry of the table stays `null`. -/
def registered (opcode : Int) : Bool :=
  decide ((0x00 ≤ opcode ∧ opcode ≤ 0x05) ∨ (0x08 ≤ opcode ∧ opcode ≤ 0x0D) ∨ opcode = 0x0F
    ∨ (0x20 ≤ opcode ∧ opcode ≤ 0x25) ∨ (0x28 ≤ opcode ∧ opcode ≤ 0x2D)
    ∨ (0x30 ≤ opcode ∧ opcode ≤ 0x35) ∨ (0x38 ≤ opcode ∧ opcode ≤ 0x3D)
    ∨ (0x40 ≤ opcode ∧ opcode ≤ 0x61) ∨ (0x64 ≤ opcode ∧ opcode ≤ 0x6B)
    ∨ (0x70 ≤ opcode ∧ opcode ≤ 0x81) ∨ (0x83 ≤ opcode ∧ opcode ≤ 0x99)
    ∨ (0x9C ≤ opcode ∧ opcode ≤ 0xA6) ∨ (0xA8 ≤ opcode ∧ opcode ≤ 0xC3)
    ∨ (0xC6 ≤ opcode ∧ opcode ≤ 0xC7) ∨ opcode = 0xC9
    ∨ (0xD0 ≤ opcode ∧ opcode ≤ 0xD1) ∨ opcode = 0xD3
    ∨ (0xE8 ≤ opcode ∧ opcode ≤ 0xE9) ∨ opcode = 0xEB
    ∨ (0xF2 ≤ opcode ∧ opcode ≤ 0xF3) ∨ (0xF6 ≤ opcode ∧ opcode ≤ 0xF9)
    ∨ (0xFC ≤ opcode ∧ opcode ≤ 0xFF))

/-- Stands for a handler that the table holds and this model does not cover. -/
def not_modelled (opcode : Int) : CpuHandler := fun c => .error (Fault.notModelled opcode, c)

/-- The table that `_init_instruction_table` fills, except for the prefix
handlers F2 and F3, which call back into the table (see `table32`). Covered
here: the two-byte opcodes (0F), CMP r32, r/m32 (3B), Jcc rel8 (70..7F), SAHF
(9E), LAHF (9F), MOV r8, imm8 (B0..B7), MOV r32, imm32 (B8..BF), PUSHFD (9C),
POPFD (9D), the string instructions (A4..A6, AA..AF) and the groups F6 and F7.
Any other registered opcode gives `not_modelled`; `none` is a `null` entry. -/
def _init_instruction_table (opcode : Int) : Option CpuHandler :=
  if opcode = 0x0F then some op_0F
  else if opcode = 0x3B then some op_3B
  else if 0x70 ≤ opcode ∧ opcode ≤ 0x7F then some (op_jcc_rel8 (opcode - 0x70))
  else if opcode = 0x9E then some op_9E
  else if opcode = 0x9F then some op_9F
  else if 0xB0 ≤ opcode ∧ opcode ≤ 0xB7 then some (op_mov_r8_imm8 (opcode - 0xB0).toNat)
  else if 0xB8 ≤ opcode ∧ opcode ≤ 0xBF then some (op_mov_r32_imm32 (opcode - 0xB8).toNat)
  else if opcode = 0x9C then some op_9C
  else if opcode = 0x9D then some op_9D
  else if opcode = 0xA4 then some op_A4
  else if opcode = 0xA5 then some op_A5
  else if opcode = 0xA6 then some op_A6
  else if opcode = 0xAA then some op_AA
  else if opcode = 0xAB then some op_AB
  else if opcode = 0xAC then some op_AC
  else if opcode = 0xAD then some op_AD
  else if opcode = 0xAE then some op_AE
  else if opcode = 0xAF then some op_AF
  else if opcode = 0xF6 then some op_F6
  else if opcode = 0xF7 then some op_F7
  else if registered opcode then some (not_modelled opcode)
  else none

/-- The table `t` = `this.table32` with the prefix handlers REPNE (F2) and
REP/REPE (F3), which look the next opcode up in the same table. `depth` bounds
how many prefix bytes may follow one another: at depth 0 the entries F2 and F3
are `not_modelled`. -/
def table32 : Nat → Int → Option CpuHandler
  | 0 => fun opcode => _init_instruction_table opcode
  | depth + 1 => fun opcode =>
    if opcode = 0xF2 then some (op_F2 (table32 depth))
    else if opcode = 0xF3 then some (op_F3 (table32 depth))
    else _init_instruction_table opcode

/-- Source: `v86.prototype.cycle`, on the table `table32`. An `undefined` opcode
(fetched outside the memory) finds no entry, and building the error message
calls `opcode.toString`. -/
def cycle (table32 : Int → Option CpuHandler) : CpuHandler := fun c =>
  let c := { c with previous_ip := c.instruction_pointer, last_instr_jump := false,
                    timestamp_counter := c.timestamp_counter + 1 }
  let (opcode, c) := c.read_imm8
  match opcode with
  | some op =>
    match table32 op with
    | some handler => handler c
    | none => .error (Fault.unimplementedOpcode op c.previous_ip, c)
  | none => .error (Fault.typeError, c)

/-! ## Test states -/

/-- A CPU with the fields as the constructor `v86()` sets them, the memory
`mem8`, the instruction pointer `ip`, and `addr - base` installed as both
address translations. -/
def new_cpu (mem8 : Mem8) (base : Int) (ip : Int) : Cpu where
  mem8 := mem8
  reg32s := fun _ => 0
  instruction_pointer := some ip
  previous_ip := some 0
  flags := 0
  flags_changed := 0
  last_op1 := some 0
  last_op2 := some 0
  last_op_size := 0
  last_result := some 0
  last_add_result := some 0
  address_size_32 := true
  timestamp_counter := 0
  last_instr_jump := false
  repeat_string_prefix := 0
  translate_address_read := fun a => jsSub a (some base)
  translate_address_write := fun a => jsSub a (some base)

/-- The bytes `bytes` as a memory image at offset 0. -/
def image (bytes : List Int) : Mem8 := fun i => if 0 ≤ i then bytes.getD i.toNat 0 else 0

/-- Bit `k` of a flags word. -/
def flag_bit (flags : Int) (k : Nat) : Bool := decide (flags / 2 ^ k % 2 = 1)

/-- The x86 condition with code `cc` (the low four bits of a Jcc opcode) on a
flags word, as the instruction set defines it from CF (bit 0), PF (bit 2),
ZF (bit 6), SF (bit 7) and OF (bit 11): O, NO, B, AE, E, NE, BE, A, S, NS, P,
NP, L, GE, LE, G. -/
def x86_condition (cc : Nat) (flags : Int) : Bool :=
  let cf := flag_bit flags 0
  let pf := flag_bit flags 2
  let zf := flag_bit flags 6
  let sf := flag_bit flags 7
  let ovf := flag_bit flags 11
  match cc with
  | 0 => ovf
  | 1 => !ovf
  | 2 => cf
  | 3 => !cf
  | 4 => zf
  | 5 => !zf
  | 6 => cf || zf
  | 7 => !cf && !zf
  | 8 => sf
  | 9 => !sf
  | 10 => pf
  | 11 => !pf
  | 12 => sf != ovf
  | 13 => sf == ovf
  | 14 => zf || (sf != ovf)
  | _ => !zf && (sf == ovf)

/-- Modelled on the claim: `n` dwords copied one after another, the dword at
the translated `src` to the translated `dst`, then both addresses moved by
`size` as 32-bit registers. -/
def copy_dwords (tr tw : JsNum → JsNum) (size : Int) : Nat → Int → Int → Mem8 → Mem8
  | 0, _, _, m => m
  | n + 1, src, dst, m =>
    copy_dwords tr tw size n (toInt32 (src + size)) (toInt32 (dst + size))
      (Memory.write32 m (tw (some dst)) (some (Memory.read32s m (tr (some src)))))

/-- A CPU as `new_cpu` builds it at 0x10000000, with the given ECX, ESI, EDI and
flags word. -/
def string_state (bytes : List Int) (ecx esi edi flags : Int) : Cpu :=
  { new_cpu (image bytes) 0x10000000 0x10000000 with
    flags := flags
    reg32s := fun r => if r = reg_ecx then ecx else if r = reg_esi then esi
                       else if r = reg_edi then edi else 0 }

/-- A CPU as `new_cpu` builds it at 0x10000000 over an empty image, with the
given flags word and ESP. -/
def stack_state (flags esp : Int) : Cpu :=
  { new_cpu (image []) 0x10000000 0x10000000 with
    flags := flags
    reg32s := fun r => if r = reg_esp then esp else 0 }

/-- A CPU as `new_cpu` builds it at 0x10000000 over the image `bytes`, with the
given EAX and ECX. -/
def modrm_state (bytes : List Int) (eax ecx : Int) : Cpu :=
  { new_cpu (image bytes) 0x10000000 0x10000000 with
    reg32s := fun r => if r = reg_eax then eax else if r = reg_ecx then ecx else 0 }

end Granny2Runtime

/-!
# `v86_legacy_compat.js`: the legacy-compatible CPU

The classes `Memory` and `CPU` of `src/gr2-web/v86_legacy_compat.js`, as far as
the theorems below need them. The console output of the code is left out.
-/

namespace V86Legacy

open Win32Runtime

/-! ## The class `Memory` -/

/-- The size of the buffer of `new Memory(MEMORY_SIZE)`. -/
def MEMORY_SIZE : Int := 320 * 1024 * 1024

def reg_es : Nat := 0
def reg_ds : Nat := 3

def REPEAT_STRING_PREFIX_NONE : Int := 0
def REPEAT_STRING_PREFIX_Z : Int := 1
def REPEAT_STRING_PREFIX_NZ : Int := 2

/-- Whether `i` indexes an element of `mem8`. -/
def inMem (i : Int) : Prop := 0 ≤ i ∧ i < MEMORY_SIZE

instance (i : Int) : Decidable (inMem i) := by unfold inMem; infer_instance

/-- The expression `mem8[i]`: `undefined` outside the array. -/
def mem8_get (m : Mem8) : JsNum → JsNum
  | some i => if inMem i then some (m i % 256) else none
  | none => none

/-- The statement `mem8[i] = v`: nothing happens outside the array; the element
keeps `v` modulo 256. -/
def mem8_set (m : Mem8) (i : JsNum) (v : Int) : Mem8 :=
  match i with
  | some i => if inMem i then fun j => if j = i then v % 256 else m j else m
  | none => m

/-- A number stored into a typed array: `undefined` and `NaN` count as 0. -/
def numOr0 : JsNum → Int
  | some v => v
  | none => 0

def Memory.read8 (m : Mem8) (addr : JsNum) : JsNum := mem8_get m addr

/-- Source: `this.mem8[addr] << 24 >> 24`. -/
def Memory.read8s (m : Mem8) (addr : JsNum) : Int :=
  (byteOr0 (mem8_get m addr) + 128) % 256 - 128

def Memory.read16 (m : Mem8) (addr : JsNum) : Int :=
  byteOr0 (mem8_get m addr) + byteOr0 (mem8_get m (jsAdd addr (some 1))) * 256

def Memory.read16s (m : Mem8) (addr : JsNum) : Int :=
  (Memory.read16 m addr + 32768) % 65536 - 32768

def Memory.read32s (m : Mem8) (addr : JsNum) : Int :=
  toInt32 (byteOr0 (mem8_get m addr)
    + byteOr0 (mem8_get m (jsAdd addr (some 1))) * 256
    + byteOr0 (mem8_get m (jsAdd addr (some 2))) * 65536
    + byteOr0 (mem8_get m (jsAdd addr (some 3))) * 16777216)

def Memory.read32 (m : Mem8) (addr : JsNum) : Int := toUint32 (Memory.read32s m addr)

/-- Source: `this.mem8[addr] = value`. -/
def Memory.write8 (m : Mem8) (addr : JsNum) (value : JsNum) : Mem8 :=
  mem8_set m addr (numOr0 value)

/-- Source: `this.mem8[addr] = value; this.mem8[addr + 1] = value >> 8`. -/
def Memory.write16 (m : Mem8) (addr : JsNum) (value : JsNum) : Mem8 :=
  let m := mem8_set m addr (numOr0 value)
  mem8_set m (jsAdd addr (some 1)) (JsNum.toInt32 value / 256)

/-- Source: the four stores of `value`, `value >> 8`, `value >> 16` and
`value >> 24`. -/
def Memory.write32 (m : Mem8) (addr : JsNum) (value : JsNum) : Mem8 :=
  let m := mem8_set m addr (numOr0 value)
  let m := mem8_set m (jsAdd addr (some 1)) (JsNum.toInt32 value / 256)
  let m := mem8_set m (jsAdd addr (some 2)) (JsNum.toInt32 value / 65536)
  mem8_set m (jsAdd addr (some 3)) (JsNum.toInt32 value / 16777216)

/-! ## The class `CPU` -/

/-- The fields of the `CPU` object that the handlers of this model touch.
`reg32s` holds the eight registers as signed 32-bit integers; `reg32` and
`reg8` are views of the same buffer. -/
structure Cpu where
  mem8 : Mem8
  reg32s : Nat → Int
  flags : Int
  instruction_pointer : JsNum
  previous_ip : JsNum
  last_instr_jump : Bool
  segment_offsets : Nat → Int
  repeat_string_prefix : Int

/-- What the code throws. -/
inductive Fault where
  /-- `new Error("Physical address out of bounds: 0x..")` of `read_imm8`. -/
  | physicalAddressOutOfBounds (phys_addr : Int)
  /-- `new Error("Instruction pointer out of valid range: 0x..")` of `cycle`. -/
  | instructionPointerOutOfRange (ip : JsNum)
  /-- `new Error("Unimplemented opcode: 0x..")` of `_execute_opcode`. -/
  | unimplementedOpcode (opcode : Int)
  /-- `new Error("Unimplemented 0x81 op: ..")` of the group handlers. -/
  | unimplementedGroupOp (group : Int) (op : Int)
  /-- Not thrown by the code: a handler or a case that this model does not
  cover. -/
  | notModelled (opcode : Int)
  deriving DecidableEq, Repr

/-- A handler of the table. -/
abbrev CpuHandler := Cpu → Except (Fault × Cpu) Cpu

/-- Source: `return addr >>> 0`. -/
def Cpu.translate_address_read (_c : Cpu) (addr : JsNum) : Int := toUint32 (numOr0 addr)

/-- Source: `CPU.read_imm8`, with its bounds check on the fetch address. -/
def Cpu.read_imm8 (c : Cpu) : Except (Fault × Cpu) (JsNum × Cpu) :=
  let phys_addr := c.translate_address_read c.instruction_pointer
  if phys_addr < 0 ∨ phys_addr ≥ MEMORY_SIZE then
    .error (Fault.physicalAddressOutOfBounds phys_addr, c)
  else
    .ok (mem8_get c.mem8 (some phys_addr),
         { c with instruction_pointer := jsAdd c.instruction_pointer (some 1) })

/-- MOV r8, imm8, `t[0xB0 + i]`: `cpu.reg8[r] = cpu.read_imm8()`. -/
def op_mov_r8_imm8 (r : Nat) : CpuHandler := fun c =>
  match c.read_imm8 with
  | .ok (value, c) => .ok { c with reg32s := reg8_set c.reg32s r value }
  | .error e => .error e

/-- SAHF, `t[0x9E]`: `ah = cpu.reg8[reg_eax + 4];
cpu.flags = (cpu.flags & ~0xFF) | ah`. -/
def op_9E : CpuHandler := fun c =>
  let ah := reg8_get c.reg32s (reg_eax + 4)
  .ok { c with flags := bitOr (bitAnd c.flags (-256)) (JsNum.toInt32 ah) }

/-- LAHF, `t[0x9F]`: `cpu.reg8[reg_eax + 4] = cpu.flags & 0xFF`. -/
def op_9F : CpuHandler := fun c =>
  .ok { c with reg32s := reg8_set c.reg32s (reg_eax + 4) (some (bitAnd c.flags 0xFF)) }

/-! ## The stack, the fetches and the string handlers of `CPU` -/

/-- The expression `cpu.reg32[r]`. -/
def Cpu.reg32 (c : Cpu) (r : Nat) : Int := toUint32 (c.reg32s r)

/-- The statements `cpu.reg32s[r] = v` and `cpu.reg32[r] = v`. -/
def Cpu.setReg (c : Cpu) (r : Nat) (v : JsNum) : Cpu :=
  { c with reg32s := fun k => if k = r then JsNum.toInt32 v else c.reg32s k }

/-- Source: `return addr >>> 0`. -/
def Cpu.translate_address_write (_c : Cpu) (addr : JsNum) : Int := toUint32 (numOr0 addr)

/-- Source: `return this.segment_offsets[reg]`. -/
def Cpu.get_seg (c : Cpu) (reg : Nat) : Int := c.segment_offsets reg

def Cpu.safe_read32s (c : Cpu) (addr : JsNum) : Int :=
  Memory.read32s c.mem8 (some (c.translate_address_read addr))

def Cpu.safe_write32 (c : Cpu) (addr : JsNum) (value : JsNum) : Cpu :=
  { c with mem8 := Memory.write32 c.mem8 (some (c.translate_address_write addr)) value }

/-- Source: `reg32[reg_esp] = (reg32[reg_esp] - 4) >>> 0; addr =
translate_address_write(reg32[reg_esp]); memory.write32(addr, value)`. -/
def Cpu.push32 (c : Cpu) (value : JsNum) : Cpu :=
  let c := c.setReg reg_esp (some (toUint32 (c.reg32 reg_esp - 4)))
  let addr := c.translate_address_write (some (c.reg32 reg_esp))
  { c with mem8 := Memory.write32 c.mem8 (some addr) value }

/-- Source: `CPU.pop32`. -/
def Cpu.pop32 (c : Cpu) : Int × Cpu :=
  let addr := c.translate_address_read (some (c.reg32 reg_esp))
  let value := Memory.read32s c.mem8 (some addr)
  (value, c.setReg reg_esp (some (toUint32 (c.reg32 reg_esp + 4))))

/-- Source: `CPU.read_imm8s`; no bounds check here. -/
def Cpu.read_imm8s (c : Cpu) : Int × Cpu :=
  let phys_addr := c.translate_address_read c.instruction_pointer
  (Memory.read8s c.mem8 (some phys_addr),
   { c with instruction_pointer := jsAdd c.instruction_pointer (some 1) })

/-- Source: `CPU.read_imm32s`. -/
def Cpu.read_imm32s (c : Cpu) : Int × Cpu :=
  let phys_addr := c.translate_address_read c.instruction_pointer
  (Memory.read32s c.mem8 (some phys_addr),
   { c with instruction_pointer := jsAdd c.instruction_pointer (some 4) })

/-- The expression `(cpu.flags & flag_direction) ? -k : k`. -/
def Cpu.string_step (c : Cpu) (k : Int) : Int :=
  if bitAnd c.flags 1024 ≠ 0 then -k else k

/-- PUSHF, `t[0x9C]`. -/
def op_9C : CpuHandler := fun c => .ok (c.push32 (some c.flags))

/-- POPF, `t[0x9D]`. -/
def op_9D : CpuHandler := fun c =>
  let (value, c) := c.pop32
  .ok { c with flags := value }

/-- Jcc rel8, `t[0x70]` .. `t[0x7F]`: the handler reads the displacement and
does nothing else. -/
def op_jcc_rel8 : CpuHandler := fun c => .ok c.read_imm8s.2

/-- The handler `t[0x0F]`, as far as this model goes: for a second byte 0x80 ..
0x8F (Jcc rel32) it reads the displacement and does nothing else; the other
cases of its `switch` are not covered. -/
def op_0F : CpuHandler := fun c =>
  match c.read_imm8 with
  | .error e => .error e
  | .ok (op2v, c) =>
    let op2 := byteOr0 op2v
    if 0x80 ≤ op2 ∧ op2 ≤ 0x8F then .ok c.read_imm32s.2
    else .error (Fault.notModelled op2, c)

/-- STOSD, `t[0xAB]`. The global `stosd`, if some other script defines one,
replaces the body; it is a parameter here. -/
def op_AB (stosd : Option CpuHandler) : CpuHandler := fun c =>
  match stosd with
  | some f => f c
  | none =>
    let dest : Int := c.get_seg reg_es + c.reg32s reg_edi
    let c := c.safe_write32 (some dest) (some (c.reg32s reg_eax))
    .ok (c.setReg reg_edi (some (c.reg32s reg_edi + c.string_step 4)))

/-- MOVSD, `t[0xA5]`. -/
def op_A5 : CpuHandler := fun c =>
  let src : Int := c.get_seg reg_ds + c.reg32s reg_esi
  let dest : Int := c.get_seg reg_es + c.reg32s reg_edi
  let c := c.safe_write32 (some dest) (some (c.safe_read32s (some src)))
  let delta := c.string_step 4
  let c := c.setReg reg_esi (some (c.reg32s reg_esi + delta))
  .ok (c.setReg reg_edi (some (c.reg32s reg_edi + delta)))

/-- Source: `CPU._resolve_sib(sib, displacement)`. An `undefined` SIB byte acts
as 0 in `sib >> 6`, `(sib >> 3) & 7` and `sib & 7`. -/
def Cpu._resolve_sib (c : Cpu) (sibv : JsNum) (displacement : Int) : Int :=
  let sib := byteOr0 sibv
  let scale : Int := 2 ^ (sib / 64).toNat
  let index := sib / 8 % 8
  let base := sib % 8
  let addr := displacement
  let addr := if base ≠ 5 then addr + c.reg32s base.toNat else addr
  let addr := if index ≠ 4 then addr + c.reg32s index.toNat * scale else addr
  toInt32 addr

/-- Source: `CPU.modrm_resolve`. The arguments of `_resolve_sib` are evaluated
left to right: the SIB byte is fetched before the displacement. -/
def Cpu.modrm_resolve (c : Cpu) (modrm : Int) : Except (Fault × Cpu) (Int × Cpu) :=
  let mod := modrm / 64
  let rm := modrm % 8
  if mod = 0 then
    if rm = 4 then
      match c.read_imm8 with
      | .error e => .error e
      | .ok (sib, c) => .ok (c._resolve_sib sib 0, c)
    else if rm = 5 then .ok c.read_imm32s
    else .ok (c.reg32s rm.toNat, c)
  else if mod = 1 then
    if rm = 4 then
      match c.read_imm8 with
      | .error e => .error e
      | .ok (sib, c) =>
        let (d, c) := c.read_imm8s
        .ok (c._resolve_sib sib d, c)
    else
      let (d, c) := c.read_imm8s
      .ok (toInt32 (c.reg32s rm.toNat + d), c)
  else if mod = 2 then
    if rm = 4 then
      match c.read_imm8 with
      | .error e => .error e
      | .ok (sib, c) =>
        let (d, c) := c.read_imm32s
        .ok (c._resolve_sib sib d, c)
    else
      let (d, c) := c.read_imm32s
      .ok (toInt32 (c.reg32s rm.toNat + d), c)
  else .ok (0, c)

/-- The group `t[0x81]`: ADD, OR, AND, SUB, XOR, CMP on r/m32 with an imm32.
The operand is read through `modrm_resolve(modrm)`, then the immediate, and
the write-back calls `modrm_resolve(modrm)` a second time. -/
def op_81 : CpuHandler := fun c =>
  match c.read_imm8 with
  | .error e => .error e
  | .ok (modrmv, c) =>
    let modrm := byteOr0 modrmv
    let op := modrm / 8 % 8
    let operand : Except (Fault × Cpu) (Int × Cpu) :=
      if modrm ≥ 0xC0 then .ok (c.reg32s (modrm % 8).toNat, c)
      else
        match c.modrm_resolve modrm with
        | .error e => .error e
        | .ok (addr, c) => .ok (c.safe_read32s (some addr), c)
    match operand with
    | .error e => .error e
    | .ok (value, c) =>
      let (imm, c) := c.read_imm32s
      if op = 7 then .ok c
      else if op = 0 ∨ op = 1 ∨ op = 4 ∨ op = 5 ∨ op = 6 then
        let result : Int :=
          if op = 0 then toInt32 (value + imm)
          else if op = 1 then bitOr value imm
          else if op = 4 then bitAnd value imm
          else if op = 5 then toInt32 (value - imm)
          else bitXor value imm
        if modrm ≥ 0xC0 then .ok (c.setReg (modrm % 8).toNat (some result))
        else
          match c.modrm_resolve modrm with
          | .error e => .error e
          | .ok (addr, c) => .ok (c.safe_write32 (some addr) (some result))
      else .error (Fault.unimplementedGroupOp 0x81 op, c)

/-- The entries of `table32` that this model covers: the two-byte opcodes (0F),
Jcc rel8 (70..7F), the group 81, PUSHF, POPF, SAHF, LAHF (9C..9F), MOVSD (A5),
STOSD (AB) and MOV r8, imm8 (B0..B7). `none` is an entry that is absent or not
covered here. -/
def table32 (stosd : Option CpuHandler) (opcode : Int) : Option CpuHandler :=
  if opcode = 0x0F then some op_0F
  else if 0x70 ≤ opcode ∧ opcode ≤ 0x7F then some op_jcc_rel8
  else if opcode = 0x81 then some op_81
  else if opcode = 0x9C then some op_9C
  else if opcode = 0x9D then some op_9D
  else if opcode = 0x9E then some op_9E
  else if opcode = 0x9F then some op_9F
  else if opcode = 0xA5 then some op_A5
  else if opcode = 0xAB then some (op_AB stosd)
  else if 0xB0 ≤ opcode ∧ opcode ≤ 0xB7 then some (op_mov_r8_imm8 (opcode - 0xB0).toNat)
  else none

/-- Source: `CPU._execute_opcode`. -/
def Cpu._execute_opcode (table : Int → Option CpuHandler) (opcode : JsNum) : CpuHandler :=
  fun c =>
    match table (byteOr0 opcode) with
    | some handler => handler c
    | none => .error (Fault.unimplementedOpcode (byteOr0 opcode), c)

/-- Source: `CPU._execute_next`. -/
def Cpu._execute_next (table : Int → Option CpuHandler) : CpuHandler := fun c =>
  match c.read_imm8 with
  | .error e => .error e
  | .ok (opcode, c) => Cpu._execute_opcode table opcode c

/-- Source: `CPU.cycle`, without its trace buffer: the range check on the
instruction pointer, the fetch, and the prefixes F2 and F3, which set
`repeat_string_prefix` and run the next opcode once. -/
def cycle (table : Int → Option CpuHandler) : CpuHandler := fun c =>
  let c := { c with previous_ip := c.instruction_pointer, last_instr_jump := false,
                    repeat_string_prefix := REPEAT_STRING_PREFIX_NONE }
  let out_of_range : Bool :=
    match c.instruction_pointer with
    | some ip => decide (ip < 0x10000000 ∨ ip ≥ 0x14000000)
    | none => false
  if out_of_range then .error (Fault.instructionPointerOutOfRange c.instruction_pointer, c)
  else
    match c.read_imm8 with
    | .error e => .error e
    | .ok (opcode, c) =>
      if opcode = some 0xF2 then
        Cpu._execute_next table { c with repeat_string_prefix := REPEAT_STRING_PREFIX_NZ }
      else if opcode = some 0xF3 then
        Cpu._execute_next table { c with repeat_string_prefix := REPEAT_STRING_PREFIX_Z }
      else Cpu._execute_opcode table opcode c

/-! ## Test states -/

/-- A CPU with zeroed registers, flags and segment offsets (as after `init`),
the bytes `bytes` in the memory from offset `org` on, and the instruction
pointer at `org`. -/
def new_cpu (bytes : List Int) (org : Int) : Cpu where
  mem8 := fun i => if org ≤ i then bytes.getD (i - org).toNat 0 else 0
  reg32s := fun _ => 0
  flags := 0
  instruction_pointer := some org
  previous_ip := some 0
  last_instr_jump := false
  segment_offsets := fun _ => 0
  repeat_string_prefix := 0

/-- A CPU as `new_cpu` builds it at 0x10000000 over an empty image, with the
given flags word and ESP. -/
def stack_state (flags esp : Int) : Cpu :=
  { new_cpu [] 0x10000000 with
    flags := flags
    reg32s := fun r => if r = reg_esp then esp else 0 }

/-- A CPU as `new_cpu` builds it at 0x10000000 over the image `bytes`, with the
given ECX and EBP. -/
def modrm_state (bytes : List Int) (ecx ebp : Int) : Cpu :=
  { new_cpu bytes 0x10000000 with
    reg32s := fun r => if r = reg_ecx then ecx else if r = reg_ebp then ebp else 0 }

end V86Legacy

/-!
# `glb-exporter.js`: the binary buffer of the exporter

The buffer bookkeeping of the class `GLBExporter`: `addBufferView` and
`finalizeBuffer`. A chunk of data (an `ArrayBuffer` or a `Uint8Array`) is the
list of its bytes.
-/

namespace GlbExporter

/-- An entry of `gltf.bufferViews`, without the constant `buffer: 0`. -/
structure BufferView where
  byteOffset : Nat
  byteLength : Nat
  target : Option Nat
  deriving DecidableEq, Repr

/-- The fields of the exporter that `addBufferView` and `finalizeBuffer` use:
`gltf.bufferViews`, `bufferData`, `byteOffset`, the `byteLength` of the entries
of `gltf.buffers`, and `binaryBuffer`. -/
structure Exporter where
  bufferViews : List BufferView
  bufferData : List (List Nat)
  byteOffset : Nat
  buffers : List Nat
  binaryBuffer : Option (List Nat)
  deriving DecidableEq, Repr

/-- What the code throws. -/
inductive Fault where
  /-- RangeError of `TypedArray.prototype.set` when the source does not fit. -/
  | rangeError
  deriving DecidableEq, Repr

/-- The buffer fields after `reset()`. -/
def reset : Exporter :=
  { bufferViews := [], bufferData := [], byteOffset := 0, buffers := [], binaryBuffer := none }

/-- Source: `Math.ceil(n / 4) * 4`. -/
def pad4 (n : Nat) : Nat := (n + 3) / 4 * 4

/-- Source: `addBufferView(data, target = null)`; returns the index of the new
view. `if (target) view.target = target` leaves the view without a target for
`null` and for the number 0. -/
def addBufferView (e : Exporter) (data : List Nat) (target : Option Nat) : Nat × Exporter :=
  let view : BufferView :=
    { byteOffset := e.byteOffset, byteLength := data.length,
      target := match target with
        | some t => if t = 0 then none else some t
        | none => none }
  let bufferViews := e.bufferViews ++ [view]
  let bufferData := e.bufferData ++ [data]
  let paddedLength := pad4 data.length
  let bufferData :=
    if paddedLength > data.length then
      bufferData ++ [List.replicate (paddedLength - data.length) 0]
    else bufferData
  (bufferViews.length - 1,
   { e with bufferViews := bufferViews, bufferData := bufferData,
            byteOffset := e.byteOffset + paddedLength })

/-- The call `target.set(source, offset)` on `Uint8Array`s: a RangeError when
`offset + source.length` exceeds the length of the target. -/
def typed_set (target : List Nat) (source : List Nat) (offset : Nat) :
    Except Fault (List Nat) :=
  if offset + source.length > target.length then .error Fault.rangeError
  else .ok (target.take offset ++ source ++ target.drop (offset + source.length))

/-- The callback of `bufferData.forEach` in `finalizeBuffer`, over the chunks
in order: `totalBuffer.set(data, offset); offset += data.byteLength; padding =
Math.ceil(data.byteLength / 4) * 4 - data.byteLength; offset += padding`. -/
def finalize_loop : List (List Nat) → Nat → List Nat → Except Fault (List Nat)
  | [], _, totalBuffer => .ok totalBuffer
  | data :: rest, offset, totalBuffer =>
    match typed_set totalBuffer data offset with
    | .error f => .error f
    | .ok totalBuffer =>
      let offset := offset + data.length
      let padding := pad4 data.length - data.length
      finalize_loop rest (offset + padding) totalBuffer

/-- Source: `finalizeBuffer()`, without the deletion of the empty arrays of
`gltf` at its end. -/
def finalizeBuffer (e : Exporter) : Except Fault Exporter :=
  let totalBuffer := List.replicate e.byteOffset 0
  match finalize_loop e.bufferData 0 totalBuffer with
  | .error f => .error f
  | .ok totalBuffer =>
    .ok { e with buffers := e.buffers ++ [totalBuffer.length],
                 binaryBuffer := some totalBuffer }

/-- The exporter after `addBufferView` on each chunk of a list, from `reset()`
on. -/
def add_all (chunks : List (List Nat)) : Exporter :=
  chunks.foldl (fun e data => (addBufferView e data none).2) reset

end GlbExporter

namespace Win32Runtime

/-! ## Lemmas: 32-bit arithmetic and memory -/

theorem toInt32_of_range (x : Int) (h1 : -2147483648 ≤ x) (h2 : x < 2147483648) :
    toInt32 x = x := by
  unfold toInt32; omega

theorem toUint32_toInt32_eq (x : Int) : toUint32 (toInt32 x) = toUint32 x := by
  unfold toInt32 toUint32; omega

theorem toUint32_of_range (x : Int) (h1 : 0 ≤ x) (h2 : x < 4294967296) : toUint32 x = x := by
  unfold toUint32; omega

/-- Alignment of the dwords just below an aligned address. -/
theorem aligned_below (x b : Int) (h : (x - b) % 4 = 0) :
    (x - 4 - b) % 4 = 0 ∧ (x - 8 - b) % 4 = 0 ∧ (x - 12 - b) % 4 = 0 ∧ (x - 16 - b) % 4 = 0 := by
  omega

theorem mem8_get_some {m : Mem8} {i b : Int} (h : mem8_get m (some i) = some b) :
    inMem i ∧ m i % 256 = b := by
  unfold mem8_get at h
  by_cases hi : inMem i
  · simp only [hi, if_true, Option.some.injEq] at h
    exact ⟨hi, h⟩
  · simp [hi] at h

/-- A store through `mem32s` leaves the bytes outside the stored dword alone. -/
theorem mem8_get_mem32s_set_ne (m : Mem8) (o : Int) (v : JsNum) (j : Int)
    (h : j < o ∨ o + 3 < j) :
    mem8_get (mem32s_set m (some o) v) (some j) = mem8_get m (some j) := by
  unfold mem32s_set
  by_cases hc : o % 4 = 0 ∧ inMem o
  · simp only [hc, and_self, if_true, mem8_get]
    have h0 : j ≠ o := by omega
    have h1 : j ≠ o + 1 := by omega
    have h2 : j ≠ o + 2 := by omega
    have h3 : j ≠ o + 3 := by omega
    simp [h0, h1, h2, h3]
  · simp only [hc, if_false]

/-- Reading back, byte by byte, the dword that a store through `mem32s` wrote. -/
theorem read32s_mem32s_set (m : Mem8) (o : Int) (v : Int) (ha : o % 4 = 0) (hi : inMem o) :
    Memory.read32s (mem32s_set m (some o) (some v)) (some o) = toInt32 v := by
  have hi1 : inMem (o + 1) := by simp only [inMem, MAX_MEM_ADDR] at *; omega
  have hi2 : inMem (o + 2) := by simp only [inMem, MAX_MEM_ADDR] at *; omega
  have hi3 : inMem (o + 3) := by simp only [inMem, MAX_MEM_ADDR] at *; omega
  simp only [Memory.read32s, mem32s_set, ha, hi, and_self, if_true, mem8_get, jsAdd, hi1, hi2,
    hi3, byteOr0, JsNum.toInt32]
  have e1 : o + 1 ≠ o := by omega
  have e2 : o + 2 ≠ o := by omega
  have e3 : o + 3 ≠ o := by omega
  have e4 : o + 2 ≠ o + 1 := by omega
  have e5 : o + 3 ≠ o + 1 := by omega
  have e6 : o + 3 ≠ o + 2 := by omega
  simp only [e1, e2, e3, e4, e5, e6, if_true, if_false]
  unfold toInt32 toUint32
  omega

/-- The four bytes of code at `p` read as a signed dword. -/
theorem read32s_code (m : Mem8) (base p b0 b1 b2 b3 : Int)
    (h : code_at m base p [b0, b1, b2, b3]) :
    Memory.read32s m (some (p - base)) = toInt32 (le32 b0 b1 b2 b3) := by
  simp only [code_at, and_true] at h
  obtain ⟨h0, h1, h2, h3⟩ := h
  have a1 : p - base + 1 = p + 1 - base := by omega
  have a2 : p - base + 2 = p + 1 + 1 - base := by omega
  have a3 : p - base + 3 = p + 1 + 1 + 1 - base := by omega
  simp only [Memory.read32s, jsAdd, a1, a2, a3, h0, h1, h2, h3, byteOr0, le32]

/-- On an aligned dword inside the memory the `mem32s` view and the bytewise
`read32s` read the same value. -/
theorem mem32s_get_eq_read32s (m : Mem8) (o : Int) (ha : o % 4 = 0) (hi : inMem o) :
    mem32s_get m (some o) = some (Memory.read32s m (some o)) := by
  have hi1 : inMem (o + 1) := by simp only [inMem, MAX_MEM_ADDR] at *; omega
  have hi2 : inMem (o + 2) := by simp only [inMem, MAX_MEM_ADDR] at *; omega
  have hi3 : inMem (o + 3) := by simp only [inMem, MAX_MEM_ADDR] at *; omega
  simp only [mem32s_get, ha, hi, and_self, if_true, Memory.read32s, mem8_get, jsAdd, hi1, hi2,
    hi3, byteOr0]

/-- A byte store leaves the other bytes alone. -/
theorem mem8_get_mem8_set_ne (m : Mem8) (i : JsNum) (v : Int) (j : Int) (h : i ≠ some j) :
    mem8_get (mem8_set m i v) (some j) = mem8_get m (some j) := by
  cases i with
  | none => rfl
  | some i =>
    have hji : j ≠ i := fun e => h (by rw [e])
    unfold mem8_set
    by_cases hi : inMem i
    · simp only [hi, if_true, mem8_get, hji, if_false]
    · simp only [hi, if_false]

/-- A byte store inside the memory is read back modulo 256. -/
theorem mem8_get_mem8_set_same (m : Mem8) (i : Int) (v : Int) (hi : inMem i) :
    mem8_get (mem8_set m (some i) v) (some i) = some (v % 256) := by
  simp only [mem8_set, hi, if_true, mem8_get, Int.emod_emod]

/-- A 32-bit store leaves the bytes outside the stored dword alone. -/
theorem mem8_get_write32_ne (m : Mem8) (o : Int) (v : JsNum) (j : Int)
    (h : j < o ∨ o + 3 < j) :
    mem8_get (Memory.write32 m (some o) v) (some j) = mem8_get m (some j) := by
  have h0 : (some o : JsNum) ≠ some j := by simp only [ne_eq, Option.some.injEq]; omega
  have h1 : (some (o + 1) : JsNum) ≠ some j := by simp only [ne_eq, Option.some.injEq]; omega
  have h2 : (some (o + 2) : JsNum) ≠ some j := by simp only [ne_eq, Option.some.injEq]; omega
  have h3 : (some (o + 3) : JsNum) ≠ some j := by simp only [ne_eq, Option.some.injEq]; omega
  simp only [Memory.write32, jsAdd]
  rw [mem8_get_mem8_set_ne _ _ _ _ h3, mem8_get_mem8_set_ne _ _ _ _ h2,
    mem8_get_mem8_set_ne _ _ _ _ h1, mem8_get_mem8_set_ne _ _ _ _ h0]

/-- The bytes of a dword wholly inside the memory after a 32-bit store there. -/
theorem mem8_get_write32_same (m : Mem8) (o : Int) (v : JsNum)
    (hi : inMem o) (hi3 : inMem (o + 3)) :
    mem8_get (Memory.write32 m (some o) v) (some o)
        = some (toUint32 (JsNum.toInt32 v) % 256)
    ∧ mem8_get (Memory.write32 m (some o) v) (some (o + 1))
        = some (toUint32 (JsNum.toInt32 v) / 256 % 256)
    ∧ mem8_get (Memory.write32 m (some o) v) (some (o + 2))
        = some (toUint32 (JsNum.toInt32 v) / 65536 % 256)
    ∧ mem8_get (Memory.write32 m (some o) v) (some (o + 3))
        = some (toUint32 (JsNum.toInt32 v) / 16777216 % 256) := by
  have hi1 : inMem (o + 1) := by simp only [inMem, MAX_MEM_ADDR] at *; omega
  have hi2 : inMem (o + 2) := by simp only [inMem, MAX_MEM_ADDR] at *; omega
  have n (a b : Int) (h : a ≠ b) : (some a : JsNum) ≠ some b := by
    simp only [ne_eq, Option.some.injEq]; exact h
  simp only [Memory.write32, jsAdd]
  refine ⟨?_, ?_, ?_, ?_⟩
  · rw [mem8_get_mem8_set_ne _ _ _ _ (n _ _ (by omega)),
      mem8_get_mem8_set_ne _ _ _ _ (n _ _ (by omega)),
      mem8_get_mem8_set_ne _ _ _ _ (n _ _ (by omega)), mem8_get_mem8_set_same _ _ _ hi,
      Int.emod_emod]
  · rw [mem8_get_mem8_set_ne _ _ _ _ (n _ _ (by omega)),
      mem8_get_mem8_set_ne _ _ _ _ (n _ _ (by omega)), mem8_get_mem8_set_same _ _ _ hi1,
      Int.emod_emod]
  · rw [mem8_get_mem8_set_ne _ _ _ _ (n _ _ (by omega)), mem8_get_mem8_set_same _ _ _ hi2,
      Int.emod_emod]
  · rw [mem8_get_mem8_set_same _ _ _ hi3, Int.emod_emod]

/-- A 32-bit read depends on the four bytes it reads only. -/
theorem read32s_congr (m1 m2 : Mem8) (o : Int)
    (h : ∀ j, o ≤ j → j ≤ o + 3 → mem8_get m1 (some j) = mem8_get m2 (some j)) :
    Memory.read32s m1 (some o) = Memory.read32s m2 (some o) := by
  simp only [Memory.read32s, jsAdd, h o (by omega) (by omega), h (o + 1) (by omega) (by omega),
    h (o + 2) (by omega) (by omega), h (o + 3) (by omega) (by omega)]

/-- A 32-bit read of a dword that a 32-bit store elsewhere did not touch. -/
theorem read32s_write32_ne (m : Mem8) (o o1 : Int) (v : JsNum)
    (h : o1 + 3 < o ∨ o + 3 < o1) :
    Memory.read32s (Memory.write32 m (some o) v) (some o1) = Memory.read32s m (some o1) :=
  read32s_congr _ _ _ (fun j h1 h2 => mem8_get_write32_ne m o v j (by omega))

/-- Reading back through `mem32s` the dword that a 32-bit store wrote. -/
theorem mem32s_get_write32 (m : Mem8) (o : Int) (v : JsNum) (ha : o % 4 = 0) (hi : inMem o) :
    mem32s_get (Memory.write32 m (some o) v) (some o) = some (JsNum.toInt32 v) := by
  have hi3 : inMem (o + 3) := by simp only [inMem, MAX_MEM_ADDR] at *; omega
  obtain ⟨g0, g1, g2, g3⟩ := mem8_get_write32_same m o v hi hi3
  rw [mem32s_get_eq_read32s _ _ ha hi]
  simp only [Memory.read32s, jsAdd, g0, g1, g2, g3, byteOr0]
  have hv : -2147483648 ≤ JsNum.toInt32 v ∧ JsNum.toInt32 v < 2147483648 := by
    cases v with
    | none => simp [JsNum.toInt32]
    | some x => simp only [JsNum.toInt32, toInt32]; omega
  generalize JsNum.toInt32 v = w at hv
  congr 1
  unfold toInt32 toUint32
  omega

/-- Code that does not overlap the stored dword is still there after a 32-bit store. -/
theorem code_at_write32 (m : Mem8) (base o : Int) (v : JsNum) (bytes : List Int) (t : Int)
    (h : code_at m base t bytes)
    (hd : t - base + bytes.length ≤ o ∨ o + 3 < t - base) :
    code_at (Memory.write32 m (some o) v) base t bytes := by
  induction bytes generalizing t with
  | nil => trivial
  | cons b rest ih =>
    obtain ⟨h0, hr⟩ := h
    simp only [List.length_cons, Nat.cast_add, Nat.cast_one] at hd
    refine ⟨?_, ih (t + 1) hr (by omega)⟩
    rw [mem8_get_write32_ne _ _ _ _ (by omega)]
    exact h0

/-! ## Lemmas: the cycle loop -/

theorem run_cycles_done (api : Api) (n k : Nat) (rt : Runtime)
    (h : rt.function_call_done = true) : run_cycles api n k rt = Res.ok k rt := by
  cases n with
  | zero => rfl
  | succ n => simp [run_cycles, h]

theorem run_cycles_step (api : Api) (n k : Nat) (rt rt1 : Runtime)
    (hd : rt.function_call_done = false) (hh : rt.halt_instructions = false)
    (hc : cycle api rt = Res.ok () rt1) :
    run_cycles api (n + 1) k rt = run_cycles api n (k + 1) rt1 := by
  simp [run_cycles, hd, hh, hc]

theorem run_cycles_throw (api : Api) (n k : Nat) (rt rt1 : Runtime) (e : Fault)
    (hd : rt.function_call_done = false) (hh : rt.halt_instructions = false)
    (hc : cycle api rt = Res.throw e rt1) :
    run_cycles api (n + 1) k rt = Res.throw e rt1 := by
  simp [run_cycles, hd, hh, hc]

/-- A cycle whose opcode byte is in the memory: the bookkeeping, the fetch,
then the table entry. -/
theorem cycle_fetch (api : Api) (rt : Runtime) (p op : Int)
    (hip : rt.cpu.instruction_pointer = some p)
    (hop : mem8_get rt.cpu.mem8 (some (p - rt.cpu.base_addr)) = some op) :
    cycle api rt = table32 api op
      { rt with cpu := { rt.cpu with
          previous_ip := some p, last_instr_jump := false,
          timestamp_counter := rt.cpu.timestamp_counter + 1,
          instruction_pointer := some (p + 1) } } := by
  simp only [cycle, Cpu.read_imm8, Memory.read8, Cpu.translate_address_read, hip, jsSub, hop,
    jsAdd]

/-! ## Lemmas: single instructions -/

/-- One cycle on `MOV EAX, imm32` (B8 and four immediate bytes). -/
theorem cycle_mov_eax_imm32 (api : Api) (rt : Runtime) (p b0 b1 b2 b3 : Int)
    (hip : rt.cpu.instruction_pointer = some p)
    (hcode : code_at rt.cpu.mem8 rt.cpu.base_addr p [0xB8, b0, b1, b2, b3]) :
    cycle api rt = Res.ok ()
      { rt with cpu := { rt.cpu with
          previous_ip := some p, last_instr_jump := false,
          timestamp_counter := rt.cpu.timestamp_counter + 1,
          instruction_pointer := some (p + 1 + 4),
          reg32s := fun k => if k = 0 then toInt32 (toInt32 (le32 b0 b1 b2 b3))
                             else rt.cpu.reg32s k } } := by
  obtain ⟨h0, hrest⟩ := hcode
  rw [cycle_fetch api rt p 0xB8 hip h0]
  have hr := read32s_code rt.cpu.mem8 rt.cpu.base_addr (p + 1) b0 b1 b2 b3 hrest
  simp [table32, liftCpu, v86_table32, Cpu.read_imm32s, Cpu.translate_address_read, jsSub, hr,
    Cpu.setReg, JsNum.toInt32, jsAdd]

/-- One cycle on `RET` (C3) when the dword at the top of the stack is `v`: the
patched handler pops it into the instruction pointer and, when it is the
sentinel, marks the call as done. -/
theorem cycle_ret (api : Api) (rt : Runtime) (p v : Int)
    (hip : rt.cpu.instruction_pointer = some p)
    (hop : mem8_get rt.cpu.mem8 (some (p - rt.cpu.base_addr)) = some 0xC3)
    (hpop : Memory.read32s rt.cpu.mem8
      (some (rt.cpu.reg32s reg_esp - rt.cpu.base_addr)) = v) :
    cycle api rt = Res.ok ()
      { rt with
        cpu := { rt.cpu with
          previous_ip := some p, last_instr_jump := true,
          timestamp_counter := rt.cpu.timestamp_counter + 1,
          instruction_pointer := some v,
          reg32s := fun k => if k = reg_esp then toInt32 (rt.cpu.reg32s reg_esp + 4)
                             else rt.cpu.reg32s k }
        halt_instructions := if v = MAGIC_RETURN_ADDR then true else rt.halt_instructions
        function_call_done := if v = MAGIC_RETURN_ADDR then true else rt.function_call_done } := by
  rw [cycle_fetch api rt p 0xC3 hip hop]
  by_cases hv : v = MAGIC_RETURN_ADDR
  · simp [table32, liftCpu, v86_table32, Cpu.op_ret, Cpu.pop32, Cpu.safe_read32s,
      Cpu.translate_address_read, jsSub, hpop, Cpu.setReg, JsNum.toInt32, ret_check, hv,
      Bind.bind, M.bind]
  · simp [table32, liftCpu, v86_table32, Cpu.op_ret, Cpu.pop32, Cpu.safe_read32s,
      Cpu.translate_address_read, jsSub, hpop, Cpu.setReg, JsNum.toInt32, ret_check, hv,
      Bind.bind, M.bind]

/-- One cycle on `PUSH r32` (50+r): ESP moves down by 4 and the register's
value (as it was before the move) is stored at the new top of the stack. -/
theorem cycle_push_reg (api : Api) (rt : Runtime) (p : Int) (r : Nat) (hr : r < 8)
    (hip : rt.cpu.instruction_pointer = some p)
    (hop : mem8_get rt.cpu.mem8 (some (p - rt.cpu.base_addr)) = some (0x50 + (r : Int))) :
    cycle api rt = Res.ok ()
      { rt with cpu := { rt.cpu with
          previous_ip := some p, last_instr_jump := false,
          timestamp_counter := rt.cpu.timestamp_counter + 1,
          instruction_pointer := some (p + 1),
          reg32s := fun k => if k = reg_esp then toInt32 (rt.cpu.reg32s reg_esp - 4)
                             else rt.cpu.reg32s k,
          mem8 := Memory.write32 rt.cpu.mem8
            (some (toInt32 (rt.cpu.reg32s reg_esp - 4) - rt.cpu.base_addr))
            (some (rt.cpu.reg32s r)) } } := by
  rw [cycle_fetch api rt p _ hip hop]
  interval_cases r <;>
    simp [table32, liftCpu, v86_table32, Cpu.push32, Cpu.safe_write32,
      Cpu.translate_address_write, jsSub, Cpu.setReg, JsNum.toInt32]

/-- One cycle on `CALL rel32` (E8 and four displacement bytes) whose target `H`
is a key of `imports` naming a method of `WIN32API`: the return address is
pushed, the instruction pointer is set to `H`, and the method runs at once. -/
theorem cycle_call_hooked (api : Api) (rt : Runtime) (p d0 d1 d2 d3 H : Int)
    (name : String) (h : M Unit)
    (hip : rt.cpu.instruction_pointer = some p)
    (hcode : code_at rt.cpu.mem8 rt.cpu.base_addr p [0xE8, d0, d1, d2, d3])
    (htarget : toInt32 (p + 1 + 4 + toInt32 (le32 d0 d1 d2 d3)) = H)
    (himp : rt.imports H = some name) (hapi : api name = some h) :
    cycle api rt = h
      { rt with cpu := { rt.cpu with
          previous_ip := some p, last_instr_jump := true,
          timestamp_counter := rt.cpu.timestamp_counter + 1,
          instruction_pointer := some H,
          reg32s := fun k => if k = reg_esp then toInt32 (rt.cpu.reg32s reg_esp - 4)
                             else rt.cpu.reg32s k,
          mem8 := Memory.write32 rt.cpu.mem8
            (some (toInt32 (rt.cpu.reg32s reg_esp - 4) - rt.cpu.base_addr))
            (some (p + 1 + 4)) } } := by
  obtain ⟨h0, hrest⟩ := hcode
  rw [cycle_fetch api rt p 0xE8 hip h0]
  have hr := read32s_code rt.cpu.mem8 rt.cpu.base_addr (p + 1) d0 d1 d2 d3 hrest
  simp [table32, modifyCpu, Cpu.op_call_rel32, Cpu.read_imm32s, Cpu.translate_address_read,
    jsSub, hr, Cpu.push32, Cpu.get_real_eip, Cpu.safe_write32, Cpu.translate_address_write,
    Cpu.setReg, JsNum.toInt32, jsAdd, Cpu.jump_rel, Bind.bind, M.bind, import_check, htarget,
    himp, hapi, win32api_has, win32api_call]

/-! ## Lemmas: the frame of a call without arguments -/

/-- The state in which the callee of `stdcall(t)` starts, when ESP is a
non-negative signed value: ESP is 4 lower, the sentinel stands at the new top
of the stack (if that dword is an element of `mem32s`), and nothing else of
the CPU has changed. -/
theorem stdcall_enter_nil (rt : Runtime) (t : Int) (ht : t ≠ 0)
    (hesp : 4 ≤ rt.cpu.reg32s reg_esp ∧ rt.cpu.reg32s reg_esp < 2147483648) :
    ∃ rtE, stdcall_enter t [] rt = Res.ok () rtE
      ∧ rtE.cpu.instruction_pointer = some t
      ∧ rtE.cpu.reg32s reg_esp = rt.cpu.reg32s reg_esp - 4
      ∧ (∀ k, k ≠ reg_esp → rtE.cpu.reg32s k = rt.cpu.reg32s k)
      ∧ rtE.cpu.mem8 = mem32s_set rt.cpu.mem8
          (some (rt.cpu.reg32s reg_esp - 4 - rt.cpu.base_addr)) (some MAGIC_RETURN_ADDR)
      ∧ rtE.cpu.base_addr = rt.cpu.base_addr
      ∧ rtE.cpu.timestamp_counter = rt.cpu.timestamp_counter
      ∧ rtE.function_call_done = false
      ∧ rtE.halt_instructions = false
      ∧ rtE.imports = rt.imports := by
  have e1 : toUint32 (toInt32 (toUint32 (toInt32 (toUint32 (rt.cpu.reg32s reg_esp) - 4))
      - ((0 : Nat) : Int) * 4)) = rt.cpu.reg32s reg_esp - 4 := by
    unfold toInt32 toUint32; omega
  have e2 : toInt32 (toUint32 (toInt32 (toUint32 (rt.cpu.reg32s reg_esp) - 4))
      - ((0 : Nat) : Int) * 4) = rt.cpu.reg32s reg_esp - 4 := by
    unfold toInt32 toUint32; omega
  simp only [stdcall_enter, ht, if_false, List.length_nil, List.reverse_nil,
    stdcall_write_args]
  refine ⟨_, rfl, ?_⟩
  simp only [Cpu.setReg, Cpu.reg32, if_true, JsNum.toInt32, Cpu.translate_address_read, jsSub,
    e1, e2, true_and]
  have e3 : toUint32 (rt.cpu.reg32s reg_esp - 4) = rt.cpu.reg32s reg_esp - 4 := by
    unfold toUint32; omega
  rw [e3]
  refine ⟨?_, rfl, trivial⟩
  intro k hk
  simp [hk]

/-- Storing the same dword twice through `mem32s` is storing it once. -/
theorem mem32s_set_idem (m : Mem8) (o : JsNum) (v : JsNum) :
    mem32s_set (mem32s_set m o v) o v = mem32s_set m o v := by
  cases o with
  | none => rfl
  | some o =>
    unfold mem32s_set
    by_cases hc : o % 4 = 0 ∧ inMem o
    · simp only [hc, and_self, if_true]
      funext j
      by_cases h0 : j = o
      · simp [h0]
      · by_cases h1 : j = o + 1
        · simp [h1]
        · by_cases h2 : j = o + 2
          · simp [h2]
          · by_cases h3 : j = o + 3
            · simp [h3]
            · simp [h0, h1, h2, h3]
    · simp only [hc, if_false]

/-- Code that does not overlap the stored dword is still there after the store. -/
theorem code_at_mem32s_set (m : Mem8) (base o : Int) (v : JsNum) (bytes : List Int) (t : Int)
    (h : code_at m base t bytes)
    (hd : t - base + bytes.length ≤ o ∨ o + 3 < t - base) :
    code_at (mem32s_set m (some o) v) base t bytes := by
  induction bytes generalizing t with
  | nil => trivial
  | cons b rest ih =>
    obtain ⟨h0, hr⟩ := h
    simp only [List.length_cons, Nat.cast_add, Nat.cast_one] at hd
    refine ⟨?_, ih (t + 1) hr (by omega)⟩
    rw [mem8_get_mem32s_set_ne _ _ _ _ (by omega)]
    exact h0

/-- One `stdcall(t)` on `MOV EAX, imm32; RET`: the result, and what the call
leaves of ESP, of the translation base and of the memory. -/
theorem stdcall_mov_eax_ret_run (api : Api) (rt : Runtime) (t b0 b1 b2 b3 : Int)
    (ht : t ≠ 0)
    (hcode : code_at rt.cpu.mem8 rt.cpu.base_addr t [0xB8, b0, b1, b2, b3, 0xC3])
    (hesp : 4 ≤ rt.cpu.reg32s reg_esp ∧ rt.cpu.reg32s reg_esp < 2147483648)
    (hal : (rt.cpu.reg32s reg_esp - 4 - rt.cpu.base_addr) % 4 = 0)
    (hin : inMem (rt.cpu.reg32s reg_esp - 4 - rt.cpu.base_addr))
    (hdisj : t + 6 ≤ rt.cpu.reg32s reg_esp - 4 ∨ rt.cpu.reg32s reg_esp ≤ t) :
    ∃ rt1, stdcall api t [] rt = Res.ok (le32 b0 b1 b2 b3) rt1
      ∧ rt1.cpu.reg32s reg_esp = rt.cpu.reg32s reg_esp
      ∧ rt1.cpu.base_addr = rt.cpu.base_addr
      ∧ rt1.cpu.mem8 = mem32s_set rt.cpu.mem8
          (some (rt.cpu.reg32s reg_esp - 4 - rt.cpu.base_addr)) (some MAGIC_RETURN_ADDR) := by
  obtain ⟨rtE, hE, hip, hEesp, -, hEmem, hEbase, -, hEd, hEh, -⟩ :=
    stdcall_enter_nil rt t ht hesp
  have hcodeE : code_at rtE.cpu.mem8 rtE.cpu.base_addr t [0xB8, b0, b1, b2, b3, 0xC3] := by
    rw [hEmem, hEbase]
    refine code_at_mem32s_set _ _ _ _ _ _ hcode ?_
    simp only [List.length_cons, List.length_nil]
    omega
  have hbytes := hcodeE
  simp only [code_at, and_true] at hbytes
  obtain ⟨c0, c1, c2, c3, c4, c5⟩ := hbytes
  have hb : 0 ≤ b0 ∧ b0 < 256 ∧ 0 ≤ b1 ∧ b1 < 256 ∧ 0 ≤ b2 ∧ b2 < 256 ∧ 0 ≤ b3 ∧ b3 < 256 := by
    have g1 := (mem8_get_some c1).2
    have g2 := (mem8_get_some c2).2
    have g3 := (mem8_get_some c3).2
    have g4 := (mem8_get_some c4).2
    omega
  obtain ⟨rtA, hA, hAip, hAmem, hAbase, hAregs, hAd, hAh⟩ : ∃ rtA, cycle api rtE = Res.ok () rtA
      ∧ rtA.cpu.instruction_pointer = some (t + 1 + 4)
      ∧ rtA.cpu.mem8 = rtE.cpu.mem8
      ∧ rtA.cpu.base_addr = rtE.cpu.base_addr
      ∧ rtA.cpu.reg32s = (fun k => if k = 0 then toInt32 (toInt32 (le32 b0 b1 b2 b3))
                                   else rtE.cpu.reg32s k)
      ∧ rtA.function_call_done = false
      ∧ rtA.halt_instructions = false :=
    ⟨_, cycle_mov_eax_imm32 api rtE t b0 b1 b2 b3 hip ⟨c0, c1, c2, c3, c4, trivial⟩,
      rfl, rfl, rfl, rfl, hEd, hEh⟩
  have e5 : t + 1 + 1 + 1 + 1 + 1 = t + 1 + 4 := by omega
  rw [e5, ← hAmem, ← hAbase] at c5
  have hmagic : toInt32 MAGIC_RETURN_ADDR = MAGIC_RETURN_ADDR := by decide
  have hAesp : rtA.cpu.reg32s reg_esp = rt.cpu.reg32s reg_esp - 4 := by
    rw [hAregs, ← hEesp]; rfl
  have hpop : Memory.read32s rtA.cpu.mem8 (some (rtA.cpu.reg32s reg_esp - rtA.cpu.base_addr))
      = MAGIC_RETURN_ADDR := by
    rw [hAesp, hAmem, hAbase, hEmem, hEbase, read32s_mem32s_set _ _ _ hal hin, hmagic]
  have h2 := cycle_ret api rtA (t + 1 + 4) MAGIC_RETURN_ADDR hAip c5 hpop
  have hfuel : max_cycles = 99999998 + 1 + 1 := rfl
  unfold stdcall
  rw [hE]
  simp only []
  rw [hfuel, run_cycles_step api _ _ _ _ hEd hEh hA,
    run_cycles_step api _ _ _ _ hAd hAh h2, run_cycles_done api _ _ _ (by simp)]
  simp only [if_true]
  refine ⟨_, congrArg₂ Res.ok ?_ rfl, ?_, ?_, ?_⟩
  · simp only [Cpu.reg32, hAregs, reg_eax, reg_esp]
    simp only [OfNat.ofNat_ne_zero, if_false, if_true]
    unfold toUint32 toInt32 le32
    omega
  · simp only [if_true, hAesp]
    unfold toInt32
    omega
  · simp only [hAbase, hEbase]
  · simp only [hAmem, hEmem]

/-! ## Lemmas: a hooked call -/

theorem cycle_starts_done (api : Api) (n : Nat) (rt : Runtime)
    (h : rt.function_call_done = true) : cycle_starts api n rt = [] := by
  cases n with
  | zero => rfl
  | succ n => simp [cycle_starts, h]

theorem cycle_starts_step (api : Api) (n : Nat) (rt rt1 : Runtime)
    (hd : rt.function_call_done = false) (hh : rt.halt_instructions = false)
    (hc : cycle api rt = Res.ok () rt1) :
    cycle_starts api (n + 1) rt = rt.cpu.instruction_pointer :: cycle_starts api n rt1 := by
  simp [cycle_starts, hd, hh, hc]

/-- The effect of one cycle on `PUSH r32`, field by field. -/
theorem cycle_push_reg_spec (api : Api) (rt : Runtime) (p : Int) (r : Nat) (hr : r < 8)
    (hip : rt.cpu.instruction_pointer = some p)
    (hop : mem8_get rt.cpu.mem8 (some (p - rt.cpu.base_addr)) = some (0x50 + (r : Int))) :
    ∃ rt1, cycle api rt = Res.ok () rt1
      ∧ rt1.cpu.instruction_pointer = some (p + 1)
      ∧ rt1.cpu.reg32s reg_esp = toInt32 (rt.cpu.reg32s reg_esp - 4)
      ∧ rt1.cpu.mem8 = Memory.write32 rt.cpu.mem8
          (some (toInt32 (rt.cpu.reg32s reg_esp - 4) - rt.cpu.base_addr))
          (some (rt.cpu.reg32s r))
      ∧ rt1.cpu.base_addr = rt.cpu.base_addr
      ∧ rt1.function_call_done = rt.function_call_done
      ∧ rt1.halt_instructions = rt.halt_instructions
      ∧ rt1.imports = rt.imports :=
  ⟨_, cycle_push_reg api rt p r hr hip hop, rfl, by simp, rfl, rfl, rfl, rfl, rfl⟩

/-- The effect of one cycle on a `RET` that pops the sentinel: the call is done
and EAX is untouched. -/
theorem cycle_ret_magic_spec (api : Api) (rt : Runtime) (p : Int)
    (hip : rt.cpu.instruction_pointer = some p)
    (hop : mem8_get rt.cpu.mem8 (some (p - rt.cpu.base_addr)) = some 0xC3)
    (hpop : Memory.read32s rt.cpu.mem8
      (some (rt.cpu.reg32s reg_esp - rt.cpu.base_addr)) = MAGIC_RETURN_ADDR) :
    ∃ rt1, cycle api rt = Res.ok () rt1
      ∧ rt1.function_call_done = true
      ∧ rt1.cpu.reg32s reg_eax = rt.cpu.reg32s reg_eax :=
  ⟨_, cycle_ret api rt p MAGIC_RETURN_ADDR hip hop hpop, by simp, by simp [reg_eax, reg_esp]⟩

/-- One cycle on a `CALL rel32` whose target is hooked by a handler that
stores `S` in EAX and returns with `instruction_ret(8)`: the return address is
pushed and popped again, ESP ends 8 above its value before the CALL. -/
theorem cycle_call_hook_const (api : Api) (rt : Runtime) (p d0 d1 d2 d3 H S : Int)
    (name : String)
    (hip : rt.cpu.instruction_pointer = some p)
    (hcode : code_at rt.cpu.mem8 rt.cpu.base_addr p [0xE8, d0, d1, d2, d3])
    (htarget : toInt32 (p + 1 + 4 + toInt32 (le32 d0 d1 d2 d3)) = H)
    (himp : rt.imports H = some name) (hapi : api name = some (hook_const S 8))
    (hp : -2147483648 ≤ p + 1 + 4 ∧ p + 1 + 4 < 2147483648)
    (hesp : 4 ≤ rt.cpu.reg32s reg_esp ∧ rt.cpu.reg32s reg_esp + 8 < 2147483648)
    (hal : (rt.cpu.reg32s reg_esp - 4 - rt.cpu.base_addr) % 4 = 0)
    (hin : inMem (rt.cpu.reg32s reg_esp - 4 - rt.cpu.base_addr)) :
    ∃ rtC, cycle api rt = Res.ok () rtC
      ∧ rtC.cpu.instruction_pointer = some (p + 1 + 4)
      ∧ rtC.cpu.reg32s reg_esp = rt.cpu.reg32s reg_esp + 8
      ∧ rtC.cpu.mem8 = Memory.write32 rt.cpu.mem8
          (some (rt.cpu.reg32s reg_esp - 4 - rt.cpu.base_addr)) (some (p + 1 + 4))
      ∧ rtC.cpu.base_addr = rt.cpu.base_addr
      ∧ rtC.cpu.reg32s reg_eax = toInt32 S
      ∧ rtC.function_call_done = rt.function_call_done
      ∧ rtC.halt_instructions = rt.halt_instructions := by
  rw [cycle_call_hooked api rt p d0 d1 d2 d3 H name (hook_const S 8) hip hcode htarget himp hapi]
  have e1 : toInt32 (rt.cpu.reg32s reg_esp - 4) = rt.cpu.reg32s reg_esp - 4 := by
    unfold toInt32; omega
  have eu : toUint32 (rt.cpu.reg32s reg_esp - 4) = rt.cpu.reg32s reg_esp - 4 := by
    unfold toUint32; omega
  have e0 : toInt32 (p + 1 + 4) = p + 1 + 4 := by unfold toInt32; omega
  have e2 : toInt32 (rt.cpu.reg32s reg_esp - 4 + (4 + 8)) = rt.cpu.reg32s reg_esp + 8 := by
    unfold toInt32; omega
  have hne : reg_esp ≠ reg_eax := by decide
  simp only [hook_const, instruction_ret, get_arg, Cpu.setReg, Cpu.reg32, e1, eu, hne, if_false,
    if_true, Cpu.translate_address_read, jsSub, jsAdd, mul_zero, add_zero,
    mem32s_get_write32 _ _ _ hal hin, JsNum.toInt32, e0, e2]
  exact ⟨_, rfl, rfl, rfl, rfl, rfl, rfl, rfl, rfl⟩

/-- The arithmetic of the frame of `PUSH; PUSH; CALL; RET` under `stdcall`: `e`
is ESP before the call, `b` the translation base, `t` the code address. -/
theorem hooked_frame_facts (t e b : Int)
    (ht : -2147483648 ≤ t ∧ t + 7 < 2147483648)
    (hesp : 16 ≤ e ∧ e < 2147483648)
    (hdisj : t + 8 ≤ e - 16 ∨ e ≤ t) :
    (4 ≤ e ∧ e < 2147483648)
    ∧ (t - b + 8 ≤ e - 4 - b ∨ e - 4 - b + 3 < t - b)
    ∧ (t - b + 8 ≤ e - 8 - b ∨ e - 8 - b + 3 < t - b)
    ∧ (t - b + 8 ≤ e - 12 - b ∨ e - 12 - b + 3 < t - b)
    ∧ (t - b + 8 ≤ e - 16 - b ∨ e - 16 - b + 3 < t - b)
    ∧ toInt32 (e - 4 - 4) = e - 8
    ∧ toInt32 (e - 8 - 4) = e - 12
    ∧ (-2147483648 ≤ t + 1 + 1 + 1 + 4 ∧ t + 1 + 1 + 1 + 4 < 2147483648)
    ∧ (4 ≤ e - 12 ∧ e - 12 + 8 < 2147483648)
    ∧ e - 12 - 4 = e - 16
    ∧ e - 12 + 8 = e - 4
    ∧ t + 1 + 1 + 1 + 4 = t + 7
    ∧ t + 1 + 1 + 1 + 1 + 1 + 1 + 1 = t + 7
    ∧ (e - 4 - b + 3 < e - 16 - b ∨ e - 16 - b + 3 < e - 4 - b)
    ∧ (e - 4 - b + 3 < e - 12 - b ∨ e - 12 - b + 3 < e - 4 - b)
    ∧ (e - 4 - b + 3 < e - 8 - b ∨ e - 8 - b + 3 < e - 4 - b)
    ∧ t + 1 + 1 = t + 2 := by
  unfold toInt32
  omega

/-- The run of `PUSH r1; PUSH r2; CALL rel32; RET` at `t` under `stdcall(t)`,
when the CALL's target `H` is a key of `imports` naming a method that stores
`S` in EAX and returns with `instruction_ret(8)`. -/
theorem hooked_call_run (api : Api) (rt : Runtime) (t H S : Int) (name : String)
    (r1 r2 : Nat) (d0 d1 d2 d3 : Int) (hr1 : r1 < 8) (hr2 : r2 < 8)
    (himp : rt.imports H = some name) (hapi : api name = some (hook_const S 8))
    (ht0 : t ≠ 0) (ht : -2147483648 ≤ t ∧ t + 7 < 2147483648)
    (hcode : code_at rt.cpu.mem8 rt.cpu.base_addr t
      [0x50 + (r1 : Int), 0x50 + (r2 : Int), 0xE8, d0, d1, d2, d3, 0xC3])
    (htarget : toInt32 (t + 7 + toInt32 (le32 d0 d1 d2 d3)) = H)
    (hesp : 16 ≤ rt.cpu.reg32s reg_esp ∧ rt.cpu.reg32s reg_esp < 2147483648)
    (hal : (rt.cpu.reg32s reg_esp - rt.cpu.base_addr) % 4 = 0)
    (hin : inMem (rt.cpu.reg32s reg_esp - 16 - rt.cpu.base_addr)
      ∧ inMem (rt.cpu.reg32s reg_esp - 4 - rt.cpu.base_addr))
    (hdisj : t + 8 ≤ rt.cpu.reg32s reg_esp - 16 ∨ rt.cpu.reg32s reg_esp ≤ t) :
    ∃ rtE rtC rtF, stdcall_enter t [] rt = Res.ok () rtE
      ∧ run_cycles api 3 0 rtE = Res.ok 3 rtC
      ∧ rtC.cpu.reg32s reg_esp = rtE.cpu.reg32s reg_esp
      ∧ stdcall api t [] rt = Res.ok (toUint32 S) rtF
      ∧ cycle_starts api max_cycles rtE
          = [some t, some (t + 1), some (t + 2), some (t + 7)] := by
  obtain ⟨f1, g4, g8, g12, g16, eA, eB, fp, fe, q16, q4, e7, e7b, n16, n12, n8, e2⟩ :=
    hooked_frame_facts t (rt.cpu.reg32s reg_esp) rt.cpu.base_addr ht hesp hdisj
  obtain ⟨hal4, -, -, hal16⟩ := aligned_below _ _ hal
  clear hal hesp hdisj ht
  obtain ⟨rtE, hE, hEip, hEesp, -, hEmem, hEbase, -, hEd, hEh, hEimp⟩ :=
    stdcall_enter_nil rt t ht0 f1
  -- the code is in place in every memory of the run
  have hcE : code_at rtE.cpu.mem8 rt.cpu.base_addr t
      [0x50 + (r1 : Int), 0x50 + (r2 : Int), 0xE8, d0, d1, d2, d3, 0xC3] := by
    rw [hEmem]
    exact code_at_mem32s_set _ _ _ _ _ _ hcode g4
  -- PUSH r1
  obtain ⟨rtA, hA, hAip, hAesp, hAmem, hAbase, hAd, hAh, hAimp⟩ :=
    cycle_push_reg_spec api rtE t r1 hr1 hEip (by rw [hEbase]; exact hcE.1)
  rw [hEd] at hAd
  rw [hEh] at hAh
  rw [hEesp, eA] at hAesp hAmem
  rw [hEbase] at hAmem hAbase
  have hcA : code_at rtA.cpu.mem8 rt.cpu.base_addr t
      [0x50 + (r1 : Int), 0x50 + (r2 : Int), 0xE8, d0, d1, d2, d3, 0xC3] := by
    rw [hAmem]
    exact code_at_write32 _ _ _ _ _ _ hcE g8
  -- PUSH r2
  obtain ⟨rtB, hB, hBip, hBesp, hBmem, hBbase, hBd, hBh, hBimp⟩ :=
    cycle_push_reg_spec api rtA (t + 1) r2 hr2 hAip (by rw [hAbase]; exact hcA.2.1)
  rw [hAd] at hBd
  rw [hAh] at hBh
  rw [hAesp, eB] at hBesp hBmem
  rw [hAbase] at hBmem hBbase
  have hcB : code_at rtB.cpu.mem8 rt.cpu.base_addr t
      [0x50 + (r1 : Int), 0x50 + (r2 : Int), 0xE8, d0, d1, d2, d3, 0xC3] := by
    rw [hBmem]
    exact code_at_write32 _ _ _ _ _ _ hcA g12
  -- CALL rel32 and the handler
  have hcB5 : code_at rtB.cpu.mem8 rtB.cpu.base_addr (t + 1 + 1) [0xE8, d0, d1, d2, d3] := by
    rw [hBbase]
    have h := hcB.2.2
    simp only [code_at, and_true] at h ⊢
    exact ⟨h.1, h.2.1, h.2.2.1, h.2.2.2.1, h.2.2.2.2.1⟩
  obtain ⟨rtC, hC, hCip, hCesp, hCmem, hCbase, hCeax, hCd, hCh⟩ :=
    cycle_call_hook_const api rtB (t + 1 + 1) d0 d1 d2 d3 H S name hBip hcB5
      (by rw [e7]; exact htarget) (by rw [hBimp, hAimp, hEimp]; exact himp) hapi
      fp (by rw [hBesp]; exact fe) (by rw [hBesp, hBbase, q16]; exact hal16)
      (by rw [hBesp, hBbase, q16]; exact hin.1)
  rw [e7] at hCip hCmem
  rw [hBesp, q16] at hCmem
  rw [hBesp, q4] at hCesp
  rw [hBbase] at hCmem hCbase
  rw [hBd] at hCd
  rw [hBh] at hCh
  have hcC : code_at rtC.cpu.mem8 rt.cpu.base_addr t
      [0x50 + (r1 : Int), 0x50 + (r2 : Int), 0xE8, d0, d1, d2, d3, 0xC3] := by
    rw [hCmem]
    exact code_at_write32 _ _ _ _ _ _ hcB g16
  -- RET
  have hc7 : mem8_get rtC.cpu.mem8 (some (t + 7 - rtC.cpu.base_addr)) = some 0xC3 := by
    have h := hcC.2.2.2.2.2.2.2.1
    rw [hCbase]
    rw [e7b] at h
    exact h
  have hmagic : toInt32 MAGIC_RETURN_ADDR = MAGIC_RETURN_ADDR := by decide
  have hpop : Memory.read32s rtC.cpu.mem8 (some (rtC.cpu.reg32s reg_esp - rtC.cpu.base_addr))
      = MAGIC_RETURN_ADDR := by
    rw [hCesp, hCbase, hCmem, read32s_write32_ne _ _ _ _ n16, hBmem,
      read32s_write32_ne _ _ _ _ n12, hAmem, read32s_write32_ne _ _ _ _ n8,
      hEmem, read32s_mem32s_set _ _ _ hal4 hin.2, hmagic]
  obtain ⟨rtD, hD, hDd, hDeax⟩ := cycle_ret_magic_spec api rtC (t + 7) hCip hc7 hpop
  rw [hCeax] at hDeax
  have hfuel : max_cycles = 99999996 + 1 + 1 + 1 + 1 := rfl
  refine ⟨rtE, rtC, rtD, hE, ?_, ?_, ?_, ?_⟩
  · rw [show (3 : Nat) = 0 + 1 + 1 + 1 from rfl, run_cycles_step api _ _ _ _ hEd hEh hA,
      run_cycles_step api _ _ _ _ hAd hAh hB, run_cycles_step api _ _ _ _ hBd hBh hC]
    rfl
  · rw [hCesp, hEesp]
  · unfold stdcall
    rw [hE]
    simp only []
    rw [hfuel, run_cycles_step api _ _ _ _ hEd hEh hA, run_cycles_step api _ _ _ _ hAd hAh hB,
      run_cycles_step api _ _ _ _ hBd hBh hC, run_cycles_step api _ _ _ _ hCd hCh hD,
      run_cycles_done api _ _ _ hDd]
    simp only [hDd, if_true, Cpu.reg32, hDeax]
    congr 1
    exact toUint32_toInt32_eq S
  · rw [hfuel, cycle_starts_step api _ _ _ hEd hEh hA, cycle_starts_step api _ _ _ hAd hAh hB,
      cycle_starts_step api _ _ _ hBd hBh hC, cycle_starts_step api _ _ _ hCd hCh hD,
      cycle_starts_done api _ _ hDd, hEip, hAip, hBip, hCip, e2]

/-! ## Lemmas: the self-loop `JMP rel8 -2` -/

/-- What `stdcall` has set when the callee starts, whatever the arguments. -/
theorem stdcall_enter_ok (rt : Runtime) (t : Int) (args : List Int) (ht : t ≠ 0) :
    ∃ rtE, stdcall_enter t args rt = Res.ok () rtE
      ∧ rtE.cpu.instruction_pointer = some t
      ∧ rtE.cpu.base_addr = rt.cpu.base_addr
      ∧ rtE.cpu.timestamp_counter = rt.cpu.timestamp_counter
      ∧ rtE.function_call_done = false
      ∧ rtE.halt_instructions = false := by
  simp only [stdcall_enter, ht, if_false]
  exact ⟨_, rfl, rfl, rfl, rfl, rfl, rfl⟩

/-- One cycle on `EB FE` at `t`: the instruction pointer is back at `t`. -/
theorem cycle_jmp_self (api : Api) (rt : Runtime) (t : Int)
    (hip : rt.cpu.instruction_pointer = some t)
    (hcode : code_at rt.cpu.mem8 rt.cpu.base_addr t [0xEB, 0xFE])
    (ht : -2147483648 ≤ t ∧ t < 2147483648) :
    ∃ rt1, cycle api rt = Res.ok () rt1
      ∧ rt1.cpu.instruction_pointer = some t
      ∧ rt1.cpu.mem8 = rt.cpu.mem8
      ∧ rt1.cpu.base_addr = rt.cpu.base_addr
      ∧ rt1.cpu.timestamp_counter = rt.cpu.timestamp_counter + 1
      ∧ rt1.function_call_done = rt.function_call_done
      ∧ rt1.halt_instructions = rt.halt_instructions := by
  obtain ⟨h0, h1, -⟩ := hcode
  rw [cycle_fetch api rt t 0xEB hip h0]
  have e : toInt32 (t + 1 + 1 + -2) = t := by unfold toInt32; omega
  simp [table32, liftCpu, v86_table32, Cpu.read_imm8s, Cpu.read_imm8, Memory.read8,
    Cpu.translate_address_read, jsSub, h1, Cpu.jump_rel, jsAdd, JsNum.toInt32]
  exact e

/-- The loop on the self-loop never leaves it: `n` more cycles run. -/
theorem run_cycles_jmp_self (api : Api) (t : Int) (ht : -2147483648 ≤ t ∧ t < 2147483648)
    (n : Nat) : ∀ (k : Nat) (rt : Runtime),
    rt.cpu.instruction_pointer = some t →
    code_at rt.cpu.mem8 rt.cpu.base_addr t [0xEB, 0xFE] →
    rt.function_call_done = false → rt.halt_instructions = false →
    ∃ rt1, run_cycles api n k rt = Res.ok (k + n) rt1
      ∧ rt1.function_call_done = false
      ∧ rt1.cpu.timestamp_counter = rt.cpu.timestamp_counter + n := by
  induction n with
  | zero =>
    intro k rt _ _ hd _
    exact ⟨rt, rfl, hd, by simp⟩
  | succ n ih =>
    intro k rt hip hcode hd hh
    obtain ⟨rt1, hc, hip1, hmem1, hbase1, hts1, hd1, hh1⟩ :=
      cycle_jmp_self api rt t hip hcode ht
    obtain ⟨rt2, hr, hd2, hts2⟩ := ih (k + 1) rt1 hip1 (by rw [hmem1, hbase1]; exact hcode)
      (by rw [hd1]; exact hd) (by rw [hh1]; exact hh)
    refine ⟨rt2, ?_, hd2, ?_⟩
    · rw [run_cycles_step api n k rt rt1 hd hh hc, hr]
      congr 1
      omega
    · rw [hts2, hts1]
      push_cast
      omega

/-- A call on the self-loop: the loop of `stdcall` runs `max_cycles` cycles and
the call ends in the timeout throw, for any arguments, as long as the frame
that `stdcall` writes leaves the two code bytes in place. -/
theorem stdcall_self_loop_of_entry (api : Api) (rt : Runtime) (t : Int) (args : List Int)
    (ht0 : t ≠ 0) (ht : -2147483648 ≤ t ∧ t < 2147483648)
    (hcode : code_at (stdcall_enter t args rt).state.cpu.mem8 rt.cpu.base_addr t [0xEB, 0xFE]) :
    ∃ rtF, stdcall api t args rt
        = Res.throw (Fault.message "Execution timeout - possible infinite loop") rtF
      ∧ rtF.cpu.timestamp_counter = rt.cpu.timestamp_counter + 100000000 := by
  obtain ⟨rtE, hE, hip, hbase, hts, hd, hh⟩ := stdcall_enter_ok rt t args ht0
  rw [hE] at hcode
  obtain ⟨rt1, hr, hd1, hts1⟩ := run_cycles_jmp_self api t ht max_cycles 0 rtE hip
    (by rw [hbase]; exact hcode) hd hh
  refine ⟨rt1, ?_, ?_⟩
  · unfold stdcall
    rw [hE]
    simp only []
    rw [hr]
    simp [hd1]
  · rw [hts1, hts]
    rfl

/-- The memory in which the callee of a call without arguments starts. -/
theorem stdcall_enter_nil_mem8 (rt : Runtime) (t : Int) (ht : t ≠ 0) :
    (stdcall_enter t [] rt).state.cpu.mem8 = mem32s_set rt.cpu.mem8
      (some (toUint32 (rt.cpu.reg32s reg_esp - 4) - rt.cpu.base_addr))
      (some MAGIC_RETURN_ADDR) := by
  have e1 : toUint32 (toInt32 (toUint32 (toInt32 (toUint32 (rt.cpu.reg32s reg_esp) - 4))
      - ((0 : Nat) : Int) * 4)) = toUint32 (rt.cpu.reg32s reg_esp - 4) := by
    unfold toInt32 toUint32; omega
  simp only [stdcall_enter, ht, if_false, List.length_nil, List.reverse_nil,
    stdcall_write_args, Res.state, Cpu.setReg, Cpu.reg32, if_true, JsNum.toInt32,
    Cpu.translate_address_read, jsSub, e1]

/-! ## Lemmas: `instruction_ret` and `RET imm16` -/

/-- The 16-bit immediate of `RET imm16` read from its two code bytes. -/
theorem read16_code (m : Mem8) (base p b0 b1 : Int) (h : code_at m base p [b0, b1]) :
    Memory.read16 m (some (p - base)) = b0 + b1 * 256 := by
  simp only [code_at, and_true] at h
  obtain ⟨h0, h1⟩ := h
  have a1 : p - base + 1 = p + 1 - base := by omega
  simp only [Memory.read16, jsAdd, a1, h0, h1, byteOr0]

/-- One cycle on `RET imm16` (C2 and two immediate bytes): the instruction
pointer is the dword read at the signed ESP, ESP moves up by 4 and by the
immediate, the memory and the other registers stay. -/
theorem cycle_ret_imm16 (api : Api) (rt : Runtime) (p b0 b1 : Int)
    (hip : rt.cpu.instruction_pointer = some p)
    (hcode : code_at rt.cpu.mem8 rt.cpu.base_addr p [0xC2, b0, b1]) :
    ∃ rtB, cycle api rt = Res.ok () rtB
      ∧ rtB.cpu.instruction_pointer
        = some (Memory.read32s rt.cpu.mem8 (some (rt.cpu.reg32s reg_esp - rt.cpu.base_addr)))
      ∧ rtB.cpu.reg32s reg_esp
        = toInt32 (toInt32 (rt.cpu.reg32s reg_esp + 4) + (b0 + b1 * 256))
      ∧ rtB.cpu.mem8 = rt.cpu.mem8
      ∧ (∀ r, r ≠ reg_esp → rtB.cpu.reg32s r = rt.cpu.reg32s r) := by
  obtain ⟨h0, hrest⟩ := hcode
  rw [cycle_fetch api rt p 0xC2 hip h0]
  have hr := read16_code rt.cpu.mem8 rt.cpu.base_addr (p + 1) b0 b1 hrest
  by_cases hm : Memory.read32s rt.cpu.mem8 (some (rt.cpu.reg32s reg_esp - rt.cpu.base_addr))
      = MAGIC_RETURN_ADDR
  · simp [table32, liftCpu, v86_table32, Cpu.op_ret_imm16, Cpu.read_imm16, Cpu.pop32,
      Cpu.safe_read32s, Cpu.translate_address_read, jsSub, hr, Cpu.setReg, JsNum.toInt32,
      ret_check, Bind.bind, M.bind, hm]
    intro r hr
    simp [hr]
  · simp [table32, liftCpu, v86_table32, Cpu.op_ret_imm16, Cpu.read_imm16, Cpu.pop32,
      Cpu.safe_read32s, Cpu.translate_address_read, jsSub, hr, Cpu.setReg, JsNum.toInt32,
      ret_check, Bind.bind, M.bind, hm]
    intro r hr
    simp [hr]

/-! ## Lemmas: the allocator keeps its ranges in order -/

theorem ranges_ok_cons (r : Range) (l : List Range) :
    ranges_ok (r :: l) ↔ r.1 ≤ r.2 ∧ lower_bound r.2 l ∧ ranges_ok l := by
  cases l with
  | nil => simp [ranges_ok, lower_bound]
  | cons s rest => simp [ranges_ok, lower_bound]

theorem align4_ge (size : Int) : size ≤ align4 size ∧ align4 size < size + 4
    ∧ align4 size % 4 = 0 := by
  unfold align4
  omega

theorem free_scan_ok (addr : Int) (l : List Range) : ∀ (x : Int) (l1 : List Range),
    ranges_ok l → lower_bound x l → free_scan addr l = some l1 →
    ranges_ok l1 ∧ lower_bound x l1 := by
  induction l with
  | nil => intro x l1 _ _ h; simp [free_scan] at h
  | cons r rest ih =>
    intro x l1 hok hlb h
    rw [ranges_ok_cons] at hok
    obtain ⟨hr, hlr, hrest⟩ := hok
    simp only [lower_bound] at hlb
    unfold free_scan at h
    by_cases hra : r.1 = addr
    · simp only [hra, if_true, Option.some.injEq] at h
      subst h
      refine ⟨hrest, ?_⟩
      cases rest with
      | nil => trivial
      | cons s tl =>
        simp only [lower_bound] at hlr ⊢
        omega
    · simp only [hra, if_false] at h
      cases hfs : free_scan addr rest with
      | none => simp [hfs] at h
      | some l2 =>
        simp only [hfs, Option.some.injEq] at h
        subst h
        obtain ⟨h1, h2⟩ := ih r.2 l2 hrest hlr hfs
        exact ⟨(ranges_ok_cons r l2).2 ⟨hr, h2, h1⟩, hlb⟩

theorem alloc_scan_ok (size : Int) (hs : 0 ≤ size) (l : List Range) :
    ∀ (x a : Int) (l1 : List Range),
    ranges_ok l → lower_bound x l → alloc_scan size l = some (a, l1) →
    ranges_ok l1 ∧ lower_bound x l1 := by
  induction l with
  | nil => intro x a l1 _ _ h; simp [alloc_scan] at h
  | cons last rest ih =>
    intro x a l1 hok hlb h
    cases rest with
    | nil => simp [alloc_scan] at h
    | cons curr tl =>
      have hok2 := hok
      rw [ranges_ok_cons] at hok
      obtain ⟨hr, hlr, hrest⟩ := hok
      simp only [lower_bound] at hlb hlr
      unfold alloc_scan at h
      by_cases hg : curr.1 - last.2 ≥ size
      · simp only [hg, if_true, Option.some.injEq, Prod.mk.injEq] at h
        obtain ⟨-, h⟩ := h
        subst h
        refine ⟨?_, hlb⟩
        rw [ranges_ok_cons, ranges_ok_cons]
        simp only [lower_bound]
        exact ⟨hr, le_refl _, by omega, by omega, hrest⟩
      · simp only [hg, if_false] at h
        cases hfs : alloc_scan size (curr :: tl) with
        | none => simp [hfs] at h
        | some p =>
          obtain ⟨a2, l2⟩ := p
          simp only [hfs, Option.some.injEq, Prod.mk.injEq] at h
          obtain ⟨-, h⟩ := h
          subst h
          obtain ⟨h1, h2⟩ := ih last.2 a2 l2 hrest hlr hfs
          exact ⟨(ranges_ok_cons last l2).2 ⟨hr, h2, h1⟩, hlb⟩

theorem append_ok (l : List Range) : ∀ (x : Int) (last : Range) (v : Int),
    ranges_ok l → lower_bound x l → l.getLast? = some last → last.2 ≤ v →
    ranges_ok (l ++ [(last.2, v)]) ∧ lower_bound x (l ++ [(last.2, v)]) := by
  induction l with
  | nil => intro x last v _ _ h; simp at h
  | cons r rest ih =>
    intro x last v hok hlb hl hv
    rw [ranges_ok_cons] at hok
    obtain ⟨hr, hlr, hrest⟩ := hok
    cases rest with
    | nil =>
      simp only [List.getLast?_singleton, Option.some.injEq] at hl
      subst hl
      refine ⟨?_, hlb⟩
      simp only [List.cons_append, List.nil_append, ranges_ok]
      exact ⟨hr, le_refl _, hv⟩
    | cons s tl =>
      have hl2 : (s :: tl).getLast? = some last := by
        rw [List.getLast?_cons_cons] at hl
        exact hl
      obtain ⟨h1, h2⟩ := ih r.2 last v hrest hlr hl2 hv
      refine ⟨?_, hlb⟩
      rw [List.cons_append, ranges_ok_cons]
      exact ⟨hr, h2, h1⟩

theorem alloc_ok (map : List Range) (size : Int) (hs : 0 ≤ size) (hok : ranges_ok map) :
    ranges_ok (alloc map size).map := by
  have ha := (align4_ge size).1
  unfold alloc
  simp only []
  cases hsc : alloc_scan (align4 size) map with
  | some p =>
    obtain ⟨a, l⟩ := p
    simp only [ARes.map]
    have hx : ∃ x, lower_bound x map := by
      cases map with
      | nil => exact ⟨0, trivial⟩
      | cons r _ => exact ⟨r.1, le_refl _⟩
    obtain ⟨x, hx⟩ := hx
    exact (alloc_scan_ok (align4 size) (by omega) map x a l hok hx hsc).1
  | none =>
    simp only []
    cases hl : map.getLast? with
    | none => exact hok
    | some last =>
      simp only []
      by_cases hm : last.2 + align4 size > MAX_MEM_ADDR
      · simp only [hm, if_true, ARes.map]
        exact hok
      · simp only [hm, if_false, ARes.map]
        have hx : ∃ x, lower_bound x map := by
          cases map with
          | nil => exact ⟨0, trivial⟩
          | cons r _ => exact ⟨r.1, le_refl _⟩
        obtain ⟨x, hx⟩ := hx
        exact (append_ok map x last (last.2 + align4 size) hok hx hl (by omega)).1

theorem free_ok (map : List Range) (addr : Int) (hok : ranges_ok map) :
    ranges_ok (free map addr).map := by
  unfold free
  cases hsc : free_scan addr map with
  | none => exact hok
  | some l =>
    simp only [ARes.map]
    have hx : ∃ x, lower_bound x map := by
      cases map with
      | nil => exact ⟨0, trivial⟩
      | cons r _ => exact ⟨r.1, le_refl _⟩
    obtain ⟨x, hx⟩ := hx
    exact (free_scan_ok addr map x l hok hx hsc).1

theorem find_idx_get (ptr : Int) (l : List Range) : ∀ (i : Nat),
    find_idx ptr l = some i → ∃ r, l[i]? = some r ∧ r.1 = ptr := by
  induction l with
  | nil => intro i h; simp [find_idx] at h
  | cons r rest ih =>
    intro i h
    unfold find_idx at h
    by_cases hr : r.1 = ptr
    · simp only [hr, if_true, Option.some.injEq] at h
      subst h
      exact ⟨r, by simp, hr⟩
    · simp only [hr, if_false] at h
      cases hf : find_idx ptr rest with
      | none => simp [hf] at h
      | some j =>
        simp only [hf, Option.some.injEq] at h
        subst h
        obtain ⟨r1, h1, h2⟩ := ih j hf
        exact ⟨r1, by simpa using h1, h2⟩

theorem set_end_ok (l : List Range) : ∀ (i : Nat) (x : Int) (r : Range) (v : Int),
    ranges_ok l → lower_bound x l → l[i]? = some r → r.1 ≤ v →
    (∀ nx, l[i + 1]? = some nx → v ≤ nx.1) →
    ranges_ok (set_end l i v) ∧ lower_bound x (set_end l i v) := by
  induction l with
  | nil => intro i x r v _ _ h; simp at h
  | cons a rest ih =>
    intro i x r v hok hlb hi hv hnx
    rw [ranges_ok_cons] at hok
    obtain ⟨ha, hla, hrest⟩ := hok
    cases i with
    | zero =>
      simp only [List.getElem?_cons_zero, Option.some.injEq] at hi
      subst hi
      simp only [set_end, List.getElem?_cons_zero, List.set_cons_zero]
      refine ⟨?_, hlb⟩
      rw [ranges_ok_cons]
      refine ⟨hv, ?_, hrest⟩
      cases rest with
      | nil => trivial
      | cons s tl =>
        simp only [lower_bound]
        exact hnx s (by simp)
    | succ j =>
      have hi2 : rest[j]? = some r := by simpa using hi
      have hnx2 : ∀ nx, rest[j + 1]? = some nx → v ≤ nx.1 := by
        intro nx h
        exact hnx nx (by simpa using h)
      obtain ⟨h1, h2⟩ := ih j a.2 r v hrest hla hi2 hv hnx2
      have hse : set_end (a :: rest) (j + 1) v = a :: set_end rest j v := by
        simp only [set_end, List.getElem?_cons_succ, hi2, List.set_cons_succ]
      rw [hse]
      exact ⟨(ranges_ok_cons a _).2 ⟨ha, h2, h1⟩, hlb⟩

theorem exists_lower_bound (map : List Range) : ∃ x, lower_bound x map := by
  cases map with
  | nil => exact ⟨0, trivial⟩
  | cons r _ => exact ⟨r.1, le_refl _⟩

theorem realloc_ok (map : List Range) (ptr size : Int) (hs : 0 ≤ size) (hok : ranges_ok map) :
    ranges_ok (realloc map ptr size).map := by
  obtain ⟨x, hx⟩ := exists_lower_bound map
  unfold realloc
  by_cases hp : ptr = 0
  · simp only [hp, if_true]
    exact alloc_ok map size hs hok
  · simp only [hp, if_false]
    cases hf : find_idx ptr map with
    | none => exact hok
    | some i =>
      obtain ⟨r, hr, hrp⟩ := find_idx_get ptr map i hf
      simp only []
      by_cases hlast : i + 1 = map.length
      · simp only [hlast, if_true]
        by_cases hm : ptr + size > MAX_MEM_ADDR
        · simp only [hm, if_true, ARes.map]
          exact hok
        · simp only [hm, if_false, ARes.map]
          refine (set_end_ok map i x r (ptr + size) hok hx hr (by omega) ?_).1
          intro nx hnx
          have : i + 1 < map.length := (List.getElem?_eq_some_iff.1 hnx).1
          omega
      · simp only [hlast, if_false]
        cases hn : map[i + 1]? with
        | none =>
          simp only []
          exact alloc_ok _ size hs (free_ok map ptr hok)
        | some next =>
          simp only []
          by_cases hlt : ptr + size < next.1
          · simp only [hlt, if_true, ARes.map]
            refine (set_end_ok map i x r (ptr + size) hok hx hr (by omega) ?_).1
            intro nx hnx
            rw [hn] at hnx
            simp only [Option.some.injEq] at hnx
            subst hnx
            omega
          · simp only [hlt, if_false]
            exact alloc_ok _ size hs (free_ok map ptr hok)

theorem run_call_ok (map : List Range) (c : AllocCall) (hs : c.size_nonneg)
    (hok : ranges_ok map) : ranges_ok (c.run map) := by
  cases c with
  | alloc size => exact alloc_ok map size hs hok
  | free addr => exact free_ok map addr hok
  | realloc ptr size => exact realloc_ok map ptr size hs hok

/-! ## Lemmas: what `alloc` does -/

theorem gap_cons_succ (r : Range) (l : List Range) (i : Nat) :
    gap (r :: l) (i + 1) = gap l i := by
  simp [gap]

theorem gap_cons_zero (last curr : Range) (l : List Range) :
    gap (last :: curr :: l) 0 = curr.1 - last.2 := by
  simp [gap]

/-- The scan stops at the first adjacent pair whose gap is large enough. -/
theorem alloc_scan_first_fit (s : Int) (l : List Range) : ∀ (i : Nat),
    i + 1 < l.length → (∀ j, j < i → gap l j < s) → gap l i ≥ s →
    alloc_scan s l = some ((l.getD i (0, 0)).2,
      l.take (i + 1) ++ [((l.getD i (0, 0)).2, (l.getD i (0, 0)).2 + s)] ++ l.drop (i + 1)) := by
  induction l with
  | nil => intro i h; simp at h
  | cons last rest ih =>
    intro i hi hlt hge
    cases rest with
    | nil => simp at hi
    | cons curr tl =>
      cases i with
      | zero =>
        rw [gap_cons_zero] at hge
        simp [alloc_scan, hge]
      | succ j =>
        have h0 : ¬ (curr.1 - last.2 ≥ s) := by
          have := hlt 0 (Nat.succ_pos j)
          rw [gap_cons_zero] at this
          omega
        have hi2 : j + 1 < (curr :: tl).length := by
          simp only [List.length_cons] at hi ⊢
          omega
        have hlt2 : ∀ k, k < j → gap (curr :: tl) k < s := by
          intro k hk
          have := hlt (k + 1) (by omega)
          rw [gap_cons_succ] at this
          exact this
        rw [gap_cons_succ] at hge
        have hrec := ih j hi2 hlt2 hge
        unfold alloc_scan
        simp only [h0, if_false, hrec]
        simp

/-- The scan finds nothing when every gap is too small. -/
theorem alloc_scan_none (s : Int) (l : List Range) :
    (∀ i, i + 1 < l.length → gap l i < s) → alloc_scan s l = none := by
  induction l with
  | nil => intro _; rfl
  | cons last rest ih =>
    intro h
    cases rest with
    | nil => rfl
    | cons curr tl =>
      have h0 : ¬ (curr.1 - last.2 ≥ s) := by
        have := h 0 (by simp)
        rw [gap_cons_zero] at this
        omega
      have hrec := ih (fun i hi => by
        have := h (i + 1) (by simp only [List.length_cons] at hi ⊢; omega)
        rw [gap_cons_succ] at this
        exact this)
      unfold alloc_scan
      simp only [h0, if_false, hrec]

/-! ## Lemmas: allocating at the end and freeing in any order -/

theorem alloc_scan_contiguous (s : Int) (hs : 0 < s) (l : List Range) :
    contiguous l → alloc_scan s l = none := by
  induction l with
  | nil => intro _; rfl
  | cons last rest ih =>
    intro h
    cases rest with
    | nil => rfl
    | cons curr tl =>
      obtain ⟨h1, h2⟩ := h
      have h0 : ¬ (curr.1 - last.2 ≥ s) := by omega
      unfold alloc_scan
      simp only [h0, if_false, ih h2]

theorem alloc_contiguous (map : List Range) (last : Range) (size : Int) (hs : 0 < size)
    (hc : contiguous map) (hl : map.getLast? = some last) :
    alloc map size =
      if last.2 + align4 size > MAX_MEM_ADDR then ARes.throw (Fault.message "Out of memory") map
      else ARes.ok last.2 (map ++ [(last.2, last.2 + align4 size)]) := by
  have ha := (align4_ge size).1
  unfold alloc
  simp only [alloc_scan_contiguous (align4 size) (by omega) map hc, hl]

theorem contiguous_append (l : List Range) : ∀ (last : Range) (v : Int),
    contiguous l → l.getLast? = some last → contiguous (l ++ [(last.2, v)]) := by
  induction l with
  | nil => intro last v _ h; simp at h
  | cons r rest ih =>
    intro last v hc hl
    cases rest with
    | nil =>
      simp only [List.getLast?_singleton, Option.some.injEq] at hl
      subst hl
      simp [contiguous]
    | cons s tl =>
      obtain ⟨h1, h2⟩ := hc
      have hl2 : (s :: tl).getLast? = some last := by
        rw [List.getLast?_cons_cons] at hl
        exact hl
      have := ih last v h2 hl2
      simp only [List.cons_append] at this ⊢
      exact ⟨h1, this⟩

theorem alloc_all_contiguous (sizes : List Int) : ∀ (map : List Range) (last : Range)
    (addrs : List Int) (m : List Range),
    (∀ s ∈ sizes, 0 < s) → contiguous map → map.getLast? = some last →
    alloc_all map sizes = some (addrs, m) →
    m = map ++ blocks last.2 sizes ∧ addrs = (blocks last.2 sizes).map Prod.fst
      ∧ (sizes ≠ [] → last.2 + (sizes.map align4).sum ≤ MAX_MEM_ADDR) := by
  induction sizes with
  | nil =>
    intro map last addrs m _ _ _ h
    simp only [alloc_all, Option.some.injEq, Prod.mk.injEq] at h
    obtain ⟨h1, h2⟩ := h
    subst h1 h2
    simp [blocks]
  | cons s rest ih =>
    intro map last addrs m hpos hc hl h
    have hs : 0 < s := hpos s (List.mem_cons_self _ _)
    have hrest : ∀ x ∈ rest, 0 < x := fun x hx => hpos x (List.mem_cons_of_mem _ hx)
    unfold alloc_all at h
    rw [alloc_contiguous map last s hs hc hl] at h
    by_cases hm : last.2 + align4 s > MAX_MEM_ADDR
    · simp [hm] at h
    · simp only [hm, if_false] at h
      cases hr : alloc_all (map ++ [(last.2, last.2 + align4 s)]) rest with
      | none => simp [hr] at h
      | some p =>
        obtain ⟨addrs2, m2⟩ := p
        simp only [hr, Option.some.injEq, Prod.mk.injEq] at h
        obtain ⟨h1, h2⟩ := h
        subst h1 h2
        obtain ⟨e1, e2, e3⟩ := ih (map ++ [(last.2, last.2 + align4 s)])
          (last.2, last.2 + align4 s) addrs2 m2 hrest (contiguous_append map last _ hc hl)
          (List.getLast?_concat map) hr
        simp only at e1 e2 e3
        refine ⟨?_, ?_, ?_⟩
        · rw [e1]
          simp [blocks]
        · rw [e2]
          simp [blocks]
        · intro _
          simp only [List.map_cons, List.sum_cons]
          by_cases hn : rest = []
          · subst hn
            simp only [List.map_nil, List.sum_nil]
            omega
          · have := e3 hn
            omega

theorem blocks_begins (sizes : List Int) : ∀ (L : Int), (∀ s ∈ sizes, 0 < s) →
    (∀ a ∈ (blocks L sizes).map Prod.fst, L ≤ a)
    ∧ ((blocks L sizes).map Prod.fst).Pairwise (fun a b => a < b) := by
  induction sizes with
  | nil => intro L _; simp [blocks]
  | cons s rest ih =>
    intro L hpos
    have hs : 0 < s := hpos s (List.mem_cons_self _ _)
    have ha := (align4_ge s).1
    obtain ⟨h1, h2⟩ := ih (L + align4 s) (fun x hx => hpos x (List.mem_cons_of_mem _ hx))
    simp only [blocks, List.map_cons, List.mem_cons, List.pairwise_cons]
    refine ⟨?_, ?_, h2⟩
    · intro a hmem
      rcases hmem with h | h
      · omega
      · have := h1 a h
        omega
    · intro a hmem
      have := h1 a hmem
      omega

theorem free_scan_filter (addr : Int) (l : List Range) :
    (l.map Prod.fst).Nodup → addr ∈ l.map Prod.fst →
    free_scan addr l = some (l.filter (fun r => decide (r.1 ≠ addr))) := by
  induction l with
  | nil => intro _ h; simp at h
  | cons r rest ih =>
    intro hnd hmem
    simp only [List.map_cons, List.nodup_cons] at hnd
    obtain ⟨hr, hnd2⟩ := hnd
    unfold free_scan
    by_cases hra : r.1 = addr
    · simp only [hra, if_true, Option.some.injEq]
      have hf : rest.filter (fun r => decide (r.1 ≠ addr)) = rest := by
        rw [List.filter_eq_self]
        intro a ha
        simp only [ne_eq, decide_not, Bool.not_eq_true', decide_eq_false_iff_not]
        intro h
        apply hr
        rw [hra, ← h]
        exact List.mem_map_of_mem Prod.fst ha
      rw [List.filter_cons_of_neg (by simp [hra]), hf]
    · simp only [hra, if_false]
      have hmem2 : addr ∈ rest.map Prod.fst := by
        simp only [List.map_cons, List.mem_cons] at hmem
        rcases hmem with h | h
        · exact absurd h.symm hra
        · exact h
      rw [ih hnd2 hmem2]
      simp [List.filter_cons, hra]

theorem free_all_perm (pre : List Range) (order : List Int) : ∀ (B : List Range),
    ((pre ++ B).map Prod.fst).Nodup → order.Perm (B.map Prod.fst) →
    free_all (pre ++ B) order = (List.replicate order.length true, pre) := by
  induction order with
  | nil =>
    intro B _ hp
    have hB : B = [] := by
      have := hp.symm.eq_nil
      simpa using this
    subst hB
    simp [free_all]
  | cons a rest ih =>
    intro B hnd hp
    have haB : a ∈ B.map Prod.fst := hp.mem_iff.1 (List.mem_cons_self _ _)
    have hmem : a ∈ (pre ++ B).map Prod.fst := by
      rw [List.map_append]
      exact List.mem_append_right _ haB
    have hnd2 := hnd
    rw [List.map_append, List.nodup_append] at hnd2
    obtain ⟨-, hndB, hdisj⟩ := hnd2
    have hpre : pre.filter (fun r => decide (r.1 ≠ a)) = pre := by
      rw [List.filter_eq_self]
      intro r hr
      simp only [ne_eq, decide_not, Bool.not_eq_true', decide_eq_false_iff_not]
      intro h
      exact hdisj (List.mem_map_of_mem Prod.fst hr) (h ▸ haB)
    have hfree : free (pre ++ B) a
        = ARes.ok true (pre ++ B.filter (fun r => decide (r.1 ≠ a))) := by
      unfold free
      rw [free_scan_filter a (pre ++ B) hnd hmem, List.filter_append, hpre]
    have hnd3 : ((pre ++ B.filter (fun r => decide (r.1 ≠ a))).map Prod.fst).Nodup := by
      refine List.Nodup.sublist ?_ hnd
      refine List.Sublist.map _ ?_
      exact List.Sublist.append_left (List.filter_sublist _) _
    have hnda : (a :: rest).Nodup := (hp.nodup_iff).2 hndB
    have harest : a ∉ rest := (List.nodup_cons.1 hnda).1
    have hp3 : rest.Perm ((B.filter (fun r => decide (r.1 ≠ a))).map Prod.fst) := by
      have h1 := List.Perm.filter (fun x => decide (x ≠ a)) hp
      have h2 : (a :: rest).filter (fun x => decide (x ≠ a)) = rest := by
        rw [List.filter_cons]
        simp only [ne_eq, not_true_eq_false, decide_False, Bool.false_eq_true, if_false]
        rw [List.filter_eq_self]
        intro x hx
        simp only [decide_not, Bool.not_eq_true', decide_eq_false_iff_not]
        intro h
        exact harest (h ▸ hx)
      rw [h2] at h1
      have h3 : (B.map Prod.fst).filter (fun x => decide (x ≠ a))
          = (B.filter (fun r => decide (r.1 ≠ a))).map Prod.fst := by
        rw [List.filter_map]
        rfl
      rw [h3] at h1
      exact h1
    have hrec := ih (B.filter (fun r => decide (r.1 ≠ a))) hnd3 hp3
    unfold free_all
    rw [hfree]
    simp only [hrec, List.length_cons, List.replicate_succ]

theorem sum_align4 (sizes : List Int) :
    sizes.sum ≤ (sizes.map align4).sum ∧ (sizes.map align4).sum % 4 = 0 := by
  induction sizes with
  | nil => simp
  | cons s rest ih =>
    obtain ⟨a1, -, a3⟩ := align4_ge s
    simp only [List.sum_cons, List.map_cons]
    omega

theorem sum_pos_of_pos (sizes : List Int) (hpos : ∀ s ∈ sizes, 0 < s) (hne : sizes ≠ []) :
    0 < sizes.sum := by
  induction sizes with
  | nil => exact absurd rfl hne
  | cons s rest ih =>
    have hs : 0 < s := hpos s (List.mem_cons_self _ _)
    simp only [List.sum_cons]
    by_cases hr : rest = []
    · subst hr
      simpa using hs
    · have := ih (fun x hx => hpos x (List.mem_cons_of_mem _ hx)) hr
      omega

/-! ## Lemmas: `free` and the two ranges of the constructor -/

/-- The loop of `free` removes the element at the first index whose begin is
`addr`. -/
theorem free_scan_findIdx (addr : Int) (map : List Range) :
    free_scan addr map
      = (map.findIdx? (fun r => decide (r.1 = addr))).map (fun i => map.eraseIdx i) := by
  induction map with
  | nil => rfl
  | cons r rest ih =>
    by_cases h : r.1 = addr
    · simp [free_scan, h, List.findIdx?_cons]
    · simp [free_scan, h, List.findIdx?_cons, ih, List.findIdx?_succ]
      cases List.findIdx? (fun r => decide (r.1 = addr)) rest <;> simp

theorem free_keeps_two (i s : Range) (rest : List Range) (addr : Int)
    (h1 : addr ≠ i.1) (h2 : addr ≠ s.1) :
    ∃ l, (free (i :: s :: rest) addr).map = i :: s :: l := by
  have g1 : ¬ i.1 = addr := fun e => h1 e.symm
  have g2 : ¬ s.1 = addr := fun e => h2 e.symm
  unfold free
  simp only [free_scan, g1, g2, if_false]
  cases free_scan addr rest with
  | none => exact ⟨rest, rfl⟩
  | some l => exact ⟨l, rfl⟩

theorem alloc_scan_head (size : Int) (s : Range) (rest : List Range) (a : Int) (l : List Range)
    (h : alloc_scan size (s :: rest) = some (a, l)) : ∃ l2, l = s :: l2 := by
  cases rest with
  | nil => simp [alloc_scan] at h
  | cons c rest2 =>
    unfold alloc_scan at h
    by_cases hg : c.1 - s.2 ≥ size
    · simp only [hg, if_true, Option.some.injEq, Prod.mk.injEq] at h
      exact ⟨_, h.2.symm⟩
    · simp only [hg, if_false] at h
      cases hr : alloc_scan size (c :: rest2) with
      | none => simp [hr] at h
      | some p =>
        obtain ⟨a2, l3⟩ := p
        simp only [hr, Option.some.injEq, Prod.mk.injEq] at h
        exact ⟨_, h.2.symm⟩

theorem alloc_keeps_two (i s : Range) (rest : List Range) (size : Int)
    (hs : s.1 = i.2) (hpos : 0 < size) :
    ∃ l, (alloc (i :: s :: rest) size).map = i :: s :: l := by
  obtain ⟨a1, -, -⟩ := align4_ge size
  have hg : ¬ (s.1 - i.2 ≥ align4 size) := by omega
  unfold alloc
  simp only [alloc_scan, hg, if_false]
  cases hr : alloc_scan (align4 size) (s :: rest) with
  | some p =>
    obtain ⟨a2, l3⟩ := p
    obtain ⟨l2, e⟩ := alloc_scan_head _ _ _ _ _ hr
    exact ⟨l2, by simp [ARes.map, e]⟩
  | none =>
    simp only []
    cases hl : (i :: s :: rest).getLast? with
    | none => exact ⟨rest, rfl⟩
    | some last =>
      simp only []
      by_cases hm : last.2 + align4 size > MAX_MEM_ADDR
      · simp only [hm, if_true]; exact ⟨rest, rfl⟩
      · simp only [hm, if_false]; exact ⟨rest ++ [(last.2, last.2 + align4 size)], rfl⟩
theorem set_end_keeps_two (i s : Range) (rest : List Range) (k : Nat) (v : Int) :
    ∃ l, set_end (i :: s :: rest) (k + 2) v = i :: s :: l := by
  unfold set_end
  cases h : (i :: s :: rest)[k + 2]? with
  | none => exact ⟨rest, rfl⟩
  | some r => exact ⟨rest.set k (r.1, v), by simp⟩

theorem find_idx_two (i s : Range) (rest : List Range) (ptr : Int)
    (h1 : ptr ≠ i.1) (h2 : ptr ≠ s.1) :
    find_idx ptr (i :: s :: rest) = (find_idx ptr rest).map (fun k => k + 2) := by
  have g1 : ¬ i.1 = ptr := fun e => h1 e.symm
  have g2 : ¬ s.1 = ptr := fun e => h2 e.symm
  simp only [find_idx, g1, g2, if_false]
  cases find_idx ptr rest <;> rfl

theorem realloc_keeps_two (i s : Range) (rest : List Range) (ptr size : Int)
    (hs : s.1 = i.2) (h1 : ptr ≠ i.1) (h2 : ptr ≠ s.1) (hpos : 0 < size) :
    ∃ l, (realloc (i :: s :: rest) ptr size).map = i :: s :: l := by
  have hfall : ∃ l, (alloc (free (i :: s :: rest) ptr).map size).map = i :: s :: l := by
    obtain ⟨l1, e1⟩ := free_keeps_two i s rest ptr h1 h2
    rw [e1]
    exact alloc_keeps_two i s l1 size hs hpos
  unfold realloc
  by_cases h0 : ptr = 0
  · simp only [h0, if_true]
    exact alloc_keeps_two i s rest size hs hpos
  · simp only [h0, if_false]
    rw [find_idx_two i s rest ptr h1 h2]
    cases hf : find_idx ptr rest with
    | none => exact ⟨rest, rfl⟩
    | some k =>
      simp only [Option.map_some']
      obtain ⟨l2, e2⟩ := set_end_keeps_two i s rest k (ptr + size)
      by_cases hlast : k + 2 + 1 = (i :: s :: rest).length
      · simp only [hlast, if_true]
        by_cases hm : ptr + size > MAX_MEM_ADDR
        · simp only [hm, if_true]; exact ⟨rest, rfl⟩
        · simp only [hm, if_false]; exact ⟨l2, by simp only [ARes.map, e2]⟩
      · simp only [hlast, if_false]
        cases hn : (i :: s :: rest)[k + 2 + 1]? with
        | none => exact hfall
        | some next =>
          simp only []
          by_cases hlt : ptr + size < next.1
          · simp only [hlt, if_true]; exact ⟨l2, by simp only [ARes.map, e2]⟩
          · simp only [hlt, if_false]; exact hfall

theorem run_call_keeps_two (base len : Int) (l : List Range) (c : AllocCall)
    (hc : c.clear_of base len) :
    ∃ l2, c.run (initial_map base len ++ l) = initial_map base len ++ l2 := by
  simp only [initial_map, List.cons_append, List.nil_append]
  cases c with
  | alloc size => exact alloc_keeps_two _ _ l size rfl hc
  | free addr => exact free_keeps_two _ _ l addr hc.1 hc.2
  | realloc ptr size => exact realloc_keeps_two _ _ l ptr size rfl hc.1 hc.2.1 hc.2.2

/-! ## Theorems -/

/-- C5: let the handler registered by `add_hook(H, h)` store the constant `S`
in EAX and call `instruction_ret(8)`, and let the guest code at `t` be `PUSH r1;
PUSH r2; CALL rel32; RET` with the CALL's target equal to `H`, `H` lying outside
these eight code bytes and the frame (the 16 bytes below ESP) lying inside the
memory, 4-aligned and clear of the code. Then `stdcall(t)` returns `S`; the
cycles of the call start at `t`, `t+1`, `t+2` and `t+7` and none starts at `H`
(nothing is fetched there, whatever the memory holds at `H`); and right after
the hooked CALL (three cycles in) ESP is what it was before the two pushes. -/
theorem stdcall_hooked_call (api0 : Api) (rt0 : Runtime) (t H S : Int)
    (r1 r2 : Nat) (d0 d1 d2 d3 : Int) (hr1 : r1 < 8) (hr2 : r2 < 8)
    (hS : 0 ≤ S ∧ S < 4294967296)
    (ht0 : t ≠ 0) (ht : -2147483648 ≤ t ∧ t + 7 < 2147483648)
    (hcode : code_at rt0.cpu.mem8 rt0.cpu.base_addr t
      [0x50 + (r1 : Int), 0x50 + (r2 : Int), 0xE8, d0, d1, d2, d3, 0xC3])
    (htarget : toInt32 (t + 7 + toInt32 (le32 d0 d1 d2 d3)) = H)
    (hH : H < t ∨ t + 8 ≤ H)
    (hesp : 16 ≤ rt0.cpu.reg32s reg_esp ∧ rt0.cpu.reg32s reg_esp < 2147483648)
    (hal : (rt0.cpu.reg32s reg_esp - rt0.cpu.base_addr) % 4 = 0)
    (hin : inMem (rt0.cpu.reg32s reg_esp - 16 - rt0.cpu.base_addr)
      ∧ inMem (rt0.cpu.reg32s reg_esp - 4 - rt0.cpu.base_addr))
    (hdisj : t + 8 ≤ rt0.cpu.reg32s reg_esp - 16 ∨ rt0.cpu.reg32s reg_esp ≤ t) :
    ∃ rtE rtC rtF,
      stdcall_enter t [] (add_hook api0 rt0 H (hook_const S 8)).2 = Res.ok () rtE
      ∧ stdcall (add_hook api0 rt0 H (hook_const S 8)).1 t []
          (add_hook api0 rt0 H (hook_const S 8)).2 = Res.ok S rtF
      ∧ cycle_starts (add_hook api0 rt0 H (hook_const S 8)).1 max_cycles rtE
          = [some t, some (t + 1), some (t + 2), some (t + 7)]
      ∧ some H ∉ cycle_starts (add_hook api0 rt0 H (hook_const S 8)).1 max_cycles rtE
      ∧ run_cycles (add_hook api0 rt0 H (hook_const S 8)).1 3 0 rtE = Res.ok 3 rtC
      ∧ rtC.cpu.reg32 reg_esp = rtE.cpu.reg32 reg_esp := by
  obtain ⟨rtE, rtC, rtF, hE, h3, hesp3, hcall, hstarts⟩ :=
    hooked_call_run (add_hook api0 rt0 H (hook_const S 8)).1
      (add_hook api0 rt0 H (hook_const S 8)).2 t H S ("_hook_" ++ toString16 H) r1 r2
      d0 d1 d2 d3 hr1 hr2 (by simp [add_hook]) (by simp [add_hook]) ht0 ht hcode htarget hesp
      hal hin hdisj
  refine ⟨rtE, rtC, rtF, hE, ?_, hstarts, ?_, h3, ?_⟩
  · rw [hcall, toUint32_of_range S hS.1 hS.2]
  · rw [hstarts]
    simp only [List.mem_cons, Option.some.injEq, List.mem_singleton, List.not_mem_nil,
      or_false, not_or]
    omega
  · simp only [Cpu.reg32, hesp3]

/-- C5, at an instance: `PUSH EAX; PUSH ECX; CALL 0x10057000; RET` at base
0x10000000 in a newly built runtime, the handler at 0x10057000 returning
0xDEADBEEF. -/
theorem stdcall_hooked_call_witness :
    ∃ rtE rtC rtF,
      stdcall_enter 0x10000000 []
        (add_hook no_api (fresh [0x50, 0x51, 0xE8, 0xF9, 0x6F, 0x05, 0x00, 0xC3] 0x10000000)
          0x10057000 (hook_const 0xDEADBEEF 8)).2 = Res.ok () rtE
      ∧ stdcall
          (add_hook no_api (fresh [0x50, 0x51, 0xE8, 0xF9, 0x6F, 0x05, 0x00, 0xC3] 0x10000000)
            0x10057000 (hook_const 0xDEADBEEF 8)).1 0x10000000 []
          (add_hook no_api (fresh [0x50, 0x51, 0xE8, 0xF9, 0x6F, 0x05, 0x00, 0xC3] 0x10000000)
            0x10057000 (hook_const 0xDEADBEEF 8)).2 = Res.ok 0xDEADBEEF rtF
      ∧ cycle_starts
          (add_hook no_api (fresh [0x50, 0x51, 0xE8, 0xF9, 0x6F, 0x05, 0x00, 0xC3] 0x10000000)
            0x10057000 (hook_const 0xDEADBEEF 8)).1 max_cycles rtE
          = [some 0x10000000, some (0x10000000 + 1), some (0x10000000 + 2),
             some (0x10000000 + 7)]
      ∧ some 0x10057000 ∉ cycle_starts
          (add_hook no_api (fresh [0x50, 0x51, 0xE8, 0xF9, 0x6F, 0x05, 0x00, 0xC3] 0x10000000)
            0x10057000 (hook_const 0xDEADBEEF 8)).1 max_cycles rtE
      ∧ run_cycles
          (add_hook no_api (fresh [0x50, 0x51, 0xE8, 0xF9, 0x6F, 0x05, 0x00, 0xC3] 0x10000000)
            0x10057000 (hook_const 0xDEADBEEF 8)).1 3 0 rtE = Res.ok 3 rtC
      ∧ rtC.cpu.reg32 reg_esp = rtE.cpu.reg32 reg_esp :=
  stdcall_hooked_call no_api (fresh [0x50, 0x51, 0xE8, 0xF9, 0x6F, 0x05, 0x00, 0xC3] 0x10000000)
    0x10000000 0x10057000 0xDEADBEEF 0 1 0xF9 0x6F 0x05 0x00 (by decide) (by decide)
    (by decide) (by decide) (by decide) (by decide) (by decide) (by decide) (by decide)
    (by decide) (by decide) (by decide)

/-- C7 (code as it is): `stdcall` does not reset ESP. In a newly built runtime
on the image `C2 04 00` (`RET 4`), a first `stdcall(t)` returns and leaves ESP at
`BASE_STACK_ADDR + 4`; a second `stdcall(t)` then hands control to the target
with ESP = `BASE_STACK_ADDR`, not `BASE_STACK_ADDR - 4`, although it has just
stored `BASE_STACK_ADDR` in `stack_addr`. -/
theorem stdcall_does_not_reset_esp :
    (stdcall no_api 0x10000000 [] (fresh [0xC2, 0x04, 0x00] 0x10000000)).value = some 0
    ∧ (stdcall no_api 0x10000000 []
        (fresh [0xC2, 0x04, 0x00] 0x10000000)).state.cpu.reg32 reg_esp = BASE_STACK_ADDR + 4
    ∧ (stdcall_enter 0x10000000 []
        (stdcall no_api 0x10000000 []
          (fresh [0xC2, 0x04, 0x00] 0x10000000)).state).state.cpu.reg32 reg_esp
        = BASE_STACK_ADDR
    ∧ (stdcall_enter 0x10000000 []
        (stdcall no_api 0x10000000 []
          (fresh [0xC2, 0x04, 0x00] 0x10000000)).state).state.stack_addr = BASE_STACK_ADDR
    ∧ BASE_STACK_ADDR ≠ BASE_STACK_ADDR - 4 * (0 + 1) := by
  decide!

/-- C6 as stated fails: with base 0x70000000 and ESP = 0x80000000 the offset
ESP - base_addr is 4-aligned and in range, the dword at [ESP] is 0x10 and
`instruction_ret(0)` loads it, but the guest `RET 0` addresses the stack through
the signed register view, reads outside the memory and loads 0. -/
theorem instruction_ret_ne_ret_imm16_high_esp :
    (esp_high_state.cpu.reg32 reg_esp - esp_high_state.cpu.base_addr) % 4 = 0
    ∧ inMem (esp_high_state.cpu.reg32 reg_esp - esp_high_state.cpu.base_addr)
    ∧ esp_high_state.cpu.instruction_pointer = some 0x70000000
    ∧ code_at esp_high_state.cpu.mem8 esp_high_state.cpu.base_addr 0x70000000 [0xC2, 0, 0]
    ∧ (instruction_ret 0 esp_high_state).state.cpu.instruction_pointer = some 0x10
    ∧ (cycle no_api esp_high_state).state.cpu.instruction_pointer = some 0 := by
  decide

/-- C6, amended: in every state in which ESP is below 2^31 and ESP - base_addr
is 4-aligned and in range, and for every k in 0..65535, `instruction_ret(k)`
yields the instruction pointer and stack pointer of the guest instruction
`RET k` (C2 imm16) executed in that state: IP becomes the dword at [ESP], ESP
becomes ESP + 4 + k, and the memory and the other registers are unchanged. -/
theorem instruction_ret_eq_ret_imm16 (api : Api) (rt : Runtime) (k p : Int)
    (hk : 0 ≤ k ∧ k ≤ 65535)
    (hesp : 0 ≤ rt.cpu.reg32s reg_esp ∧ rt.cpu.reg32s reg_esp < 2147483648)
    (hal : (rt.cpu.reg32 reg_esp - rt.cpu.base_addr) % 4 = 0)
    (hin : inMem (rt.cpu.reg32 reg_esp - rt.cpu.base_addr))
    (hip : rt.cpu.instruction_pointer = some p)
    (hcode : code_at rt.cpu.mem8 rt.cpu.base_addr p [0xC2, k % 256, k / 256]) :
    ∃ rtA rtB, instruction_ret k rt = Res.ok () rtA ∧ cycle api rt = Res.ok () rtB
      ∧ rtA.cpu.instruction_pointer
        = some (Memory.read32s rt.cpu.mem8 (some (rt.cpu.reg32 reg_esp - rt.cpu.base_addr)))
      ∧ rtB.cpu.instruction_pointer = rtA.cpu.instruction_pointer
      ∧ rtA.cpu.reg32 reg_esp = rt.cpu.reg32 reg_esp + 4 + k
      ∧ rtB.cpu.reg32 reg_esp = rtA.cpu.reg32 reg_esp
      ∧ rtA.cpu.mem8 = rt.cpu.mem8 ∧ rtB.cpu.mem8 = rt.cpu.mem8
      ∧ (∀ r, r ≠ reg_esp →
          rtA.cpu.reg32s r = rt.cpu.reg32s r ∧ rtB.cpu.reg32s r = rt.cpu.reg32s r) := by
  have hu : rt.cpu.reg32 reg_esp = rt.cpu.reg32s reg_esp := by
    simp only [Cpu.reg32, toUint32]; omega
  rw [hu] at hal hin
  obtain ⟨rtB, hB, hBip, hBesp, hBmem, hBregs⟩ :=
    cycle_ret_imm16 api rt p (k % 256) (k / 256) hip hcode
  have hget : get_arg rt 0 = some (Memory.read32s rt.cpu.mem8
      (some (rt.cpu.reg32s reg_esp - rt.cpu.base_addr))) := by
    simp only [get_arg, Cpu.translate_address_read, jsSub, jsAdd, hu, mul_zero, add_zero]
    exact mem32s_get_eq_read32s _ _ hal hin
  refine ⟨_, rtB, rfl, hB, ?_, ?_, ?_, ?_, rfl, hBmem, ?_⟩
  · simp only [hget, hu, Cpu.setReg]
  · simp only [hBip, hget, Cpu.setReg]
  · simp only [Cpu.setReg, Cpu.reg32, if_true, JsNum.toInt32, toInt32, toUint32]
    omega
  · simp only [Cpu.setReg, Cpu.reg32, if_true, JsNum.toInt32, hBesp, toInt32, toUint32]
    omega
  · intro r hr
    refine ⟨?_, hBregs r hr⟩
    simp [Cpu.setReg, hr]

/-- C6 amended, at an instance: `RET 8` and `instruction_ret(8)` in a state
with base 0x10000000 and ESP = `BASE_STACK_ADDR - 12`. -/
theorem instruction_ret_eq_ret_imm16_witness :
    ∃ rtA rtB, instruction_ret 8 ret8_state = Res.ok () rtA
      ∧ cycle no_api ret8_state = Res.ok () rtB
      ∧ rtA.cpu.instruction_pointer
        = some (Memory.read32s ret8_state.cpu.mem8
            (some (ret8_state.cpu.reg32 reg_esp - ret8_state.cpu.base_addr)))
      ∧ rtB.cpu.instruction_pointer = rtA.cpu.instruction_pointer
      ∧ rtA.cpu.reg32 reg_esp = ret8_state.cpu.reg32 reg_esp + 4 + 8
      ∧ rtB.cpu.reg32 reg_esp = rtA.cpu.reg32 reg_esp
      ∧ rtA.cpu.mem8 = ret8_state.cpu.mem8 ∧ rtB.cpu.mem8 = ret8_state.cpu.mem8
      ∧ (∀ r, r ≠ reg_esp →
          rtA.cpu.reg32s r = ret8_state.cpu.reg32s r
          ∧ rtB.cpu.reg32s r = ret8_state.cpu.reg32s r) :=
  instruction_ret_eq_ret_imm16 no_api ret8_state 8 0x10000000 (by decide) (by decide)
    (by decide) (by decide) (by decide) (by decide)

/-- C4: for the self-loop `EB FE` (`JMP rel8 -2`) at address `t`, clear of the
dword at the new top of the stack where `stdcall` stores the sentinel,
`stdcall(t)` terminates: it runs exactly `max_cycles = 100000000` cycles (the
cycle counter of the CPU advances by that much) and then throws
'Execution timeout - possible infinite loop' instead of returning. -/
theorem stdcall_self_loop_timeout (api : Api) (rt : Runtime) (t : Int)
    (ht0 : t ≠ 0) (ht : -2147483648 ≤ t ∧ t < 2147483648)
    (hcode : code_at rt.cpu.mem8 rt.cpu.base_addr t [0xEB, 0xFE])
    (hdisj : t + 2 ≤ toUint32 (rt.cpu.reg32s reg_esp - 4)
      ∨ toUint32 (rt.cpu.reg32s reg_esp - 4) + 3 < t) :
    max_cycles = 100000000 ∧
    ∃ rtF, stdcall api t [] rt
        = Res.throw (Fault.message "Execution timeout - possible infinite loop") rtF
      ∧ (stdcall api t [] rt).value = none
      ∧ rtF.cpu.timestamp_counter = rt.cpu.timestamp_counter + 100000000 := by
  obtain ⟨rtF, h, hts⟩ := stdcall_self_loop_of_entry api rt t [] ht0 ht (by
    rw [stdcall_enter_nil_mem8 rt t ht0]
    refine code_at_mem32s_set _ _ _ _ _ _ hcode ?_
    simp only [List.length_cons, List.length_nil]
    omega)
  exact ⟨rfl, rtF, h, by rw [h]; rfl, hts⟩

/-- C4, at an instance: the image `EB FE` at base 0x10000000 in a newly built
runtime. -/
theorem stdcall_self_loop_timeout_witness :
    max_cycles = 100000000 ∧
    ∃ rtF, stdcall no_api 0x10000000 [] (fresh [0xEB, 0xFE] 0x10000000)
        = Res.throw (Fault.message "Execution timeout - possible infinite loop") rtF
      ∧ (stdcall no_api 0x10000000 [] (fresh [0xEB, 0xFE] 0x10000000)).value = none
      ∧ rtF.cpu.timestamp_counter
        = (fresh [0xEB, 0xFE] 0x10000000).cpu.timestamp_counter + 100000000 :=
  stdcall_self_loop_timeout no_api (fresh [0xEB, 0xFE] 0x10000000) 0x10000000
    (by decide) (by decide) (by decide) (by decide)

/-- C8: starting from the two-entry list (image `[base, base+len]`, stack
`[base+len, BASE_STACK_ADDR+40]`) with `base + len ≤ BASE_STACK_ADDR + 40`, after
every sequence of `alloc`, `free` and `realloc` calls with non-negative sizes
(calls that throw included) the range list is in order: every range has
`begin ≤ end` and its end is at most the begin of the next range. -/
theorem allocator_ranges_ok (base len : Int) (calls : List AllocCall)
    (hlen : 0 ≤ len) (hstack : base + len ≤ BASE_STACK_ADDR + 40)
    (hsizes : ∀ c ∈ calls, c.size_nonneg) :
    ranges_ok (run_calls (initial_map base len) calls) := by
  have h0 : ranges_ok (initial_map base len) := by
    simp only [initial_map, ranges_ok]
    refine ⟨by omega, le_refl _, ?_⟩
    omega
  unfold run_calls
  generalize initial_map base len = map at h0
  induction calls generalizing map with
  | nil => exact h0
  | cons c rest ih =>
    simp only [List.foldl_cons]
    exact ih (fun d hd => hsizes d (List.mem_cons_of_mem _ hd)) _
      (run_call_ok map c (hsizes c (List.mem_cons_self _ _)) h0)

/-- C8, at an instance: a 0x1000-byte image at 0x10000000 and the calls
`alloc(10)`, `alloc(7)`, `realloc(0x1015802C, 100)` (which throws, the address
being inside the first block and not its begin), `free(0x10158028)`,
`alloc(0x7FFFFFFF)` (which throws) and `realloc(0x10000000, 0)` (which resizes
the image range in place). -/
theorem allocator_ranges_ok_witness :
    ranges_ok (run_calls (initial_map 0x10000000 0x1000)
      [AllocCall.alloc 10, AllocCall.alloc 7, AllocCall.realloc 0x1015802C 100,
       AllocCall.free 0x10158028, AllocCall.alloc 0x7FFFFFFF,
       AllocCall.realloc 0x10000000 0]) :=
  allocator_ranges_ok 0x10000000 0x1000
    [AllocCall.alloc 10, AllocCall.alloc 7, AllocCall.realloc 0x1015802C 100,
     AllocCall.free 0x10158028, AllocCall.alloc 0x7FFFFFFF,
     AllocCall.realloc 0x10000000 0]
    (by decide) (by decide) (by
      intro c hc
      simp only [List.mem_cons, List.mem_singleton, List.not_mem_nil, or_false] at hc
      rcases hc with h | h | h | h | h | h <;> subst h <;> simp [AllocCall.size_nonneg])

/-- C9: `alloc(size)`, with `s` = `size` rounded up to a multiple of 4. If some
adjacent pair of ranges has a gap of at least `s`, the range `[e, e+s]` is
inserted right after the lower range of the first such pair (`e` is that
range's end) and `e` is returned. Otherwise, with `L` the end of the last range,
`[L, L+s]` is appended and `L` returned when `L + s ≤ MAX_MEM_ADDR`, and
'Out of memory' is thrown with the list unchanged when `L + s > MAX_MEM_ADDR`. -/
theorem alloc_first_fit (map : List Range) (size : Int) :
    (align4 size % 4 = 0 ∧ size ≤ align4 size ∧ align4 size < size + 4)
    ∧ (∀ i, i + 1 < map.length → (∀ j, j < i → gap map j < align4 size) →
        gap map i ≥ align4 size →
        alloc map size = ARes.ok (map.getD i (0, 0)).2
          (map.take (i + 1)
            ++ [((map.getD i (0, 0)).2, (map.getD i (0, 0)).2 + align4 size)]
            ++ map.drop (i + 1)))
    ∧ ((∀ i, i + 1 < map.length → gap map i < align4 size) →
        ∀ last, map.getLast? = some last →
          (last.2 + align4 size ≤ MAX_MEM_ADDR →
            alloc map size = ARes.ok last.2 (map ++ [(last.2, last.2 + align4 size)]))
          ∧ (last.2 + align4 size > MAX_MEM_ADDR →
            alloc map size = ARes.throw (Fault.message "Out of memory") map)) := by
  obtain ⟨a1, a2, a3⟩ := align4_ge size
  refine ⟨⟨a3, a1, a2⟩, ?_, ?_⟩
  · intro i hi hlt hge
    unfold alloc
    simp only [alloc_scan_first_fit (align4 size) map i hi hlt hge]
  · intro hsmall last hl
    have hn := alloc_scan_none (align4 size) map hsmall
    unfold alloc
    simp only [hn, hl]
    constructor
    · intro h
      have h2 : ¬ (last.2 + align4 size > MAX_MEM_ADDR) := by omega
      simp only [h2, if_false]
    · intro h
      simp only [h, if_true]

/-- C9, at instances: in a list with a 0x20-byte hole after the stack,
`alloc(10)` (rounded to 12) goes into the hole at index 2; `alloc(0x40)` fits no
gap and is appended; `alloc(0x7FFFFFFF)` throws and leaves the list as it was. -/
theorem alloc_first_fit_witness :
    alloc [(0x10000000, 0x10001000), (0x10001000, 0x10158028), (0x10158048, 0x10158058)] 10
      = ARes.ok 0x10158028
          [(0x10000000, 0x10001000), (0x10001000, 0x10158028), (0x10158028, 0x10158034),
           (0x10158048, 0x10158058)]
    ∧ alloc [(0x10000000, 0x10001000), (0x10001000, 0x10158028), (0x10158048, 0x10158058)]
        0x40
      = ARes.ok 0x10158058
          [(0x10000000, 0x10001000), (0x10001000, 0x10158028), (0x10158048, 0x10158058),
           (0x10158058, 0x10158098)]
    ∧ alloc [(0x10000000, 0x10001000), (0x10001000, 0x10158028), (0x10158048, 0x10158058)]
        0x7FFFFFFF
      = ARes.throw (Fault.message "Out of memory")
          [(0x10000000, 0x10001000), (0x10001000, 0x10158028), (0x10158048, 0x10158058)] :=
  ⟨(alloc_first_fit
      [(0x10000000, 0x10001000), (0x10001000, 0x10158028), (0x10158048, 0x10158058)] 10).2.1
      1 (by decide) (by decide) (by decide),
   ((alloc_first_fit
      [(0x10000000, 0x10001000), (0x10001000, 0x10158028), (0x10158048, 0x10158058)]
      0x40).2.2 (by
        intro i hi
        have hi2 : i < 2 := by
          simp only [List.length_cons, List.length_nil] at hi
          omega
        interval_cases i <;> decide) (0x10158048, 0x10158058) rfl).1 (by decide),
   ((alloc_first_fit
      [(0x10000000, 0x10001000), (0x10001000, 0x10158028), (0x10158048, 0x10158058)]
      0x7FFFFFFF).2.2 (by
        intro i hi
        have hi2 : i < 2 := by
          simp only [List.length_cons, List.length_nil] at hi
          omega
        interval_cases i <;> decide) (0x10158048, 0x10158058) rfl).2 (by decide)⟩

/-- C10: on an allocator holding only the two permanent ranges, both non-empty,
let `alloc(s1)`, ..., `alloc(sn)` with positive sizes all succeed and let the
returned addresses be passed to `free` in any order. Then every `free` returns
true, the range list is again exactly the two permanent ranges, and a
following `alloc(s1 + ... + sn)` succeeds. -/
theorem alloc_free_roundtrip (base len : Int) (sizes addrs order : List Int)
    (m : List Range)
    (hlen : 0 < len) (hstack : base + len < BASE_STACK_ADDR + 40)
    (hpos : ∀ s ∈ sizes, 0 < s)
    (hall : alloc_all (initial_map base len) sizes = some (addrs, m))
    (hperm : order.Perm addrs) :
    (free_all m order).1 = List.replicate order.length true
    ∧ (free_all m order).2 = initial_map base len
    ∧ ∃ a m2, alloc (free_all m order).2 sizes.sum = ARes.ok a m2 := by
  have hc : contiguous (initial_map base len) := by simp [initial_map, contiguous]
  have hl : (initial_map base len).getLast?
      = some (base + len, BASE_STACK_ADDR + 4 * 10) := by simp [initial_map]
  obtain ⟨e1, e2, e3⟩ := alloc_all_contiguous sizes _ _ addrs m hpos hc hl hall
  simp only at e1 e2 e3
  obtain ⟨b1, b2⟩ := blocks_begins sizes (BASE_STACK_ADDR + 4 * 10) hpos
  have hnd : ((initial_map base len ++ blocks (BASE_STACK_ADDR + 4 * 10) sizes).map
      Prod.fst).Nodup := by
    have hpw : ((initial_map base len ++ blocks (BASE_STACK_ADDR + 4 * 10) sizes).map
        Prod.fst).Pairwise (fun a b => a < b) := by
      simp only [initial_map, List.cons_append, List.nil_append, List.map_cons,
        List.pairwise_cons, List.mem_cons]
      refine ⟨?_, ?_, b2⟩
      · intro a ha
        rcases ha with h | h
        · omega
        · have := b1 a h
          omega
      · intro a ha
        have := b1 a ha
        omega
    exact hpw.imp (fun h => ne_of_lt h)
  have hfree := free_all_perm (initial_map base len) order
    (blocks (BASE_STACK_ADDR + 4 * 10) sizes) hnd (by rw [← e2]; exact hperm)
  rw [← e1] at hfree
  rw [hfree]
  refine ⟨rfl, rfl, ?_⟩
  simp only
  by_cases hne : sizes = []
  · subst hne
    have hz : align4 0 = 0 := by decide
    have h0 : alloc (initial_map base len) ([] : List Int).sum
        = ARes.ok (base + len)
            [(base, base + len), (base + len, base + len + 0),
             (base + len, BASE_STACK_ADDR + 4 * 10)] := by
      simp [alloc, alloc_scan, initial_map, hz]
    exact ⟨_, _, h0⟩
  · have hsum := sum_pos_of_pos sizes hpos hne
    rw [alloc_contiguous _ _ sizes.sum hsum hc hl]
    have h3 := e3 hne
    obtain ⟨s1, s2⟩ := sum_align4 sizes
    have ha : align4 sizes.sum ≤ (sizes.map align4).sum := by
      obtain ⟨-, t2, t3⟩ := align4_ge sizes.sum
      omega
    have hm : ¬ (BASE_STACK_ADDR + 4 * 10 + align4 sizes.sum > MAX_MEM_ADDR) := by omega
    simp only [hm, if_false]
    exact ⟨_, _, rfl⟩

/-- C10, at an instance: a 0x1000-byte image at 0x10000000, `alloc(10)`,
`alloc(7)`, `alloc(1)`, and the three addresses freed in the order third,
first, second. -/
theorem alloc_free_roundtrip_witness :
    (free_all
        [(0x10000000, 0x10001000), (0x10001000, 0x10158028), (0x10158028, 0x10158034),
         (0x10158034, 0x1015803C), (0x1015803C, 0x10158040)]
        [0x1015803C, 0x10158028, 0x10158034]).1
      = List.replicate [0x1015803C, 0x10158028, (0x10158034 : Int)].length true
    ∧ (free_all
        [(0x10000000, 0x10001000), (0x10001000, 0x10158028), (0x10158028, 0x10158034),
         (0x10158034, 0x1015803C), (0x1015803C, 0x10158040)]
        [0x1015803C, 0x10158028, 0x10158034]).2 = initial_map 0x10000000 0x1000
    ∧ ∃ a m2, alloc (free_all
        [(0x10000000, 0x10001000), (0x10001000, 0x10158028), (0x10158028, 0x10158034),
         (0x10158034, 0x1015803C), (0x1015803C, 0x10158040)]
        [0x1015803C, 0x10158028, 0x10158034]).2 [10, 7, 1].sum = ARes.ok a m2 :=
  alloc_free_roundtrip 0x10000000 0x1000 [10, 7, 1] [0x10158028, 0x10158034, 0x1015803C]
    [0x1015803C, 0x10158028, 0x10158034]
    [(0x10000000, 0x10001000), (0x10001000, 0x10158028), (0x10158028, 0x10158034),
     (0x10158034, 0x1015803C), (0x1015803C, 0x10158040)]
    (by decide) (by decide) (by decide) (by decide) (by decide)

/-- C2 (code as it is): in a newly built runtime, when `stdcall(t, 41)` and
`stdcall(t, 1, 2)` hand control to the target, the dword at [ESP] is the last
argument, not the sentinel: the arguments stand from [ESP] upwards, last one
first, and the sentinel return address stands above them, at [ESP + 4n]
(`get_arg(k)` reads the dword at [ESP + 4k]). -/
theorem stdcall_enter_frame_layout :
    get_arg (stdcall_enter 0x10000000 [41] (fresh routine_add1 0x10000000)).state 0 = some 41
    ∧ get_arg (stdcall_enter 0x10000000 [41] (fresh routine_add1 0x10000000)).state 1
        = some MAGIC_RETURN_ADDR
    ∧ get_arg (stdcall_enter 0x10000000 [1, 2] (fresh routine_add1 0x10000000)).state 0 = some 2
    ∧ get_arg (stdcall_enter 0x10000000 [1, 2] (fresh routine_add1 0x10000000)).state 1 = some 1
    ∧ get_arg (stdcall_enter 0x10000000 [1, 2] (fresh routine_add1 0x10000000)).state 2
        = some MAGIC_RETURN_ADDR
    ∧ (stdcall_enter 0x10000000 [41]
        (fresh routine_add1 0x10000000)).state.cpu.instruction_pointer = some 0x10000000 := by
  decide!

/-- C3: for the routine `MOV EAX, imm32; RET` at address `t` (bytes B8, the
four immediate bytes, C3), with the stack slot below ESP inside the memory,
4-aligned and clear of the routine, `stdcall(t)` with no arguments returns the
immediate as an unsigned 32-bit value and leaves ESP as it was before the
call; a second `stdcall(t)` returns the same value and leaves the whole memory
as the first call left it. -/
theorem stdcall_mov_eax_ret (api : Api) (rt : Runtime) (t b0 b1 b2 b3 : Int)
    (ht : t ≠ 0)
    (hcode : code_at rt.cpu.mem8 rt.cpu.base_addr t [0xB8, b0, b1, b2, b3, 0xC3])
    (hesp : 4 ≤ rt.cpu.reg32s reg_esp ∧ rt.cpu.reg32s reg_esp < 2147483648)
    (hal : (rt.cpu.reg32s reg_esp - 4 - rt.cpu.base_addr) % 4 = 0)
    (hin : inMem (rt.cpu.reg32s reg_esp - 4 - rt.cpu.base_addr))
    (hdisj : t + 6 ≤ rt.cpu.reg32s reg_esp - 4 ∨ rt.cpu.reg32s reg_esp ≤ t) :
    0 ≤ le32 b0 b1 b2 b3 ∧ le32 b0 b1 b2 b3 < 4294967296 ∧
    ∃ rt1 rt2,
      stdcall api t [] rt = Res.ok (le32 b0 b1 b2 b3) rt1
      ∧ rt1.cpu.reg32 reg_esp = rt.cpu.reg32 reg_esp
      ∧ stdcall api t [] rt1 = Res.ok (le32 b0 b1 b2 b3) rt2
      ∧ rt2.cpu.mem8 = rt1.cpu.mem8 := by
  obtain ⟨rt1, h1, hesp1, hbase1, hmem1⟩ :=
    stdcall_mov_eax_ret_run api rt t b0 b1 b2 b3 ht hcode hesp hal hin hdisj
  have hcode1 : code_at rt1.cpu.mem8 rt1.cpu.base_addr t [0xB8, b0, b1, b2, b3, 0xC3] := by
    rw [hmem1, hbase1]
    refine code_at_mem32s_set _ _ _ _ _ _ hcode ?_
    simp only [List.length_cons, List.length_nil]
    omega
  obtain ⟨rt2, h2, -, -, hmem2⟩ :=
    stdcall_mov_eax_ret_run api rt1 t b0 b1 b2 b3 ht hcode1 (by rw [hesp1]; exact hesp)
      (by rw [hesp1, hbase1]; exact hal) (by rw [hesp1, hbase1]; exact hin)
      (by rw [hesp1]; exact hdisj)
  have hbytes := hcode
  simp only [code_at, and_true] at hbytes
  obtain ⟨-, c1, c2, c3, c4, -⟩ := hbytes
  have g1 := (mem8_get_some c1).2
  have g2 := (mem8_get_some c2).2
  have g3 := (mem8_get_some c3).2
  have g4 := (mem8_get_some c4).2
  refine ⟨by unfold le32; omega, by unfold le32; omega, rt1, rt2, h1, ?_, h2, ?_⟩
  · simp only [Cpu.reg32, hesp1]
  · rw [hmem2, hesp1, hbase1, hmem1, mem32s_set_idem]

/-- C3, at an instance: the image `B8 78 56 34 92 C3` at base 0x10000000 in a
newly built runtime. -/
theorem stdcall_mov_eax_ret_witness :
    0 ≤ le32 0x78 0x56 0x34 0x92 ∧ le32 0x78 0x56 0x34 0x92 < 4294967296 ∧
    ∃ rt1 rt2,
      stdcall no_api 0x10000000 [] (fresh [0xB8, 0x78, 0x56, 0x34, 0x92, 0xC3] 0x10000000)
        = Res.ok (le32 0x78 0x56 0x34 0x92) rt1
      ∧ rt1.cpu.reg32 reg_esp
        = (fresh [0xB8, 0x78, 0x56, 0x34, 0x92, 0xC3] 0x10000000).cpu.reg32 reg_esp
      ∧ stdcall no_api 0x10000000 [] rt1 = Res.ok (le32 0x78 0x56 0x34 0x92) rt2
      ∧ rt2.cpu.mem8 = rt1.cpu.mem8 :=
  stdcall_mov_eax_ret no_api (fresh [0xB8, 0x78, 0x56, 0x34, 0x92, 0xC3] 0x10000000)
    0x10000000 0x78 0x56 0x34 0x92 (by decide) (by decide) (by decide) (by decide) (by decide)
    (by decide)

/-- C1 (code as it is): on the image holding only the routine `PUSH EBP; MOV
EBP,ESP; MOV EAX,[EBP+8]; ADD EAX,1; LEAVE; RET` at its base 0x10000000, with
no hooks, `stdcall(entry, 41)` returns nothing: the routine's `RET` takes the
argument 41 for its return address, the next fetch at address 41 is outside
the memory, and the call throws after seven cycles. -/
theorem stdcall_add1_41_throws :
    (stdcall no_api 0x10000000 [41] (fresh routine_add1 0x10000000)).value = none
    ∧ (stdcall no_api 0x10000000 [41] (fresh routine_add1 0x10000000)).fault
        = some Fault.notAFunction
    ∧ (stdcall no_api 0x10000000 [41]
        (fresh routine_add1 0x10000000)).state.cpu.timestamp_counter = 7 := by
  decide!

/-- The stack pointer in which the callee starts: `stdcall` builds the frame
below whatever ESP held before the call. -/
theorem stdcall_enter_esp (address : Int) (args : List Int) (rt : Runtime)
    (h : address ≠ 0) :
    (stdcall_enter address args rt).state.cpu.reg32 reg_esp
      = toUint32 (rt.cpu.reg32 reg_esp - 4 * (args.length + 1)) := by
  simp only [stdcall_enter, h, if_false, Res.state, Cpu.setReg, Cpu.reg32, if_true,
    JsNum.toInt32, toInt32, toUint32]
  omega

/-- C11: `allocator.free(addr)` never throws. When some range begins at `addr`
it returns true and the list loses exactly the element at the first index whose
begin equals `addr` (`eraseIdx` keeps every other range, in order); when no
range begins at `addr` it returns false and the list is unchanged. -/
theorem free_first_match (map : List Range) (addr : Int) :
    free map addr =
      match map.findIdx? (fun r => decide (r.1 = addr)) with
      | some i => ARes.ok true (map.eraseIdx i)
      | none => ARes.ok false map := by
  unfold free
  rw [free_scan_findIdx]
  cases List.findIdx? (fun r => decide (r.1 = addr)) map <;> rfl

/-- C12 as stated fails: on the list of a 0x1000-byte image at 0x10000000,
`free(base_addr)` removes the image range, `free` of the image end removes the
stack range, `realloc(base_addr, 0x10)` shrinks the image range, and
`realloc(0, 0)` puts an empty range in front of the stack range. -/
theorem permanent_ranges_freed :
    run_calls (initial_map 0x10000000 0x1000) [AllocCall.free 0x10000000]
      = [(0x10001000, 0x10158028)]
    ∧ run_calls (initial_map 0x10000000 0x1000) [AllocCall.free 0x10001000]
      = [(0x10000000, 0x10001000)]
    ∧ run_calls (initial_map 0x10000000 0x1000) [AllocCall.realloc 0x10000000 0x10]
      = [(0x10000000, 0x10000010), (0x10001000, 0x10158028)]
    ∧ run_calls (initial_map 0x10000000 0x1000) [AllocCall.realloc 0 0]
      = [(0x10000000, 0x10001000), (0x10001000, 0x10001000), (0x10001000, 0x10158028)] := by
  decide

/-- C12, amended: through every sequence of `alloc`, `free` and `realloc` calls
that name neither `base_addr` nor the image end and ask for positive sizes, the
first two entries of the range list stay the image range and the stack range,
whether the calls return or throw. -/
theorem permanent_ranges_clear_calls (base len : Int) (calls : List AllocCall)
    (h : ∀ c ∈ calls, c.clear_of base len) :
    (run_calls (initial_map base len) calls).take 2 = initial_map base len := by
  have key : ∀ (cs : List AllocCall) (l : List Range), (∀ c ∈ cs, c.clear_of base len) →
      ∃ l2, run_calls (initial_map base len ++ l) cs = initial_map base len ++ l2 := by
    intro cs
    induction cs with
    | nil => intro l _; exact ⟨l, rfl⟩
    | cons c rest ih =>
      intro l hcs
      obtain ⟨l1, e1⟩ := run_call_keeps_two base len l c (hcs c (List.mem_cons_self _ _))
      obtain ⟨l2, e2⟩ := ih l1 (fun d hd => hcs d (List.mem_cons_of_mem _ hd))
      refine ⟨l2, ?_⟩
      simp only [run_calls, List.foldl_cons] at e2 ⊢
      rw [e1]; exact e2
  obtain ⟨l2, e⟩ := key calls [] h
  rw [List.append_nil] at e
  rw [e]
  simp [initial_map]

/-- C12 amended, at an instance: a 0x1000-byte image at 0x10000000 and the calls
`alloc(8)`, `alloc(8)`, `free(0x10158028)`, `realloc(0x10158030, 0x100)` (which
resizes the block, the last range, in place) and `free` of an unknown address. -/
theorem permanent_ranges_clear_calls_witness :
    (run_calls (initial_map 0x10000000 0x1000)
        [AllocCall.alloc 8, AllocCall.alloc 8, AllocCall.free 0x10158028,
         AllocCall.realloc 0x10158030 0x100, AllocCall.free 0x12345678]).take 2
      = initial_map 0x10000000 0x1000 :=
  permanent_ranges_clear_calls 0x10000000 0x1000 _ (by
    intro c hc
    simp only [List.mem_cons, List.mem_singleton, List.not_mem_nil, or_false] at hc
    rcases hc with rfl | rfl | rfl | rfl | rfl <;> simp [AllocCall.clear_of])

/-- C13 (code as it is): in `holed_map` the block at 0x10158030 is followed by the
block at 0x10158038. `realloc(0x10158030, 8)` asks for a size that ends exactly
at the begin of the next range; the test `map[i][0] + size < map[i + 1][0]` is
false there, the block is freed and allocated again, and the call returns
0x10158028, the hole below. `realloc(0x10158030, 7)` is resized in place. -/
theorem realloc_exact_fit_moves :
    holed_map = [(0x10000000, 0x10001000), (0x10001000, 0x10158028),
          (0x10158030, 0x10158038), (0x10158038, 0x10158040)]
    ∧ (realloc holed_map 0x10158030 8).value = some 0x10158028
    ∧ (realloc holed_map 0x10158030 8).map =
        [(0x10000000, 0x10001000), (0x10001000, 0x10158028), (0x10158028, 0x10158030),
          (0x10158038, 0x10158040)]
    ∧ (realloc holed_map 0x10158030 7).value = some 0x10158030
    ∧ (realloc holed_map 0x10158030 7).map =
        [(0x10000000, 0x10001000), (0x10001000, 0x10158028), (0x10158030, 0x10158037),
          (0x10158038, 0x10158040)] := by
  decide

/-! ## Lemmas: the accessors of `Memory`, byte by byte -/

theorem mem8_set_eq (m : Mem8) (i v : Int) :
    mem8_set m (some i) v = fun j => if j = i ∧ inMem i then v % 256 else m j := by
  funext j
  unfold mem8_set
  by_cases hi : inMem i
  · by_cases hj : j = i
    · simp only [hi, hj, if_true, and_self]
    · simp only [hi, hj, if_true, if_false, false_and]
  · simp only [hi, if_false, and_false]

/-- What `write8` leaves in the buffer. -/
theorem write8_eq (m : Mem8) (a v : Int) :
    Memory.write8 m (some a) (some v) = fun j => if j = a ∧ inMem a then v % 256 else m j := by
  have e0 : toInt32 v % 256 = v % 256 := by unfold toInt32; omega
  simp only [Memory.write8, mem8_set_eq, JsNum.toInt32, e0]

/-- What `write16` leaves in the buffer. -/
theorem write16_eq (m : Mem8) (a v : Int) :
    Memory.write16 m (some a) (some v) = fun j =>
      if j = a ∧ inMem a then v % 256
      else if j = a + 1 ∧ inMem (a + 1) then v / 256 % 256
      else m j := by
  have e0 : toUint32 (toInt32 v) % 256 % 256 = v % 256 := by unfold toUint32 toInt32; omega
  have e1 : toUint32 (toInt32 v) / 256 % 256 % 256 = v / 256 % 256 := by
    unfold toUint32 toInt32; omega
  simp only [Memory.write16, mem8_set_eq, jsAdd, JsNum.toInt32, e0, e1]
  funext j
  by_cases j0 : j = a
  · have j1 : ¬ j = a + 1 := by omega
    simp only [j1, false_and, if_false]
  · simp only [j0, false_and, if_false]

/-- What `write32` leaves in the buffer. -/
theorem write32_eq (m : Mem8) (a v : Int) :
    Memory.write32 m (some a) (some v) = fun j =>
      if j = a ∧ inMem a then v % 256
      else if j = a + 1 ∧ inMem (a + 1) then v / 256 % 256
      else if j = a + 2 ∧ inMem (a + 2) then v / 65536 % 256
      else if j = a + 3 ∧ inMem (a + 3) then v / 16777216 % 256
      else m j := by
  have e0 : toUint32 (toInt32 v) % 256 % 256 = v % 256 := by unfold toUint32 toInt32; omega
  have e1 : toUint32 (toInt32 v) / 256 % 256 % 256 = v / 256 % 256 := by
    unfold toUint32 toInt32; omega
  have e2 : toUint32 (toInt32 v) / 65536 % 256 % 256 = v / 65536 % 256 := by
    unfold toUint32 toInt32; omega
  have e3 : toUint32 (toInt32 v) / 16777216 % 256 % 256 = v / 16777216 % 256 := by
    unfold toUint32 toInt32; omega
  simp only [Memory.write32, mem8_set_eq, jsAdd, JsNum.toInt32, e0, e1, e2, e3]
  funext j
  by_cases j0 : j = a
  · have j1 : ¬ j = a + 1 := by omega
    have j2 : ¬ j = a + 2 := by omega
    have j3 : ¬ j = a + 3 := by omega
    simp only [j1, j2, j3, false_and, if_false]
  · by_cases j1 : j = a + 1
    · have j2 : ¬ j = a + 2 := by omega
      have j3 : ¬ j = a + 3 := by omega
      simp only [j0, j2, j3, false_and, if_false]
    · by_cases j2 : j = a + 2
      · have j3 : ¬ j = a + 3 := by omega
        simp only [j0, j1, j3, false_and, if_false]
      · simp only [j0, j1, j2, false_and, if_false]

/-- The bytes after a 32-bit store inside the buffer, and the value read back. -/
theorem write32_get (m : Mem8) (a v : Int) (h0 : 0 ≤ a) (h3 : a + 3 < MAX_MEM_ADDR) :
    mem8_get (Memory.write32 m (some a) (some v)) (some a) = some (v % 256)
    ∧ mem8_get (Memory.write32 m (some a) (some v)) (some (a + 1)) = some (v / 256 % 256)
    ∧ mem8_get (Memory.write32 m (some a) (some v)) (some (a + 2)) = some (v / 65536 % 256)
    ∧ mem8_get (Memory.write32 m (some a) (some v)) (some (a + 3))
        = some (v / 16777216 % 256)
    ∧ (∀ j, j < a ∨ a + 3 < j →
        mem8_get (Memory.write32 m (some a) (some v)) (some j) = mem8_get m (some j))
    ∧ Memory.read32s (Memory.write32 m (some a) (some v)) (some a) = toInt32 v := by
  have i0 : inMem a := by unfold inMem; omega
  have i1 : inMem (a + 1) := by unfold inMem; omega
  have i2 : inMem (a + 2) := by unfold inMem; omega
  have i3 : inMem (a + 3) := by unfold inMem; omega
  have n1 : ¬ a + 1 = a := by omega
  have n2 : ¬ a + 2 = a := by omega
  have n3 : ¬ a + 3 = a := by omega
  have n21 : ¬ a + 2 = a + 1 := by omega
  have n31 : ¬ a + 3 = a + 1 := by omega
  have n32 : ¬ a + 3 = a + 2 := by omega
  have g0 : mem8_get (Memory.write32 m (some a) (some v)) (some a) = some (v % 256) := by
    simp only [write32_eq, mem8_get, i0, if_true, and_self, Int.emod_emod]
  have g1 : mem8_get (Memory.write32 m (some a) (some v)) (some (a + 1))
      = some (v / 256 % 256) := by
    simp only [write32_eq, mem8_get, i1, n1, if_true, if_false, and_self, false_and,
      Int.emod_emod]
  have g2 : mem8_get (Memory.write32 m (some a) (some v)) (some (a + 2))
      = some (v / 65536 % 256) := by
    simp only [write32_eq, mem8_get, i2, n2, n21, if_true, if_false, and_self, false_and,
      Int.emod_emod]
  have g3 : mem8_get (Memory.write32 m (some a) (some v)) (some (a + 3))
      = some (v / 16777216 % 256) := by
    simp only [write32_eq, mem8_get, i3, n3, n31, n32, if_true, if_false, and_self, false_and,
      Int.emod_emod]
  refine ⟨g0, g1, g2, g3, fun j hj => mem8_get_write32_ne m a (some v) j hj, ?_⟩
  simp only [Memory.read32s, jsAdd, g0, g1, g2, g3, byteOr0]
  unfold toInt32; omega

/-- The bytes after a 16-bit store inside the buffer, and the value read back. -/
theorem write16_get (m : Mem8) (a v : Int) (h0 : 0 ≤ a) (h1 : a + 1 < MAX_MEM_ADDR) :
    mem8_get (Memory.write16 m (some a) (some v)) (some a) = some (v % 256)
    ∧ mem8_get (Memory.write16 m (some a) (some v)) (some (a + 1)) = some (v / 256 % 256)
    ∧ (∀ j, j < a ∨ a + 1 < j →
        mem8_get (Memory.write16 m (some a) (some v)) (some j) = mem8_get m (some j))
    ∧ Memory.read16 (Memory.write16 m (some a) (some v)) (some a) = v % 65536 := by
  have i0 : inMem a := by unfold inMem; omega
  have i1 : inMem (a + 1) := by unfold inMem; omega
  have n1 : ¬ a + 1 = a := by omega
  have g0 : mem8_get (Memory.write16 m (some a) (some v)) (some a) = some (v % 256) := by
    simp only [write16_eq, mem8_get, i0, if_true, and_self, Int.emod_emod]
  have g1 : mem8_get (Memory.write16 m (some a) (some v)) (some (a + 1))
      = some (v / 256 % 256) := by
    simp only [write16_eq, mem8_get, i1, n1, if_true, if_false, and_self, false_and,
      Int.emod_emod]
  refine ⟨g0, g1, ?_, ?_⟩
  · intro j hj
    have j0 : ¬ j = a := by omega
    have j1 : ¬ j = a + 1 := by omega
    simp only [write16_eq, mem8_get, j0, j1, false_and, if_false]
  · simp only [Memory.read16, jsAdd, g0, g1, byteOr0]
    omega

/-- The bytes after an 8-bit store inside the buffer, and the value read back. -/
theorem write8_get (m : Mem8) (a v : Int) (h0 : 0 ≤ a) (h : a < MAX_MEM_ADDR) :
    (∀ j, j ≠ a →
        mem8_get (Memory.write8 m (some a) (some v)) (some j) = mem8_get m (some j))
    ∧ Memory.read8 (Memory.write8 m (some a) (some v)) (some a) = some (v % 256) := by
  have i0 : inMem a := by unfold inMem; omega
  refine ⟨?_, ?_⟩
  · intro j hj
    simp only [write8_eq, mem8_get, hj, false_and, if_false]
  · simp only [Memory.read8, write8_eq, mem8_get, i0, if_true, and_self, Int.emod_emod]

/-- Accesses whose bytes all lie outside the buffer. -/
theorem access_outside (m : Mem8) (a v : Int) :
    (¬ inMem a → Memory.read8 m (some a) = none ∧ Memory.write8 m (some a) (some v) = m)
    ∧ (a + 1 < 0 ∨ MAX_MEM_ADDR ≤ a →
        Memory.read16 m (some a) = 0 ∧ Memory.write16 m (some a) (some v) = m)
    ∧ (a + 3 < 0 ∨ MAX_MEM_ADDR ≤ a →
        Memory.read32s m (some a) = 0 ∧ Memory.write32 m (some a) (some v) = m) := by
  refine ⟨?_, ?_, ?_⟩
  · intro h
    refine ⟨by simp only [Memory.read8, mem8_get, h, if_false], ?_⟩
    rw [write8_eq]; funext j; simp only [h, and_false, if_false]
  · intro h
    have i0 : ¬ inMem a := by unfold inMem; omega
    have i1 : ¬ inMem (a + 1) := by unfold inMem; omega
    refine ⟨by simp only [Memory.read16, mem8_get, jsAdd, i0, i1, if_false, byteOr0]; rfl, ?_⟩
    rw [write16_eq]; funext j; simp only [i0, i1, and_false, if_false]
  · intro h
    have i0 : ¬ inMem a := by unfold inMem; omega
    have i1 : ¬ inMem (a + 1) := by unfold inMem; omega
    have i2 : ¬ inMem (a + 2) := by unfold inMem; omega
    have i3 : ¬ inMem (a + 3) := by unfold inMem; omega
    refine ⟨by simp only [Memory.read32s, mem8_get, jsAdd, i0, i1, i2, i3, if_false, byteOr0]; rfl,
      ?_⟩
    rw [write32_eq]; funext j; simp only [i0, i1, i2, i3, and_false, if_false]

end Win32Runtime

/-! ## Lemmas: the accessors of the legacy `Memory`, byte by byte -/

namespace V86Legacy

open Win32Runtime

theorem legacy_mem8_set_eq (m : Mem8) (i v : Int) :
    mem8_set m (some i) v = fun j => if j = i ∧ inMem i then v % 256 else m j := by
  funext j
  unfold mem8_set
  by_cases hi : inMem i
  · by_cases hj : j = i
    · simp only [hi, hj, if_true, and_self]
    · simp only [hi, hj, if_true, if_false, false_and]
  · simp only [hi, if_false, and_false]

/-- What `write8` leaves in the buffer. -/
theorem legacy_write8_eq (m : Mem8) (a v : Int) :
    Memory.write8 m (some a) (some v) = fun j => if j = a ∧ inMem a then v % 256 else m j := by
  simp only [Memory.write8, legacy_mem8_set_eq, numOr0]

/-- What `write16` leaves in the buffer. -/
theorem legacy_write16_eq (m : Mem8) (a v : Int) :
    Memory.write16 m (some a) (some v) = fun j =>
      if j = a ∧ inMem a then v % 256
      else if j = a + 1 ∧ inMem (a + 1) then v / 256 % 256
      else m j := by
  have e1 : toInt32 v / 256 % 256 = v / 256 % 256 := by unfold toInt32; omega
  simp only [Memory.write16, legacy_mem8_set_eq, jsAdd, JsNum.toInt32, numOr0, e1]
  funext j
  by_cases j0 : j = a
  · have j1 : ¬ j = a + 1 := by omega
    simp only [j1, false_and, if_false]
  · simp only [j0, false_and, if_false]

/-- What `write32` leaves in the buffer. -/
theorem legacy_write32_eq (m : Mem8) (a v : Int) :
    Memory.write32 m (some a) (some v) = fun j =>
      if j = a ∧ inMem a then v % 256
      else if j = a + 1 ∧ inMem (a + 1) then v / 256 % 256
      else if j = a + 2 ∧ inMem (a + 2) then v / 65536 % 256
      else if j = a + 3 ∧ inMem (a + 3) then v / 16777216 % 256
      else m j := by
  have e1 : toInt32 v / 256 % 256 = v / 256 % 256 := by unfold toInt32; omega
  have e2 : toInt32 v / 65536 % 256 = v / 65536 % 256 := by unfold toInt32; omega
  have e3 : toInt32 v / 16777216 % 256 = v / 16777216 % 256 := by unfold toInt32; omega
  simp only [Memory.write32, legacy_mem8_set_eq, jsAdd, JsNum.toInt32, numOr0, e1, e2, e3]
  funext j
  by_cases j0 : j = a
  · have j1 : ¬ j = a + 1 := by omega
    have j2 : ¬ j = a + 2 := by omega
    have j3 : ¬ j = a + 3 := by omega
    simp only [j1, j2, j3, false_and, if_false]
  · by_cases j1 : j = a + 1
    · have j2 : ¬ j = a + 2 := by omega
      have j3 : ¬ j = a + 3 := by omega
      simp only [j0, j2, j3, false_and, if_false]
    · by_cases j2 : j = a + 2
      · have j3 : ¬ j = a + 3 := by omega
        simp only [j0, j1, j3, false_and, if_false]
      · simp only [j0, j1, j2, false_and, if_false]

/-- The bytes after a 32-bit store inside the buffer, and the value read back. -/
theorem legacy_write32_get (m : Mem8) (a v : Int) (h0 : 0 ≤ a) (h3 : a + 3 < MEMORY_SIZE) :
    mem8_get (Memory.write32 m (some a) (some v)) (some a) = some (v % 256)
    ∧ mem8_get (Memory.write32 m (some a) (some v)) (some (a + 1)) = some (v / 256 % 256)
    ∧ mem8_get (Memory.write32 m (some a) (some v)) (some (a + 2)) = some (v / 65536 % 256)
    ∧ mem8_get (Memory.write32 m (some a) (some v)) (some (a + 3))
        = some (v / 16777216 % 256)
    ∧ (∀ j, j < a ∨ a + 3 < j →
        mem8_get (Memory.write32 m (some a) (some v)) (some j) = mem8_get m (some j))
    ∧ Memory.read32s (Memory.write32 m (some a) (some v)) (some a) = toInt32 v := by
  have i0 : inMem a := by unfold inMem; omega
  have i1 : inMem (a + 1) := by unfold inMem; omega
  have i2 : inMem (a + 2) := by unfold inMem; omega
  have i3 : inMem (a + 3) := by unfold inMem; omega
  have n1 : ¬ a + 1 = a := by omega
  have n2 : ¬ a + 2 = a := by omega
  have n3 : ¬ a + 3 = a := by omega
  have n21 : ¬ a + 2 = a + 1 := by omega
  have n31 : ¬ a + 3 = a + 1 := by omega
  have n32 : ¬ a + 3 = a + 2 := by omega
  have g0 : mem8_get (Memory.write32 m (some a) (some v)) (some a) = some (v % 256) := by
    simp only [legacy_write32_eq, mem8_get, i0, if_true, and_self, Int.emod_emod]
  have g1 : mem8_get (Memory.write32 m (some a) (some v)) (some (a + 1))
      = some (v / 256 % 256) := by
    simp only [legacy_write32_eq, mem8_get, i1, n1, if_true, if_false, and_self, false_and,
      Int.emod_emod]
  have g2 : mem8_get (Memory.write32 m (some a) (some v)) (some (a + 2))
      = some (v / 65536 % 256) := by
    simp only [legacy_write32_eq, mem8_get, i2, n2, n21, if_true, if_false, and_self, false_and,
      Int.emod_emod]
  have g3 : mem8_get (Memory.write32 m (some a) (some v)) (some (a + 3))
      = some (v / 16777216 % 256) := by
    simp only [legacy_write32_eq, mem8_get, i3, n3, n31, n32, if_true, if_false, and_self, false_and,
      Int.emod_emod]
  refine ⟨g0, g1, g2, g3, ?_, ?_⟩
  · intro j hj
    have j0 : ¬ j = a := by omega
    have j1 : ¬ j = a + 1 := by omega
    have j2 : ¬ j = a + 2 := by omega
    have j3 : ¬ j = a + 3 := by omega
    simp only [legacy_write32_eq, mem8_get, j0, j1, j2, j3, false_and, if_false]
  simp only [Memory.read32s, jsAdd, g0, g1, g2, g3, byteOr0]
  unfold toInt32; omega

/-- The bytes after a 16-bit store inside the buffer, and the value read back. -/
theorem legacy_write16_get (m : Mem8) (a v : Int) (h0 : 0 ≤ a) (h1 : a + 1 < MEMORY_SIZE) :
    mem8_get (Memory.write16 m (some a) (some v)) (some a) = some (v % 256)
    ∧ mem8_get (Memory.write16 m (some a) (some v)) (some (a + 1)) = some (v / 256 % 256)
    ∧ (∀ j, j < a ∨ a + 1 < j →
        mem8_get (Memory.write16 m (some a) (some v)) (some j) = mem8_get m (some j))
    ∧ Memory.read16 (Memory.write16 m (some a) (some v)) (some a) = v % 65536 := by
  have i0 : inMem a := by unfold inMem; omega
  have i1 : inMem (a + 1) := by unfold inMem; omega
  have n1 : ¬ a + 1 = a := by omega
  have g0 : mem8_get (Memory.write16 m (some a) (some v)) (some a) = some (v % 256) := by
    simp only [legacy_write16_eq, mem8_get, i0, if_true, and_self, Int.emod_emod]
  have g1 : mem8_get (Memory.write16 m (some a) (some v)) (some (a + 1))
      = some (v / 256 % 256) := by
    simp only [legacy_write16_eq, mem8_get, i1, n1, if_true, if_false, and_self, false_and,
      Int.emod_emod]
  refine ⟨g0, g1, ?_, ?_⟩
  · intro j hj
    have j0 : ¬ j = a := by omega
    have j1 : ¬ j = a + 1 := by omega
    simp only [legacy_write16_eq, mem8_get, j0, j1, false_and, if_false]
  · simp only [Memory.read16, jsAdd, g0, g1, byteOr0]
    omega

/-- The bytes after an 8-bit store inside the buffer, and the value read back. -/
theorem legacy_write8_get (m : Mem8) (a v : Int) (h0 : 0 ≤ a) (h : a < MEMORY_SIZE) :
    (∀ j, j ≠ a →
        mem8_get (Memory.write8 m (some a) (some v)) (some j) = mem8_get m (some j))
    ∧ Memory.read8 (Memory.write8 m (some a) (some v)) (some a) = some (v % 256) := by
  have i0 : inMem a := by unfold inMem; omega
  refine ⟨?_, ?_⟩
  · intro j hj
    simp only [legacy_write8_eq, mem8_get, hj, false_and, if_false]
  · simp only [Memory.read8, legacy_write8_eq, mem8_get, i0, if_true, and_self, Int.emod_emod]

/-- Accesses whose bytes all lie outside the buffer. -/
theorem legacy_access_outside (m : Mem8) (a v : Int) :
    (¬ inMem a → Memory.read8 m (some a) = none ∧ Memory.write8 m (some a) (some v) = m)
    ∧ (a + 1 < 0 ∨ MEMORY_SIZE ≤ a →
        Memory.read16 m (some a) = 0 ∧ Memory.write16 m (some a) (some v) = m)
    ∧ (a + 3 < 0 ∨ MEMORY_SIZE ≤ a →
        Memory.read32s m (some a) = 0 ∧ Memory.write32 m (some a) (some v) = m) := by
  refine ⟨?_, ?_, ?_⟩
  · intro h
    refine ⟨by simp only [Memory.read8, mem8_get, h, if_false], ?_⟩
    rw [legacy_write8_eq]; funext j; simp only [h, and_false, if_false]
  · intro h
    have i0 : ¬ inMem a := by unfold inMem; omega
    have i1 : ¬ inMem (a + 1) := by unfold inMem; omega
    refine ⟨by simp only [Memory.read16, mem8_get, jsAdd, i0, i1, if_false, byteOr0]; rfl, ?_⟩
    rw [legacy_write16_eq]; funext j; simp only [i0, i1, and_false, if_false]
  · intro h
    have i0 : ¬ inMem a := by unfold inMem; omega
    have i1 : ¬ inMem (a + 1) := by unfold inMem; omega
    have i2 : ¬ inMem (a + 2) := by unfold inMem; omega
    have i3 : ¬ inMem (a + 3) := by unfold inMem; omega
    refine ⟨by simp only [Memory.read32s, mem8_get, jsAdd, i0, i1, i2, i3, if_false, byteOr0]; rfl,
      ?_⟩
    rw [legacy_write32_eq]; funext j; simp only [i0, i1, i2, i3, and_false, if_false]

end V86Legacy

/-! ## Theorems: the memory accessors -/

namespace Win32Runtime

/-- C14: in `win32runtime.js` and in `v86_legacy_compat.js`, for every offset `a`
with `0 ≤ a` whose bytes lie below the capacity (aligned or not) and every
integer `v`: `write32(a, v)` leaves the four little-endian bytes of `v` at
`a .. a+3`, changes no other byte, and `read32s(a)` then returns `v` as a signed
32-bit integer (`toInt32 v`, which is `v` itself for `v` in the signed 32-bit
range); `write16`/`read16` do the same with two bytes and the unsigned 16-bit
value, `write8`/`read8` with one byte. -/
theorem memory_write_read_roundtrip (m : Mem8) (a v : Int) (h0 : 0 ≤ a) :
    ((a + 3 < MAX_MEM_ADDR →
        mem8_get (Memory.write32 m (some a) (some v)) (some a) = some (v % 256)
        ∧ mem8_get (Memory.write32 m (some a) (some v)) (some (a + 1)) = some (v / 256 % 256)
        ∧ mem8_get (Memory.write32 m (some a) (some v)) (some (a + 2))
            = some (v / 65536 % 256)
        ∧ mem8_get (Memory.write32 m (some a) (some v)) (some (a + 3))
            = some (v / 16777216 % 256)
        ∧ (∀ j, j < a ∨ a + 3 < j →
            mem8_get (Memory.write32 m (some a) (some v)) (some j) = mem8_get m (some j))
        ∧ Memory.read32s (Memory.write32 m (some a) (some v)) (some a) = toInt32 v)
      ∧ (a + 1 < MAX_MEM_ADDR →
        mem8_get (Memory.write16 m (some a) (some v)) (some a) = some (v % 256)
        ∧ mem8_get (Memory.write16 m (some a) (some v)) (some (a + 1)) = some (v / 256 % 256)
        ∧ (∀ j, j < a ∨ a + 1 < j →
            mem8_get (Memory.write16 m (some a) (some v)) (some j) = mem8_get m (some j))
        ∧ Memory.read16 (Memory.write16 m (some a) (some v)) (some a) = v % 65536)
      ∧ (a < MAX_MEM_ADDR →
        (∀ j, j ≠ a →
            mem8_get (Memory.write8 m (some a) (some v)) (some j) = mem8_get m (some j))
        ∧ Memory.read8 (Memory.write8 m (some a) (some v)) (some a) = some (v % 256)))
    ∧ ((a + 3 < V86Legacy.MEMORY_SIZE →
        V86Legacy.mem8_get (V86Legacy.Memory.write32 m (some a) (some v)) (some a)
            = some (v % 256)
        ∧ V86Legacy.mem8_get (V86Legacy.Memory.write32 m (some a) (some v)) (some (a + 1))
            = some (v / 256 % 256)
        ∧ V86Legacy.mem8_get (V86Legacy.Memory.write32 m (some a) (some v)) (some (a + 2))
            = some (v / 65536 % 256)
        ∧ V86Legacy.mem8_get (V86Legacy.Memory.write32 m (some a) (some v)) (some (a + 3))
            = some (v / 16777216 % 256)
        ∧ (∀ j, j < a ∨ a + 3 < j →
            V86Legacy.mem8_get (V86Legacy.Memory.write32 m (some a) (some v)) (some j)
              = V86Legacy.mem8_get m (some j))
        ∧ V86Legacy.Memory.read32s (V86Legacy.Memory.write32 m (some a) (some v)) (some a)
            = toInt32 v)
      ∧ (a + 1 < V86Legacy.MEMORY_SIZE →
        V86Legacy.mem8_get (V86Legacy.Memory.write16 m (some a) (some v)) (some a)
            = some (v % 256)
        ∧ V86Legacy.mem8_get (V86Legacy.Memory.write16 m (some a) (some v)) (some (a + 1))
            = some (v / 256 % 256)
        ∧ (∀ j, j < a ∨ a + 1 < j →
            V86Legacy.mem8_get (V86Legacy.Memory.write16 m (some a) (some v)) (some j)
              = V86Legacy.mem8_get m (some j))
        ∧ V86Legacy.Memory.read16 (V86Legacy.Memory.write16 m (some a) (some v)) (some a)
            = v % 65536)
      ∧ (a < V86Legacy.MEMORY_SIZE →
        (∀ j, j ≠ a →
            V86Legacy.mem8_get (V86Legacy.Memory.write8 m (some a) (some v)) (some j)
              = V86Legacy.mem8_get m (some j))
        ∧ V86Legacy.Memory.read8 (V86Legacy.Memory.write8 m (some a) (some v)) (some a)
            = some (v % 256))) :=
  ⟨⟨write32_get m a v h0, write16_get m a v h0, write8_get m a v h0⟩,
   ⟨V86Legacy.legacy_write32_get m a v h0, V86Legacy.legacy_write16_get m a v h0,
    V86Legacy.legacy_write8_get m a v h0⟩⟩

/-- C14, at an instance: the value -2 (0xFFFFFFFE) stored at the unaligned
offset 0x1001 of an empty buffer, in both files; the 32-bit read returns -2. -/
theorem memory_write_read_roundtrip_witness :
    Memory.read32s (Memory.write32 (fun _ => 0) (some 0x1001) (some (-2))) (some 0x1001) = -2
    ∧ mem8_get (Memory.write32 (fun _ => 0) (some 0x1001) (some (-2))) (some 0x1001)
        = some 0xFE
    ∧ V86Legacy.Memory.read32s
        (V86Legacy.Memory.write32 (fun _ => 0) (some 0x1001) (some (-2))) (some 0x1001) = -2
    ∧ V86Legacy.Memory.read16
        (V86Legacy.Memory.write16 (fun _ => 0) (some 0x1001) (some 0xBEEF)) (some 0x1001)
        = 0xBEEF :=
  have h := memory_write_read_roundtrip (fun _ => 0) 0x1001 (-2) (by decide)
  have h2 := memory_write_read_roundtrip (fun _ => 0) 0x1001 0xBEEF (by decide)
  ⟨(h.1.1 (by decide)).2.2.2.2.2, (h.1.1 (by decide)).1, (h.2.1 (by decide)).2.2.2.2.2,
   (h2.2.2.1 (by decide)).2.2.2⟩


/-- C15 as stated fails: no accessor throws. On a buffer filled with 7, in both
files, `read8` at the capacity returns `undefined`, `read16(-1)` returns 0x0700
(the missing low byte counts as 0), `read32s` at the capacity returns 0, and
`write32` at the capacity changes nothing. -/
theorem memory_access_outside_no_error :
    (Memory.read8 (fun _ => 7) (some MAX_MEM_ADDR) = none
      ∧ Memory.read16 (fun _ => 7) (some (-1)) = 0x0700
      ∧ Memory.read32s (fun _ => 7) (some MAX_MEM_ADDR) = 0
      ∧ Memory.write32 (fun _ => 7) (some MAX_MEM_ADDR) (some 1) = fun _ => 7)
    ∧ (V86Legacy.Memory.read8 (fun _ => 7) (some V86Legacy.MEMORY_SIZE) = none
      ∧ V86Legacy.Memory.read16 (fun _ => 7) (some (-1)) = 0x0700
      ∧ V86Legacy.Memory.read32s (fun _ => 7) (some V86Legacy.MEMORY_SIZE) = 0
      ∧ V86Legacy.Memory.write32 (fun _ => 7) (some V86Legacy.MEMORY_SIZE) (some 1)
          = fun _ => 7) :=
  ⟨⟨by decide, by decide, by decide,
    ((access_outside (fun _ => 7) MAX_MEM_ADDR 1).2.2 (Or.inr (le_refl _))).2⟩,
   ⟨by decide, by decide, by decide,
    ((V86Legacy.legacy_access_outside (fun _ => 7) V86Legacy.MEMORY_SIZE 1).2.2
      (Or.inr (le_refl _))).2⟩⟩

/-- C15, amended: in both files the accessors return at every offset. `read8`
outside the buffer returns `undefined`; `read16` and `read32s` put together the
bytes `read8` gives, an `undefined` one counting as 0, so they return 0 when all
their bytes are outside; `write8`, `write16` and `write32` store the bytes that
are inside the buffer and drop the others, so they change nothing when all
their bytes are outside. -/
theorem memory_access_outside (m : Mem8) (a v : Int) :
    ((¬ inMem a → Memory.read8 m (some a) = none ∧ Memory.write8 m (some a) (some v) = m)
      ∧ (a + 1 < 0 ∨ MAX_MEM_ADDR ≤ a →
          Memory.read16 m (some a) = 0 ∧ Memory.write16 m (some a) (some v) = m)
      ∧ (a + 3 < 0 ∨ MAX_MEM_ADDR ≤ a →
          Memory.read32s m (some a) = 0 ∧ Memory.write32 m (some a) (some v) = m)
      ∧ Memory.read16 m (some a)
          = byteOr0 (Memory.read8 m (some a)) + byteOr0 (Memory.read8 m (some (a + 1))) * 256
      ∧ Memory.read32s m (some a)
          = toInt32 (byteOr0 (Memory.read8 m (some a))
              + byteOr0 (Memory.read8 m (some (a + 1))) * 256
              + byteOr0 (Memory.read8 m (some (a + 2))) * 65536
              + byteOr0 (Memory.read8 m (some (a + 3))) * 16777216)
      ∧ Memory.write16 m (some a) (some v) = (fun j =>
          if j = a ∧ inMem a then v % 256
          else if j = a + 1 ∧ inMem (a + 1) then v / 256 % 256
          else m j)
      ∧ Memory.write32 m (some a) (some v) = (fun j =>
          if j = a ∧ inMem a then v % 256
          else if j = a + 1 ∧ inMem (a + 1) then v / 256 % 256
          else if j = a + 2 ∧ inMem (a + 2) then v / 65536 % 256
          else if j = a + 3 ∧ inMem (a + 3) then v / 16777216 % 256
          else m j))
    ∧ ((¬ V86Legacy.inMem a →
          V86Legacy.Memory.read8 m (some a) = none
          ∧ V86Legacy.Memory.write8 m (some a) (some v) = m)
      ∧ (a + 1 < 0 ∨ V86Legacy.MEMORY_SIZE ≤ a →
          V86Legacy.Memory.read16 m (some a) = 0
          ∧ V86Legacy.Memory.write16 m (some a) (some v) = m)
      ∧ (a + 3 < 0 ∨ V86Legacy.MEMORY_SIZE ≤ a →
          V86Legacy.Memory.read32s m (some a) = 0
          ∧ V86Legacy.Memory.write32 m (some a) (some v) = m)
      ∧ V86Legacy.Memory.read16 m (some a)
          = byteOr0 (V86Legacy.Memory.read8 m (some a))
            + byteOr0 (V86Legacy.Memory.read8 m (some (a + 1))) * 256
      ∧ V86Legacy.Memory.read32s m (some a)
          = toInt32 (byteOr0 (V86Legacy.Memory.read8 m (some a))
              + byteOr0 (V86Legacy.Memory.read8 m (some (a + 1))) * 256
              + byteOr0 (V86Legacy.Memory.read8 m (some (a + 2))) * 65536
              + byteOr0 (V86Legacy.Memory.read8 m (some (a + 3))) * 16777216)
      ∧ V86Legacy.Memory.write16 m (some a) (some v) = (fun j =>
          if j = a ∧ V86Legacy.inMem a then v % 256
          else if j = a + 1 ∧ V86Legacy.inMem (a + 1) then v / 256 % 256
          else m j)
      ∧ V86Legacy.Memory.write32 m (some a) (some v) = (fun j =>
          if j = a ∧ V86Legacy.inMem a then v % 256
          else if j = a + 1 ∧ V86Legacy.inMem (a + 1) then v / 256 % 256
          else if j = a + 2 ∧ V86Legacy.inMem (a + 2) then v / 65536 % 256
          else if j = a + 3 ∧ V86Legacy.inMem (a + 3) then v / 16777216 % 256
          else m j)) :=
  ⟨⟨(access_outside m a v).1, (access_outside m a v).2.1, (access_outside m a v).2.2,
    rfl, rfl, write16_eq m a v, write32_eq m a v⟩,
   ⟨(V86Legacy.legacy_access_outside m a v).1, (V86Legacy.legacy_access_outside m a v).2.1,
    (V86Legacy.legacy_access_outside m a v).2.2, rfl, rfl,
    V86Legacy.legacy_write16_eq m a v, V86Legacy.legacy_write32_eq m a v⟩⟩

/-- C15 amended, at an instance: the offset -2 on a buffer filled with 7. The
16-bit accesses lie outside; the 32-bit read sees the bytes at 0 and 1 only. -/
theorem memory_access_outside_witness :
    Memory.read8 (fun _ => 7) (some (-2)) = none
    ∧ Memory.write16 (fun _ => 7) (some (-2)) (some 0x1234) = (fun _ => 7)
    ∧ Memory.read32s (fun _ => 7) (some (-2)) = 0x07070000
    ∧ V86Legacy.Memory.read16 (fun _ => 7) (some (-2)) = 0 :=
  have h := memory_access_outside (fun _ => 7) (-2) 0x1234
  ⟨(h.1.1 (by decide)).1, (h.1.2.1 (Or.inl (by decide))).2, by decide,
   (h.2.2.1 (Or.inl (by decide))).1⟩


/-- C16 as stated fails: in `win32runtime.js` and in `granny2_runtime.js`,
`write_aligned32(4, 0x11223344)` on an empty buffer stores the dword at byte
offset 16, and `read32s(4)` still returns 0. -/
theorem write_aligned32_not_byte_offset :
    Memory.read32s (Memory.write_aligned32 (fun _ => 0) (some 4) (some 0x11223344)) (some 4)
        = 0
    ∧ Memory.read32s (Memory.write_aligned32 (fun _ => 0) (some 4) (some 0x11223344))
        (some 16) = 0x11223344
    ∧ Granny2Runtime.Memory.read32s
        (Granny2Runtime.Memory.write_aligned32 (fun _ => 0) (some 4) (some 0x11223344))
        (some 4) = 0
    ∧ Granny2Runtime.Memory.read32s
        (Granny2Runtime.Memory.write_aligned32 (fun _ => 0) (some 4) (some 0x11223344))
        (some 16) = 0x11223344 := by
  decide

/-- C16, amended: in both files `write_aligned32` takes the index of a dword.
For every index `i` with `0 ≤ i` and `4 * i + 3` below the capacity and every
integer `v`, `write_aligned32(i, v)` changes no byte outside `4i .. 4i+3`, and
`read32s(4 * i)` then returns `v` as a signed 32-bit integer. -/
theorem write_aligned32_word_index (m : Mem8) (i v : Int) (h0 : 0 ≤ i)
    (h3 : 4 * i + 3 < MAX_MEM_ADDR) :
    (Memory.read32s (Memory.write_aligned32 m (some i) (some v)) (some (4 * i)) = toInt32 v
      ∧ ∀ j, j < 4 * i ∨ 4 * i + 3 < j →
          mem8_get (Memory.write_aligned32 m (some i) (some v)) (some j) = mem8_get m (some j))
    ∧ (Granny2Runtime.Memory.read32s
          (Granny2Runtime.Memory.write_aligned32 m (some i) (some v)) (some (4 * i))
        = toInt32 v
      ∧ ∀ j, j < 4 * i ∨ 4 * i + 3 < j →
          mem8_get (Granny2Runtime.Memory.write_aligned32 m (some i) (some v)) (some j)
            = mem8_get m (some j)) := by
  have ha : 4 * i % 4 = 0 := by omega
  have hi : inMem (4 * i) := by unfold inMem; omega
  exact ⟨⟨read32s_mem32s_set m (4 * i) v ha hi,
      fun j hj => mem8_get_mem32s_set_ne m (4 * i) (some v) j hj⟩,
    ⟨read32s_mem32s_set m (4 * i) v ha hi,
      fun j hj => mem8_get_mem32s_set_ne m (4 * i) (some v) j hj⟩⟩

/-- C16 amended, at an instance: index 4, the dword at byte offset 16. -/
theorem write_aligned32_word_index_witness :
    Memory.read32s (Memory.write_aligned32 (fun _ => 0) (some 4) (some 0x11223344)) (some 16)
        = 0x11223344
    ∧ Granny2Runtime.Memory.read32s
        (Granny2Runtime.Memory.write_aligned32 (fun _ => 0) (some 4) (some (-1))) (some 16)
        = -1 :=
  ⟨(write_aligned32_word_index (fun _ => 0) 4 0x11223344 (by decide) (by decide)).1.1,
   (write_aligned32_word_index (fun _ => 0) 4 (-1) (by decide) (by decide)).2.1⟩

end Win32Runtime

/-! ## Lemmas: the condition predicates of `granny2_runtime.js` -/

namespace Granny2Runtime

open Win32Runtime

theorem land_two_pow (x k : Nat) :
    Nat.land x (2 ^ k) = if x / 2 ^ k % 2 = 1 then 2 ^ k else 0 := by
  show x &&& 2 ^ k = _
  rw [Nat.and_two_pow, Nat.testBit_to_div_mod]
  by_cases h : x / 2 ^ k % 2 = 1
  · simp [h]
  · simp [h]

theorem bitAnd_flag_carry (flags : Int) :
    bitAnd flags flag_carry = if flag_bit flags 0 then 1 else 0 := by
  unfold bitAnd flag_carry flag_bit
  have hm : (toUint32 1).toNat = 2 ^ 0 := by decide
  rw [hm, land_two_pow]
  have hx : ((toUint32 flags).toNat / 2 ^ 0 % 2 = 1) ↔ (flags / 2 ^ 0 % 2 = 1) := by
    unfold toUint32; omega
  by_cases h : flags / 2 ^ 0 % 2 = 1
  · simp only [hx.2 h, h, if_true, decide_True]; decide
  · have h2 : ¬ ((toUint32 flags).toNat / 2 ^ 0 % 2 = 1) := fun e => h (hx.1 e)
    simp only [h2, h, if_false, decide_False]; decide

theorem bitAnd_flag_parity (flags : Int) :
    bitAnd flags flag_parity = if flag_bit flags 2 then 4 else 0 := by
  unfold bitAnd flag_parity flag_bit
  have hm : (toUint32 4).toNat = 2 ^ 2 := by decide
  rw [hm, land_two_pow]
  have hx : ((toUint32 flags).toNat / 2 ^ 2 % 2 = 1) ↔ (flags / 2 ^ 2 % 2 = 1) := by
    unfold toUint32; omega
  by_cases h : flags / 2 ^ 2 % 2 = 1
  · simp only [hx.2 h, h, if_true, decide_True]; decide
  · have h2 : ¬ ((toUint32 flags).toNat / 2 ^ 2 % 2 = 1) := fun e => h (hx.1 e)
    simp only [h2, h, if_false, decide_False]; decide

theorem bitAnd_flag_zero (flags : Int) :
    bitAnd flags flag_zero = if flag_bit flags 6 then 64 else 0 := by
  unfold bitAnd flag_zero flag_bit
  have hm : (toUint32 64).toNat = 2 ^ 6 := by decide
  rw [hm, land_two_pow]
  have hx : ((toUint32 flags).toNat / 2 ^ 6 % 2 = 1) ↔ (flags / 2 ^ 6 % 2 = 1) := by
    unfold toUint32; omega
  by_cases h : flags / 2 ^ 6 % 2 = 1
  · simp only [hx.2 h, h, if_true, decide_True]; decide
  · have h2 : ¬ ((toUint32 flags).toNat / 2 ^ 6 % 2 = 1) := fun e => h (hx.1 e)
    simp only [h2, h, if_false, decide_False]; decide

theorem bitAnd_flag_sign (flags : Int) :
    bitAnd flags flag_sign = if flag_bit flags 7 then 128 else 0 := by
  unfold bitAnd flag_sign flag_bit
  have hm : (toUint32 128).toNat = 2 ^ 7 := by decide
  rw [hm, land_two_pow]
  have hx : ((toUint32 flags).toNat / 2 ^ 7 % 2 = 1) ↔ (flags / 2 ^ 7 % 2 = 1) := by
    unfold toUint32; omega
  by_cases h : flags / 2 ^ 7 % 2 = 1
  · simp only [hx.2 h, h, if_true, decide_True]; decide
  · have h2 : ¬ ((toUint32 flags).toNat / 2 ^ 7 % 2 = 1) := fun e => h (hx.1 e)
    simp only [h2, h, if_false, decide_False]; decide

theorem bitAnd_flag_overflow (flags : Int) :
    bitAnd flags flag_overflow = if flag_bit flags 11 then 2048 else 0 := by
  unfold bitAnd flag_overflow flag_bit
  have hm : (toUint32 2048).toNat = 2 ^ 11 := by decide
  rw [hm, land_two_pow]
  have hx : ((toUint32 flags).toNat / 2 ^ 11 % 2 = 1) ↔ (flags / 2 ^ 11 % 2 = 1) := by
    unfold toUint32; omega
  by_cases h : flags / 2 ^ 11 % 2 = 1
  · simp only [hx.2 h, h, if_true, decide_True]; decide
  · have h2 : ¬ ((toUint32 flags).toNat / 2 ^ 11 % 2 = 1) := fun e => h (hx.1 e)
    simp only [h2, h, if_false, decide_False]; decide

/-- The predicates of the code are the x86 conditions. -/
theorem jcc_conditions_eq (c : Nat) (hc : c < 16) (flags : Int) :
    jcc_conditions (c : Int) flags = x86_condition c flags := by
  unfold jcc_conditions x86_condition
  simp only [bitAnd_flag_carry, bitAnd_flag_parity, bitAnd_flag_zero, bitAnd_flag_sign,
    bitAnd_flag_overflow]
  generalize flag_bit flags 0 = cf
  generalize flag_bit flags 2 = pf
  generalize flag_bit flags 6 = zf
  generalize flag_bit flags 7 = sf
  generalize flag_bit flags 11 = ovf
  interval_cases c <;> cases cf <;> cases pf <;> cases zf <;> cases sf <;> cases ovf <;> decide

/-! ## Lemmas: one cycle on a conditional jump -/

theorem table_jcc_rel8 (cc : Nat) (hcc : cc < 16) :
    _init_instruction_table (0x70 + (cc : Int)) = some (op_jcc_rel8 (cc : Int)) := by
  unfold _init_instruction_table
  have h1 : ¬ ((0x70 : Int) + cc = 0x0F) := by omega
  have h2 : ¬ ((0x70 : Int) + cc = 0x3B) := by omega
  have h3 : (0x70 : Int) ≤ 0x70 + cc ∧ (0x70 : Int) + cc ≤ 0x7F := by omega
  have h4 : (0x70 : Int) + cc - 0x70 = cc := by omega
  rw [if_neg h1, if_neg h2, if_pos h3, h4]

/-- One cycle on Jcc rel8 at `p`. -/
theorem cycle_jcc_rel8 (c : Cpu) (p : Int) (cc : Nat) (d : Int) (hcc : cc < 16)
    (hp : c.instruction_pointer = some p)
    (h0 : mem8_get c.mem8 (c.translate_address_read (some p)) = some (0x70 + (cc : Int)))
    (h1 : mem8_get c.mem8 (c.translate_address_read (some (p + 1))) = some d) :
    ∃ c1, cycle _init_instruction_table c = .ok c1
      ∧ c1.instruction_pointer
          = some (if x86_condition cc c.flags then p + 2 + (if d < 128 then d else d - 256)
                  else p + 2)
      ∧ c1.reg32s = c.reg32s ∧ c1.flags = c.flags ∧ c1.mem8 = c.mem8 := by
  have e2 : p + 1 + 1 = p + 2 := by omega
  simp only [cycle, Cpu.read_imm8, Memory.read8, hp, h0, jsAdd, table_jcc_rel8 cc hcc,
    op_jcc_rel8, Cpu.read_imm8s, h1, Cpu.jcc, jcc_conditions_eq cc hcc, e2]
  by_cases hx : x86_condition cc c.flags = true
  · simp only [hx, if_true]
    exact ⟨_, rfl, rfl, rfl, rfl, rfl⟩
  · simp only [hx, if_false]
    exact ⟨_, rfl, rfl, rfl, rfl, rfl⟩

theorem table_0F : _init_instruction_table 0x0F = some op_0F := by
  unfold _init_instruction_table
  rw [if_pos rfl]

/-- One cycle on Jcc rel32 at `p`. -/
theorem cycle_jcc_rel32 (c : Cpu) (p q : Int) (cc : Nat) (b0 b1 b2 b3 : Int) (hcc : cc < 16)
    (hp : c.instruction_pointer = some p)
    (h0 : mem8_get c.mem8 (c.translate_address_read (some p)) = some 0x0F)
    (h1 : mem8_get c.mem8 (c.translate_address_read (some (p + 1)))
            = some (0x80 + (cc : Int)))
    (hq : c.translate_address_read (some (p + 2)) = some q)
    (g0 : mem8_get c.mem8 (some q) = some b0)
    (g1 : mem8_get c.mem8 (some (q + 1)) = some b1)
    (g2 : mem8_get c.mem8 (some (q + 2)) = some b2)
    (g3 : mem8_get c.mem8 (some (q + 3)) = some b3) :
    ∃ c1, cycle _init_instruction_table c = .ok c1
      ∧ c1.instruction_pointer
          = some (if x86_condition cc c.flags then p + 6 + toInt32 (le32 b0 b1 b2 b3)
                  else p + 6)
      ∧ c1.reg32s = c.reg32s ∧ c1.flags = c.flags ∧ c1.mem8 = c.mem8 := by
  have e2 : p + 1 + 1 = p + 2 := by omega
  have e6 : p + 2 + 4 = p + 6 := by omega
  have r1 : (0x80 : Int) + cc ≥ 0x80 ∧ (0x80 : Int) + cc ≤ 0x8F := by omega
  have r2 : (0x80 : Int) + cc - 0x80 = cc := by omega
  simp only [cycle, Cpu.read_imm8, Memory.read8, hp, h0, jsAdd, table_0F, op_0F, h1, r1,
    and_self, if_true, r2, Cpu.read_imm32s, Memory.read32s, e2, hq, g0, g1, g2, g3, byteOr0,
    Cpu.jcc, jcc_conditions_eq cc hcc, e6]
  by_cases hx : x86_condition cc c.flags = true
  · simp only [hx, if_true]
    exact ⟨_, rfl, rfl, rfl, rfl, rfl⟩
  · simp only [hx, if_false]
    exact ⟨_, rfl, rfl, rfl, rfl, rfl⟩

/-! ## Theorems: 8-bit registers, flag transfer and conditional jumps -/

/-- C17 (code as it is): `reg8[r]` is byte `r` of the register buffer, not the
x86 register with id `r`. In `granny2_runtime.js` one cycle on `MOV CL, 0x12`
(B1 12) with zeroed registers leaves EAX = 0x1200 and ECX = 0, and one cycle on
`MOV AH, 0x12` (B4 12) leaves EAX = 0 and ECX = 0x12; the handlers `t[0xB1]` and
`t[0xB4]` of `v86_legacy_compat.js` do the same. -/
theorem mov_r8_imm8_wrong_byte :
    ((cycle _init_instruction_table (new_cpu (image [0xB1, 0x12]) 0x10000000 0x10000000)
        ).toOption.map (fun c => (c.reg32s reg_eax, c.reg32s reg_ecx, c.instruction_pointer)))
      = some (0x1200, 0, some 0x10000002)
    ∧ ((cycle _init_instruction_table (new_cpu (image [0xB4, 0x12]) 0x10000000 0x10000000)
        ).toOption.map (fun c => (c.reg32s reg_eax, c.reg32s reg_ecx, c.instruction_pointer)))
      = some (0, 0x12, some 0x10000002)
    ∧ ((V86Legacy.op_mov_r8_imm8 1 (V86Legacy.new_cpu [0x12] 0x10000000)).toOption.map
        (fun c => (c.reg32s reg_eax, c.reg32s reg_ecx, c.instruction_pointer)))
      = some (0x1200, 0, some 0x10000001)
    ∧ ((V86Legacy.op_mov_r8_imm8 4 (V86Legacy.new_cpu [0x12] 0x10000000)).toOption.map
        (fun c => (c.reg32s reg_eax, c.reg32s reg_ecx, c.instruction_pointer)))
      = some (0, 0x12, some 0x10000001) := by
  decide

/-- C18 (code as it is): `reg8[reg_eax + 4]` is the low byte of ECX. In both
files LAHF (9F) with flags = 0xD7 and zeroed registers leaves EAX = 0 and
ECX = 0xD7, and SAHF (9E) with EAX = 0xD500 (AH = 0xD5) and ECX = 0 loads the
byte 0 of ECX: the flags become 0x02 in `granny2_runtime.js` and 0 in
`v86_legacy_compat.js`. -/
theorem lahf_sahf_use_ecx :
    ((cycle _init_instruction_table
        { new_cpu (image [0x9F]) 0x10000000 0x10000000 with flags := 0xD7 }).toOption.map
        (fun c => (c.reg32s reg_eax, c.reg32s reg_ecx))) = some (0, 0xD7)
    ∧ ((cycle _init_instruction_table
        { new_cpu (image [0x9E]) 0x10000000 0x10000000 with
          reg32s := fun r => if r = reg_eax then 0xD500 else 0 }).toOption.map
        (fun c => c.flags)) = some 0x02
    ∧ ((V86Legacy.op_9F { V86Legacy.new_cpu [] 0x10000000 with flags := 0xD7 }).toOption.map
        (fun c => (c.reg32s reg_eax, c.reg32s reg_ecx))) = some (0, 0xD7)
    ∧ ((V86Legacy.op_9E
        { V86Legacy.new_cpu [] 0x10000000 with
          reg32s := fun r => if r = reg_eax then 0xD500 else 0 }).toOption.map
        (fun c => c.flags)) = some 0 := by
  decide

/-- C19 (code as it is): `sub` never writes the flags word that the Jcc
predicates read. From a new CPU (flags = 0), `CMP EAX, EAX; JE +0x10` (3B C0 74
10) falls through to `p + 4` and `CMP EAX, EAX; JNE +0x10` jumps to `p + 0x14`;
with ZF set beforehand, EAX = 1 and ECX = 2, `CMP EAX, ECX; JE +0x10` jumps. The
flags word after each run is the one before it. -/
theorem cmp_leaves_flags_word :
    (((cycle _init_instruction_table
          (new_cpu (image [0x3B, 0xC0, 0x74, 0x10]) 0x10000000 0x10000000)).toOption.bind
        (fun c => (cycle _init_instruction_table c).toOption)).map
        (fun c => (c.flags, c.instruction_pointer))) = some (0, some 0x10000004)
    ∧ (((cycle _init_instruction_table
          (new_cpu (image [0x3B, 0xC0, 0x75, 0x10]) 0x10000000 0x10000000)).toOption.bind
        (fun c => (cycle _init_instruction_table c).toOption)).map
        (fun c => (c.flags, c.instruction_pointer))) = some (0, some 0x10000014)
    ∧ (((cycle _init_instruction_table
          { new_cpu (image [0x3B, 0xC1, 0x74, 0x10]) 0x10000000 0x10000000 with
            flags := 0x40
            reg32s := fun r => if r = reg_eax then 1 else if r = reg_ecx then 2 else 0 }
          ).toOption.bind
        (fun c => (cycle _init_instruction_table c).toOption)).map
        (fun c => (c.flags, c.instruction_pointer))) = some (0x40, some 0x10000014) := by
  decide

/-- C20: in `granny2_runtime.js`, for every condition code `cc` in 0..15, every
flags word and every displacement, one cycle on Jcc rel8 (opcode 70+cc, then
the byte `d`) at address `p` sets the instruction pointer to `p + 2` plus the
sign-extended `d` when the x86 condition `cc` holds on the flags word and to
`p + 2` otherwise; one cycle on Jcc rel32 (0F, 80+cc, then the bytes `b0..b3`)
sets it to `p + 6` plus the signed 32-bit value of the four bytes when the
condition holds and to `p + 6` otherwise. Registers, flags and memory stay. -/
theorem jcc_takes_branch_iff_condition (c : Cpu) (p : Int) (cc : Nat) (hcc : cc < 16)
    (hp : c.instruction_pointer = some p) :
    (∀ d : Int,
      mem8_get c.mem8 (c.translate_address_read (some p)) = some (0x70 + (cc : Int)) →
      mem8_get c.mem8 (c.translate_address_read (some (p + 1))) = some d →
      ∃ c1, cycle _init_instruction_table c = .ok c1
        ∧ c1.instruction_pointer
            = some (if x86_condition cc c.flags then p + 2 + (if d < 128 then d else d - 256)
                    else p + 2)
        ∧ c1.reg32s = c.reg32s ∧ c1.flags = c.flags ∧ c1.mem8 = c.mem8)
    ∧ (∀ q b0 b1 b2 b3 : Int,
      mem8_get c.mem8 (c.translate_address_read (some p)) = some 0x0F →
      mem8_get c.mem8 (c.translate_address_read (some (p + 1))) = some (0x80 + (cc : Int)) →
      c.translate_address_read (some (p + 2)) = some q →
      mem8_get c.mem8 (some q) = some b0 →
      mem8_get c.mem8 (some (q + 1)) = some b1 →
      mem8_get c.mem8 (some (q + 2)) = some b2 →
      mem8_get c.mem8 (some (q + 3)) = some b3 →
      ∃ c1, cycle _init_instruction_table c = .ok c1
        ∧ c1.instruction_pointer
            = some (if x86_condition cc c.flags then p + 6 + toInt32 (le32 b0 b1 b2 b3)
                    else p + 6)
        ∧ c1.reg32s = c.reg32s ∧ c1.flags = c.flags ∧ c1.mem8 = c.mem8) :=
  ⟨fun d h0 h1 => cycle_jcc_rel8 c p cc d hcc hp h0 h1,
   fun q b0 b1 b2 b3 h0 h1 hq g0 g1 g2 g3 =>
     cycle_jcc_rel32 c p q cc b0 b1 b2 b3 hcc hp h0 h1 hq g0 g1 g2 g3⟩

/-- C20, at instances: `JE +0x10` (74 10) with ZF set jumps to `p + 0x12`, and
`JNE -16` in the rel32 form (0F 85 F0 FF FF FF) with ZF set falls through to
`p + 6`, with ZF clear it jumps to `p + 6 - 16`. -/
theorem jcc_takes_branch_iff_condition_witness :
    (∃ c1, cycle _init_instruction_table
          { new_cpu (image [0x74, 0x10]) 0x10000000 0x10000000 with flags := 0x40 } = .ok c1
        ∧ c1.instruction_pointer = some 0x10000012
        ∧ c1.reg32s = (fun _ => 0) ∧ c1.flags = 0x40 ∧ c1.mem8 = image [0x74, 0x10])
    ∧ (∃ c1, cycle _init_instruction_table
          { new_cpu (image [0x0F, 0x85, 0xF0, 0xFF, 0xFF, 0xFF]) 0x10000000 0x10000000 with
            flags := 0x40 } = .ok c1
        ∧ c1.instruction_pointer = some 0x10000006
        ∧ c1.reg32s = (fun _ => 0) ∧ c1.flags = 0x40
        ∧ c1.mem8 = image [0x0F, 0x85, 0xF0, 0xFF, 0xFF, 0xFF])
    ∧ (∃ c1, cycle _init_instruction_table
          (new_cpu (image [0x0F, 0x85, 0xF0, 0xFF, 0xFF, 0xFF]) 0x10000000 0x10000000) = .ok c1
        ∧ c1.instruction_pointer = some 0x0FFFFFF6
        ∧ c1.reg32s = (fun _ => 0) ∧ c1.flags = 0
        ∧ c1.mem8 = image [0x0F, 0x85, 0xF0, 0xFF, 0xFF, 0xFF]) :=
  ⟨(jcc_takes_branch_iff_condition
      { new_cpu (image [0x74, 0x10]) 0x10000000 0x10000000 with flags := 0x40 }
      0x10000000 4 (by decide) rfl).1 0x10 (by decide) (by decide),
   (jcc_takes_branch_iff_condition
      { new_cpu (image [0x0F, 0x85, 0xF0, 0xFF, 0xFF, 0xFF]) 0x10000000 0x10000000 with
        flags := 0x40 }
      0x10000000 5 (by decide) rfl).2 2 0xF0 0xFF 0xFF 0xFF (by decide) (by decide) (by decide)
      (by decide) (by decide) (by decide) (by decide),
   (jcc_takes_branch_iff_condition
      (new_cpu (image [0x0F, 0x85, 0xF0, 0xFF, 0xFF, 0xFF]) 0x10000000 0x10000000)
      0x10000000 5 (by decide) rfl).2 2 0xF0 0xFF 0xFF 0xFF (by decide) (by decide) (by decide)
      (by decide) (by decide) (by decide) (by decide)⟩

end Granny2Runtime

/-! ## Lemmas: the table of `granny2_runtime.js` -/

namespace Granny2Runtime

open Win32Runtime

/-- Outside the prefix bytes the table is the same at every depth. -/
theorem table32_eq (depth : Nat) (opcode : Int) (h2 : opcode ≠ 0xF2) (h3 : opcode ≠ 0xF3) :
    table32 depth opcode = _init_instruction_table opcode := by
  cases depth with
  | zero => rfl
  | succ d => simp only [table32, h2, h3, if_false]

theorem table_mov_r32_imm32 (r : Nat) (hr : r < 8) :
    _init_instruction_table (0xB8 + (r : Int)) = some (op_mov_r32_imm32 r) := by
  unfold _init_instruction_table
  have h1 : ¬ ((0xB8 : Int) + r = 0x0F) := by omega
  have h2 : ¬ ((0xB8 : Int) + r = 0x3B) := by omega
  have h3 : ¬ ((0x70 : Int) ≤ 0xB8 + r ∧ (0xB8 : Int) + r ≤ 0x7F) := by omega
  have h4 : ¬ ((0xB8 : Int) + r = 0x9E) := by omega
  have h5 : ¬ ((0xB8 : Int) + r = 0x9F) := by omega
  have h6 : ¬ ((0xB0 : Int) ≤ 0xB8 + r ∧ (0xB8 : Int) + r ≤ 0xB7) := by omega
  have h7 : (0xB8 : Int) ≤ 0xB8 + r ∧ (0xB8 : Int) + r ≤ 0xBF := by omega
  have h8 : ((0xB8 : Int) + r - 0xB8).toNat = r := by omega
  rw [if_neg h1, if_neg h2, if_neg h3, if_neg h4, if_neg h5, if_neg h6, if_pos h7, h8]

/-- One cycle on MOV r32, imm32 at `p`. -/
theorem cycle_mov_r32_imm32 (depth : Nat) (c : Cpu) (p q : Int) (r : Nat) (hr : r < 8)
    (b0 b1 b2 b3 : Int)
    (hp : c.instruction_pointer = some p)
    (h0 : mem8_get c.mem8 (c.translate_address_read (some p)) = some (0xB8 + (r : Int)))
    (hq : c.translate_address_read (some (p + 1)) = some q)
    (g0 : mem8_get c.mem8 (some q) = some b0)
    (g1 : mem8_get c.mem8 (some (q + 1)) = some b1)
    (g2 : mem8_get c.mem8 (some (q + 2)) = some b2)
    (g3 : mem8_get c.mem8 (some (q + 3)) = some b3) :
    ∃ c1, cycle (table32 depth) c = .ok c1
      ∧ c1.instruction_pointer = some (p + 5)
      ∧ c1.reg32s r = toInt32 (le32 b0 b1 b2 b3)
      ∧ (∀ k, k ≠ r → c1.reg32s k = c.reg32s k)
      ∧ c1.flags = c.flags ∧ c1.mem8 = c.mem8 := by
  have e5 : p + 1 + 4 = p + 5 := by omega
  have t2 : (0xB8 : Int) + r ≠ 0xF2 := by omega
  have t3 : (0xB8 : Int) + r ≠ 0xF3 := by omega
  have ht : toInt32 (toInt32 (le32 b0 b1 b2 b3)) = toInt32 (le32 b0 b1 b2 b3) := by
    unfold toInt32; omega
  simp only [cycle, Cpu.read_imm8, Memory.read8, hp, h0, jsAdd, table32_eq depth _ t2 t3,
    table_mov_r32_imm32 r hr, op_mov_r32_imm32, Cpu.read_imm32s, Memory.read32s, hq, g0, g1, g2,
    g3, byteOr0, Cpu.setReg, JsNum.toInt32, e5]
  refine ⟨_, rfl, rfl, ?_, ?_, rfl, rfl⟩
  · simp only [if_true]
    exact ht
  · intro k hk
    simp only [hk, if_false]

end Granny2Runtime

namespace Win32Runtime

/-- One cycle of `win32runtime.js` on MOV r32, imm32 at `p`. -/
theorem cycle_mov_reg_imm32 (api : Api) (rt : Runtime) (p : Int) (r : Nat) (hr : r < 8)
    (b0 b1 b2 b3 : Int)
    (hip : rt.cpu.instruction_pointer = some p)
    (hcode : code_at rt.cpu.mem8 rt.cpu.base_addr p [0xB8 + (r : Int), b0, b1, b2, b3]) :
    ∃ rt1, cycle api rt = Res.ok () rt1
      ∧ rt1.cpu.instruction_pointer = some (p + 5)
      ∧ rt1.cpu.reg32s r = toInt32 (le32 b0 b1 b2 b3)
      ∧ (∀ k, k ≠ r → rt1.cpu.reg32s k = rt.cpu.reg32s k)
      ∧ rt1.cpu.flags = rt.cpu.flags ∧ rt1.cpu.mem8 = rt.cpu.mem8 := by
  obtain ⟨h0, hrest⟩ := hcode
  rw [cycle_fetch api rt p _ hip h0]
  have hr32 := read32s_code rt.cpu.mem8 rt.cpu.base_addr (p + 1) b0 b1 b2 b3 hrest
  have e5 : p + 1 + 4 = p + 5 := by omega
  have n1 : ¬ ((0xB8 : Int) + r = 0xE8) := by omega
  have n2 : ¬ ((0xB8 : Int) + r = 0xFF) := by omega
  have n3 : ¬ ((0xB8 : Int) + r = 0xC3) := by omega
  have n4 : ¬ ((0xB8 : Int) + r = 0xC2) := by omega
  have n5 : ¬ ((0xB8 : Int) + r = 0x90) := by omega
  have n6 : (0xB8 : Int) ≤ 0xB8 + r ∧ (0xB8 : Int) + r ≤ 0xBF := by omega
  have n7 : ((0xB8 : Int) + r - 0xB8).toNat = r := by omega
  have ht : toInt32 (toInt32 (le32 b0 b1 b2 b3)) = toInt32 (le32 b0 b1 b2 b3) := by
    unfold toInt32; omega
  simp only [table32, n1, n2, n3, n4, if_false, liftCpu, v86_table32, n5, n6, if_true, n7,
    Cpu.read_imm32s, Cpu.translate_address_read, jsSub, hr32, Cpu.setReg, JsNum.toInt32, jsAdd,
    e5, and_self]
  refine ⟨_, rfl, rfl, ?_, ?_, rfl, rfl⟩
  · simp only [if_true, ht]
  · intro k hk
    simp only [hk, if_false]

end Win32Runtime

namespace Granny2Runtime

open Win32Runtime

/-- An opcode that `_init_instruction_table` never assigns has a `null` entry. -/
theorem table_unregistered (depth : Nat) (op : Int) (h : registered op = false) :
    table32 depth op = none := by
  have hreg := h
  simp only [registered, decide_eq_false_iff_not] at hreg
  have t2 : op ≠ 0xF2 := by omega
  have t3 : op ≠ 0xF3 := by omega
  rw [table32_eq depth op t2 t3]
  unfold _init_instruction_table
  rw [if_neg (by omega), if_neg (by omega), if_neg (by omega), if_neg (by omega),
    if_neg (by omega), if_neg (by omega), if_neg (by omega), if_neg (by omega),
    if_neg (by omega), if_neg (by omega), if_neg (by omega), if_neg (by omega),
    if_neg (by omega), if_neg (by omega), if_neg (by omega), if_neg (by omega),
    if_neg (by omega), if_neg (by omega), if_neg (by omega), if_neg (by omega)]
  simp only [h, Bool.false_eq_true, if_false]

/-- One cycle on an opcode without a handler. -/
theorem cycle_unregistered (depth : Nat) (c : Cpu) (p op : Int)
    (hp : c.instruction_pointer = some p)
    (h0 : mem8_get c.mem8 (c.translate_address_read (some p)) = some op)
    (h : registered op = false) :
    ∃ c1, cycle (table32 depth) c = .error (Fault.unimplementedOpcode op (some p), c1)
      ∧ c1.reg32s = c.reg32s ∧ c1.flags = c.flags ∧ c1.mem8 = c.mem8 := by
  simp only [cycle, Cpu.read_imm8, Memory.read8, hp, h0, jsAdd, table_unregistered depth op h]
  exact ⟨_, rfl, rfl, rfl, rfl⟩

/-- One cycle on 0F and a second byte that the handler of 0F does not know. -/
theorem cycle_unregistered_0F (depth : Nat) (c : Cpu) (p op2 : Int)
    (hp : c.instruction_pointer = some p)
    (h0 : mem8_get c.mem8 (c.translate_address_read (some p)) = some 0x0F)
    (h1 : mem8_get c.mem8 (c.translate_address_read (some (p + 1))) = some op2)
    (hj : ¬ (0x80 ≤ op2 ∧ op2 ≤ 0x8F))
    (h2 : op2 ≠ 0xAF ∧ op2 ≠ 0xB6 ∧ op2 ≠ 0xB7 ∧ op2 ≠ 0xBE ∧ op2 ≠ 0xBF) :
    ∃ c1, cycle (table32 depth) c = .error (Fault.unimplemented0F op2, c1)
      ∧ c1.reg32s = c.reg32s ∧ c1.flags = c.flags ∧ c1.mem8 = c.mem8 := by
  obtain ⟨a1, a2, a3, a4, a5⟩ := h2
  have hj2 : ¬ (op2 ≥ 0x80 ∧ op2 ≤ 0x8F) := by omega
  have t : table32 depth 0x0F = some op_0F := by
    rw [table32_eq depth 0x0F (by decide) (by decide)]; rfl
  simp only [cycle, Cpu.read_imm8, Memory.read8, hp, h0, jsAdd, t, op_0F, h1, hj2, a1, a2, a3,
    a4, a5, if_false]
  exact ⟨_, rfl, rfl, rfl, rfl⟩

end Granny2Runtime

namespace Granny2Runtime

open Win32Runtime

/-- PUSHFD, a change of the flags, then POPFD. -/
theorem pushfd_popfd (c : Cpu) (g a : Int)
    (hf0 : 0 ≤ c.flags) (hf1 : c.flags < 2147483648)
    (hesp : -2147483648 ≤ c.reg32s reg_esp ∧ c.reg32s reg_esp < 2147483648)
    (hw : c.translate_address_write (some (toInt32 (c.reg32s reg_esp - 4))) = some a)
    (hr : c.translate_address_read (some (toInt32 (c.reg32s reg_esp - 4))) = some a)
    (ha0 : 0 ≤ a) (ha3 : a + 3 < MAX_MEM_ADDR) :
    ∃ c1 c2, op_9C c = .ok c1 ∧ op_9D { c1 with flags := g } = .ok c2
      ∧ c2.flags = c.flags ∧ c2.reg32s reg_esp = c.reg32s reg_esp := by
  have hrt : Win32Runtime.Memory.read32s
      (Win32Runtime.Memory.write32 c.mem8 (some a) (some c.flags)) (some a) = toInt32 c.flags :=
    (write32_get c.mem8 a c.flags ha0 ha3).2.2.2.2.2
  have hfl : toInt32 c.flags = c.flags := toInt32_of_range _ (by omega) hf1
  have hsp : toInt32 (toInt32 (c.reg32s reg_esp - 4) + 4) = c.reg32s reg_esp := by
    unfold toInt32; omega
  refine ⟨_, _, rfl, rfl, ?_, ?_⟩
  · simp only [Cpu.pop32, Cpu.safe_read32s, Cpu.push32, Cpu.safe_write32, Cpu.setReg,
      JsNum.toInt32, if_true, hw, hr]
    exact hrt.trans hfl
  · simp only [Cpu.pop32, Cpu.safe_read32s, Cpu.push32, Cpu.safe_write32, Cpu.setReg,
      JsNum.toInt32, if_true]
    exact hsp

end Granny2Runtime

namespace V86Legacy

open Win32Runtime

/-- PUSHF, a change of the flags, then POPF in the legacy CPU. -/
theorem legacy_pushf_popf (c : Cpu) (g : Int)
    (hf0 : 0 ≤ c.flags) (hf1 : c.flags < 2147483648)
    (hesp : -2147483648 ≤ c.reg32s reg_esp ∧ c.reg32s reg_esp < 2147483648)
    (ha3 : toUint32 (c.reg32s reg_esp - 4) + 3 < MEMORY_SIZE) :
    ∃ c1 c2, op_9C c = .ok c1 ∧ op_9D { c1 with flags := g } = .ok c2
      ∧ c2.flags = c.flags ∧ c2.reg32s reg_esp = c.reg32s reg_esp := by
  have ha0 : 0 ≤ toUint32 (c.reg32s reg_esp - 4) := by unfold toUint32; omega
  have hrt := (legacy_write32_get c.mem8 (toUint32 (c.reg32s reg_esp - 4)) c.flags ha0 ha3
    ).2.2.2.2.2
  have hfl : toInt32 c.flags = c.flags := toInt32_of_range _ (by omega) hf1
  have e1 : toUint32 (toUint32 (toInt32 (toUint32 (toUint32 (c.reg32s reg_esp) - 4))))
      = toUint32 (c.reg32s reg_esp - 4) := by
    unfold toUint32 toInt32; omega
  have hsp : toInt32 (toUint32 (toUint32 (toInt32 (toUint32 (toUint32 (c.reg32s reg_esp) - 4)))
      + 4)) = c.reg32s reg_esp := by
    unfold toUint32 toInt32; omega
  refine ⟨_, _, rfl, rfl, ?_, ?_⟩
  · simp only [Cpu.pop32, Cpu.push32, Cpu.setReg, Cpu.reg32, Cpu.translate_address_write,
      Cpu.translate_address_read, numOr0, JsNum.toInt32, if_true, e1]
    exact hrt.trans hfl
  · simp only [Cpu.pop32, Cpu.push32, Cpu.setReg, Cpu.reg32, JsNum.toInt32, if_true]
    exact hsp

end V86Legacy

/-! ## Lemmas: REP MOVSD -/

namespace Granny2Runtime

open Win32Runtime

theorem bitAnd_flag_direction (flags : Int) :
    bitAnd flags flag_direction = if flag_bit flags 10 then 1024 else 0 := by
  unfold bitAnd flag_direction flag_bit
  have hm : (toUint32 1024).toNat = 2 ^ 10 := by decide
  rw [hm, land_two_pow]
  have hx : ((toUint32 flags).toNat / 2 ^ 10 % 2 = 1) ↔ (flags / 2 ^ 10 % 2 = 1) := by
    unfold toUint32; omega
  by_cases h : flags / 2 ^ 10 % 2 = 1
  · simp only [hx.2 h, h, if_true, decide_True]; decide
  · have h2 : ¬ ((toUint32 flags).toNat / 2 ^ 10 % 2 = 1) := fun e => h (hx.1 e)
    simp only [h2, h, if_false, decide_False]; decide

/-- The step of the string handlers is `-k` with the direction flag set and `k`
with the flag clear. -/
theorem string_step_eq (c : Cpu) (k : Int) :
    c.string_step k = if flag_bit c.flags 10 then -k else k := by
  unfold Cpu.string_step
  rw [bitAnd_flag_direction]
  cases flag_bit c.flags 10 <;> simp

/-- One MOVSD. -/
theorem movsd_step (c : Cpu) :
    op_A5 c = .ok { c with
      mem8 := Memory.write32 c.mem8 (c.translate_address_write (some (c.reg32s reg_edi)))
                (some (Memory.read32s c.mem8 (c.translate_address_read (some (c.reg32s reg_esi)))))
      reg32s := fun k =>
        if k = reg_edi then toInt32 (c.reg32s reg_edi + c.string_step 4)
        else if k = reg_esi then toInt32 (c.reg32s reg_esi + c.string_step 4)
        else c.reg32s k } := by
  have h76 : ¬ (reg_edi = reg_esi) := by decide
  simp only [op_A5, Cpu.safe_write32, Cpu.safe_read32s, Cpu.setReg, JsNum.toInt32, Cpu.string_step,
    h76, if_false, if_true]

/-- The loop of REP on MOVSD, for the step `s` that the flags give. -/
theorem rep_loop_movsd (s : Int) (hs : s = 4 ∨ s = -4) (n : Nat) : ∀ (c : Cpu),
    c.string_step 4 = s →
    (-2147483648 ≤ c.reg32s reg_esi ∧ c.reg32s reg_esi < 2147483648) →
    (-2147483648 ≤ c.reg32s reg_edi ∧ c.reg32s reg_edi < 2147483648) →
    ∃ c1, rep_loop op_A5 n c = .ok c1
      ∧ c1.mem8 = copy_dwords c.translate_address_read c.translate_address_write s n
          (c.reg32s reg_esi) (c.reg32s reg_edi) c.mem8
      ∧ c1.reg32s reg_esi = toInt32 (c.reg32s reg_esi + s * n)
      ∧ c1.reg32s reg_edi = toInt32 (c.reg32s reg_edi + s * n)
      ∧ c1.reg32s reg_ecx = (if n = 0 then c.reg32s reg_ecx else 0)
      ∧ (∀ k, k ≠ reg_ecx → k ≠ reg_esi → k ≠ reg_edi → c1.reg32s k = c.reg32s k)
      ∧ c1.flags = c.flags ∧ c1.instruction_pointer = c.instruction_pointer := by
  induction n with
  | zero =>
    intro c _ hsi hdi
    refine ⟨c, rfl, rfl, ?_, ?_, rfl, fun _ _ _ _ => rfl, rfl, rfl⟩
    · have : s * ((0 : Nat) : Int) = 0 := by simp
      rw [this]; unfold toInt32; omega
    · have : s * ((0 : Nat) : Int) = 0 := by simp
      rw [this]; unfold toInt32; omega
  | succ n ih =>
    intro c hc hsi hdi
    have h67 : ¬ (reg_esi = reg_edi) := by decide
    have h16 : ¬ (reg_esi = reg_ecx) := by decide
    have h17 : ¬ (reg_edi = reg_ecx) := by decide
    obtain ⟨c1, e1, m1, si1, di1, cx1, o1, f1, ip1⟩ := ih
      (({ c with
          mem8 := Memory.write32 c.mem8 (c.translate_address_write (some (c.reg32s reg_edi)))
            (some (Memory.read32s c.mem8
              (c.translate_address_read (some (c.reg32s reg_esi)))))
          reg32s := fun k =>
            if k = reg_edi then toInt32 (c.reg32s reg_edi + c.string_step 4)
            else if k = reg_esi then toInt32 (c.reg32s reg_esi + c.string_step 4)
            else c.reg32s k } : Cpu).setReg reg_ecx (some (n : Int)))
      (by simpa [Cpu.string_step, Cpu.setReg] using hc)
      (by simp only [Cpu.setReg, h16, h67, if_false, if_true]; unfold toInt32; omega)
      (by simp only [Cpu.setReg, h17, if_false, if_true]; unfold toInt32; omega)
    refine ⟨c1, ?_, ?_, ?_, ?_, ?_, ?_, ?_, ?_⟩
    · simp only [rep_loop, movsd_step]
      exact e1
    · rw [m1]
      simp only [copy_dwords, Cpu.setReg, h16, h17, h67, if_false, if_true, hc]
    · rw [si1]
      simp only [Cpu.setReg, h16, h67, if_false, if_true, hc]
      rcases hs with rfl | rfl <;> (unfold toInt32; push_cast; omega)
    · rw [di1]
      simp only [Cpu.setReg, h17, if_false, if_true, hc]
      rcases hs with rfl | rfl <;> (unfold toInt32; push_cast; omega)
    · rw [cx1]
      have hn1 : ¬ (n + 1 = 0) := by omega
      simp only [Cpu.setReg, if_true, JsNum.toInt32, hn1, if_false]
      by_cases hn : n = 0
      · simp only [hn, if_true]; decide
      · simp only [hn, if_false]
    · intro k k1 k2 k3
      rw [o1 k k1 k2 k3]
      simp only [Cpu.setReg, k1, k2, k3, if_false]
    · rw [f1]; rfl
    · rw [ip1]; rfl

end Granny2Runtime

/-! ## Lemmas: a call of an import without a handler -/

namespace Win32Runtime

theorem run_cycles_cycles_n (api : Api) (j : Nat) : ∀ (left k : Nat) (rt1 rt : Runtime),
    cycles_n api j rt1 = some rt →
    run_cycles api (j + left) k rt1 = run_cycles api left (k + j) rt := by
  induction j with
  | zero =>
    intro left k rt1 rt h
    simp only [cycles_n, Option.some.injEq] at h
    simp only [Nat.zero_add, Nat.add_zero, h]
  | succ j ih =>
    intro left k rt1 rt h
    unfold cycles_n at h
    by_cases hf : (rt1.function_call_done || rt1.halt_instructions) = true
    · simp [hf] at h
    · simp only [hf, if_false] at h
      have hd : rt1.function_call_done = false := by
        cases h1 : rt1.function_call_done with
        | false => rfl
        | true => simp [h1] at hf
      have hh : rt1.halt_instructions = false := by
        cases h2 : rt1.halt_instructions with
        | false => rfl
        | true => simp [h2] at hf
      cases hc : cycle api rt1 with
      | throw e rt2 => simp [hc] at h
      | ok u rt2 =>
        simp only [hc] at h
        have e1 : j + 1 + left = (j + left) + 1 := by omega
        have e2 : k + (j + 1) = (k + 1) + j := by omega
        rw [e1, e2, run_cycles_step api (j + left) k rt1 rt2 hd hh hc]
        exact ih left (k + 1) rt2 rt h

/-- A cycle that throws inside the loop of `stdcall` makes `stdcall` throw. -/
theorem stdcall_throws_of_cycle (api : Api) (address : Int) (args : List Int)
    (rt0 rt1 rt rt2 : Runtime) (j : Nat) (e : Fault)
    (henter : stdcall_enter address args rt0 = Res.ok () rt1)
    (hrun : cycles_n api j rt1 = some rt) (hj : j < max_cycles)
    (hd : rt.function_call_done = false) (hh : rt.halt_instructions = false)
    (hc : cycle api rt = Res.throw e rt2) :
    stdcall api address args rt0 = Res.throw e rt2 := by
  obtain ⟨left, hl⟩ : ∃ left, max_cycles = j + (left + 1) := ⟨max_cycles - j - 1, by omega⟩
  unfold stdcall
  simp only [henter]
  rw [hl, run_cycles_cycles_n api j (left + 1) 0 rt1 rt hrun,
    run_cycles_throw api left (0 + j) rt rt2 e hd hh hc]

/-- The patched CALL rel32 handler on a target that is an import whose name is
not `in WIN32API`. -/
theorem call_rel32_unimplemented_import (api : Api) (rt : Runtime) (target : Int)
    (name : String)
    (ht : rt.cpu.op_call_rel32.instruction_pointer = some target)
    (hi : rt.imports target = some name) (ha : win32api_has api name = false) :
    table32 api 0xE8 rt
      = Res.throw (Fault.message ("Called unimplemented imported function: " ++ name))
          { rt with cpu := rt.cpu.op_call_rel32, halt_instructions := true } := by
  simp only [table32, if_true, Bind.bind, M.bind, modifyCpu, import_check, ht, hi, ha,
    Bool.false_eq_true, if_false]

/-- The patched FF handler on CALL near indirect (FF /2) to a target
that is an import whose name is not `in WIN32API`. -/
theorem call_indirect_unimplemented_import (api : Api) (rt : Runtime) (target data : Int)
    (name : String) (modrmv addr : JsNum) (c1 c2 : Cpu)
    (hm : rt.cpu.read_imm8 = (modrmv, c1))
    (hop : byteOr0 modrmv / 8 % 8 = 2)
    (hrm : c1.read_rm32 (byteOr0 modrmv) = (data, addr, c2))
    (ht : ((c2.push32 c2.get_real_eip).jump_abs data).instruction_pointer = some target)
    (hi : rt.imports target = some name) (ha : win32api_has api name = false) :
    table32 api 0xFF rt
      = Res.throw (Fault.message ("Called unimplemented imported function: " ++ name))
          { rt with cpu := (c2.push32 c2.get_real_eip).jump_abs data,
                    halt_instructions := true } := by
  have n1 : ¬ ((0xFF : Int) = 0xE8) := by decide
  simp only [table32, n1, if_false, if_true, hooked_FF, hm, hop, hrm, import_check, ht, hi, ha,
    Bool.false_eq_true]

/-- The import check on a target whose name is not a method of `WIN32API`
itself but one of the names inherited from `Object.prototype`: the inherited
member is called, so the check returns or throws a TypeError (or is outside the
model), in both cases with the runtime as it was. It does not throw a string
and `halt_instructions` is not set. -/
theorem import_check_inherited (api : Api) (rt : Runtime) (target : Int) (name : String)
    (hip : rt.cpu.instruction_pointer = some target) (hi : rt.imports target = some name)
    (ha : api name = none) (hn : object_prototype_names.contains name = true) :
    (import_check api rt).state = rt
      ∧ ∀ s, (import_check api rt).fault ≠ some (Fault.message s) := by
  have hh : win32api_has api name = true := by
    simp only [win32api_has, ha, hn, Option.isSome_none, Bool.false_or]
  simp only [import_check, hip, hi, hh, if_true, win32api_call, ha, hn]
  split_ifs <;> refine ⟨rfl, ?_⟩ <;> intro s hs <;> simp [Res.fault] at hs

end Win32Runtime

/-! ## Theorems: PUSHFD/POPFD, MOV r32 imm32, opcodes without a handler -/

namespace Granny2Runtime

open Win32Runtime

/-- C25: in `granny2_runtime.js` (state `c`) and in `v86_legacy_compat.js` (state
`l`), for a flags word `f` with `0 <= f < 2^31` and a stack pointer whose four
bytes below lie inside the memory, the table entry 9C (PUSHFD), then any value
`g` stored in the flags, then the table entry 9D (POPFD) end with the flags
equal to `f` and ESP equal to its value before the PUSHFD. -/
theorem pushfd_popfd_round_trip (depth : Nat) (stosd : Option V86Legacy.CpuHandler)
    (c : Cpu) (l : V86Legacy.Cpu) (g a : Int)
    (hf0 : 0 ≤ c.flags) (hf1 : c.flags < 2147483648)
    (hesp : -2147483648 ≤ c.reg32s reg_esp ∧ c.reg32s reg_esp < 2147483648)
    (hw : c.translate_address_write (some (toInt32 (c.reg32s reg_esp - 4))) = some a)
    (hr : c.translate_address_read (some (toInt32 (c.reg32s reg_esp - 4))) = some a)
    (ha0 : 0 ≤ a) (ha3 : a + 3 < MAX_MEM_ADDR)
    (lf0 : 0 ≤ l.flags) (lf1 : l.flags < 2147483648)
    (lesp : -2147483648 ≤ l.reg32s reg_esp ∧ l.reg32s reg_esp < 2147483648)
    (la3 : toUint32 (l.reg32s reg_esp - 4) + 3 < V86Legacy.MEMORY_SIZE) :
    (∃ pushfd popfd c1 c2, table32 depth 0x9C = some pushfd ∧ table32 depth 0x9D = some popfd
      ∧ pushfd c = .ok c1 ∧ popfd { c1 with flags := g } = .ok c2
      ∧ c2.flags = c.flags ∧ c2.reg32s reg_esp = c.reg32s reg_esp)
    ∧ (∃ pushf popf l1 l2, V86Legacy.table32 stosd 0x9C = some pushf
      ∧ V86Legacy.table32 stosd 0x9D = some popf
      ∧ pushf l = .ok l1 ∧ popf { l1 with flags := g } = .ok l2
      ∧ l2.flags = l.flags ∧ l2.reg32s reg_esp = l.reg32s reg_esp) := by
  constructor
  · obtain ⟨c1, c2, h1, h2, h3, h4⟩ := pushfd_popfd c g a hf0 hf1 hesp hw hr ha0 ha3
    refine ⟨op_9C, op_9D, c1, c2, ?_, ?_, h1, h2, h3, h4⟩
    · rw [table32_eq depth 0x9C (by decide) (by decide)]; rfl
    · rw [table32_eq depth 0x9D (by decide) (by decide)]; rfl
  · obtain ⟨l1, l2, h1, h2, h3, h4⟩ := V86Legacy.legacy_pushf_popf l g lf0 lf1 lesp la3
    exact ⟨V86Legacy.op_9C, V86Legacy.op_9D, l1, l2, rfl, rfl, h1, h2, h3, h4⟩

/-- C25, at an instance: flags 0x246 and ESP = 0x10000100 (granny2, image at
0x10000000) and flags 0x7FFFFFFF, ESP = 0x10000100 (legacy), the flags
overwritten with 0xFFFFFFFF between the two instructions. -/
theorem pushfd_popfd_round_trip_witness :
    (∃ pushfd popfd c1 c2, table32 1 0x9C = some pushfd ∧ table32 1 0x9D = some popfd
      ∧ pushfd (stack_state 0x246 0x10000100) = .ok c1
      ∧ popfd { c1 with flags := 0xFFFFFFFF } = .ok c2
      ∧ c2.flags = 0x246 ∧ c2.reg32s reg_esp = 0x10000100)
    ∧ (∃ pushf popf l1 l2, V86Legacy.table32 none 0x9C = some pushf
      ∧ V86Legacy.table32 none 0x9D = some popf
      ∧ pushf (V86Legacy.stack_state 0x7FFFFFFF 0x10000100) = .ok l1
      ∧ popf { l1 with flags := 0xFFFFFFFF } = .ok l2
      ∧ l2.flags = 0x7FFFFFFF ∧ l2.reg32s reg_esp = 0x10000100) :=
  pushfd_popfd_round_trip 1 none
    (stack_state 0x246 0x10000100)
    (V86Legacy.stack_state 0x7FFFFFFF 0x10000100)
    0xFFFFFFFF 0xFC (by decide) (by decide) (by decide) (by decide) (by decide) (by decide)
    (by decide) (by decide) (by decide) (by decide) (by decide)

/-- C26: for a register id `r` in 0..7, one `cycle()` at `p` on the byte
`B8 + r` followed by the bytes `b0 b1 b2 b3` - in `granny2_runtime.js` (state
`c`, the bytes at the translated addresses) and in `win32runtime.js` (state
`rt`) - returns with the instruction pointer at `p + 5`, the 32-bit register `r`
holding the little-endian immediate, and the other registers, the flags word
and the memory as before. -/
theorem mov_r32_imm32_cycle (depth : Nat) (api : Api) (c : Cpu) (rt : Runtime) (p q : Int)
    (r : Nat) (hr : r < 8) (b0 b1 b2 b3 : Int)
    (hp : c.instruction_pointer = some p)
    (h0 : mem8_get c.mem8 (c.translate_address_read (some p)) = some (0xB8 + (r : Int)))
    (hq : c.translate_address_read (some (p + 1)) = some q)
    (g0 : mem8_get c.mem8 (some q) = some b0)
    (g1 : mem8_get c.mem8 (some (q + 1)) = some b1)
    (g2 : mem8_get c.mem8 (some (q + 2)) = some b2)
    (g3 : mem8_get c.mem8 (some (q + 3)) = some b3)
    (hip : rt.cpu.instruction_pointer = some p)
    (hcode : code_at rt.cpu.mem8 rt.cpu.base_addr p [0xB8 + (r : Int), b0, b1, b2, b3]) :
    (∃ c1, cycle (table32 depth) c = .ok c1
      ∧ c1.instruction_pointer = some (p + 5)
      ∧ c1.reg32s r = toInt32 (le32 b0 b1 b2 b3)
      ∧ (∀ k, k ≠ r → c1.reg32s k = c.reg32s k)
      ∧ c1.flags = c.flags ∧ c1.mem8 = c.mem8)
    ∧ (∃ rt1, Win32Runtime.cycle api rt = Res.ok () rt1
      ∧ rt1.cpu.instruction_pointer = some (p + 5)
      ∧ rt1.cpu.reg32s r = toInt32 (le32 b0 b1 b2 b3)
      ∧ (∀ k, k ≠ r → rt1.cpu.reg32s k = rt.cpu.reg32s k)
      ∧ rt1.cpu.flags = rt.cpu.flags ∧ rt1.cpu.mem8 = rt.cpu.mem8) :=
  ⟨cycle_mov_r32_imm32 depth c p q r hr b0 b1 b2 b3 hp h0 hq g0 g1 g2 g3,
   cycle_mov_reg_imm32 api rt p r hr b0 b1 b2 b3 hip hcode⟩

/-- C26, at an instance: `MOV EBX, 0x89ABCDEF` (BB EF CD AB 89) at 0x10000000, in
`win32runtime.js` as the first instruction of a `stdcall`. -/
theorem mov_r32_imm32_cycle_witness :
    (∃ c1, cycle (table32 1) (new_cpu (image [0xBB, 0xEF, 0xCD, 0xAB, 0x89]) 0x10000000
          0x10000000) = .ok c1
      ∧ c1.instruction_pointer = some (0x10000000 + 5)
      ∧ c1.reg32s 3 = toInt32 (le32 0xEF 0xCD 0xAB 0x89)
      ∧ (∀ k, k ≠ 3 → c1.reg32s k
          = (new_cpu (image [0xBB, 0xEF, 0xCD, 0xAB, 0x89]) 0x10000000 0x10000000).reg32s k)
      ∧ c1.flags = (new_cpu (image [0xBB, 0xEF, 0xCD, 0xAB, 0x89]) 0x10000000 0x10000000).flags
      ∧ c1.mem8 = (new_cpu (image [0xBB, 0xEF, 0xCD, 0xAB, 0x89]) 0x10000000 0x10000000).mem8)
    ∧ (∃ rt1, Win32Runtime.cycle no_api
          (stdcall_enter 0x10000000 [] (fresh [0xBB, 0xEF, 0xCD, 0xAB, 0x89] 0x10000000)).state
          = Res.ok () rt1
      ∧ rt1.cpu.instruction_pointer = some (0x10000000 + 5)
      ∧ rt1.cpu.reg32s 3 = toInt32 (le32 0xEF 0xCD 0xAB 0x89)
      ∧ (∀ k, k ≠ 3 → rt1.cpu.reg32s k
          = (stdcall_enter 0x10000000 []
              (fresh [0xBB, 0xEF, 0xCD, 0xAB, 0x89] 0x10000000)).state.cpu.reg32s k)
      ∧ rt1.cpu.flags = (stdcall_enter 0x10000000 []
          (fresh [0xBB, 0xEF, 0xCD, 0xAB, 0x89] 0x10000000)).state.cpu.flags
      ∧ rt1.cpu.mem8 = (stdcall_enter 0x10000000 []
          (fresh [0xBB, 0xEF, 0xCD, 0xAB, 0x89] 0x10000000)).state.cpu.mem8) :=
  mov_r32_imm32_cycle 1 no_api (new_cpu (image [0xBB, 0xEF, 0xCD, 0xAB, 0x89]) 0x10000000
      0x10000000)
    (stdcall_enter 0x10000000 [] (fresh [0xBB, 0xEF, 0xCD, 0xAB, 0x89] 0x10000000)).state
    0x10000000 1 3 (by decide)
    0xEF 0xCD 0xAB 0x89 (by decide) (by decide) (by decide) (by decide) (by decide) (by decide)
    (by decide) (by decide) (by decide)

/-- C27: one `cycle()` of `granny2_runtime.js` at `p` on an opcode byte `op` to
which `_init_instruction_table` assigns no handler throws `Unimplemented
opcode` with `op` and `p` in it, and on 0F followed by a byte `op2` that the
handler of 0F has no case for (not 80..8F, AF, B6, B7, BE, BF) throws
`Unimplemented 0x0F opcode` with `op2` in it; in both cases the general
registers, the flags word and every memory byte are as before the cycle. -/
theorem cycle_unregistered_opcode_throws (depth : Nat) (c : Cpu) (p op op2 : Int)
    (hp : c.instruction_pointer = some p)
    (h0 : mem8_get c.mem8 (c.translate_address_read (some p)) = some op)
    (h : registered op = false
      ∨ (op = 0x0F ∧ mem8_get c.mem8 (c.translate_address_read (some (p + 1))) = some op2
        ∧ ¬ (0x80 ≤ op2 ∧ op2 ≤ 0x8F)
        ∧ op2 ≠ 0xAF ∧ op2 ≠ 0xB6 ∧ op2 ≠ 0xB7 ∧ op2 ≠ 0xBE ∧ op2 ≠ 0xBF)) :
    ∃ c1, cycle (table32 depth) c
        = .error (if op = 0x0F then Fault.unimplemented0F op2
                  else Fault.unimplementedOpcode op (some p), c1)
      ∧ c1.reg32s = c.reg32s ∧ c1.flags = c.flags ∧ c1.mem8 = c.mem8 := by
  rcases h with h | ⟨rfl, h1, hj, h2⟩
  · have hne : op ≠ 0x0F := by
      intro e
      rw [e] at h
      exact absurd h (by decide)
    rw [if_neg hne]
    exact cycle_unregistered depth c p op hp h0 h
  · rw [if_pos rfl]
    exact cycle_unregistered_0F depth c p op2 hp h0 h1 hj h2

/-- C27, at two instances: the byte 06 (PUSH ES, no handler) and the bytes
0F 05 (SYSCALL, no case in the handler of 0F) at 0x10000000. -/
theorem cycle_unregistered_opcode_throws_witness :
    (∃ c1, cycle (table32 1) (new_cpu (image [0x06]) 0x10000000 0x10000000)
        = .error (if (0x06 : Int) = 0x0F then Fault.unimplemented0F 0
                  else Fault.unimplementedOpcode 0x06 (some 0x10000000), c1)
      ∧ c1.reg32s = (new_cpu (image [0x06]) 0x10000000 0x10000000).reg32s
      ∧ c1.flags = (new_cpu (image [0x06]) 0x10000000 0x10000000).flags
      ∧ c1.mem8 = (new_cpu (image [0x06]) 0x10000000 0x10000000).mem8)
    ∧ (∃ c1, cycle (table32 1) (new_cpu (image [0x0F, 0x05]) 0x10000000 0x10000000)
        = .error (if (0x0F : Int) = 0x0F then Fault.unimplemented0F 0x05
                  else Fault.unimplementedOpcode 0x0F (some 0x10000000), c1)
      ∧ c1.reg32s = (new_cpu (image [0x0F, 0x05]) 0x10000000 0x10000000).reg32s
      ∧ c1.flags = (new_cpu (image [0x0F, 0x05]) 0x10000000 0x10000000).flags
      ∧ c1.mem8 = (new_cpu (image [0x0F, 0x05]) 0x10000000 0x10000000).mem8) :=
  ⟨cycle_unregistered_opcode_throws 1 (new_cpu (image [0x06]) 0x10000000 0x10000000)
      0x10000000 0x06 0 (by decide) (by decide) (Or.inl (by decide)),
   cycle_unregistered_opcode_throws 1 (new_cpu (image [0x0F, 0x05]) 0x10000000 0x10000000)
      0x10000000 0x0F 0x05 (by decide) (by decide)
      (Or.inr ⟨rfl, by decide, by decide, by decide, by decide, by decide, by decide,
        by decide⟩)⟩

end Granny2Runtime

/-! ## Theorems: REP MOVSD -/

namespace Granny2Runtime

open Win32Runtime

/-- The table entry of MOVSD at every depth. -/
theorem table_movsd (depth : Nat) : table32 depth 0xA5 = some op_A5 := by
  rw [table32_eq depth 0xA5 (by decide) (by decide)]; rfl

/-- C22: one `cycle()` at `p` on the bytes F3 A5 with ECX = `n` returns with
the instruction pointer at `p + 2`, ECX = 0, ESI and EDI each moved by `4 * n`
(direction flag clear) or `-4 * n` (direction flag set) as 32-bit registers,
the other registers and the flags as before, and the memory that `n` dword
copies from [ESI] to [EDI], one after another, leave; with `n = 0` the memory
is as before. -/
theorem rep_movsd (depth : Nat) (c : Cpu) (p : Int) (n : Nat)
    (hp : c.instruction_pointer = some p)
    (h0 : mem8_get c.mem8 (c.translate_address_read (some p)) = some 0xF3)
    (h1 : mem8_get c.mem8 (c.translate_address_read (some (p + 1))) = some 0xA5)
    (hcx : -2147483648 ≤ c.reg32s reg_ecx ∧ c.reg32s reg_ecx < 2147483648)
    (hn : toUint32 (c.reg32s reg_ecx) = n)
    (hsi : -2147483648 ≤ c.reg32s reg_esi ∧ c.reg32s reg_esi < 2147483648)
    (hdi : -2147483648 ≤ c.reg32s reg_edi ∧ c.reg32s reg_edi < 2147483648) :
    ∃ c1, cycle (table32 (depth + 1)) c = .ok c1
      ∧ c1.instruction_pointer = some (p + 2)
      ∧ c1.reg32s reg_ecx = 0
      ∧ c1.reg32s reg_esi
          = toInt32 (c.reg32s reg_esi + (if flag_bit c.flags 10 then -4 else 4) * n)
      ∧ c1.reg32s reg_edi
          = toInt32 (c.reg32s reg_edi + (if flag_bit c.flags 10 then -4 else 4) * n)
      ∧ (∀ k, k ≠ reg_ecx → k ≠ reg_esi → k ≠ reg_edi → c1.reg32s k = c.reg32s k)
      ∧ c1.flags = c.flags
      ∧ c1.mem8 = copy_dwords c.translate_address_read c.translate_address_write
          (if flag_bit c.flags 10 then -4 else 4) n (c.reg32s reg_esi) (c.reg32s reg_edi) c.mem8
      ∧ (n = 0 → c1.mem8 = c.mem8) := by
  have hs : (if flag_bit c.flags 10 = true then (-4 : Int) else 4) = 4
      ∨ (if flag_bit c.flags 10 = true then (-4 : Int) else 4) = -4 := by
    cases flag_bit c.flags 10
    · exact Or.inl rfl
    · exact Or.inr rfl
  have hcnt : (toUint32 (c.reg32s reg_ecx)).toNat = n := by rw [hn]; rfl
  have e2 : p + 1 + 1 = p + 2 := by omega
  obtain ⟨c1, e1, m1, si1, di1, cx1, o1, f1, ip1⟩ :=
    rep_loop_movsd (if flag_bit c.flags 10 = true then (-4 : Int) else 4) hs n
      { c with previous_ip := some p, last_instr_jump := false,
               timestamp_counter := c.timestamp_counter + 1,
               repeat_string_prefix := REPEAT_STRING_PREFIX_Z,
               instruction_pointer := some (p + 2) }
      (by rw [string_step_eq]) hsi hdi
  refine ⟨{ c1 with repeat_string_prefix := REPEAT_STRING_PREFIX_NONE }, ?_, ?_, ?_, si1, di1,
    o1, f1, m1, ?_⟩
  · have t3 : table32 (depth + 1) 0xF3 = some (op_F3 (table32 depth)) := rfl
    simp only [cycle, Cpu.read_imm8, Memory.read8, hp, h0, jsAdd, t3, op_F3, h1, table_movsd,
      e2, hcnt]
    rw [if_pos (Or.inr (Or.inl trivial)), e1]
  · exact ip1
  · show c1.reg32s reg_ecx = 0
    rw [cx1]
    by_cases h : n = 0
    · simp only [h, if_true]
      have : toUint32 (c.reg32s reg_ecx) = 0 := by rw [hn, h]; rfl
      unfold toUint32 at this
      show c.reg32s reg_ecx = 0
      omega
    · simp only [h, if_false]
  · intro h
    show c1.mem8 = c.mem8
    rw [m1, h]
    rfl

end Granny2Runtime

/-! ## Theorems: the string prefixes and the division group of `granny2_runtime.js` -/

namespace Granny2Runtime

open Win32Runtime

/-- C22, at an instance: REP MOVSD at 0x10000000 with ECX = 2, ESI =
0x10000010, EDI = 0x10000020 and the direction flag clear. -/
theorem rep_movsd_witness :
    ∃ c1, cycle (table32 1)
        (string_state ([0xF3, 0xA5] ++ List.replicate 14 0 ++ [1, 2, 3, 4, 5, 6, 7, 8])
          2 0x10000010 0x10000020 0) = .ok c1
      ∧ c1.instruction_pointer = some (0x10000000 + 2)
      ∧ c1.reg32s reg_ecx = 0
      ∧ c1.reg32s reg_esi = toInt32 (0x10000010 + 4 * ((2 : Nat) : Int))
      ∧ c1.reg32s reg_edi = toInt32 (0x10000020 + 4 * ((2 : Nat) : Int))
      ∧ Memory.read32s c1.mem8 (some 0x20) = 0x04030201
      ∧ Memory.read32s c1.mem8 (some 0x24) = 0x08070605 := by
  obtain ⟨c1, h1, h2, h3, h4, h5, _, _, h8, _⟩ :=
    rep_movsd 0
      (string_state ([0xF3, 0xA5] ++ List.replicate 14 0 ++ [1, 2, 3, 4, 5, 6, 7, 8])
        2 0x10000010 0x10000020 0)
      0x10000000 2 (by decide) (by decide) (by decide) (by decide) (by decide) (by decide)
      (by decide)
  refine ⟨c1, h1, h2, h3, h4, h5, ?_, ?_⟩
  · rw [h8]; decide
  · rw [h8]; decide

/-- C23 (code as it is): the loop of REPE on CMPSB tests the flags word, which
CMPSB never writes. With the flags word 0 and three equal byte pairs, one
iteration runs (ECX = 2, ESI and EDI moved by 1); with ZF set beforehand and
the byte pairs different from the first on, all three iterations run (ECX = 0,
ESI and EDI moved by 3). The flags word is the one before the instruction. -/
theorem repe_cmpsb_tests_stale_flags :
    ((cycle (table32 1)
        (string_state ([0xF3, 0xA6] ++ List.replicate 14 0 ++ [1, 2, 3, 4]
            ++ List.replicate 12 0 ++ [1, 2, 3, 4]) 3 0x10000010 0x10000020 0)).toOption.map
        (fun c => (c.reg32s reg_ecx, c.reg32s reg_esi, c.reg32s reg_edi, c.flags)))
      = some (2, 0x10000011, 0x10000021, 0)
    ∧ ((cycle (table32 1)
        (string_state ([0xF3, 0xA6] ++ List.replicate 14 0 ++ [9, 8, 7, 6]
            ++ List.replicate 12 0 ++ [1, 2, 3, 4]) 3 0x10000010 0x10000020 0x40)).toOption.map
        (fun c => (c.reg32s reg_ecx, c.reg32s reg_esi, c.reg32s reg_edi, c.flags)))
      = some (0, 0x10000013, 0x10000023, 0x40) := by
  decide

/-- C24 (code as it is): the register forms of the group F6 read their operand
through `reg8[modrm & 7]`, the byte `modrm & 7` of the register buffer. DIV CL
(F6 F1) and IDIV CL (F6 F9) with CL = 0 and EAX = 0x0205 do not throw: they
divide by the byte 1 of EAX (2) and leave EAX = 0x0202, ECX = 1. DIV ECX
(F7 F1), IDIV ECX (F7 F9) with ECX = 0 and DIV AL (F6 F0) with AL = 0 throw
`Division by zero` with EAX, EDX and the flags as before. -/
theorem div_r8_reads_wrong_register :
    ((cycle (table32 1)
        { new_cpu (image [0xF6, 0xF1]) 0x10000000 0x10000000 with
          reg32s := fun r => if r = reg_eax then 0x0205 else 0 }).toOption.map
        (fun c => (c.reg32s reg_eax, c.reg32s reg_ecx, c.reg32s reg_edx)))
      = some (0x0202, 1, 0)
    ∧ ((cycle (table32 1)
        { new_cpu (image [0xF6, 0xF9]) 0x10000000 0x10000000 with
          reg32s := fun r => if r = reg_eax then 0x0205 else 0 }).toOption.map
        (fun c => (c.reg32s reg_eax, c.reg32s reg_ecx, c.reg32s reg_edx)))
      = some (0x0202, 1, 0)
    ∧ (match cycle (table32 1)
        { new_cpu (image [0xF7, 0xF1]) 0x10000000 0x10000000 with
          flags := 0x246
          reg32s := fun r => if r = reg_eax then 0x0205 else if r = reg_edx then 7 else 0 } with
      | .error (e, c) => some (e, c.reg32s reg_eax, c.reg32s reg_edx, c.flags)
      | .ok _ => none) = some (Fault.divisionByZero, 0x0205, 7, 0x246)
    ∧ (match cycle (table32 1)
        { new_cpu (image [0xF7, 0xF9]) 0x10000000 0x10000000 with
          flags := 0x246
          reg32s := fun r => if r = reg_eax then 0x0205 else if r = reg_edx then 7 else 0 } with
      | .error (e, c) => some (e, c.reg32s reg_eax, c.reg32s reg_edx, c.flags)
      | .ok _ => none) = some (Fault.divisionByZero, 0x0205, 7, 0x246)
    ∧ (match cycle (table32 1)
        { new_cpu (image [0xF6, 0xF0]) 0x10000000 0x10000000 with
          flags := 0x246
          reg32s := fun r => if r = reg_eax then 0x0200 else if r = reg_edx then 7 else 0 } with
      | .error (e, c) => some (e, c.reg32s reg_eax, c.reg32s reg_edx, c.flags)
      | .ok _ => none) = some (Fault.divisionByZero, 0x0200, 7, 0x246) := by
  decide

end Granny2Runtime

/-! ## Theorems: conditional jumps and string prefixes of `v86_legacy_compat.js` -/

namespace V86Legacy

open Win32Runtime

/-- C29 (code as it is): the Jcc handlers of the legacy CPU read the
displacement and stop. With ZF set, JE +0x10 (74 10) at 0x10000000 leaves the
instruction pointer at 0x10000002, and JE rel32 +0x10 (0F 84 10 00 00 00)
leaves it at 0x10000006; with the flags word 0, JNE (75 10 and 0F 85 ..) does
the same. -/
theorem legacy_jcc_never_jumps :
    ((cycle (table32 none)
        { new_cpu [0x74, 0x10] 0x10000000 with flags := 0x40 }).toOption.map
        (fun c => c.instruction_pointer)) = some (some 0x10000002)
    ∧ ((cycle (table32 none)
        { new_cpu [0x0F, 0x84, 0x10, 0, 0, 0] 0x10000000 with flags := 0x40 }).toOption.map
        (fun c => c.instruction_pointer)) = some (some 0x10000006)
    ∧ ((cycle (table32 none) (new_cpu [0x75, 0x10] 0x10000000)).toOption.map
        (fun c => c.instruction_pointer)) = some (some 0x10000002)
    ∧ ((cycle (table32 none) (new_cpu [0x0F, 0x85, 0x10, 0, 0, 0] 0x10000000)).toOption.map
        (fun c => c.instruction_pointer)) = some (some 0x10000006) := by
  decide

/-- C30 (code as it is): `cycle` stores the prefix in `repeat_string_prefix`
and runs the next opcode once; no handler reads the field. REP STOSD (F3 AB)
with ECX = 3, EDI = 0x10000100, EAX = 0x11223344 and the direction flag clear
writes one dword, moves EDI by 4 and leaves ECX = 3; REP MOVSD (F3 A5) with
ECX = 3, ESI = 0x10000010, EDI = 0x10000100 copies one dword, moves ESI and
EDI by 4 and leaves ECX = 3. Both leave the instruction pointer at `p + 2`. -/
theorem legacy_rep_runs_once :
    ((cycle (table32 none)
        { new_cpu [0xF3, 0xAB] 0x10000000 with
          reg32s := fun r => if r = reg_ecx then 3 else if r = reg_edi then 0x10000100
                             else if r = reg_eax then 0x11223344 else 0 }).toOption.map
        (fun c => (c.reg32s reg_ecx, c.reg32s reg_edi, c.instruction_pointer)))
      = some (3, 0x10000104, some 0x10000002)
    ∧ ((cycle (table32 none)
        { new_cpu [0xF3, 0xAB] 0x10000000 with
          reg32s := fun r => if r = reg_ecx then 3 else if r = reg_edi then 0x10000100
                             else if r = reg_eax then 0x11223344 else 0 }).toOption.map
        (fun c => (Memory.read32s c.mem8 (some 0x10000100),
                   Memory.read32s c.mem8 (some 0x10000104),
                   Memory.read32s c.mem8 (some 0x10000108))))
      = some (0x11223344, 0, 0)
    ∧ ((cycle (table32 none)
        { new_cpu ([0xF3, 0xA5] ++ List.replicate 14 0 ++ [1, 2, 3, 4, 5, 6, 7, 8, 9, 10, 11, 12])
            0x10000000 with
          reg32s := fun r => if r = reg_ecx then 3 else if r = reg_esi then 0x10000010
                             else if r = reg_edi then 0x10000100 else 0 }).toOption.map
        (fun c => (c.reg32s reg_ecx, c.reg32s reg_esi, c.reg32s reg_edi, c.instruction_pointer)))
      = some (3, 0x10000014, 0x10000104, some 0x10000002)
    ∧ ((cycle (table32 none)
        { new_cpu ([0xF3, 0xA5] ++ List.replicate 14 0 ++ [1, 2, 3, 4, 5, 6, 7, 8, 9, 10, 11, 12])
            0x10000000 with
          reg32s := fun r => if r = reg_ecx then 3 else if r = reg_esi then 0x10000010
                             else if r = reg_edi then 0x10000100 else 0 }).toOption.map
        (fun c => (Memory.read32s c.mem8 (some 0x10000100),
                   Memory.read32s c.mem8 (some 0x10000104),
                   Memory.read32s c.mem8 (some 0x10000108))))
      = some (0x04030201, 0, 0) := by
  decide

end V86Legacy

/-! ## Theorems: a call of an import without a handler -/

namespace Win32Runtime

/-- C28 (amended): let the loop of `stdcall` have reached, after
`j < max_cycles` cycles, a state whose instruction pointer `p` stands on a CALL
- either `E8 rel32` or `FF /2` with the operand as `read_rm32` decodes it - and
let the CALL's target be a key of `imports` whose name is not `in WIN32API`:
neither a method of `WIN32API` itself nor a name that the object inherits from
`Object.prototype`. Then this cycle throws `Called unimplemented imported
function: <name>` in a state with `halt_instructions` set, and `stdcall` ends
with the same error in the same state: it returns no value. -/
theorem stdcall_unimplemented_import (api : Api) (address : Int) (args : List Int)
    (rt0 rt1 rt : Runtime) (j : Nat) (p target : Int) (name : String)
    (henter : stdcall_enter address args rt0 = Res.ok () rt1)
    (hrun : cycles_n api j rt1 = some rt) (hj : j < max_cycles)
    (hd : rt.function_call_done = false) (hh : rt.halt_instructions = false)
    (hip : rt.cpu.instruction_pointer = some p)
    (hi : rt.imports target = some name) (ha : win32api_has api name = false)
    (hcall :
      (∃ d0 d1 d2 d3, code_at rt.cpu.mem8 rt.cpu.base_addr p [0xE8, d0, d1, d2, d3]
        ∧ toInt32 (p + 1 + 4 + toInt32 (le32 d0 d1 d2 d3)) = target)
      ∨ (∃ modrm data addr c2, code_at rt.cpu.mem8 rt.cpu.base_addr p [0xFF, modrm]
        ∧ modrm / 8 % 8 = 2
        ∧ Cpu.read_rm32 { rt.cpu with
              previous_ip := some p, last_instr_jump := false,
              timestamp_counter := rt.cpu.timestamp_counter + 1,
              instruction_pointer := some (p + 1 + 1) } modrm = (data, addr, c2)
        ∧ toInt32 data = target)) :
    ∃ rt2,
      cycle api rt
        = Res.throw (Fault.message ("Called unimplemented imported function: " ++ name)) rt2
      ∧ rt2.halt_instructions = true
      ∧ rt2.cpu.instruction_pointer = some target
      ∧ stdcall api address args rt0
        = Res.throw (Fault.message ("Called unimplemented imported function: " ++ name)) rt2
      ∧ (stdcall api address args rt0).value = none := by
  have key : ∃ rt2,
      cycle api rt
        = Res.throw (Fault.message ("Called unimplemented imported function: " ++ name)) rt2
      ∧ rt2.halt_instructions = true ∧ rt2.cpu.instruction_pointer = some target := by
    rcases hcall with ⟨d0, d1, d2, d3, hcode, ht⟩ | ⟨modrm, data, addr, c2, hcode, hop, hrm, ht⟩
    · obtain ⟨h0, hrest⟩ := hcode
      have hr := read32s_code rt.cpu.mem8 rt.cpu.base_addr (p + 1) d0 d1 d2 d3 hrest
      rw [cycle_fetch api rt p 0xE8 hip h0]
      refine ⟨_, call_rel32_unimplemented_import api _ target name ?_ hi ha, rfl, ?_⟩
      · simp [Cpu.op_call_rel32, Cpu.read_imm32s, Cpu.translate_address_read, jsSub, hr,
          Cpu.push32, Cpu.get_real_eip, Cpu.safe_write32, Cpu.translate_address_write,
          Cpu.setReg, JsNum.toInt32, jsAdd, Cpu.jump_rel, ht]
      · simp [Cpu.op_call_rel32, Cpu.read_imm32s, Cpu.translate_address_read, jsSub, hr,
          Cpu.push32, Cpu.get_real_eip, Cpu.safe_write32, Cpu.translate_address_write,
          Cpu.setReg, JsNum.toInt32, jsAdd, Cpu.jump_rel, ht]
    · obtain ⟨h0, h1, _⟩ := hcode
      rw [cycle_fetch api rt p 0xFF hip h0]
      have hm : Cpu.read_imm8 { rt.cpu with
            previous_ip := some p, last_instr_jump := false,
            timestamp_counter := rt.cpu.timestamp_counter + 1,
            instruction_pointer := some (p + 1) }
          = (some modrm, { rt.cpu with
              previous_ip := some p, last_instr_jump := false,
              timestamp_counter := rt.cpu.timestamp_counter + 1,
              instruction_pointer := some (p + 1 + 1) }) := by
        simp only [Cpu.read_imm8, Memory.read8, Cpu.translate_address_read, jsSub, h1, jsAdd]
      have ht2 : ((c2.push32 c2.get_real_eip).jump_abs data).instruction_pointer
          = some target := by
        simp only [Cpu.jump_abs, Cpu.get_seg, Int.zero_add, ht]
      refine ⟨_, call_indirect_unimplemented_import api _ target data name (some modrm) addr _
        c2 hm hop hrm ht2 hi ha, rfl, ht2⟩
  obtain ⟨rt2, hc, hh2, hip2⟩ := key
  have hs := stdcall_throws_of_cycle api address args rt0 rt1 rt rt2 j _ henter hrun hj hd hh hc
  exact ⟨rt2, hc, hh2, hip2, hs, by rw [hs]; rfl⟩

end Win32Runtime
namespace Win32Runtime

/-- C28 (amended), at two instances: `CALL 0x10001000` (E8 FB 0F 00 00) and
`CALL EAX` (FF D0) with EAX = 0x10001000, as the first instruction of a
`stdcall` at 0x10000000, `imports[0x10001000]` naming `GetTickCount`, which is
not `in` a `WIN32API` without methods of its own. -/
theorem stdcall_unimplemented_import_witness :
    (∃ rt2,
      cycle no_api (stdcall_enter 0x10000000 []
          (import_call_state [0xE8, 0xFB, 0x0F, 0x00, 0x00])).state
        = Res.throw (Fault.message ("Called unimplemented imported function: " ++ "GetTickCount"))
            rt2
      ∧ rt2.halt_instructions = true
      ∧ rt2.cpu.instruction_pointer = some 0x10001000
      ∧ stdcall no_api 0x10000000 [] (import_call_state [0xE8, 0xFB, 0x0F, 0x00, 0x00])
        = Res.throw (Fault.message ("Called unimplemented imported function: " ++ "GetTickCount"))
            rt2
      ∧ (stdcall no_api 0x10000000 []
          (import_call_state [0xE8, 0xFB, 0x0F, 0x00, 0x00])).value = none)
    ∧ (∃ rt2,
      cycle no_api (stdcall_enter 0x10000000 [] (import_call_state [0xFF, 0xD0])).state
        = Res.throw (Fault.message ("Called unimplemented imported function: " ++ "GetTickCount"))
            rt2
      ∧ rt2.halt_instructions = true
      ∧ rt2.cpu.instruction_pointer = some 0x10001000
      ∧ stdcall no_api 0x10000000 [] (import_call_state [0xFF, 0xD0])
        = Res.throw (Fault.message ("Called unimplemented imported function: " ++ "GetTickCount"))
            rt2
      ∧ (stdcall no_api 0x10000000 [] (import_call_state [0xFF, 0xD0])).value = none) :=
  ⟨stdcall_unimplemented_import no_api 0x10000000 []
      (import_call_state [0xE8, 0xFB, 0x0F, 0x00, 0x00])
      (stdcall_enter 0x10000000 [] (import_call_state [0xE8, 0xFB, 0x0F, 0x00, 0x00])).state
      (stdcall_enter 0x10000000 [] (import_call_state [0xE8, 0xFB, 0x0F, 0x00, 0x00])).state
      0 0x10000000 0x10001000 "GetTickCount" rfl rfl (by decide) rfl rfl rfl rfl (by decide)
      (Or.inl ⟨0xFB, 0x0F, 0x00, 0x00, by decide, by decide⟩),
   stdcall_unimplemented_import no_api 0x10000000 [] (import_call_state [0xFF, 0xD0])
      (stdcall_enter 0x10000000 [] (import_call_state [0xFF, 0xD0])).state
      (stdcall_enter 0x10000000 [] (import_call_state [0xFF, 0xD0])).state
      0 0x10000000 0x10001000 "GetTickCount" rfl rfl (by decide) rfl rfl rfl rfl (by decide)
      (Or.inr ⟨0xD0, 0x10001000, none, _, by decide, by decide, rfl, by decide⟩)⟩

/-- C28 (code as it is): `method_name in WIN32API` is also true for the names
that the object literal inherits from `Object.prototype`. Let `WIN32API` have
no method `hasOwnProperty` of its own and `imports[0x10001000]` name
`hasOwnProperty`. The cycle on `CALL 0x10001000` (E8 FB 0F 00 00) at
0x10000000, the first of a `stdcall`, calls `Object.prototype.hasOwnProperty`
and returns: nothing is thrown, `halt_instructions` stays false and the
instruction pointer is the target. `stdcall` goes on and ends in its second
cycle with the error of the opcode 00 found at the target, which is not
`Called unimplemented imported function: hasOwnProperty`, and with
`halt_instructions` still false. The same holds for `CALL EAX` (FF D0) with
EAX = 0x10001000. With the name `__proto__` the cycle throws the TypeError of
calling an object, again with `halt_instructions` false. -/
theorem inherited_name_import_not_reported :
    (no_api "hasOwnProperty").isSome = false
    ∧ win32api_has no_api "hasOwnProperty" = true
    ∧ (cycle no_api (stdcall_enter 0x10000000 []
        (named_import_state "hasOwnProperty" [0xE8, 0xFB, 0x0F, 0x00, 0x00])).state).fault = none
    ∧ (cycle no_api (stdcall_enter 0x10000000 []
        (named_import_state "hasOwnProperty"
          [0xE8, 0xFB, 0x0F, 0x00, 0x00])).state).state.halt_instructions = false
    ∧ (cycle no_api (stdcall_enter 0x10000000 []
        (named_import_state "hasOwnProperty"
          [0xE8, 0xFB, 0x0F, 0x00, 0x00])).state).state.cpu.instruction_pointer
        = some 0x10001000
    ∧ (stdcall no_api 0x10000000 []
        (named_import_state "hasOwnProperty" [0xE8, 0xFB, 0x0F, 0x00, 0x00])).fault
        = some Fault.unimplementedInstruction
    ∧ (stdcall no_api 0x10000000 []
        (named_import_state "hasOwnProperty"
          [0xE8, 0xFB, 0x0F, 0x00, 0x00])).state.halt_instructions = false
    ∧ (stdcall no_api 0x10000000 []
        (named_import_state "hasOwnProperty"
          [0xE8, 0xFB, 0x0F, 0x00, 0x00])).state.cpu.timestamp_counter = 2
    ∧ (cycle no_api (stdcall_enter 0x10000000 []
        (named_import_state "hasOwnProperty" [0xFF, 0xD0])).state).fault = none
    ∧ (cycle no_api (stdcall_enter 0x10000000 []
        (named_import_state "hasOwnProperty" [0xFF, 0xD0])).state).state.halt_instructions
        = false
    ∧ (stdcall no_api 0x10000000 []
        (named_import_state "hasOwnProperty" [0xFF, 0xD0])).fault
        = some Fault.unimplementedInstruction
    ∧ (no_api "__proto__").isSome = false
    ∧ (cycle no_api (stdcall_enter 0x10000000 []
        (named_import_state "__proto__" [0xE8, 0xFB, 0x0F, 0x00, 0x00])).state).fault
        = some Fault.notAFunction
    ∧ (cycle no_api (stdcall_enter 0x10000000 []
        (named_import_state "__proto__"
          [0xE8, 0xFB, 0x0F, 0x00, 0x00])).state).state.halt_instructions = false := by
  decide!

end Win32Runtime

/-! ## Lemmas: ModR/M resolution in `win32runtime.js` -/

namespace Win32Runtime

/-- A byte read from the memory is below 256. -/
theorem mem8_get_range (m : Mem8) (a : JsNum) (b : Int) (h : mem8_get m a = some b) :
    0 ≤ b ∧ b < 256 := by
  cases a with
  | none => simp [mem8_get] at h
  | some i =>
    unfold mem8_get at h
    by_cases hi : inMem i
    · simp only [hi, if_true, Option.some.injEq] at h
      omega
    · simp [hi] at h

/-- The fetch of one byte at the instruction pointer. -/
theorem read_imm8_at (c : Cpu) (x b : Int) (hip : c.instruction_pointer = some x)
    (h : mem8_get c.mem8 (some (x - c.base_addr)) = some b) :
    c.read_imm8 = (some b, { c with instruction_pointer := some (x + 1) }) := by
  simp only [Cpu.read_imm8, Memory.read8, Cpu.translate_address_read, hip, jsSub, h, jsAdd]

/-- The fetch of one signed byte at the instruction pointer. -/
theorem read_imm8s_at (c : Cpu) (x b : Int) (hip : c.instruction_pointer = some x)
    (h : mem8_get c.mem8 (some (x - c.base_addr)) = some b) :
    c.read_imm8s
      = (some ((b + 128) % 256 - 128), { c with instruction_pointer := some (x + 1) }) := by
  have hb := mem8_get_range _ _ _ h
  have e : (if b < 128 then b else b - 256) = (b + 128) % 256 - 128 := by
    split <;> omega
  simp only [Cpu.read_imm8s, read_imm8_at c x b hip h, e]

/-- The fetch of a signed dword at the instruction pointer. -/
theorem read_imm32s_at (c : Cpu) (x b0 b1 b2 b3 : Int) (hip : c.instruction_pointer = some x)
    (h0 : mem8_get c.mem8 (some (x - c.base_addr)) = some b0)
    (h1 : mem8_get c.mem8 (some (x - c.base_addr + 1)) = some b1)
    (h2 : mem8_get c.mem8 (some (x - c.base_addr + 2)) = some b2)
    (h3 : mem8_get c.mem8 (some (x - c.base_addr + 3)) = some b3) :
    c.read_imm32s
      = (toInt32 (le32 b0 b1 b2 b3), { c with instruction_pointer := some (x + 4) }) := by
  simp only [Cpu.read_imm32s, Memory.read32s, Cpu.translate_address_read, hip, jsSub, jsAdd, h0,
    h1, h2, h3, byteOr0, le32]

/-- The result of `modrm_resolve` as a plain sum over the signed register
values. -/
theorem modrm_resolve_signed (c : Cpu) (modrm p : Int) (tail : Nat → Int)
    (h32 : c.address_size_32 = true) (hm : 0 ≤ modrm ∧ modrm < 0xC0)
    (hp : c.instruction_pointer = some p)
    (hb : ∀ i : Nat, i < x86_modrm_length modrm tail →
      mem8_get c.mem8 (some (p + i - c.base_addr)) = some (tail i)) :
    c.modrm_resolve modrm
      = (some (x86_effective_address c.reg32s modrm tail),
         { c with instruction_pointer := some (p + (x86_modrm_length modrm tail : Nat)) }) := by
  have B : ∀ (i : Nat) (a : Int), i < x86_modrm_length modrm tail →
      a = p + i - c.base_addr → mem8_get c.mem8 (some a) = some (tail i) :=
    fun i a hi ha => ha ▸ hb i hi
  have hmod : modrm / 64 = 0 ∨ modrm / 64 = 1 ∨ modrm / 64 = 2 := by omega
  have n3 : ¬ (modrm / 64 = 3) := by omega
  by_cases h4 : modrm % 8 = 4
  · -- a SIB byte follows
    have hlen1 : 0 < x86_modrm_length modrm tail := by
      simp only [x86_modrm_length, h4, if_true]; omega
    have g0 : mem8_get c.mem8 (some (p - c.base_addr)) = some (tail 0) :=
      B 0 _ hlen1 (by simp)
    by_cases h5 : tail 0 % 8 = 5
    · rcases hmod with h | h | h
      · have hlen : x86_modrm_length modrm tail = 5 := by
          simp [x86_modrm_length, x86_disp_size, x86_base_id, h4, h, h5]
        have g1 : mem8_get c.mem8 (some (p + 1 - c.base_addr)) = some (tail 1) :=
          B 1 _ (by omega) (by simp)
        have g2 : mem8_get c.mem8 (some (p + 1 - c.base_addr + 1)) = some (tail 2) :=
          B 2 _ (by omega) (by simp; omega)
        have g3 : mem8_get c.mem8 (some (p + 1 - c.base_addr + 2)) = some (tail 3) :=
          B 3 _ (by omega) (by simp; omega)
        have g4 : mem8_get c.mem8 (some (p + 1 - c.base_addr + 3)) = some (tail 4) :=
          B 4 _ (by omega) (by simp; omega)
        have e1 : p + 1 + 4 = p + 5 := by omega
        by_cases hi : tail 0 / 8 % 8 = 4 <;>
        simp [Cpu.modrm_resolve, Cpu._sib_resolve, Cpu.read_imm8, Cpu.read_imm8s,
          Cpu.read_imm32s, Memory.read8, Memory.read32s, Cpu.translate_address_read, hp, jsSub,
          jsAdd, byteOr0, h, h4, h32, hlen, x86_effective_address, x86_disp_size, x86_base_id,
          x86_disp, le32,
          g0, g1, g2, g3, g4, h5, e1, hi]
        exact Int.add_comm _ _
      · have hlen : x86_modrm_length modrm tail = 2 := by
          simp [x86_modrm_length, x86_disp_size, x86_base_id, h4, h, h5]
        have g1 : mem8_get c.mem8 (some (p + 1 - c.base_addr)) = some (tail 1) :=
          B 1 _ (by omega) (by simp)
        have e1 : p + 1 + 1 = p + 2 := by omega
        have hr := mem8_get_range _ _ _ g1
        have e8 : (if tail 1 < 128 then tail 1 else tail 1 - 256)
            = (tail 1 + 128) % 256 - 128 := by split <;> omega
        by_cases hi : tail 0 / 8 % 8 = 4 <;>
        simp [Cpu.modrm_resolve, Cpu._sib_resolve, Cpu.read_imm8, Cpu.read_imm8s,
          Cpu.read_imm32s, Memory.read8, Memory.read32s, Cpu.translate_address_read, hp, jsSub,
          jsAdd, byteOr0, h, h4, h32, hlen, x86_effective_address, x86_disp_size, x86_base_id,
          x86_disp, le32,
          g0, g1, h5, e1, e8, hi]
      · have hlen : x86_modrm_length modrm tail = 5 := by
          simp [x86_modrm_length, x86_disp_size, x86_base_id, h4, h, h5]
        have g1 : mem8_get c.mem8 (some (p + 1 - c.base_addr)) = some (tail 1) :=
          B 1 _ (by omega) (by simp)
        have g2 : mem8_get c.mem8 (some (p + 1 - c.base_addr + 1)) = some (tail 2) :=
          B 2 _ (by omega) (by simp; omega)
        have g3 : mem8_get c.mem8 (some (p + 1 - c.base_addr + 2)) = some (tail 3) :=
          B 3 _ (by omega) (by simp; omega)
        have g4 : mem8_get c.mem8 (some (p + 1 - c.base_addr + 3)) = some (tail 4) :=
          B 4 _ (by omega) (by simp; omega)
        have e1 : p + 1 + 4 = p + 5 := by omega
        by_cases hi : tail 0 / 8 % 8 = 4 <;>
        simp [Cpu.modrm_resolve, Cpu._sib_resolve, Cpu.read_imm8, Cpu.read_imm8s,
          Cpu.read_imm32s, Memory.read8, Memory.read32s, Cpu.translate_address_read, hp, jsSub,
          jsAdd, byteOr0, h, h4, h32, hlen, x86_effective_address, x86_disp_size, x86_base_id,
          x86_disp, le32,
          g0, g1, g2, g3, g4, h5, e1, hi]
    · rcases hmod with h | h | h
      · have hlen : x86_modrm_length modrm tail = 1 := by
          simp [x86_modrm_length, x86_disp_size, x86_base_id, h4, h, h5]
        by_cases hi : tail 0 / 8 % 8 = 4 <;>
        simp [Cpu.modrm_resolve, Cpu._sib_resolve, Cpu.read_imm8, Cpu.read_imm8s,
          Cpu.read_imm32s, Memory.read8, Memory.read32s, Cpu.translate_address_read, hp, jsSub,
          jsAdd, byteOr0, h, h4, h32, hlen, x86_effective_address, x86_disp_size, x86_base_id,
          x86_disp, le32,
          g0, h5, hi]
      · have hlen : x86_modrm_length modrm tail = 2 := by
          simp [x86_modrm_length, x86_disp_size, x86_base_id, h4, h, h5]
        have g1 : mem8_get c.mem8 (some (p + 1 - c.base_addr)) = some (tail 1) :=
          B 1 _ (by omega) (by simp)
        have e1 : p + 1 + 1 = p + 2 := by omega
        have hr := mem8_get_range _ _ _ g1
        have e8 : (if tail 1 < 128 then tail 1 else tail 1 - 256)
            = (tail 1 + 128) % 256 - 128 := by split <;> omega
        by_cases hi : tail 0 / 8 % 8 = 4 <;>
        simp [Cpu.modrm_resolve, Cpu._sib_resolve, Cpu.read_imm8, Cpu.read_imm8s,
          Cpu.read_imm32s, Memory.read8, Memory.read32s, Cpu.translate_address_read, hp, jsSub,
          jsAdd, byteOr0, h, h4, h32, hlen, x86_effective_address, x86_disp_size, x86_base_id,
          x86_disp, le32,
          g0, g1, h5, e1, e8, hi]
      · have hlen : x86_modrm_length modrm tail = 5 := by
          simp [x86_modrm_length, x86_disp_size, x86_base_id, h4, h, h5]
        have g1 : mem8_get c.mem8 (some (p + 1 - c.base_addr)) = some (tail 1) :=
          B 1 _ (by omega) (by simp)
        have g2 : mem8_get c.mem8 (some (p + 1 - c.base_addr + 1)) = some (tail 2) :=
          B 2 _ (by omega) (by simp; omega)
        have g3 : mem8_get c.mem8 (some (p + 1 - c.base_addr + 2)) = some (tail 3) :=
          B 3 _ (by omega) (by simp; omega)
        have g4 : mem8_get c.mem8 (some (p + 1 - c.base_addr + 3)) = some (tail 4) :=
          B 4 _ (by omega) (by simp; omega)
        have e1 : p + 1 + 4 = p + 5 := by omega
        by_cases hi : tail 0 / 8 % 8 = 4 <;>
        simp [Cpu.modrm_resolve, Cpu._sib_resolve, Cpu.read_imm8, Cpu.read_imm8s,
          Cpu.read_imm32s, Memory.read8, Memory.read32s, Cpu.translate_address_read, hp, jsSub,
          jsAdd, byteOr0, h, h4, h32, hlen, x86_effective_address, x86_disp_size, x86_base_id,
          x86_disp, le32,
          g0, g1, g2, g3, g4, h5, e1, hi]
  · by_cases h5 : modrm % 8 = 5
    · rcases hmod with h | h | h
      · have hlen : x86_modrm_length modrm tail = 4 := by
          simp [x86_modrm_length, x86_disp_size, x86_base_id, h4, h, h5]
        have g0 : mem8_get c.mem8 (some (p - c.base_addr)) = some (tail 0) :=
          B 0 _ (by omega) (by simp)
        have g1 : mem8_get c.mem8 (some (p - c.base_addr + 1)) = some (tail 1) :=
          B 1 _ (by omega) (by simp; omega)
        have g2 : mem8_get c.mem8 (some (p - c.base_addr + 2)) = some (tail 2) :=
          B 2 _ (by omega) (by simp; omega)
        have g3 : mem8_get c.mem8 (some (p - c.base_addr + 3)) = some (tail 3) :=
          B 3 _ (by omega) (by simp; omega)
        simp [Cpu.modrm_resolve, Cpu._sib_resolve, Cpu.read_imm8, Cpu.read_imm8s,
          Cpu.read_imm32s, Memory.read8, Memory.read32s, Cpu.translate_address_read, hp, jsSub,
          jsAdd, byteOr0, h, h4, h32, hlen, x86_effective_address, x86_disp_size, x86_base_id,
          x86_disp, le32,
          g0, g1, g2, g3, h5]
      · have hlen : x86_modrm_length modrm tail = 1 := by
          simp [x86_modrm_length, x86_disp_size, x86_base_id, h4, h, h5]
        have g0 : mem8_get c.mem8 (some (p - c.base_addr)) = some (tail 0) :=
          B 0 _ (by omega) (by simp)
        have hr := mem8_get_range _ _ _ g0
        have e8 : (if tail 0 < 128 then tail 0 else tail 0 - 256)
            = (tail 0 + 128) % 256 - 128 := by split <;> omega
        simp [Cpu.modrm_resolve, Cpu._sib_resolve, Cpu.read_imm8, Cpu.read_imm8s,
          Cpu.read_imm32s, Memory.read8, Memory.read32s, Cpu.translate_address_read, hp, jsSub,
          jsAdd, byteOr0, h, h4, h32, hlen, x86_effective_address, x86_disp_size, x86_base_id,
          x86_disp, le32,
          g0, h5, e8]
      · have hlen : x86_modrm_length modrm tail = 4 := by
          simp [x86_modrm_length, x86_disp_size, x86_base_id, h4, h, h5]
        have g0 : mem8_get c.mem8 (some (p - c.base_addr)) = some (tail 0) :=
          B 0 _ (by omega) (by simp)
        have g1 : mem8_get c.mem8 (some (p - c.base_addr + 1)) = some (tail 1) :=
          B 1 _ (by omega) (by simp; omega)
        have g2 : mem8_get c.mem8 (some (p - c.base_addr + 2)) = some (tail 2) :=
          B 2 _ (by omega) (by simp; omega)
        have g3 : mem8_get c.mem8 (some (p - c.base_addr + 3)) = some (tail 3) :=
          B 3 _ (by omega) (by simp; omega)
        simp [Cpu.modrm_resolve, Cpu._sib_resolve, Cpu.read_imm8, Cpu.read_imm8s,
          Cpu.read_imm32s, Memory.read8, Memory.read32s, Cpu.translate_address_read, hp, jsSub,
          jsAdd, byteOr0, h, h4, h32, hlen, x86_effective_address, x86_disp_size, x86_base_id,
          x86_disp, le32,
          g0, g1, g2, g3, h5]
    · rcases hmod with h | h | h
      · have hlen : x86_modrm_length modrm tail = 0 := by
          simp [x86_modrm_length, x86_disp_size, x86_base_id, h4, h, h5]
        simp [Cpu.modrm_resolve, Cpu._sib_resolve, Cpu.read_imm8, Cpu.read_imm8s,
          Cpu.read_imm32s, Memory.read8, Memory.read32s, Cpu.translate_address_read, hp, jsSub,
          jsAdd, byteOr0, h, h4, h32, hlen, x86_effective_address, x86_disp_size, x86_base_id,
          x86_disp, le32,
          h5]
        cases c
        simp only at hp h32
        simp [hp, h32]
      · have hlen : x86_modrm_length modrm tail = 1 := by
          simp [x86_modrm_length, x86_disp_size, x86_base_id, h4, h, h5]
        have g0 : mem8_get c.mem8 (some (p - c.base_addr)) = some (tail 0) :=
          B 0 _ (by omega) (by simp)
        have hr := mem8_get_range _ _ _ g0
        have e8 : (if tail 0 < 128 then tail 0 else tail 0 - 256)
            = (tail 0 + 128) % 256 - 128 := by split <;> omega
        simp [Cpu.modrm_resolve, Cpu._sib_resolve, Cpu.read_imm8, Cpu.read_imm8s,
          Cpu.read_imm32s, Memory.read8, Memory.read32s, Cpu.translate_address_read, hp, jsSub,
          jsAdd, byteOr0, h, h4, h32, hlen, x86_effective_address, x86_disp_size, x86_base_id,
          x86_disp, le32,
          g0, h5, e8]
      · have hlen : x86_modrm_length modrm tail = 4 := by
          simp [x86_modrm_length, x86_disp_size, x86_base_id, h4, h, h5]
        have g0 : mem8_get c.mem8 (some (p - c.base_addr)) = some (tail 0) :=
          B 0 _ (by omega) (by simp)
        have g1 : mem8_get c.mem8 (some (p - c.base_addr + 1)) = some (tail 1) :=
          B 1 _ (by omega) (by simp; omega)
        have g2 : mem8_get c.mem8 (some (p - c.base_addr + 2)) = some (tail 2) :=
          B 2 _ (by omega) (by simp; omega)
        have g3 : mem8_get c.mem8 (some (p - c.base_addr + 3)) = some (tail 3) :=
          B 3 _ (by omega) (by simp; omega)
        simp [Cpu.modrm_resolve, Cpu._sib_resolve, Cpu.read_imm8, Cpu.read_imm8s,
          Cpu.read_imm32s, Memory.read8, Memory.read32s, Cpu.translate_address_read, hp, jsSub,
          jsAdd, byteOr0, h, h4, h32, hlen, x86_effective_address, x86_disp_size, x86_base_id,
          x86_disp, le32,
          g0, g1, g2, g3, h5]

end Win32Runtime

/-! ## Lemmas: ModR/M resolution in `granny2_runtime.js` -/

namespace Granny2Runtime

open Win32Runtime

/-- The result of `modrm_resolve` as a plain sum over the signed register
values, for an address translation that maps the bytes of the encoding to
consecutive offsets from `q` on. -/
theorem granny_modrm_resolve_signed (c : Cpu) (modrm p q : Int) (tail : Nat → Int)
    (h32 : c.address_size_32 = true) (hm : 0 ≤ modrm ∧ modrm < 0xC0)
    (hp : c.instruction_pointer = some p)
    (ht : ∀ i : Nat, i < x86_modrm_length modrm tail →
      c.translate_address_read (some (p + i)) = some (q + i))
    (hb : ∀ i : Nat, i < x86_modrm_length modrm tail →
      mem8_get c.mem8 (some (q + i)) = some (tail i)) :
    c.modrm_resolve modrm
      = (some (x86_effective_address c.reg32s modrm tail),
         { c with instruction_pointer := some (p + (x86_modrm_length modrm tail : Nat)) }) := by
  have B : ∀ (i : Nat) (a : Int), i < x86_modrm_length modrm tail →
      a = q + i → mem8_get c.mem8 (some a) = some (tail i) :=
    fun i a hi ha => ha ▸ hb i hi
  have T : ∀ (i : Nat) (a b : Int), i < x86_modrm_length modrm tail →
      a = p + i → b = q + i → c.translate_address_read (some a) = some b :=
    fun i a b hi ha hb => ha ▸ hb ▸ ht i hi
  have hmod : modrm / 64 = 0 ∨ modrm / 64 = 1 ∨ modrm / 64 = 2 := by omega
  have n3 : ¬ (modrm / 64 = 3) := by omega
  by_cases h4 : modrm % 8 = 4
  · -- a SIB byte follows
    have hlen1 : 0 < x86_modrm_length modrm tail := by
      simp only [x86_modrm_length, h4, if_true]; omega
    have t00 : c.translate_address_read (some p) = some q :=
      T 0 _ _ hlen1 (by simp) (by simp)
    have g0 : mem8_get c.mem8 (some q) = some (tail 0) :=
      B 0 _ hlen1 (by simp)
    by_cases h5 : tail 0 % 8 = 5
    · rcases hmod with h | h | h
      · have hlen : x86_modrm_length modrm tail = 5 := by
          simp [x86_modrm_length, x86_disp_size, x86_base_id, h4, h, h5]
        have g1 : mem8_get c.mem8 (some (q + 1)) = some (tail 1) :=
          B 1 _ (by omega) (by simp)
        have g2 : mem8_get c.mem8 (some (q + 1 + 1)) = some (tail 2) :=
          B 2 _ (by omega) (by omega)
        have g3 : mem8_get c.mem8 (some (q + 1 + 2)) = some (tail 3) :=
          B 3 _ (by omega) (by omega)
        have g4 : mem8_get c.mem8 (some (q + 1 + 3)) = some (tail 4) :=
          B 4 _ (by omega) (by omega)
        have t1 : c.translate_address_read (some (p + 1)) = some (q + 1) :=
          T 1 _ _ (by omega) (by simp) (by simp)
        have e1 : p + 1 + 4 = p + 5 := by omega
        by_cases hi : tail 0 / 8 % 8 = 4 <;>
        simp [Cpu.modrm_resolve, Cpu._sib_resolve, Cpu.read_imm8, Cpu.read_imm8s,
          Cpu.read_imm32s, Memory.read8, Memory.read32s, hp, jsAdd, byteOr0, h, h4, h32, hlen,
          x86_effective_address, x86_disp_size, x86_base_id, x86_disp, le32,
          t00, g0, g1, g2, g3, g4, h5, t1, e1, hi]
        exact Int.add_comm _ _
      · have hlen : x86_modrm_length modrm tail = 2 := by
          simp [x86_modrm_length, x86_disp_size, x86_base_id, h4, h, h5]
        have g1 : mem8_get c.mem8 (some (q + 1)) = some (tail 1) :=
          B 1 _ (by omega) (by simp)
        have t1 : c.translate_address_read (some (p + 1)) = some (q + 1) :=
          T 1 _ _ (by omega) (by simp) (by simp)
        have e1 : p + 1 + 1 = p + 2 := by omega
        have hr := mem8_get_range _ _ _ g1
        have e8 : (if tail 1 < 128 then tail 1 else tail 1 - 256)
            = (tail 1 + 128) % 256 - 128 := by split <;> omega
        by_cases hi : tail 0 / 8 % 8 = 4 <;>
        simp [Cpu.modrm_resolve, Cpu._sib_resolve, Cpu.read_imm8, Cpu.read_imm8s,
          Cpu.read_imm32s, Memory.read8, Memory.read32s, hp, jsAdd, byteOr0, h, h4, h32, hlen,
          x86_effective_address, x86_disp_size, x86_base_id, x86_disp, le32,
          t00, g0, g1, h5, t1, e1, e8, hi]
      · have hlen : x86_modrm_length modrm tail = 5 := by
          simp [x86_modrm_length, x86_disp_size, x86_base_id, h4, h, h5]
        have g1 : mem8_get c.mem8 (some (q + 1)) = some (tail 1) :=
          B 1 _ (by omega) (by simp)
        have g2 : mem8_get c.mem8 (some (q + 1 + 1)) = some (tail 2) :=
          B 2 _ (by omega) (by omega)
        have g3 : mem8_get c.mem8 (some (q + 1 + 2)) = some (tail 3) :=
          B 3 _ (by omega) (by omega)
        have g4 : mem8_get c.mem8 (some (q + 1 + 3)) = some (tail 4) :=
          B 4 _ (by omega) (by omega)
        have t1 : c.translate_address_read (some (p + 1)) = some (q + 1) :=
          T 1 _ _ (by omega) (by simp) (by simp)
        have e1 : p + 1 + 4 = p + 5 := by omega
        by_cases hi : tail 0 / 8 % 8 = 4 <;>
        simp [Cpu.modrm_resolve, Cpu._sib_resolve, Cpu.read_imm8, Cpu.read_imm8s,
          Cpu.read_imm32s, Memory.read8, Memory.read32s, hp, jsAdd, byteOr0, h, h4, h32, hlen,
          x86_effective_address, x86_disp_size, x86_base_id, x86_disp, le32,
          t00, g0, g1, g2, g3, g4, h5, t1, e1, hi]
    · rcases hmod with h | h | h
      · have hlen : x86_modrm_length modrm tail = 1 := by
          simp [x86_modrm_length, x86_disp_size, x86_base_id, h4, h, h5]
        by_cases hi : tail 0 / 8 % 8 = 4 <;>
        simp [Cpu.modrm_resolve, Cpu._sib_resolve, Cpu.read_imm8, Cpu.read_imm8s,
          Cpu.read_imm32s, Memory.read8, Memory.read32s, hp, jsAdd, byteOr0, h, h4, h32, hlen,
          x86_effective_address, x86_disp_size, x86_base_id, x86_disp, le32,
          t00, g0, h5, hi]
      · have hlen : x86_modrm_length modrm tail = 2 := by
          simp [x86_modrm_length, x86_disp_size, x86_base_id, h4, h, h5]
        have g1 : mem8_get c.mem8 (some (q + 1)) = some (tail 1) :=
          B 1 _ (by omega) (by simp)
        have t1 : c.translate_address_read (some (p + 1)) = some (q + 1) :=
          T 1 _ _ (by omega) (by simp) (by simp)
        have e1 : p + 1 + 1 = p + 2 := by omega
        have hr := mem8_get_range _ _ _ g1
        have e8 : (if tail 1 < 128 then tail 1 else tail 1 - 256)
            = (tail 1 + 128) % 256 - 128 := by split <;> omega
        by_cases hi : tail 0 / 8 % 8 = 4 <;>
        simp [Cpu.modrm_resolve, Cpu._sib_resolve, Cpu.read_imm8, Cpu.read_imm8s,
          Cpu.read_imm32s, Memory.read8, Memory.read32s, hp, jsAdd, byteOr0, h, h4, h32, hlen,
          x86_effective_address, x86_disp_size, x86_base_id, x86_disp, le32,
          t00, g0, g1, h5, t1, e1, e8, hi]
      · have hlen : x86_modrm_length modrm tail = 5 := by
          simp [x86_modrm_length, x86_disp_size, x86_base_id, h4, h, h5]
        have g1 : mem8_get c.mem8 (some (q + 1)) = some (tail 1) :=
          B 1 _ (by omega) (by simp)
        have g2 : mem8_get c.mem8 (some (q + 1 + 1)) = some (tail 2) :=
          B 2 _ (by omega) (by omega)
        have g3 : mem8_get c.mem8 (some (q + 1 + 2)) = some (tail 3) :=
          B 3 _ (by omega) (by omega)
        have g4 : mem8_get c.mem8 (some (q + 1 + 3)) = some (tail 4) :=
          B 4 _ (by omega) (by omega)
        have t1 : c.translate_address_read (some (p + 1)) = some (q + 1) :=
          T 1 _ _ (by omega) (by simp) (by simp)
        have e1 : p + 1 + 4 = p + 5 := by omega
        by_cases hi : tail 0 / 8 % 8 = 4 <;>
        simp [Cpu.modrm_resolve, Cpu._sib_resolve, Cpu.read_imm8, Cpu.read_imm8s,
          Cpu.read_imm32s, Memory.read8, Memory.read32s, hp, jsAdd, byteOr0, h, h4, h32, hlen,
          x86_effective_address, x86_disp_size, x86_base_id, x86_disp, le32,
          t00, g0, g1, g2, g3, g4, h5, t1, e1, hi]
  · by_cases h5 : modrm % 8 = 5
    · rcases hmod with h | h | h
      · have hlen : x86_modrm_length modrm tail = 4 := by
          simp [x86_modrm_length, x86_disp_size, x86_base_id, h4, h, h5]
        have g0 : mem8_get c.mem8 (some q) = some (tail 0) :=
          B 0 _ (by omega) (by simp)
        have g1 : mem8_get c.mem8 (some (q + 1)) = some (tail 1) :=
          B 1 _ (by omega) (by omega)
        have g2 : mem8_get c.mem8 (some (q + 2)) = some (tail 2) :=
          B 2 _ (by omega) (by omega)
        have g3 : mem8_get c.mem8 (some (q + 3)) = some (tail 3) :=
          B 3 _ (by omega) (by omega)
        have t0 : c.translate_address_read (some p) = some (q) :=
          T 0 _ _ (by omega) (by simp) (by simp)
        simp [Cpu.modrm_resolve, Cpu._sib_resolve, Cpu.read_imm8, Cpu.read_imm8s,
          Cpu.read_imm32s, Memory.read8, Memory.read32s, hp, jsAdd, byteOr0, h, h4, h32, hlen,
          x86_effective_address, x86_disp_size, x86_base_id, x86_disp, le32,
          g0, g1, g2, g3, h5, t0]
      · have hlen : x86_modrm_length modrm tail = 1 := by
          simp [x86_modrm_length, x86_disp_size, x86_base_id, h4, h, h5]
        have g0 : mem8_get c.mem8 (some q) = some (tail 0) :=
          B 0 _ (by omega) (by simp)
        have t0 : c.translate_address_read (some p) = some (q) :=
          T 0 _ _ (by omega) (by simp) (by simp)
        have hr := mem8_get_range _ _ _ g0
        have e8 : (if tail 0 < 128 then tail 0 else tail 0 - 256)
            = (tail 0 + 128) % 256 - 128 := by split <;> omega
        simp [Cpu.modrm_resolve, Cpu._sib_resolve, Cpu.read_imm8, Cpu.read_imm8s,
          Cpu.read_imm32s, Memory.read8, Memory.read32s, hp, jsAdd, byteOr0, h, h4, h32, hlen,
          x86_effective_address, x86_disp_size, x86_base_id, x86_disp, le32,
          g0, h5, t0, e8]
      · have hlen : x86_modrm_length modrm tail = 4 := by
          simp [x86_modrm_length, x86_disp_size, x86_base_id, h4, h, h5]
        have g0 : mem8_get c.mem8 (some q) = some (tail 0) :=
          B 0 _ (by omega) (by simp)
        have g1 : mem8_get c.mem8 (some (q + 1)) = some (tail 1) :=
          B 1 _ (by omega) (by omega)
        have g2 : mem8_get c.mem8 (some (q + 2)) = some (tail 2) :=
          B 2 _ (by omega) (by omega)
        have g3 : mem8_get c.mem8 (some (q + 3)) = some (tail 3) :=
          B 3 _ (by omega) (by omega)
        have t0 : c.translate_address_read (some p) = some (q) :=
          T 0 _ _ (by omega) (by simp) (by simp)
        simp [Cpu.modrm_resolve, Cpu._sib_resolve, Cpu.read_imm8, Cpu.read_imm8s,
          Cpu.read_imm32s, Memory.read8, Memory.read32s, hp, jsAdd, byteOr0, h, h4, h32, hlen,
          x86_effective_address, x86_disp_size, x86_base_id, x86_disp, le32,
          g0, g1, g2, g3, h5, t0]
    · rcases hmod with h | h | h
      · have hlen : x86_modrm_length modrm tail = 0 := by
          simp [x86_modrm_length, x86_disp_size, x86_base_id, h4, h, h5]
        simp [Cpu.modrm_resolve, Cpu._sib_resolve, Cpu.read_imm8, Cpu.read_imm8s,
          Cpu.read_imm32s, Memory.read8, Memory.read32s, hp, jsAdd, byteOr0, h, h4, h32, hlen,
          x86_effective_address, x86_disp_size, x86_base_id, x86_disp, le32,
          h5]
        cases c
        simp only at hp h32
        simp [hp, h32]
      · have hlen : x86_modrm_length modrm tail = 1 := by
          simp [x86_modrm_length, x86_disp_size, x86_base_id, h4, h, h5]
        have g0 : mem8_get c.mem8 (some q) = some (tail 0) :=
          B 0 _ (by omega) (by simp)
        have t0 : c.translate_address_read (some p) = some (q) :=
          T 0 _ _ (by omega) (by simp) (by simp)
        have hr := mem8_get_range _ _ _ g0
        have e8 : (if tail 0 < 128 then tail 0 else tail 0 - 256)
            = (tail 0 + 128) % 256 - 128 := by split <;> omega
        simp [Cpu.modrm_resolve, Cpu._sib_resolve, Cpu.read_imm8, Cpu.read_imm8s,
          Cpu.read_imm32s, Memory.read8, Memory.read32s, hp, jsAdd, byteOr0, h, h4, h32, hlen,
          x86_effective_address, x86_disp_size, x86_base_id, x86_disp, le32,
          g0, h5, t0, e8]
      · have hlen : x86_modrm_length modrm tail = 4 := by
          simp [x86_modrm_length, x86_disp_size, x86_base_id, h4, h, h5]
        have g0 : mem8_get c.mem8 (some q) = some (tail 0) :=
          B 0 _ (by omega) (by simp)
        have g1 : mem8_get c.mem8 (some (q + 1)) = some (tail 1) :=
          B 1 _ (by omega) (by omega)
        have g2 : mem8_get c.mem8 (some (q + 2)) = some (tail 2) :=
          B 2 _ (by omega) (by omega)
        have g3 : mem8_get c.mem8 (some (q + 3)) = some (tail 3) :=
          B 3 _ (by omega) (by omega)
        have t0 : c.translate_address_read (some p) = some (q) :=
          T 0 _ _ (by omega) (by simp) (by simp)
        simp [Cpu.modrm_resolve, Cpu._sib_resolve, Cpu.read_imm8, Cpu.read_imm8s,
          Cpu.read_imm32s, Memory.read8, Memory.read32s, hp, jsAdd, byteOr0, h, h4, h32, hlen,
          x86_effective_address, x86_disp_size, x86_base_id, x86_disp, le32,
          g0, g1, g2, g3, h5, t0]

end Granny2Runtime

/-! ## Theorems: ModR/M resolution -/

namespace Win32Runtime

/-- The effective address modulo 2^32 depends on the registers modulo 2^32
only. -/
theorem x86_effective_address_congr (f g : Nat → Int) (modrm : Int) (tail : Nat → Int)
    (h : ∀ r, toUint32 (f r) = toUint32 (g r)) :
    toUint32 (x86_effective_address f modrm tail)
      = toUint32 (x86_effective_address g modrm tail) := by
  have H : ∀ r, f r ≡ g r [ZMOD 4294967296] := fun r => h r
  have hbase : (if modrm / 64 = 0 ∧ x86_base_id modrm tail = 5 then (0 : Int)
        else f (x86_base_id modrm tail).toNat)
      ≡ (if modrm / 64 = 0 ∧ x86_base_id modrm tail = 5 then (0 : Int)
        else g (x86_base_id modrm tail).toNat) [ZMOD 4294967296] := by
    split
    · exact Int.ModEq.refl _
    · exact H _
  have hindex : (if modrm % 8 = 4 ∧ tail 0 / 8 % 8 ≠ 4 then
          f (tail 0 / 8 % 8).toNat * 2 ^ (tail 0 / 64).toNat else (0 : Int))
      ≡ (if modrm % 8 = 4 ∧ tail 0 / 8 % 8 ≠ 4 then
          g (tail 0 / 8 % 8).toNat * 2 ^ (tail 0 / 64).toNat else (0 : Int))
        [ZMOD 4294967296] := by
    split
    · exact Int.ModEq.mul_right _ (H _)
    · exact Int.ModEq.refl _
  exact Int.ModEq.add (Int.ModEq.add hbase hindex) (Int.ModEq.refl _)

end Win32Runtime

namespace Granny2Runtime

open Win32Runtime

/-- C21: in 32-bit address mode, for a ModR/M byte with mod in {0,1,2} at
whose instruction pointer `p` the SIB and displacement bytes `tail 0, tail 1,
..` of the encoding stand, `modrm_resolve` of `granny2_runtime.js` (state `c`,
the address translation mapping the bytes of the encoding to consecutive
offsets) and of `win32runtime.js` (state `w`) returns a number equal modulo
2^32 to the x86 effective address computed from the unsigned register
contents, and leaves the instruction pointer at `p` plus the number of SIB and
displacement bytes, everything else in the CPU being as before. -/
theorem modrm_resolve_effective_address (c : Cpu) (w : Win32Runtime.Cpu) (modrm p q : Int)
    (tail : Nat → Int) (hm : 0 ≤ modrm ∧ modrm < 0xC0)
    (h32 : c.address_size_32 = true) (hp : c.instruction_pointer = some p)
    (ht : ∀ i : Nat, i < x86_modrm_length modrm tail →
      c.translate_address_read (some (p + i)) = some (q + i))
    (hb : ∀ i : Nat, i < x86_modrm_length modrm tail →
      mem8_get c.mem8 (some (q + i)) = some (tail i))
    (w32 : w.address_size_32 = true) (wp : w.instruction_pointer = some p)
    (wb : ∀ i : Nat, i < x86_modrm_length modrm tail →
      mem8_get w.mem8 (some (p + i - w.base_addr)) = some (tail i)) :
    (∃ a, c.modrm_resolve modrm
        = (some a,
           { c with instruction_pointer := some (p + (x86_modrm_length modrm tail : Nat)) })
      ∧ toUint32 a
        = toUint32 (x86_effective_address (fun r => toUint32 (c.reg32s r)) modrm tail))
    ∧ (∃ a, w.modrm_resolve modrm
        = (some a,
           { w with instruction_pointer := some (p + (x86_modrm_length modrm tail : Nat)) })
      ∧ toUint32 a = toUint32 (x86_effective_address w.reg32 modrm tail)) := by
  have hu : ∀ x : Int, toUint32 x = toUint32 (toUint32 x) := by
    intro x; unfold toUint32; omega
  constructor
  · exact ⟨_, granny_modrm_resolve_signed c modrm p q tail h32 hm hp ht hb,
      x86_effective_address_congr _ _ modrm tail (fun r => hu _)⟩
  · exact ⟨_, modrm_resolve_signed w modrm p tail w32 hm wp wb,
      x86_effective_address_congr _ _ modrm tail (fun r => hu _)⟩

end Granny2Runtime

namespace Granny2Runtime

open Win32Runtime

/-- C21, at an instance: ModR/M 84 with the SIB byte 88 (base EAX, index ECX,
scale 4) and the disp32 -16 (F0 FF FF FF), EAX = 0x10000000 and ECX = 3: the
address is 0x0FFFFFFC and five bytes are consumed. -/
theorem modrm_resolve_effective_address_witness :
    ((∃ a, (modrm_state [0x88, 0xF0, 0xFF, 0xFF, 0xFF] 0x10000000 3).modrm_resolve 0x84
        = (some a,
           { modrm_state [0x88, 0xF0, 0xFF, 0xFF, 0xFF] 0x10000000 3 with
             instruction_pointer := some (0x10000000
               + (x86_modrm_length 0x84 (tail_of [0x88, 0xF0, 0xFF, 0xFF, 0xFF]) : Nat)) })
      ∧ toUint32 a
        = toUint32 (x86_effective_address
            (fun r => toUint32
              ((modrm_state [0x88, 0xF0, 0xFF, 0xFF, 0xFF] 0x10000000 3).reg32s r))
            0x84 (tail_of [0x88, 0xF0, 0xFF, 0xFF, 0xFF])))
    ∧ (∃ a, (Win32Runtime.modrm_state [0x88, 0xF0, 0xFF, 0xFF, 0xFF] 0x10000000 3).modrm_resolve
          0x84
        = (some a,
           { Win32Runtime.modrm_state [0x88, 0xF0, 0xFF, 0xFF, 0xFF] 0x10000000 3 with
             instruction_pointer := some (0x10000000
               + (x86_modrm_length 0x84 (tail_of [0x88, 0xF0, 0xFF, 0xFF, 0xFF]) : Nat)) })
      ∧ toUint32 a
        = toUint32 (x86_effective_address
            (Win32Runtime.modrm_state [0x88, 0xF0, 0xFF, 0xFF, 0xFF] 0x10000000 3).reg32
            0x84 (tail_of [0x88, 0xF0, 0xFF, 0xFF, 0xFF]))))
    ∧ x86_modrm_length 0x84 (tail_of [0x88, 0xF0, 0xFF, 0xFF, 0xFF]) = 5
    ∧ toUint32 (x86_effective_address
        (Win32Runtime.modrm_state [0x88, 0xF0, 0xFF, 0xFF, 0xFF] 0x10000000 3).reg32
        0x84 (tail_of [0x88, 0xF0, 0xFF, 0xFF, 0xFF])) = 0x0FFFFFFC :=
  ⟨modrm_resolve_effective_address (modrm_state [0x88, 0xF0, 0xFF, 0xFF, 0xFF] 0x10000000 3)
      (Win32Runtime.modrm_state [0x88, 0xF0, 0xFF, 0xFF, 0xFF] 0x10000000 3) 0x84 0x10000000 0
      (tail_of [0x88, 0xF0, 0xFF, 0xFF, 0xFF]) (by decide) (by decide) (by decide) (by decide)
      (by decide) (by decide) (by decide) (by decide),
    by decide, by decide⟩

end Granny2Runtime

/-! ## Theorems: REPNE, the immediate groups and the allocator's alignment -/

namespace Granny2Runtime

open Win32Runtime

/-- C32 (code as it is): the loop of `t[0xF2]` decrements the instruction
pointer before every iteration without fetching the opcode again. REPNE SCASB
(F2 AE) at `p = 0x10000000` with the flags word 0 ends with the instruction
pointer at `p + 2 - n` for ECX = n: `p + 2` for n = 0, `p + 1` for n = 1 and
`p - 1` for n = 3 (ECX = 0 afterwards). With ZF set beforehand no iteration
runs: the instruction pointer is `p + 2` and ECX keeps its 3. -/
theorem repne_moves_ip_back :
    ((cycle (table32 1) (string_state [0xF2, 0xAE] 0 0 0x10000010 0)).toOption.map
        (fun c => (c.instruction_pointer, c.reg32s reg_ecx, c.reg32s reg_edi)))
      = some (some 0x10000002, 0, 0x10000010)
    ∧ ((cycle (table32 1) (string_state [0xF2, 0xAE] 1 0 0x10000010 0)).toOption.map
        (fun c => (c.instruction_pointer, c.reg32s reg_ecx, c.reg32s reg_edi)))
      = some (some 0x10000001, 0, 0x10000011)
    ∧ ((cycle (table32 1) (string_state [0xF2, 0xAE] 3 0 0x10000010 0)).toOption.map
        (fun c => (c.instruction_pointer, c.reg32s reg_ecx, c.reg32s reg_edi)))
      = some (some 0x0FFFFFFF, 0, 0x10000013)
    ∧ ((cycle (table32 1) (string_state [0xF2, 0xAE] 3 0 0x10000010 0x40)).toOption.map
        (fun c => (c.instruction_pointer, c.reg32s reg_ecx, c.reg32s reg_edi)))
      = some (some 0x10000002, 3, 0x10000010) := by
  decide

end Granny2Runtime

namespace Win32Runtime

/-- C33 (code as it is): `t[0x81]` and `t[0x83]` read the immediate right after
the ModR/M byte, before `modrm_resolve` reads the displacement. With EBP =
0x10000100, the dword 100 at [EBP + 8] and zeros around it, ADD dword
[EBP + 8], 1 as 83 45 08 01 takes 8 as the immediate and 1 as the
displacement: the dword at [EBP + 1] becomes 8 and the dword at [EBP + 8] is
still 100. As 81 45 08 01 00 00 00 the immediate is the dword 0x00000108 at
`p + 2` and the displacement the byte 00 at `p + 6`: the dword at [EBP]
becomes 0x108, the dword at [EBP + 8] is still 100, and the instruction
pointer is `p + 7`. -/
theorem group1_reads_immediate_first :
    ((cycle no_api (group1_state ([0x83, 0x45, 0x08, 0x01] ++ List.replicate 260 0 ++ [100])
        0x10000100)).value.map (fun _ => ())) = some ()
    ∧ (cycle no_api (group1_state ([0x83, 0x45, 0x08, 0x01] ++ List.replicate 260 0 ++ [100])
        0x10000100)).state.cpu.instruction_pointer = some 0x10000004
    ∧ Memory.read32s (cycle no_api (group1_state ([0x83, 0x45, 0x08, 0x01]
        ++ List.replicate 260 0 ++ [100]) 0x10000100)).state.cpu.mem8 (some 0x101) = 8
    ∧ Memory.read32s (cycle no_api (group1_state ([0x83, 0x45, 0x08, 0x01]
        ++ List.replicate 260 0 ++ [100]) 0x10000100)).state.cpu.mem8 (some 0x108) = 100
    ∧ (cycle no_api (group1_state ([0x81, 0x45, 0x08, 0x01, 0x00, 0x00, 0x00]
        ++ List.replicate 257 0 ++ [100]) 0x10000100)).state.cpu.instruction_pointer
        = some 0x10000007
    ∧ Memory.read32s (cycle no_api (group1_state ([0x81, 0x45, 0x08, 0x01, 0x00, 0x00, 0x00]
        ++ List.replicate 257 0 ++ [100]) 0x10000100)).state.cpu.mem8 (some 0x100) = 0x108
    ∧ Memory.read32s (cycle no_api (group1_state ([0x81, 0x45, 0x08, 0x01, 0x00, 0x00, 0x00]
        ++ List.replicate 257 0 ++ [100]) 0x10000100)).state.cpu.mem8 (some 0x108) = 100 := by
  decide

/-- C36 (code as it is): `realloc` resizes a block in place to `begin + size`
without rounding `size` up to a multiple of 4, as `alloc` does. In a
0x1000-byte image at 0x10000000, after `p = alloc(8)` (0x10158028) and
`realloc(p, 5)` (in place, the block now ends at 0x1015802D), `alloc(4)`
returns 0x1015802D, which is not a multiple of 4. -/
theorem realloc_breaks_alignment :
    (alloc (initial_map 0x10000000 0x1000) 8).value = some 0x10158028
    ∧ (realloc (alloc (initial_map 0x10000000 0x1000) 8).map 0x10158028 5).value
        = some 0x10158028
    ∧ (realloc (alloc (initial_map 0x10000000 0x1000) 8).map 0x10158028 5).map
        = [(0x10000000, 0x10001000), (0x10001000, 0x10158028), (0x10158028, 0x1015802D)]
    ∧ (alloc (realloc (alloc (initial_map 0x10000000 0x1000) 8).map 0x10158028 5).map 4).value
        = some 0x1015802D
    ∧ (0x1015802D : Int) % 4 = 1 := by
  decide

end Win32Runtime

/-! ## Lemmas: DIV and IDIV on r/m32 -/

namespace Granny2Runtime

open Win32Runtime

/-- `Number(x)` is exact below 2^53. -/
theorem bigint_to_number_small (x : Int) (h : x.natAbs < 2 ^ 53) : bigint_to_number x = x := by
  unfold bigint_to_number
  simp only [h, if_true]

/-- The remainder of the truncating division is smaller than the divisor in
absolute value. -/
theorem tmod_bounds (a b : Int) (hb : b ≠ 0) :
    -(b.natAbs : Int) < Int.tmod a b ∧ Int.tmod a b < (b.natAbs : Int) := by
  have key : ∀ (a : Int) (n : Nat), 0 < n →
      -(n : Int) < Int.tmod a n ∧ Int.tmod a n < (n : Int) := by
    intro a n hn
    cases a with
    | ofNat m =>
      have h1 : Int.tmod (Int.ofNat m) (n : Int) = ((m % n : Nat) : Int) := rfl
      have h2 : m % n < n := Nat.mod_lt _ hn
      rw [h1]
      omega
    | negSucc m =>
      have h1 : Int.tmod (Int.negSucc m) (n : Int) = -(((m + 1) % n : Nat) : Int) := rfl
      have h2 : (m + 1) % n < n := Nat.mod_lt _ hn
      rw [h1]
      omega
  have hn : 0 < b.natAbs := Int.natAbs_pos.2 hb
  rcases Int.natAbs_eq b with h | h
  · have := key a b.natAbs hn
    have e : Int.tmod a b = Int.tmod a (b.natAbs : Int) := by
      conv_lhs => rw [h]
    rw [e]
    exact this
  · have := key a b.natAbs hn
    have e : Int.tmod a b = Int.tmod a (b.natAbs : Int) := by
      conv_lhs => rw [h]
      exact Int.tmod_neg a _
    rw [e]
    exact this

/-- The table entry of the group F7 at every depth. -/
theorem table_F7 (depth : Nat) : table32 depth 0xF7 = some op_F7 := by
  rw [table32_eq depth 0xF7 (by decide) (by decide)]; rfl

/-- One cycle on DIV r/m32 (F7 /6) with a nonzero operand `d`, decoded from a
register or from the memory at the effective address: the state after the
decoding with the quotient stored in EAX, then the remainder in EDX. -/
theorem cycle_div_r32 (depth : Nat) (c : Cpu) (p q modrm d : Int) (tail : Nat → Int)
    (hp : c.instruction_pointer = some p)
    (h0 : mem8_get c.mem8 (c.translate_address_read (some p)) = some 0xF7)
    (h1 : mem8_get c.mem8 (c.translate_address_read (some (p + 1))) = some modrm)
    (hop : modrm / 8 % 8 = 6) (hd0 : d ≠ 0)
    (hrm : (modrm ≥ 0xC0 ∧ d = c.reg32s (modrm % 8).toNat)
      ∨ (modrm < 0xC0 ∧ c.address_size_32 = true
        ∧ (∀ i : Nat, i < x86_modrm_length modrm tail →
            c.translate_address_read (some (p + 2 + i)) = some (q + i))
        ∧ (∀ i : Nat, i < x86_modrm_length modrm tail →
            mem8_get c.mem8 (some (q + i)) = some (tail i))
        ∧ d = c.safe_read32s (some (x86_effective_address c.reg32s modrm tail)))) :
    cycle (table32 depth) c
      = .ok (({ c with
            previous_ip := some p, last_instr_jump := false,
            timestamp_counter := c.timestamp_counter + 1,
            instruction_pointer := some (p + 2
              + (if modrm ≥ 0xC0 then 0 else (x86_modrm_length modrm tail : Nat))) }.setReg
          reg_eax (some (bigint_to_number
            ((toUint32 (c.reg32s reg_edx) * 4294967296 + toUint32 (c.reg32s reg_eax))
              / toUint32 d)))).setReg
          reg_edx (some (bigint_to_number
            ((toUint32 (c.reg32s reg_edx) * 4294967296 + toUint32 (c.reg32s reg_eax))
              % toUint32 d)))) := by
  have e2 : p + 1 + 1 = p + 2 := by omega
  have hm := mem8_get_range _ _ _ h1
  rcases hrm with ⟨hge, hd⟩ | ⟨hlt, h32, ht, hb, hd⟩
  · rw [hd] at hd0
    simp [cycle, Cpu.read_imm8, Memory.read8, hp, h0, jsAdd, table_F7, op_F7, h1, byteOr0, hge,
      hop, hd0, e2, hd]
  · have hres := granny_modrm_resolve_signed
      { c with previous_ip := some p, last_instr_jump := false,
               timestamp_counter := c.timestamp_counter + 1,
               instruction_pointer := some (p + 2) }
      modrm (p + 2) q tail h32 ⟨hm.1, hlt⟩ rfl ht hb
    have hnge : ¬ (modrm ≥ 0xC0) := by omega
    have hnge2 : ¬ (192 ≤ modrm) := by omega
    have hd1 : ¬ (c.safe_read32s (some (x86_effective_address c.reg32s modrm tail)) = 0) := by
      rw [← hd]; exact hd0
    simp only [Cpu.safe_read32s] at hd1 hd
    simp [cycle, Cpu.read_imm8, Memory.read8, hp, h0, jsAdd, table_F7, op_F7, h1, byteOr0, hnge2,
      hop, e2, hres, Cpu.safe_read32s, hd1, hd]

/-- One cycle on IDIV r/m32 (F7 /7) with a nonzero operand `d`, decoded from a
register or from the memory at the effective address: the state after the
decoding with the quotient stored in EAX, then the remainder in EDX. -/
theorem cycle_idiv_r32 (depth : Nat) (c : Cpu) (p q modrm d : Int) (tail : Nat → Int)
    (hp : c.instruction_pointer = some p)
    (h0 : mem8_get c.mem8 (c.translate_address_read (some p)) = some 0xF7)
    (h1 : mem8_get c.mem8 (c.translate_address_read (some (p + 1))) = some modrm)
    (hop : modrm / 8 % 8 = 7) (hd0 : d ≠ 0)
    (hrm : (modrm ≥ 0xC0 ∧ d = c.reg32s (modrm % 8).toNat)
      ∨ (modrm < 0xC0 ∧ c.address_size_32 = true
        ∧ (∀ i : Nat, i < x86_modrm_length modrm tail →
            c.translate_address_read (some (p + 2 + i)) = some (q + i))
        ∧ (∀ i : Nat, i < x86_modrm_length modrm tail →
            mem8_get c.mem8 (some (q + i)) = some (tail i))
        ∧ d = c.safe_read32s (some (x86_effective_address c.reg32s modrm tail)))) :
    cycle (table32 depth) c
      = .ok (({ c with
            previous_ip := some p, last_instr_jump := false,
            timestamp_counter := c.timestamp_counter + 1,
            instruction_pointer := some (p + 2
              + (if modrm ≥ 0xC0 then 0 else (x86_modrm_length modrm tail : Nat))) }.setReg
          reg_eax (some (bigint_to_number
            (Int.tdiv (c.reg32s reg_edx * 4294967296 + toUint32 (c.reg32s reg_eax)) d)))).setReg
          reg_edx (some (bigint_to_number
            (Int.tmod (c.reg32s reg_edx * 4294967296 + toUint32 (c.reg32s reg_eax)) d)))) := by
  have e2 : p + 1 + 1 = p + 2 := by omega
  have hm := mem8_get_range _ _ _ h1
  rcases hrm with ⟨hge, hd⟩ | ⟨hlt, h32, ht, hb, hd⟩
  · rw [hd] at hd0
    simp [cycle, Cpu.read_imm8, Memory.read8, hp, h0, jsAdd, table_F7, op_F7, h1, byteOr0, hge,
      hop, hd0, e2, hd]
  · have hres := granny_modrm_resolve_signed
      { c with previous_ip := some p, last_instr_jump := false,
               timestamp_counter := c.timestamp_counter + 1,
               instruction_pointer := some (p + 2) }
      modrm (p + 2) q tail h32 ⟨hm.1, hlt⟩ rfl ht hb
    have hnge : ¬ (modrm ≥ 0xC0) := by omega
    have hnge2 : ¬ (192 ≤ modrm) := by omega
    have hd1 : ¬ (c.safe_read32s (some (x86_effective_address c.reg32s modrm tail)) = 0) := by
      rw [← hd]; exact hd0
    simp only [Cpu.safe_read32s] at hd1 hd
    simp [cycle, Cpu.read_imm8, Memory.read8, hp, h0, jsAdd, table_F7, op_F7, h1, byteOr0, hnge2,
      hop, e2, hres, Cpu.safe_read32s, hd1, hd]

/-- The remainder of the truncating division has the sign of the dividend. -/
theorem tmod_sign (a b : Int) : (0 ≤ a → 0 ≤ Int.tmod a b) ∧ (a ≤ 0 → Int.tmod a b ≤ 0) := by
  constructor
  · exact fun h => Int.tmod_nonneg b h
  · intro h
    have e : Int.tmod a b = -Int.tmod (-a) b := by
      have h1 := Int.tmod_def a b
      have h2 := Int.tmod_def (-a) b
      have h3 : Int.tdiv (-a) b = -Int.tdiv a b := Int.neg_tdiv a b
      rw [h1, h2, h3]
      ring
    have := Int.tmod_nonneg b (show 0 ≤ -a by omega)
    omega

end Granny2Runtime

/-! ## Theorems: DIV and IDIV on r/m32 -/

namespace Granny2Runtime

open Win32Runtime

/-- C31: one `cycle()` at `p` on F7 with a ModR/M byte whose operand `d` (a
nonzero 32-bit value, read from the register `modrm & 7` or, for a memory
form in 32-bit address mode, from the dword at the effective address) is the
divisor. For DIV (/6), with `D = EDX * 2^32 + EAX` on the unsigned register
values and `D / d < 2^32` on the unsigned `d`, the cycle returns with EAX equal
to `D / d` and EDX to `D mod d` (both as unsigned values). For IDIV (/7), with
`D` the signed 64-bit value of EDX:EAX and the truncated quotient of `D` by
the signed `d` inside the signed 32-bit range, the cycle returns with EAX
equal to that quotient and EDX to the remainder `D - d * EAX`, which has the
sign of `D`. In both cases the other registers, the flags and the memory are
as before and the instruction pointer is past the encoding. -/
theorem div_idiv_r32 (depth : Nat) (c : Cpu) (p q modrm d : Int) (tail : Nat → Int)
    (hp : c.instruction_pointer = some p)
    (h0 : mem8_get c.mem8 (c.translate_address_read (some p)) = some 0xF7)
    (h1 : mem8_get c.mem8 (c.translate_address_read (some (p + 1))) = some modrm)
    (hd0 : d ≠ 0) (hd : -2147483648 ≤ d ∧ d < 2147483648)
    (hrm : (modrm ≥ 0xC0 ∧ d = c.reg32s (modrm % 8).toNat)
      ∨ (modrm < 0xC0 ∧ c.address_size_32 = true
        ∧ (∀ i : Nat, i < x86_modrm_length modrm tail →
            c.translate_address_read (some (p + 2 + i)) = some (q + i))
        ∧ (∀ i : Nat, i < x86_modrm_length modrm tail →
            mem8_get c.mem8 (some (q + i)) = some (tail i))
        ∧ d = c.safe_read32s (some (x86_effective_address c.reg32s modrm tail)))) :
    (modrm / 8 % 8 = 6 →
      (toUint32 (c.reg32s reg_edx) * 4294967296 + toUint32 (c.reg32s reg_eax)) / toUint32 d
        < 4294967296 →
      ∃ c1, cycle (table32 depth) c = .ok c1
        ∧ c1.instruction_pointer = some (p + 2
            + (if modrm ≥ 0xC0 then 0 else (x86_modrm_length modrm tail : Nat)))
        ∧ toUint32 (c1.reg32s reg_eax)
          = (toUint32 (c.reg32s reg_edx) * 4294967296 + toUint32 (c.reg32s reg_eax))
              / toUint32 d
        ∧ toUint32 (c1.reg32s reg_edx)
          = (toUint32 (c.reg32s reg_edx) * 4294967296 + toUint32 (c.reg32s reg_eax))
              % toUint32 d
        ∧ (∀ k, k ≠ reg_eax → k ≠ reg_edx → c1.reg32s k = c.reg32s k)
        ∧ c1.flags = c.flags ∧ c1.mem8 = c.mem8)
    ∧ (modrm / 8 % 8 = 7 →
      (-2147483648 ≤ Int.tdiv (c.reg32s reg_edx * 4294967296 + toUint32 (c.reg32s reg_eax)) d
        ∧ Int.tdiv (c.reg32s reg_edx * 4294967296 + toUint32 (c.reg32s reg_eax)) d
          < 2147483648) →
      ∃ c1, cycle (table32 depth) c = .ok c1
        ∧ c1.instruction_pointer = some (p + 2
            + (if modrm ≥ 0xC0 then 0 else (x86_modrm_length modrm tail : Nat)))
        ∧ c1.reg32s reg_eax
          = Int.tdiv (c.reg32s reg_edx * 4294967296 + toUint32 (c.reg32s reg_eax)) d
        ∧ c1.reg32s reg_edx
          = c.reg32s reg_edx * 4294967296 + toUint32 (c.reg32s reg_eax) - d * c1.reg32s reg_eax
        ∧ (0 ≤ c.reg32s reg_edx * 4294967296 + toUint32 (c.reg32s reg_eax) →
            0 ≤ c1.reg32s reg_edx)
        ∧ (c.reg32s reg_edx * 4294967296 + toUint32 (c.reg32s reg_eax) ≤ 0 →
            c1.reg32s reg_edx ≤ 0)
        ∧ (∀ k, k ≠ reg_eax → k ≠ reg_edx → c1.reg32s k = c.reg32s k)
        ∧ c1.flags = c.flags ∧ c1.mem8 = c.mem8) := by
  have hne : ¬ (reg_eax = reg_edx) := by decide
  have hne2 : ¬ (reg_edx = reg_eax) := by decide
  constructor
  · intro hop hq
    refine ⟨_, cycle_div_r32 depth c p q modrm d tail hp h0 h1 hop hd0 hrm, rfl, ?_, ?_, ?_, rfl,
      rfl⟩
    · have hdu : 0 < toUint32 d := by unfold toUint32; omega
      have hD : 0 ≤ toUint32 (c.reg32s reg_edx) * 4294967296 + toUint32 (c.reg32s reg_eax) := by
        unfold toUint32; omega
      have hq0 := Int.ediv_nonneg hD (Int.le_of_lt hdu)
      generalize (toUint32 (c.reg32s reg_edx) * 4294967296 + toUint32 (c.reg32s reg_eax))
        / toUint32 d = Q at hq hq0 ⊢
      have hs : bigint_to_number Q = Q := bigint_to_number_small Q (by omega)
      simp only [Cpu.setReg, hne, if_false, if_true, JsNum.toInt32, hs]
      unfold toUint32 toInt32; omega
    · have hdu : 0 < toUint32 d := by unfold toUint32; omega
      have hdu2 : toUint32 d < 4294967296 := by unfold toUint32; omega
      have hr0 := Int.emod_nonneg
        (toUint32 (c.reg32s reg_edx) * 4294967296 + toUint32 (c.reg32s reg_eax))
        (Int.ne_of_gt hdu)
      have hr1 := Int.emod_lt_of_pos
        (toUint32 (c.reg32s reg_edx) * 4294967296 + toUint32 (c.reg32s reg_eax)) hdu
      generalize (toUint32 (c.reg32s reg_edx) * 4294967296 + toUint32 (c.reg32s reg_eax))
        % toUint32 d = R at hr0 hr1 ⊢
      have hs : bigint_to_number R = R := bigint_to_number_small R (by omega)
      simp only [Cpu.setReg, if_true, JsNum.toInt32, hs]
      unfold toUint32 toInt32; omega
    · intro k k1 k2
      simp only [Cpu.setReg, k1, k2, if_false]
  · intro hop hq
    have hb := tmod_bounds (c.reg32s reg_edx * 4294967296 + toUint32 (c.reg32s reg_eax)) d hd0
    have hsg := tmod_sign (c.reg32s reg_edx * 4294967296 + toUint32 (c.reg32s reg_eax)) d
    have hdef := Int.tmod_def (c.reg32s reg_edx * 4294967296 + toUint32 (c.reg32s reg_eax)) d
    have hQ : bigint_to_number
          (Int.tdiv (c.reg32s reg_edx * 4294967296 + toUint32 (c.reg32s reg_eax)) d)
        = Int.tdiv (c.reg32s reg_edx * 4294967296 + toUint32 (c.reg32s reg_eax)) d :=
      bigint_to_number_small _ (by omega)
    have hR : bigint_to_number
          (Int.tmod (c.reg32s reg_edx * 4294967296 + toUint32 (c.reg32s reg_eax)) d)
        = Int.tmod (c.reg32s reg_edx * 4294967296 + toUint32 (c.reg32s reg_eax)) d :=
      bigint_to_number_small _ (by omega)
    have hQ2 : toInt32 (Int.tdiv (c.reg32s reg_edx * 4294967296 + toUint32 (c.reg32s reg_eax)) d)
        = Int.tdiv (c.reg32s reg_edx * 4294967296 + toUint32 (c.reg32s reg_eax)) d :=
      toInt32_of_range _ hq.1 hq.2
    have hR2 : toInt32 (Int.tmod (c.reg32s reg_edx * 4294967296 + toUint32 (c.reg32s reg_eax)) d)
        = Int.tmod (c.reg32s reg_edx * 4294967296 + toUint32 (c.reg32s reg_eax)) d :=
      toInt32_of_range _ (by omega) (by omega)
    refine ⟨_, cycle_idiv_r32 depth c p q modrm d tail hp h0 h1 hop hd0 hrm, rfl, ?_, ?_, ?_, ?_,
      ?_, rfl, rfl⟩
    · simp only [Cpu.setReg, hne, if_false, if_true, JsNum.toInt32, hQ, hQ2]
    · simp only [Cpu.setReg, hne, if_false, if_true, JsNum.toInt32, hQ, hQ2, hR, hR2]
      exact hdef
    · intro h
      simp only [Cpu.setReg, if_true, JsNum.toInt32, hR, hR2]
      exact hsg.1 h
    · intro h
      simp only [Cpu.setReg, if_true, JsNum.toInt32, hR, hR2]
      exact hsg.2 h
    · intro k k1 k2
      simp only [Cpu.setReg, k1, k2, if_false]

/-- C31, at an instance: DIV ECX (F7 F1) and IDIV ECX (F7 F9) at 0x10000000
with EAX = 7 and ECX = 2 (EDX = 0): the operand is the register ECX. -/
theorem div_idiv_r32_witness :
    (∃ c1, cycle (table32 1) (modrm_state [0xF7, 0xF1] 7 2) = .ok c1
      ∧ toUint32 (c1.reg32s reg_eax) = 3 ∧ toUint32 (c1.reg32s reg_edx) = 1)
    ∧ (∃ c1, cycle (table32 1) (modrm_state [0xF7, 0xF9] (-7) 2) = .ok c1
      ∧ c1.reg32s reg_eax = 2147483644) := by
  constructor
  · obtain ⟨c1, h1, _, h3, h4, _⟩ :=
      (div_idiv_r32 1 (modrm_state [0xF7, 0xF1] 7 2) 0x10000000 0 0xF1 2 (fun _ => 0)
        (by decide) (by decide) (by decide) (by decide) (by decide)
        (Or.inl (by decide))).1 (by decide) (by decide)
    exact ⟨c1, h1, h3.trans (by decide), h4.trans (by decide)⟩
  · obtain ⟨c1, h1, _, h3, _⟩ :=
      (div_idiv_r32 1 (modrm_state [0xF7, 0xF9] (-7) 2) 0x10000000 0 0xF9 2 (fun _ => 0)
        (by decide) (by decide) (by decide) (by decide) (by decide)
        (Or.inl (by decide))).2 (by decide) (by decide)
    exact ⟨c1, h1, h3.trans (by decide)⟩

end Granny2Runtime

/-! ## Theorems: the patched CALL handlers off the imports -/

namespace Win32Runtime

/-- Un-reading the ModR/M byte gives the CPU back. -/
theorem unread_imm8 (c : Cpu) :
    { c.read_imm8.2 with
      instruction_pointer := jsSub c.read_imm8.2.instruction_pointer (some 1) } = c := by
  cases c with
  | mk mem8 reg32s base_addr ip previous_ip flags flags_changed last_op1 last_op2 last_op_size
      last_result last_add_result address_size_32 timestamp_counter last_instr_jump =>
    cases ip with
    | none => rfl
    | some x =>
      simp only [Cpu.read_imm8, jsAdd, jsSub]
      have e : x + 1 - 1 = x := by omega
      rw [e]

/-- The import check does nothing when the instruction pointer is not a key of
`imports`. -/
theorem import_check_no_import (api : Api) (rt : Runtime)
    (h : ∀ t, rt.cpu.instruction_pointer = some t → rt.imports t = none) :
    import_check api rt = Res.ok () rt := by
  unfold import_check
  cases hip : rt.cpu.instruction_pointer with
  | none => rfl
  | some t => simp only [h t hip]

/-- C37: the handlers that `insert_hooks` stores in `table32[0xE8]` and
`table32[0xFF]` act as the handlers they replace whenever the target of the
CALL is not a key of `imports`: for CALL rel32 and for FF /2 under this
condition on the instruction pointer that the original handler leaves, and for
every other sub-opcode of FF (INC, DEC, JMP, PUSH and the unimplemented ones)
without condition. The results - value or thrown error, and the whole runtime
state with registers, instruction pointer, flags and memory - are equal. -/
theorem hooks_keep_semantics (api : Api) (rt : Runtime) :
    ((∀ t, rt.cpu.op_call_rel32.instruction_pointer = some t → rt.imports t = none) →
      table32 api 0xE8 rt = liftCpu (v86_table32 0xE8) rt)
    ∧ ((byteOr0 rt.cpu.read_imm8.1 / 8 % 8 = 2 →
        ∀ c t, v86_table32 0xFF rt.cpu = .ok c → c.instruction_pointer = some t →
          rt.imports t = none) →
      table32 api 0xFF rt = liftCpu (v86_table32 0xFF) rt) := by
  constructor
  · intro h
    have e : liftCpu (v86_table32 0xE8) rt = Res.ok () { rt with cpu := rt.cpu.op_call_rel32 } :=
      rfl
    rw [e]
    simp only [table32, if_true, Bind.bind, M.bind, modifyCpu]
    exact import_check_no_import api _ h
  · intro h
    have n1 : ¬ ((0xFF : Int) = 0xE8) := by decide
    have e : v86_table32 0xFF rt.cpu = op_FF rt.cpu := rfl
    rw [e] at h
    by_cases hop : byteOr0 rt.cpu.read_imm8.1 / 8 % 8 = 2
    · have h2 := h hop
      have eo : op_FF rt.cpu
          = .ok (((rt.cpu.read_imm8.2.read_rm32 (byteOr0 rt.cpu.read_imm8.1)).2.2.push32
              (rt.cpu.read_imm8.2.read_rm32 (byteOr0 rt.cpu.read_imm8.1)).2.2.get_real_eip).jump_abs
              (rt.cpu.read_imm8.2.read_rm32 (byteOr0 rt.cpu.read_imm8.1)).1) := by
        simp [op_FF, hop]
      simp only [table32, n1, if_false, if_true, hooked_FF, hop, liftCpu, e, eo]
      exact import_check_no_import api _ (fun t ht => h2 _ t eo ht)
    · simp only [table32, n1, if_false, if_true, hooked_FF, hop, liftCpu, e]
      rw [unread_imm8]

end Win32Runtime

namespace Win32Runtime

/-- C37, at two instances at the start of a `stdcall` in a runtime whose
`imports` has the key 0x10001000: the handler of CALL rel32 on the displacement
0x10 (target 0x10000014) and the handler of FF on the ModR/M byte D1 (CALL
ECX, ECX = 0), whose targets are not keys of `imports`. -/
theorem hooks_keep_semantics_witness :
    table32 no_api 0xE8
        (stdcall_enter 0x10000000 [] (import_call_state [0x10, 0x00, 0x00, 0x00])).state
      = liftCpu (v86_table32 0xE8)
        (stdcall_enter 0x10000000 [] (import_call_state [0x10, 0x00, 0x00, 0x00])).state
    ∧ table32 no_api 0xFF (stdcall_enter 0x10000000 [] (import_call_state [0xD1])).state
      = liftCpu (v86_table32 0xFF)
        (stdcall_enter 0x10000000 [] (import_call_state [0xD1])).state :=
  ⟨(hooks_keep_semantics no_api
      (stdcall_enter 0x10000000 [] (import_call_state [0x10, 0x00, 0x00, 0x00])).state).1 (by
      intro t ht
      have e : (stdcall_enter 0x10000000 []
          (import_call_state [0x10, 0x00, 0x00, 0x00])).state.cpu.op_call_rel32.instruction_pointer
          = some 0x10000014 := by decide
      rw [e] at ht
      cases ht
      decide),
   (hooks_keep_semantics no_api
      (stdcall_enter 0x10000000 [] (import_call_state [0xD1])).state).2 (by
      intro _ c t hc ht
      have e : (v86_table32 0xFF
          (stdcall_enter 0x10000000 [] (import_call_state [0xD1])).state.cpu).toOption.map
          (fun c => c.instruction_pointer) = some (some 0) := by decide
      rw [hc] at e
      simp only [Except.toOption, Option.map_some', Option.some.injEq] at e
      rw [e] at ht
      cases ht
      decide)⟩

end Win32Runtime

/-! ## Theorems: `set_dword_ptr` and `get_dword_ptr` -/

namespace Win32Runtime

/-- C38 (as stated): at a virtual address whose translation is not a multiple
of 4 the store of `set_dword_ptr` goes to a fractional index of `mem32s` and
is lost. In a new runtime at base 0x10000000, `set_dword_ptr(0x10000101,
0x11223344)` followed by `get_dword_ptr(0x10000101)` returns 0, as before the
store; at 0x10000100 it returns 0x11223344. -/
theorem set_dword_ptr_unaligned_lost :
    get_dword_ptr (fresh [] 0x10000000) (some 0x10000101) = 0
    ∧ get_dword_ptr (set_dword_ptr (fresh [] 0x10000000) (some 0x10000101) (some 0x11223344))
        (some 0x10000101) = 0
    ∧ get_dword_ptr (set_dword_ptr (fresh [] 0x10000000) (some 0x10000100) (some 0x11223344))
        (some 0x10000100) = 0x11223344 := by
  decide

/-- C38 (amended): for every virtual address `va` whose translation is a
multiple of 4 inside the memory and every value `v`, `set_dword_ptr(va, v)`
followed by `get_dword_ptr(va)` returns `v` as an unsigned 32-bit value. -/
theorem set_get_dword_ptr_aligned (rt : Runtime) (va v : Int)
    (ha : (va - rt.cpu.base_addr) % 4 = 0) (hi : inMem (va - rt.cpu.base_addr)) :
    get_dword_ptr (set_dword_ptr rt (some va) (some v)) (some va) = toUint32 v := by
  simp only [get_dword_ptr, set_dword_ptr, Cpu.translate_address_read, jsSub]
  rw [read32s_mem32s_set rt.cpu.mem8 (va - rt.cpu.base_addr) v ha hi]
  unfold toUint32 toInt32
  omega

/-- C38 (amended), at an instance: the dword 0xDEADBEEF at 0x10000100. -/
theorem set_get_dword_ptr_aligned_witness :
    get_dword_ptr (set_dword_ptr (fresh [] 0x10000000) (some 0x10000100) (some 0xDEADBEEF))
      (some 0x10000100) = toUint32 0xDEADBEEF :=
  set_get_dword_ptr_aligned (fresh [] 0x10000000) 0x10000100 0xDEADBEEF (by decide) (by decide)

end Win32Runtime

/-! ## Theorems: the group 81 and the SIB byte of `v86_legacy_compat.js` -/

namespace V86Legacy

open Win32Runtime

/-- C34 (code as it is): `t[0x81]` calls `modrm_resolve(modrm)` once for the
read and once more for the write-back, and each call fetches the displacement.
ADD dword [EBP + 8], 1 as 81 45 08 01 00 00 00 at `p = 0x10000000`, followed by
the byte 90, with EBP = 0x10000100 and the dword 100 at [EBP + 8]: the second
call takes the byte 90 after the instruction as the displacement (-112), the
sum 101 is written at EBP - 112 = 0x10000090, the dword at [EBP + 8] is still
100, and the instruction pointer is `p + 8`. -/
theorem legacy_group81_resolves_twice :
    ((cycle (table32 none)
        (modrm_state ([0x81, 0x45, 0x08, 0x01, 0x00, 0x00, 0x00, 0x90] ++ List.replicate 256 0
          ++ [100]) 0 0x10000100)).toOption.map
        (fun c => (c.instruction_pointer, Memory.read32s c.mem8 (some 0x10000108),
                   Memory.read32s c.mem8 (some 0x10000090))))
      = some (some 0x10000008, 100, 101) := by
  decide

/-- C35 (code as it is): `_resolve_sib` leaves the base register out whenever
the base field is 5, whatever `mod` is, and `modrm_resolve` passes it the
displacement 0 for `mod = 0` without fetching a disp32. With EBP = 0x10000100
and ECX = 3, at `p = 0x10000000`: for [EBP + 8] (ModR/M 44, SIB 25, disp8 08)
the address is 8; for [EBP + ECX * 2 + 0x10] (ModR/M 84, SIB 4D, disp32) it is
0x16; for [disp32] with SIB (ModR/M 04, SIB 25, disp32 0x10000200) it is 0 and
the instruction pointer stops after the SIB byte, at `p + 1`. With the base
ECX (SIB 21, [ECX + 8]) the base register is added: the address is 11. -/
theorem legacy_sib_base5_drops_base :
    ((Cpu.modrm_resolve (modrm_state [0x25, 0x08] 3 0x10000100) 0x44).toOption.map
        (fun r => (r.1, r.2.instruction_pointer))) = some (8, some 0x10000002)
    ∧ ((Cpu.modrm_resolve (modrm_state [0x4D, 0x10, 0x00, 0x00, 0x00] 3 0x10000100)
          0x84).toOption.map
        (fun r => (r.1, r.2.instruction_pointer))) = some (0x16, some 0x10000005)
    ∧ ((Cpu.modrm_resolve (modrm_state [0x25, 0x00, 0x02, 0x00, 0x10] 3 0x10000100)
          0x04).toOption.map
        (fun r => (r.1, r.2.instruction_pointer))) = some (0, some 0x10000001)
    ∧ ((Cpu.modrm_resolve (modrm_state [0x21, 0x08] 3 0x10000100) 0x44).toOption.map
        (fun r => (r.1, r.2.instruction_pointer))) = some (11, some 0x10000002) := by
  decide

end V86Legacy

/-! ## Theorems: the binary buffer of `glb-exporter.js` -/

namespace GlbExporter

/-- C39 (code as it is): `addBufferView` appends the padding of a chunk to
`bufferData` as a chunk of its own, and `finalizeBuffer` pads after every
chunk again. After one `addBufferView` of 5 bytes (`byteOffset` 8, chunks of 5
and 3 bytes) `finalizeBuffer` places the padding chunk at offset 8 of the
8-byte buffer and `set` throws a RangeError; the same after views of 5 and 4
bytes, and after views of 2 and 16 bytes. With byte lengths 4 and 8 it
returns, the buffer is the concatenation and the views are at 0 and 4. -/
theorem finalize_buffer_pads_twice :
    (add_all [[1, 2, 3, 4, 5]]).byteOffset = 8
    ∧ (add_all [[1, 2, 3, 4, 5]]).bufferData = [[1, 2, 3, 4, 5], [0, 0, 0]]
    ∧ (match finalizeBuffer (add_all [[1, 2, 3, 4, 5]]) with
        | .error f => some f
        | .ok _ => none) = some Fault.rangeError
    ∧ (match finalizeBuffer (add_all [[1, 2, 3, 4, 5], [6, 7, 8, 9]]) with
        | .error f => some f
        | .ok _ => none) = some Fault.rangeError
    ∧ (match finalizeBuffer (add_all [[1, 2], List.replicate 16 7]) with
        | .error f => some f
        | .ok _ => none) = some Fault.rangeError
    ∧ ((finalizeBuffer (add_all [[1, 2, 3, 4], [5, 6, 7, 8, 9, 10, 11, 12]])).toOption.map
        (fun e => (e.binaryBuffer, e.bufferViews.map (fun v => v.byteOffset))))
      = some (some [1, 2, 3, 4, 5, 6, 7, 8, 9, 10, 11, 12], [0, 4]) := by
  decide

end GlbExporter
